import Mathlib

/-!
# The math server: number-theory kernels, handlers, configuration and registry

Shallow embedding of
* the integer kernels `gcd`, `abs64`, `factorial`, `fibonacci`, `isPrime` and `primeFactors`
  of `handlers/number_theory.go`, the values that `gcdHandler` and `lcmHandler` print, and
  the six handlers of that file;
* the configuration of `config/config.go`: `AllCategories`, `parseCategories`, `LoadConfig`,
  `IsEnabled`, `EnabledCategories`;
* the registry of `handlers/registry.go`: `addTool`, `RegisterTools`, and `NewRegistry` with
  the fourteen `register...` functions it calls;
* the handlers of the other files of `handlers/`: every handler that `NewRegistry`
  registers is embedded.

Conventions of the embedding.

* A Go `int64` (and `int`, which is 64 bits wide on the supported platforms) is a
  Lean `Int` lying in `[-2^63, 2^63)`.  Every `+`, `*`, unary `-` and `/` of the
  source is followed by `wrap64`, the two's-complement reduction.  `%` cannot
  leave the range and carries no reduction.
* Go's `/` and `%` truncate towards zero: `Int.tdiv`, `Int.tmod`.  A zero
  divisor is a run-time panic: no value is returned (`none`).
* A `for` loop with a condition is a function taking a bound on the number of iterations
  it may still perform (`fuel`); `none` is returned when the bound is used up.  `Returns`
  states that a computation yields a value for every sufficiently large bound.  A `range`
  loop over a slice is a left fold.
* `*big.Int` values are unbounded Lean integers.
* What belongs to other packages is a parameter: the outcome of `req.RequireInt`, the
  `strings` functions (`StringLib`), the values of the environment variables, and the
  arithmetic, comparison, rendering and sorting of `float64` (`FloatEnv`), and the functions
  of `math` and `math/cmplx` (`MathLib`).  `exactEnv` is exact arithmetic on the rationals;
  `ieeeEnv` adds the signed zeros, the infinities and NaN of `float64`.  A Go map is
  its lookup function, and the MCP server is the sequence of `AddTool` calls it received.
-/

namespace MathMcp

/-! ## Definitions -/

/-- Two's-complement reduction of an integer into the `int64` range. -/
def wrap64 (x : Int) : Int :=
  (x + 9223372036854775808) % 18446744073709551616 - 9223372036854775808

/-- The values an `int64` variable can hold. -/
def IsInt64 (x : Int) : Prop :=
  -9223372036854775808 ≤ x ∧ x < 9223372036854775808

/-- A fuelled computation returns `r`: from some bound on, every larger bound
yields `some r`. -/
def Returns {α : Type} (f : Nat → Option α) (r : α) : Prop :=
  ∃ fuel, ∀ k, fuel ≤ k → f k = some r

/-- Go's `a % b` on `int64`: panics on a zero divisor, truncates otherwise. -/
def goMod (a b : Int) : Option Int :=
  if b = 0 then none else some (Int.tmod a b)

/-- Go's `a / b` on `int64`: panics on a zero divisor, truncates otherwise
(the quotient `-2^63 / -1` wraps around). -/
def goDiv (a b : Int) : Option Int :=
  if b = 0 then none else some (wrap64 (Int.tdiv a b))

/-- Source `abs64`: `if x < 0 { return -x }; return x`. -/
def abs64 (x : Int) : Int :=
  if x < 0 then wrap64 (-x) else x

/-- Source `gcd`: `for b != 0 { a, b = b, a%b }; return a`. -/
def gcd : Nat → Int → Int → Option Int
  | 0, _, _ => none
  | fuel + 1, a, b =>
    if b ≠ 0 then
      match goMod a b with
      | none => none
      | some r => gcd fuel b r
    else some a

/-- The integer that `gcdHandler` prints: `result := gcd(abs64(int64(a)), abs64(int64(b)))`. -/
def gcdHandlerResult (fuel : Nat) (a b : Int) : Option Int :=
  gcd fuel (abs64 a) (abs64 b)

/-- The integer that `lcmHandler` prints: `0` when `a == 0 || b == 0`, otherwise
`absA / gcd(absA, absB) * absB` with `absA := abs64(int64(a))`, `absB := abs64(int64(b))`. -/
def lcmHandlerResult (fuel : Nat) (a b : Int) : Option Int :=
  if a = 0 ∨ b = 0 then some 0
  else
    match gcd fuel (abs64 a) (abs64 b) with
    | none => none
    | some g =>
      match goDiv (abs64 a) g with
      | none => none
      | some q => some (wrap64 (q * abs64 b))

/-- The loop of source `factorial`: `for i := 2; i <= n; i++ { result.Mul(result, i) }`;
`i` and `n` are machine integers, `result` is a `*big.Int`. -/
def factorialLoop : Nat → Int → Int → Int → Option Int
  | 0, _, _, _ => none
  | fuel + 1, i, n, result =>
    if i ≤ n then factorialLoop fuel (wrap64 (i + 1)) n (result * i)
    else some result

/-- Source `factorial`: `result := big.NewInt(1)`, then the loop from `i := 2`. -/
def factorial (fuel : Nat) (n : Int) : Option Int :=
  factorialLoop fuel 2 n 1

/-- The loop of source `isPrime`:
`for i := 5; i*i <= n; i += 6 { if n%i == 0 || n%(i+2) == 0 { return false } }; return true`. -/
def isPrimeLoop : Nat → Int → Int → Option Bool
  | 0, _, _ => none
  | fuel + 1, i, n =>
    if wrap64 (i * i) ≤ n then
      match goMod n i with
      | none => none
      | some r1 =>
        if r1 = 0 then some false
        else
          match goMod n (wrap64 (i + 2)) with
          | none => none
          | some r2 =>
            if r2 = 0 then some false
            else isPrimeLoop fuel (wrap64 (i + 6)) n
    else some true

/-- Source `isPrime`. -/
def isPrime (fuel : Nat) (n : Int) : Option Bool :=
  if n ≤ 1 then some false
  else if n ≤ 3 then some true
  else if Int.tmod n 2 = 0 ∨ Int.tmod n 3 = 0 then some false
  else isPrimeLoop fuel 5 n

/-- The loop shape `for n%d == 0 { factors = append(factors, d); n /= d }` that
source `primeFactors` runs with `d = 2` and, inside the odd-divisor loop, with `d = i`.
Returns the final `n` and `factors`. -/
def divideOut : Nat → Int → Int → List Int → Option (Int × List Int)
  | 0, _, _, _ => none
  | fuel + 1, d, n, factors =>
    match goMod n d with
    | none => none
    | some r =>
      if r = 0 then
        match goDiv n d with
        | none => none
        | some q => divideOut fuel d q (factors ++ [d])
      else some (n, factors)

/-- The odd-divisor loop of source `primeFactors`:
`for i := int64(3); i*i <= n; i += 2 { for n%i == 0 { ... } }`. -/
def oddFactors : Nat → Int → Int → List Int → Option (Int × List Int)
  | 0, _, _, _ => none
  | fuel + 1, i, n, factors =>
    if wrap64 (i * i) ≤ n then
      match divideOut fuel i n factors with
      | none => none
      | some (n1, factors1) => oddFactors fuel (wrap64 (i + 2)) n1 factors1
    else some (n, factors)

/-- Source `primeFactors`: strip the twos, run the odd-divisor loop, append a
remainder greater than one. -/
def primeFactors (fuel : Nat) (n : Int) : Option (List Int) :=
  match divideOut fuel 2 n [] with
  | none => none
  | some (n1, factors1) =>
    match oddFactors fuel 3 n1 factors1 with
    | none => none
    | some (n2, factors2) =>
      if n2 > 1 then some (factors2 ++ [n2]) else some factors2

/-- Primality as the specification words it: `n >= 2` and no `d` with
`1 < d < n` divides `n`. -/
def IsPrimeNumber (n : Int) : Prop :=
  2 ≤ n ∧ ∀ d : Int, 1 < d → d < n → ¬ d ∣ n

/-- Naive trial division up to the square root, as the specification words it:
true exactly when `n >= 2` and no `d` with `2 <= d` and `d*d <= n` divides `n`. -/
def trialDivision (n : Int) : Bool :=
  decide (2 ≤ n) && (List.range n.toNat).all
    (fun d => !(decide (2 ≤ d) && decide ((d : Int) * d ≤ n) && decide (n % (d : Int) = 0)))

/-- Loop invariant of `isPrime` at the loop test, with counter `i`. -/
structure IsPrimeInv (i n : Int) : Prop where
  five_le : 5 ≤ i
  mod_six : i % 6 = 5
  le_star : i ≤ 2759374635167858507
  lt_bound : n < 9223372036854775808
  three_lt : 3 < n
  no_divisor : ∀ d : Int, 2 ≤ d → d < i → ¬ d ∣ n
  large : i ≤ 3037000499 ∨ 9223372030926249001 ≤ n

/-- Loop invariant of the odd-divisor loop of `primeFactors` at the loop test: `n0` is the
argument of `primeFactors`, `i` the counter, `n` the part not yet factored. -/
structure OddFactorsInv (n0 i n : Int) (factors : List Int) : Prop where
  three_le : 3 ≤ i
  odd : i % 2 = 1
  le_top : i ≤ 9223372036854775805
  one_le : 1 ≤ n
  lt_bound : n < 9223372036854775808
  no_divisor : ∀ d : Int, 2 ≤ d → d < i → ¬ d ∣ n
  prod_eq : factors.prod * n = n0
  all_prime : ∀ p ∈ factors, IsPrimeNumber p
  sorted : factors.Sorted (· ≤ ·)
  all_lt : ∀ p ∈ factors, p < i

/-! ### Results of the handlers (`handlers/number_theory.go`) -/

/-- The specification's `OperationResult`; in the source a `*mcp.CallToolResult` built by
`mcp.NewToolResultText` (success) or by `mcp.NewToolResultError` (failure: `IsError` is set). -/
inductive OperationResult where
  | success (text : String)
  | failure (message : String)
  deriving DecidableEq

/-- Whether a result is flagged as an error. -/
def OperationResult.isFailure : OperationResult → Bool
  | .success _ => false
  | .failure _ => true

/-- What a handler returns, Go's pair `(*mcp.CallToolResult, error)`; `none` stands for `nil`. -/
structure HandlerReturn where
  result : Option OperationResult
  err : Option String
  deriving DecidableEq

/-- The statement `return mcp.NewToolResultText(text), nil`. -/
def returnText (text : String) : HandlerReturn :=
  { result := some (OperationResult.success text), err := none }

/-- The statement `return mcp.NewToolResultError(message), nil`. -/
def returnError (message : String) : HandlerReturn :=
  { result := some (OperationResult.failure message), err := none }

/-- Decimal rendering of an integer: `fmt.Sprintf("%d", x)` on an `int64`, `x.String()` on a
`*big.Int`. -/
def formatInt (x : Int) : String :=
  toString x

/-- Source `factorialHandler`.  The argument is the outcome of `req.RequireInt("n")`, a function
of the external `mcp` package: the integer, or the error whose text the handler reports. -/
def factorialHandler (fuel : Nat) (arg : Except String Int) : Option HandlerReturn :=
  match arg with
  | .error e => some (returnError e)
  | .ok n =>
    if n < 0 then some (returnError "factorial undefined for negative numbers")
    else if n > 170 then some (returnError "factorial too large (max n=170 for float64)")
    else
      match factorial fuel n with
      | none => none
      | some result => some (returnText (formatInt result))

/-- The loop of source `fibonacci`: `for i := 2; i <= n; i++ { a.Add(a, b); a, b = b, a }`;
`a.Add(a, b)` stores `a + b` in the number `a` points to, and the swap makes `b` point to it. -/
def fibonacciLoop : Nat → Int → Int → Int → Int → Option Int
  | 0, _, _, _, _ => none
  | fuel + 1, i, n, a, b =>
    if i ≤ n then fibonacciLoop fuel (wrap64 (i + 1)) n b (a + b)
    else some b

/-- Source `fibonacci`. -/
def fibonacci (fuel : Nat) (n : Int) : Option Int :=
  if n = 0 then some 0
  else if n = 1 then some 1
  else fibonacciLoop fuel 2 n 0 1

/-- Source `fibonacciHandler`; the argument is the outcome of `req.RequireInt("n")`. -/
def fibonacciHandler (fuel : Nat) (arg : Except String Int) : Option HandlerReturn :=
  match arg with
  | .error e => some (returnError e)
  | .ok n =>
    if n < 0 then some (returnError "fibonacci undefined for negative indices")
    else if n > 1000 then some (returnError "fibonacci index too large (max n=1000)")
    else
      match fibonacci fuel n with
      | none => none
      | some result => some (returnText (formatInt result))

/-- Source `primeFactorsHandler`; the argument is the outcome of `req.RequireInt("n")`.  The
factors are rendered one by one and joined by `strings.Join(strs, " × ")`. -/
def primeFactorsHandler (fuel : Nat) (arg : Except String Int) : Option HandlerReturn :=
  match arg with
  | .error e => some (returnError e)
  | .ok n =>
    if n ≤ 0 then some (returnError "prime factorization requires a positive integer")
    else
      match primeFactors fuel n with
      | none => none
      | some factors => some (returnText (String.intercalate " × " (factors.map formatInt)))

/-! ### Configuration (`config/config.go`) -/

/-- Source `type Category string`. -/
abbrev Category := String

/-- Source constant `CategoryArithmetic`. -/
def CategoryArithmetic : Category := "arithmetic"

/-- Source constant `CategoryPower`. -/
def CategoryPower : Category := "power"

/-- Source constant `CategoryLogarithm`. -/
def CategoryLogarithm : Category := "logarithm"

/-- Source constant `CategoryTrig`. -/
def CategoryTrig : Category := "trig"

/-- Source constant `CategoryHyperbolic`. -/
def CategoryHyperbolic : Category := "hyperbolic"

/-- Source constant `CategoryRounding`. -/
def CategoryRounding : Category := "rounding"

/-- Source constant `CategoryComparison`. -/
def CategoryComparison : Category := "comparison"

/-- Source constant `CategorySpecial`. -/
def CategorySpecial : Category := "special"

/-- Source constant `CategoryFloatUtils`. -/
def CategoryFloatUtils : Category := "float_utils"

/-- Source constant `CategoryConversion`. -/
def CategoryConversion : Category := "conversion"

/-- Source constant `CategoryNumberTheory`. -/
def CategoryNumberTheory : Category := "number_theory"

/-- Source constant `CategoryStatistics`. -/
def CategoryStatistics : Category := "statistics"

/-- Source constant `CategoryBitwise`. -/
def CategoryBitwise : Category := "bitwise"

/-- Source constant `CategoryComplex`. -/
def CategoryComplex : Category := "complex"

/-- Source constant `CategoryConstants`. -/
def CategoryConstants : Category := "constants"

/-- Source `AllCategories`. -/
def AllCategories : List Category :=
  [CategoryArithmetic,
    CategoryPower,
    CategoryLogarithm,
    CategoryTrig,
    CategoryHyperbolic,
    CategoryRounding,
    CategoryComparison,
    CategorySpecial,
    CategoryFloatUtils,
    CategoryConversion,
    CategoryNumberTheory,
    CategoryStatistics,
    CategoryBitwise,
    CategoryComplex,
    CategoryConstants]

/-- Source `Config`.  The Go map `Categories map[Category]bool` is represented by its lookup
function: a key that is absent reads `false`, as in Go. -/
structure Config where
  categories : Category → Bool
  transport : String

/-- The empty map `make(map[Category]bool)`. -/
def emptyMap : Category → Bool :=
  fun _ => false

/-- The assignment `m[k] = true` on a map. -/
def setTrue (m : Category → Bool) (k : Category) : Category → Bool :=
  fun c => if c = k then true else m c

/-- The functions of Go's standard package `strings` that the configuration code calls:
`strings.Split(s, ",")`, `strings.ToLower` and `strings.TrimSpace`.  They are not part of the
repository and are taken as parameters. -/
structure StringLib where
  split : String → List String
  toLower : String → String
  trimSpace : String → String

/-- The loop `for _, cat := range AllCategories() { m[cat] = true }`, which both `LoadConfig`
and `parseCategories` run on an empty map. -/
def allCategoriesMap : Category → Bool :=
  AllCategories.foldl (fun m cat => setTrue m cat) emptyMap

/-- Source `parseCategories`. -/
def parseCategories (lib : StringLib) (input : String) : Category → Bool :=
  let parts := lib.split input
  let validCategories := allCategoriesMap
  parts.foldl
    (fun result part =>
      let cat := lib.trimSpace (lib.toLower part)
      if validCategories cat then setTrue result cat else result)
    emptyMap

/-- Source `LoadConfig`; `transportEnv` and `categoriesEnv` are the values of
`os.Getenv("TRANSPORT")` and `os.Getenv("MATH_CATEGORIES")` (empty when unset). -/
def LoadConfig (lib : StringLib) (transportEnv categoriesEnv : String) : Config :=
  let transport := if transportEnv = "http" then "http" else "stdio"
  if categoriesEnv = "" ∨ lib.toLower categoriesEnv = "all" then
    { categories := allCategoriesMap, transport := transport }
  else
    { categories := parseCategories lib categoriesEnv, transport := transport }

/-- Source `Config.IsEnabled`. -/
def Config.IsEnabled (c : Config) (cat : Category) : Bool :=
  c.categories cat

/-- Source `Config.EnabledCategories`. -/
def Config.EnabledCategories (c : Config) : List Category :=
  AllCategories.foldl (fun enabled cat => if c.categories cat then enabled ++ [cat] else enabled) []

/-- Splitting a list of characters at every occurrence of a separator; an empty input gives
one empty piece, as `strings.Split` does. -/
def splitChars (sep : Char) : List Char → List (List Char)
  | [] => [[]]
  | c :: cs =>
    if c = sep then [] :: splitChars sep cs
    else
      match splitChars sep cs with
      | [] => [[c]]
      | p :: ps => (c :: p) :: ps

/-- The ASCII white space that `strings.TrimSpace` removes. -/
def isAsciiSpace (c : Char) : Bool :=
  c = ' ' || c = '\t' || c = '\n' || c = '\x0b' || c = '\x0c' || c = '\r'

/-- The `strings` functions on ASCII text, where they are elementary: split at commas, map
`A`..`Z` to `a`..`z`, drop leading and trailing ASCII white space.  Used to evaluate the
configuration code on concrete ASCII inputs. -/
def asciiLib : StringLib where
  split := fun s => (splitChars ',' s.data).map String.mk
  toLower := fun s => String.mk (s.data.map Char.toLower)
  trimSpace := fun s =>
    String.mk ((s.data.dropWhile isAsciiSpace).reverse.dropWhile isAsciiSpace).reverse

/-! ### Registry (`handlers/registry.go` and the `register...` functions) -/

/-- Source `ToolDefinition`, for any types of tools and of handlers. -/
structure ToolDefinition (Tool Handler : Type) where
  tool : Tool
  handler : Handler
  category : Category

/-- Source `Registry`. -/
structure Registry (Tool Handler : Type) where
  tools : List (ToolDefinition Tool Handler)

/-- Source `Registry.addTool`. -/
def Registry.addTool {Tool Handler : Type} (r : Registry Tool Handler)
    (tool : Tool) (handler : Handler) (category : Category) : Registry Tool Handler :=
  { tools := r.tools ++ [{ tool := tool, handler := handler, category := category }] }

/-- Source `Registry.RegisterTools`.  The server `s` is represented by the sequence of the
`s.AddTool(tool, handler)` calls it has received. -/
def Registry.RegisterTools {Tool Handler : Type} (r : Registry Tool Handler)
    (s : List (Tool × Handler)) (cfg : Config) : List (Tool × Handler) :=
  r.tools.foldl
    (fun s td => if cfg.IsEnabled td.category then s ++ [(td.tool, td.handler)] else s) s

/-- The part of an `mcp.Tool` that the registry claims speak of: its name, the first argument
of `mcp.NewTool` (description and parameter schema are passed along untouched). -/
structure Tool where
  name : String
  deriving DecidableEq

/-- The call `mcp.NewTool(name, ...)`. -/
def NewTool (name : String) : Tool :=
  { name := name }

/-- A handler is referred to by the name of its Go function. -/
abbrev HandlerRef := String

/-- Source `registerArithmetic`. -/
def registerArithmetic (r : Registry Tool HandlerRef) : Registry Tool HandlerRef :=
  let cat := CategoryArithmetic
  let r := r.addTool (NewTool "add") "addHandler" cat
  let r := r.addTool (NewTool "subtract") "subtractHandler" cat
  let r := r.addTool (NewTool "multiply") "multiplyHandler" cat
  let r := r.addTool (NewTool "divide") "divideHandler" cat
  let r := r.addTool (NewTool "mod") "modHandler" cat
  let r := r.addTool (NewTool "remainder") "remainderHandler" cat
  let r := r.addTool (NewTool "abs") "absHandler" cat
  r

/-- Source `registerPower`. -/
def registerPower (r : Registry Tool HandlerRef) : Registry Tool HandlerRef :=
  let cat := CategoryPower
  let r := r.addTool (NewTool "pow") "powHandler" cat
  let r := r.addTool (NewTool "pow10") "pow10Handler" cat
  let r := r.addTool (NewTool "sqrt") "sqrtHandler" cat
  let r := r.addTool (NewTool "cbrt") "cbrtHandler" cat
  let r := r.addTool (NewTool "exp") "expHandler" cat
  let r := r.addTool (NewTool "exp2") "exp2Handler" cat
  let r := r.addTool (NewTool "expm1") "expm1Handler" cat
  let r := r.addTool (NewTool "hypot") "hypotHandler" cat
  r

/-- Source `registerLogarithm`. -/
def registerLogarithm (r : Registry Tool HandlerRef) : Registry Tool HandlerRef :=
  let cat := CategoryLogarithm
  let r := r.addTool (NewTool "log") "logHandler" cat
  let r := r.addTool (NewTool "log10") "log10Handler" cat
  let r := r.addTool (NewTool "log2") "log2Handler" cat
  let r := r.addTool (NewTool "log1p") "log1pHandler" cat
  let r := r.addTool (NewTool "logb") "logbHandler" cat
  r

/-- Source `registerTrig`. -/
def registerTrig (r : Registry Tool HandlerRef) : Registry Tool HandlerRef :=
  let cat := CategoryTrig
  let r := r.addTool (NewTool "sin") "sinHandler" cat
  let r := r.addTool (NewTool "cos") "cosHandler" cat
  let r := r.addTool (NewTool "tan") "tanHandler" cat
  let r := r.addTool (NewTool "asin") "asinHandler" cat
  let r := r.addTool (NewTool "acos") "acosHandler" cat
  let r := r.addTool (NewTool "atan") "atanHandler" cat
  let r := r.addTool (NewTool "atan2") "atan2Handler" cat
  let r := r.addTool (NewTool "sincos") "sincosHandler" cat
  r

/-- Source `registerHyperbolic`. -/
def registerHyperbolic (r : Registry Tool HandlerRef) : Registry Tool HandlerRef :=
  let cat := CategoryHyperbolic
  let r := r.addTool (NewTool "sinh") "sinhHandler" cat
  let r := r.addTool (NewTool "cosh") "coshHandler" cat
  let r := r.addTool (NewTool "tanh") "tanhHandler" cat
  let r := r.addTool (NewTool "asinh") "asinhHandler" cat
  let r := r.addTool (NewTool "acosh") "acoshHandler" cat
  let r := r.addTool (NewTool "atanh") "atanhHandler" cat
  r

/-- Source `registerRounding`. -/
def registerRounding (r : Registry Tool HandlerRef) : Registry Tool HandlerRef :=
  let cat := CategoryRounding
  let r := r.addTool (NewTool "ceil") "ceilHandler" cat
  let r := r.addTool (NewTool "floor") "floorHandler" cat
  let r := r.addTool (NewTool "round") "roundHandler" cat
  let r := r.addTool (NewTool "round_to_even") "roundToEvenHandler" cat
  let r := r.addTool (NewTool "trunc") "truncHandler" cat
  r

/-- Source `registerComparison`. -/
def registerComparison (r : Registry Tool HandlerRef) : Registry Tool HandlerRef :=
  let cat := CategoryComparison
  let r := r.addTool (NewTool "max") "maxHandler" cat
  let r := r.addTool (NewTool "min") "minHandler" cat
  let r := r.addTool (NewTool "dim") "dimHandler" cat
  let r := r.addTool (NewTool "copysign") "copysignHandler" cat
  r

/-- Source `registerSpecial`. -/
def registerSpecial (r : Registry Tool HandlerRef) : Registry Tool HandlerRef :=
  let cat := CategorySpecial
  let r := r.addTool (NewTool "gamma") "gammaHandler" cat
  let r := r.addTool (NewTool "lgamma") "lgammaHandler" cat
  let r := r.addTool (NewTool "erf") "erfHandler" cat
  let r := r.addTool (NewTool "erfc") "erfcHandler" cat
  let r := r.addTool (NewTool "erfinv") "erfinvHandler" cat
  let r := r.addTool (NewTool "erfcinv") "erfcinvHandler" cat
  let r := r.addTool (NewTool "j0") "j0Handler" cat
  let r := r.addTool (NewTool "j1") "j1Handler" cat
  let r := r.addTool (NewTool "y0") "y0Handler" cat
  let r := r.addTool (NewTool "y1") "y1Handler" cat
  r

/-- Source `registerFloatUtils`. -/
def registerFloatUtils (r : Registry Tool HandlerRef) : Registry Tool HandlerRef :=
  let cat := CategoryFloatUtils
  let r := r.addTool (NewTool "frexp") "frexpHandler" cat
  let r := r.addTool (NewTool "ldexp") "ldexpHandler" cat
  let r := r.addTool (NewTool "modf") "modfHandler" cat
  let r := r.addTool (NewTool "ilogb") "ilogbHandler" cat
  let r := r.addTool (NewTool "nextafter") "nextafterHandler" cat
  let r := r.addTool (NewTool "fma") "fmaHandler" cat
  let r := r.addTool (NewTool "signbit") "signbitHandler" cat
  let r := r.addTool (NewTool "is_nan") "isNaNHandler" cat
  let r := r.addTool (NewTool "is_inf") "isInfHandler" cat
  r

/-- Source `registerConversion`. -/
def registerConversion (r : Registry Tool HandlerRef) : Registry Tool HandlerRef :=
  let cat := CategoryConversion
  let r := r.addTool (NewTool "degrees_to_radians") "degreesToRadiansHandler" cat
  let r := r.addTool (NewTool "radians_to_degrees") "radiansToDegreesHandler" cat
  r

/-- Source `registerNumberTheory`. -/
def registerNumberTheory (r : Registry Tool HandlerRef) : Registry Tool HandlerRef :=
  let cat := CategoryNumberTheory
  let r := r.addTool (NewTool "gcd") "gcdHandler" cat
  let r := r.addTool (NewTool "lcm") "lcmHandler" cat
  let r := r.addTool (NewTool "factorial") "factorialHandler" cat
  let r := r.addTool (NewTool "fibonacci") "fibonacciHandler" cat
  let r := r.addTool (NewTool "is_prime") "isPrimeHandler" cat
  let r := r.addTool (NewTool "prime_factors") "primeFactorsHandler" cat
  r

/-- Source `registerStatistics`. -/
def registerStatistics (r : Registry Tool HandlerRef) : Registry Tool HandlerRef :=
  let cat := CategoryStatistics
  let r := r.addTool (NewTool "sum") "sumHandler" cat
  let r := r.addTool (NewTool "product") "productHandler" cat
  let r := r.addTool (NewTool "mean") "meanHandler" cat
  let r := r.addTool (NewTool "median") "medianHandler" cat
  let r := r.addTool (NewTool "mode") "modeHandler" cat
  let r := r.addTool (NewTool "variance") "varianceHandler" cat
  let r := r.addTool (NewTool "std_dev") "stdDevHandler" cat
  let r := r.addTool (NewTool "range_stat") "rangeStatHandler" cat
  r

/-- Source `registerBitwise`. -/
def registerBitwise (r : Registry Tool HandlerRef) : Registry Tool HandlerRef :=
  let cat := CategoryBitwise
  let r := r.addTool (NewTool "bit_and") "bitAndHandler" cat
  let r := r.addTool (NewTool "bit_or") "bitOrHandler" cat
  let r := r.addTool (NewTool "bit_xor") "bitXorHandler" cat
  let r := r.addTool (NewTool "bit_not") "bitNotHandler" cat
  let r := r.addTool (NewTool "bit_left_shift") "bitLeftShiftHandler" cat
  let r := r.addTool (NewTool "bit_right_shift") "bitRightShiftHandler" cat
  r

/-- Source `registerComplex`. -/
def registerComplex (r : Registry Tool HandlerRef) : Registry Tool HandlerRef :=
  let cat := CategoryComplex
  let r := r.addTool (NewTool "complex_abs") "complexAbsHandler" cat
  let r := r.addTool (NewTool "complex_phase") "complexPhaseHandler" cat
  let r := r.addTool (NewTool "complex_conj") "complexConjHandler" cat
  let r := r.addTool (NewTool "complex_exp") "complexExpHandler" cat
  let r := r.addTool (NewTool "complex_log") "complexLogHandler" cat
  let r := r.addTool (NewTool "complex_sqrt") "complexSqrtHandler" cat
  let r := r.addTool (NewTool "complex_pow") "complexPowHandler" cat
  let r := r.addTool (NewTool "complex_sin") "complexSinHandler" cat
  let r := r.addTool (NewTool "complex_cos") "complexCosHandler" cat
  let r := r.addTool (NewTool "complex_tan") "complexTanHandler" cat
  let r := r.addTool (NewTool "complex_polar") "complexPolarHandler" cat
  let r := r.addTool (NewTool "complex_rect") "complexRectHandler" cat
  r

/-- Source `NewRegistry`. -/
def NewRegistry : Registry Tool HandlerRef :=
  let r : Registry Tool HandlerRef := { tools := [] }
  let r := registerArithmetic r
  let r := registerPower r
  let r := registerLogarithm r
  let r := registerTrig r
  let r := registerHyperbolic r
  let r := registerRounding r
  let r := registerComparison r
  let r := registerSpecial r
  let r := registerFloatUtils r
  let r := registerConversion r
  let r := registerNumberTheory r
  let r := registerStatistics r
  let r := registerBitwise r
  let r := registerComplex r
  r

/-- The names of the tools that `RegisterTools` hands to a fresh server for the registry
of `NewRegistry`. -/
def exposedNames (cfg : Config) : List String :=
  (NewRegistry.RegisterTools [] cfg).map (fun p => p.1.name)

/-! ### Handlers on `float64` (`handlers/arithmetic.go`, `handlers/statistics.go`) -/

/-- What the handlers take from the Go language, run time and standard library to work on
`float64`: the conversion `float64(k)` of an integer (also the constants `0`, `1.0`, `2`),
the four operations, `math.Sqrt`, the comparisons `<` and `==`, the rendering
`fmt.Sprintf("%g", x)`, `sort.Float64s` (which rearranges a slice in place, hence permutes
it) and the order in which `range` visits the entries of a map.  All are parameters. -/
structure FloatEnv (F : Type) where
  ofInt : Int → F
  add : F → F → F
  sub : F → F → F
  mul : F → F → F
  div : F → F → F
  sqrt : F → F
  lt : F → F → Bool
  eq : F → F → Bool
  format : F → String
  sort : List F → List F
  sort_perm : ∀ l, (sort l).Perm l
  mapOrder : List (F × Nat) → List (F × Nat)
  mapOrder_perm : ∀ l, (mapOrder l).Perm l

/-- Go's `a <= b` on `float64`, which holds when `a < b` or `a == b` does. -/
def FloatEnv.le {F : Type} (env : FloatEnv F) (a b : F) : Bool :=
  env.lt a b || env.eq a b

/-- What the handlers take from Go's packages `math` and `math/cmplx`, together with the
constant `math.Pi` and the unary minus of `float64`.  A function with one `float64`
argument and one `float64` result is named by its Go name (`math1 "Sin"` is `math.Sin`),
likewise with two arguments (`math2 "Pow"` is `math.Pow`) and with one `complex128` argument
and result (`cmplx1 "Exp"` is `cmplx.Exp`); a `complex128` is the pair of its real and
imaginary parts.  All are parameters. -/
structure MathLib (F : Type) where
  math1 : String → F → F
  math2 : String → F → F → F
  pi : F
  neg : F → F
  pow10 : Int → F
  ldexp : F → Int → F
  fma : F → F → F → F
  frexp : F → F × Int
  modf : F → F × F
  lgamma : F → F × Int
  sincos : F → F × F
  ilogb : F → Int
  signbit : F → Bool
  isNaN : F → Bool
  isInf : F → Int → Bool
  cabs : F × F → F
  cphase : F × F → F
  cmplx1 : String → F × F → F × F
  cpow : F × F → F × F → F × F
  polar : F × F → F × F
  rect : F → F → F × F

/-- Exact arithmetic: the numbers are rationals, `<` and `==` are the order and equality of
the rationals, and sorting is a sort for that order.  Rendering, square root and the order
of map iteration stay parameters. -/
def exactEnv (format : ℚ → String) (sqrt : ℚ → ℚ)
    (order : List (ℚ × Nat) → List (ℚ × Nat)) (horder : ∀ l, (order l).Perm l) : FloatEnv ℚ where
  ofInt := fun k => (k : ℚ)
  add := fun a b => a + b
  sub := fun a b => a - b
  mul := fun a b => a * b
  div := fun a b => a / b
  sqrt := sqrt
  lt := fun a b => decide (a < b)
  eq := fun a b => decide (a = b)
  format := format
  sort := fun l => l.insertionSort (· ≤ ·)
  sort_perm := fun l => List.perm_insertionSort (· ≤ ·) l
  mapOrder := order
  mapOrder_perm := horder

/-- A rendering of rationals used to evaluate examples: the decimal numerator, followed by
`/` and the denominator when the number is not an integer. -/
def formatRat (q : ℚ) : String :=
  if q.den = 1 then toString q.num else toString q.num ++ "/" ++ toString q.den

/-- Exact arithmetic with `formatRat` as rendering and map entries visited in insertion
order, to evaluate examples; no example uses the square root. -/
def exampleEnv : FloatEnv ℚ :=
  exactEnv formatRat (fun q => q) (fun l => l) (fun l => List.Perm.refl l)

/-- A library over the rationals to evaluate examples, none of which reaches a library
function: every function returns its first argument or a fixed value. -/
def exampleLib : MathLib ℚ where
  math1 := fun _ x => x
  math2 := fun _ x _ => x
  pi := 3
  neg := fun x => -x
  pow10 := fun n => (n : ℚ)
  ldexp := fun x _ => x
  fma := fun x _ _ => x
  frexp := fun x => (x, 0)
  modf := fun x => (x, 0)
  lgamma := fun x => (x, 1)
  sincos := fun x => (x, x)
  ilogb := fun _ => 0
  signbit := fun x => decide (x < 0)
  isNaN := fun _ => false
  isInf := fun _ _ => false
  cabs := fun z => z.1
  cphase := fun z => z.2
  cmplx1 := fun _ z => z
  cpow := fun z _ => z
  polar := fun z => z
  rect := fun r theta => (r, theta)

/-- Source `addHandler`; the arguments are the outcomes of `req.RequireFloat("a")` and
`req.RequireFloat("b")`. -/
def addHandler {F : Type} (env : FloatEnv F) (a b : Except String F) : HandlerReturn :=
  match a with
  | .error e => returnError e
  | .ok a =>
    match b with
    | .error e => returnError e
    | .ok b => returnText (env.format (env.add a b))

/-- Source `divideHandler`. -/
def divideHandler {F : Type} (env : FloatEnv F) (a b : Except String F) : HandlerReturn :=
  match a with
  | .error e => returnError e
  | .ok a =>
    match b with
    | .error e => returnError e
    | .ok b =>
      if env.eq b (env.ofInt 0) then returnError "division by zero"
      else returnText (env.format (env.div a b))

/-- The loop `var sum float64; for _, n := range numbers { sum += n }`. -/
def sumLoop {F : Type} (env : FloatEnv F) (numbers : List F) : F :=
  numbers.foldl (fun sum n => env.add sum n) (env.ofInt 0)

/-- Source `sumHandler`; the argument is the outcome of `req.RequireFloatSlice("numbers")`. -/
def sumHandler {F : Type} (env : FloatEnv F) (arg : Except String (List F)) : HandlerReturn :=
  match arg with
  | .error e => returnError e
  | .ok numbers =>
    if numbers.length = 0 then returnError "array must not be empty"
    else returnText (env.format (sumLoop env numbers))

/-- Source `productHandler`. -/
def productHandler {F : Type} (env : FloatEnv F) (arg : Except String (List F)) :
    HandlerReturn :=
  match arg with
  | .error e => returnError e
  | .ok numbers =>
    if numbers.length = 0 then returnError "array must not be empty"
    else returnText (env.format (numbers.foldl (fun product n => env.mul product n) (env.ofInt 1)))

/-- The value `mean := sum / float64(len(numbers))` of `meanHandler`, `varianceHandler` and
`stdDevHandler`. -/
def meanValue {F : Type} (env : FloatEnv F) (numbers : List F) : F :=
  env.div (sumLoop env numbers) (env.ofInt numbers.length)

/-- Source `meanHandler`. -/
def meanHandler {F : Type} (env : FloatEnv F) (arg : Except String (List F)) : HandlerReturn :=
  match arg with
  | .error e => returnError e
  | .ok numbers =>
    if numbers.length = 0 then returnError "array must not be empty"
    else returnText (env.format (meanValue env numbers))

/-- A slice value: the address of the array it points into and its length.  The slices of
`medianHandler` begin at index `0` of their arrays. -/
structure SliceHeader where
  array : Nat
  len : Nat

/-- The elements of a slice, in a memory that holds the arrays by address. -/
def readSlice {F : Type} (mem : List (List F)) (s : SliceHeader) : List F :=
  (mem.getD s.array []).take s.len

/-- Storing values into the elements of a slice, from index `0` on and no further than its
length; the rest of its array and the other arrays keep their values. -/
def writeSlice {F : Type} (mem : List (List F)) (s : SliceHeader) (vals : List F) :
    List (List F) :=
  mem.set s.array (vals.take s.len ++ (mem.getD s.array []).drop (min vals.length s.len))

/-- The expression `make([]float64, n)`: a new array of `n` zeros at a fresh address, and the
slice that covers it. -/
def makeSlice {F : Type} (env : FloatEnv F) (mem : List (List F)) (n : Nat) :
    List (List F) × SliceHeader :=
  (mem ++ [List.replicate n (env.ofInt 0)], { array := mem.length, len := n })

/-- The statement `copy(dst, src)`: the first `min(len(dst), len(src))` elements of `src` are
stored into `dst`. -/
def copySlice {F : Type} (mem : List (List F)) (dst src : SliceHeader) : List (List F) :=
  writeSlice mem dst ((readSlice mem src).take dst.len)

/-- The statement `sort.Float64s(s)`: the elements of the slice are rearranged in place. -/
def sortSlice {F : Type} (env : FloatEnv F) (mem : List (List F)) (s : SliceHeader) :
    List (List F) :=
  writeSlice mem s (env.sort (readSlice mem s))

/-- The contents of the two slices of `medianHandler` after `sorted := make(...)`,
`copy(sorted, numbers)` and `sort.Float64s(sorted)`: `numbers` is the caller's slice. -/
structure MedianSlices (F : Type) where
  numbers : List F
  sorted : List F

/-- The statements `sorted := make([]float64, len(numbers)); copy(sorted, numbers);
sort.Float64s(sorted)`, run in a memory whose only array, at address `0`, is the one of the
caller's slice `numbers`. -/
def medianSort {F : Type} (env : FloatEnv F) (numbers : List F) : MedianSlices F :=
  let mem0 : List (List F) := [numbers]
  let numbersSlice : SliceHeader := { array := 0, len := numbers.length }
  let made := makeSlice env mem0 numbersSlice.len
  let sorted := made.2
  let mem1 := copySlice made.1 sorted numbersSlice
  let mem2 := sortSlice env mem1 sorted
  { numbers := readSlice mem2 numbersSlice, sorted := readSlice mem2 sorted }

/-- The value `median` of `medianHandler`, computed from the sorted copy; an index out of
range is a run-time panic (`none`). -/
def medianValue {F : Type} (env : FloatEnv F) (sorted : List F) : Option F :=
  let n := sorted.length
  if n % 2 = 0 then
    match sorted[n / 2 - 1]?, sorted[n / 2]? with
    | some x, some y => some (env.div (env.add x y) (env.ofInt 2))
    | _, _ => none
  else sorted[n / 2]?

/-- Source `medianHandler`. -/
def medianHandler {F : Type} (env : FloatEnv F) (arg : Except String (List F)) :
    Option HandlerReturn :=
  match arg with
  | .error e => some (returnError e)
  | .ok numbers =>
    if numbers.length = 0 then some (returnError "array must not be empty")
    else
      match medianValue env (medianSort env numbers).sorted with
      | none => none
      | some median => some (returnText (env.format median))

/-- Reading `freq[n]` in the map `freq` of `modeHandler`, a list of entries with keys
compared by `==`; an absent key reads `0`. -/
def freqGet {F : Type} (env : FloatEnv F) (freq : List (F × Nat)) (n : F) : Nat :=
  match freq.find? (fun p => env.eq p.1 n) with
  | some p => p.2
  | none => 0

/-- The statement `freq[n]++`: the entry whose key equals `n` is rewritten with key `n` and
the count plus one; when there is none, a new entry is added. -/
def freqIncr {F : Type} (env : FloatEnv F) (freq : List (F × Nat)) (n : F) : List (F × Nat) :=
  if freq.any (fun p => env.eq p.1 n) then
    freq.map (fun p => if env.eq p.1 n then (n, p.2 + 1) else p)
  else freq ++ [(n, 0 + 1)]

/-- The counting loop of `modeHandler`:
`for _, n := range numbers { freq[n]++; if freq[n] > maxFreq { maxFreq = freq[n] } }`,
returning `freq` and `maxFreq`. -/
def countLoop {F : Type} (env : FloatEnv F) (numbers : List F) : List (F × Nat) × Nat :=
  numbers.foldl
    (fun st n =>
      let freq := freqIncr env st.1 n
      if freqGet env freq n > st.2 then (freq, freqGet env freq n) else (freq, st.2))
    ([], 0)

/-- The selection loop of `modeHandler`:
`for n, f := range freq { if f == maxFreq { modes = append(modes, n) } }`. -/
def selectModes {F : Type} (env : FloatEnv F) (freq : List (F × Nat)) (maxFreq : Nat) : List F :=
  (env.mapOrder freq).foldl (fun modes p => if p.2 = maxFreq then modes ++ [p.1] else modes) []

/-- The slice `modes` of `modeHandler` after `sort.Float64s(modes)`. -/
def modeValues {F : Type} (env : FloatEnv F) (numbers : List F) : List F :=
  let st := countLoop env numbers
  env.sort (selectModes env st.1 st.2)

/-- Source `joinStrings`. -/
def joinStrings (strs : List String) (sep : String) : String :=
  match strs with
  | [] => ""
  | s :: rest => rest.foldl (fun result s => result ++ (sep ++ s)) s

/-- The output part of `modeHandler`: one mode is printed bare, otherwise the modes are
printed as `[m1, m2, ...]`. -/
def formatModes {F : Type} (env : FloatEnv F) (modes : List F) : String :=
  match modes with
  | [m] => env.format m
  | _ => "[" ++ joinStrings (modes.map env.format) ", " ++ "]"

/-- Source `modeHandler`. -/
def modeHandler {F : Type} (env : FloatEnv F) (arg : Except String (List F)) : HandlerReturn :=
  match arg with
  | .error e => returnError e
  | .ok numbers =>
    if numbers.length = 0 then returnError "array must not be empty"
    else returnText (formatModes env (modeValues env numbers))

/-- The value `variance` of `varianceHandler` and `stdDevHandler`: the sum of the squared
deviations from the mean, divided by `float64(len(numbers))`. -/
def varianceValue {F : Type} (env : FloatEnv F) (numbers : List F) : F :=
  let mean := meanValue env numbers
  let variance := numbers.foldl
    (fun variance n =>
      let diff := env.sub n mean
      env.add variance (env.mul diff diff))
    (env.ofInt 0)
  env.div variance (env.ofInt numbers.length)

/-- Source `varianceHandler`. -/
def varianceHandler {F : Type} (env : FloatEnv F) (arg : Except String (List F)) :
    HandlerReturn :=
  match arg with
  | .error e => returnError e
  | .ok numbers =>
    if numbers.length = 0 then returnError "array must not be empty"
    else returnText (env.format (varianceValue env numbers))

/-- Source `stdDevHandler`. -/
def stdDevHandler {F : Type} (env : FloatEnv F) (arg : Except String (List F)) :
    HandlerReturn :=
  match arg with
  | .error e => returnError e
  | .ok numbers =>
    if numbers.length = 0 then returnError "array must not be empty"
    else returnText (env.format (env.sqrt (varianceValue env numbers)))

/-- The loop of `rangeStatHandler` over `numbers[1:]`, on the pair `(minVal, maxVal)`. -/
def rangeLoop {F : Type} (env : FloatEnv F) (rest : List F) (first : F) : F × F :=
  rest.foldl
    (fun st n =>
      let minVal := if env.lt n st.1 then n else st.1
      let maxVal := if env.lt st.2 n then n else st.2
      (minVal, maxVal))
    (first, first)

/-- Source `rangeStatHandler`; `numbers[0]` on an empty slice is a run-time panic (`none`). -/
def rangeStatHandler {F : Type} (env : FloatEnv F) (arg : Except String (List F)) :
    Option HandlerReturn :=
  match arg with
  | .error e => some (returnError e)
  | .ok numbers =>
    if numbers.length = 0 then some (returnError "array must not be empty")
    else
      match numbers[0]? with
      | none => none
      | some first =>
        let st := rangeLoop env (numbers.drop 1) first
        some (returnText (env.format (env.sub st.2 st.1)))

/-! ### Handlers on integers (`handlers/number_theory.go`, `handlers/bitwise.go`) -/

/-- Source `gcdHandler`; the arguments are the outcomes of `req.RequireInt("a")` and
`req.RequireInt("b")`. -/
def gcdHandler (fuel : Nat) (a b : Except String Int) : Option HandlerReturn :=
  match a with
  | .error e => some (returnError e)
  | .ok a =>
    match b with
    | .error e => some (returnError e)
    | .ok b =>
      match gcdHandlerResult fuel a b with
      | none => none
      | some result => some (returnText (formatInt result))

/-- Source `lcmHandler`. -/
def lcmHandler (fuel : Nat) (a b : Except String Int) : Option HandlerReturn :=
  match a with
  | .error e => some (returnError e)
  | .ok a =>
    match b with
    | .error e => some (returnError e)
    | .ok b =>
      match lcmHandlerResult fuel a b with
      | none => none
      | some result => some (returnText (formatInt result))

/-- Source `isPrimeHandler`; `fmt.Sprintf("%t", result)` prints `true` or `false`. -/
def isPrimeHandler (fuel : Nat) (arg : Except String Int) : Option HandlerReturn :=
  match arg with
  | .error e => some (returnError e)
  | .ok n =>
    match isPrime fuel n with
    | none => none
    | some result => some (returnText (toString result))

/-- Binary rendering of an integer, `fmt.Sprintf("%b", x)`: a minus sign for a negative
number, then the binary digits of the absolute value. -/
def formatBinary (x : Int) : String :=
  if x < 0 then "-" ++ String.mk (Nat.toDigits 2 x.natAbs)
  else String.mk (Nat.toDigits 2 x.natAbs)

/-- The rendering `fmt.Sprintf("%d (binary: %b)", result, result)`. -/
def formatBits (result : Int) : String :=
  formatInt result ++ " (binary: " ++ formatBinary result ++ ")"

/-- Go's `a << uint(n)` on an `int` for `n >= 0`: `n` doublings, the bits shifted out of
the 64 being lost. -/
def shiftLeft64 (a n : Int) : Int :=
  wrap64 (a * 2 ^ n.toNat)

/-- Go's `a >> uint(n)` on an `int` for `n >= 0`: `n` halvings rounding towards minus
infinity (arithmetic shift). -/
def shiftRight64 (a n : Int) : Int :=
  a / 2 ^ n.toNat

/-- The shape shared by `bitAndHandler`, `bitOrHandler` and `bitXorHandler`, which differ by
the operator `op` (`&`, `|`, `^`) only. -/
def bitBinaryHandler (op : Int → Int → Int) (a b : Except String Int) : HandlerReturn :=
  match a with
  | .error e => returnError e
  | .ok a =>
    match b with
    | .error e => returnError e
    | .ok b => returnText (formatBits (op a b))

/-- Source `bitAndHandler`: `result := a & b`. -/
def bitAndHandler (a b : Except String Int) : HandlerReturn :=
  bitBinaryHandler Int.land a b

/-- Source `bitOrHandler`: `result := a | b`. -/
def bitOrHandler (a b : Except String Int) : HandlerReturn :=
  bitBinaryHandler Int.lor a b

/-- Source `bitXorHandler`: `result := a ^ b`. -/
def bitXorHandler (a b : Except String Int) : HandlerReturn :=
  bitBinaryHandler Int.xor a b

/-- Source `bitNotHandler`: `result := ^a`. -/
def bitNotHandler (a : Except String Int) : HandlerReturn :=
  match a with
  | .error e => returnError e
  | .ok a => returnText (formatInt (Int.not a))

/-- Source `bitLeftShiftHandler`. -/
def bitLeftShiftHandler (a n : Except String Int) : HandlerReturn :=
  match a with
  | .error e => returnError e
  | .ok a =>
    match n with
    | .error e => returnError e
    | .ok n =>
      if n < 0 then returnError "shift count must be non-negative"
      else returnText (formatBits (shiftLeft64 a n))

/-- Source `bitRightShiftHandler`. -/
def bitRightShiftHandler (a n : Except String Int) : HandlerReturn :=
  match a with
  | .error e => returnError e
  | .ok a =>
    match n with
    | .error e => returnError e
    | .ok n =>
      if n < 0 then returnError "shift count must be non-negative"
      else returnText (formatBits (shiftRight64 a n))

/-! ### Handlers of `handlers/arithmetic.go` -/

/-- Source `subtractHandler`. -/
def subtractHandler {F : Type} (env : FloatEnv F) (a b : Except String F) : HandlerReturn :=
  match a with
  | .error e => returnError e
  | .ok a =>
    match b with
    | .error e => returnError e
    | .ok b =>
      let result := env.sub a b
      returnText (env.format result)

/-- Source `multiplyHandler`. -/
def multiplyHandler {F : Type} (env : FloatEnv F) (a b : Except String F) : HandlerReturn :=
  match a with
  | .error e => returnError e
  | .ok a =>
    match b with
    | .error e => returnError e
    | .ok b =>
      let result := env.mul a b
      returnText (env.format result)

/-- Source `modHandler`. -/
def modHandler {F : Type} (env : FloatEnv F) (lib : MathLib F) (x y : Except String F) :
    HandlerReturn :=
  match x with
  | .error e => returnError e
  | .ok x =>
    match y with
    | .error e => returnError e
    | .ok y =>
      if env.eq y (env.ofInt 0) then returnError "modulo by zero"
      else
        let result := lib.math2 "Mod" x y
        returnText (env.format result)

/-- Source `remainderHandler`. -/
def remainderHandler {F : Type} (env : FloatEnv F) (lib : MathLib F) (x y : Except String F) :
    HandlerReturn :=
  match x with
  | .error e => returnError e
  | .ok x =>
    match y with
    | .error e => returnError e
    | .ok y =>
      if env.eq y (env.ofInt 0) then returnError "remainder by zero"
      else
        let result := lib.math2 "Remainder" x y
        returnText (env.format result)

/-- Source `absHandler`. -/
def absHandler {F : Type} (env : FloatEnv F) (lib : MathLib F) (x : Except String F) :
    HandlerReturn :=
  match x with
  | .error e => returnError e
  | .ok x =>
    let result := lib.math1 "Abs" x
    returnText (env.format result)

/-! ### Handlers of `handlers/power.go` -/

/-- Source `powHandler`. -/
def powHandler {F : Type} (env : FloatEnv F) (lib : MathLib F) (x y : Except String F) :
    HandlerReturn :=
  match x with
  | .error e => returnError e
  | .ok x =>
    match y with
    | .error e => returnError e
    | .ok y =>
      let result := lib.math2 "Pow" x y
      returnText (env.format result)

/-- Source `pow10Handler`. -/
def pow10Handler {F : Type} (env : FloatEnv F) (lib : MathLib F) (n : Except String Int) :
    HandlerReturn :=
  match n with
  | .error e => returnError e
  | .ok n =>
    let result := lib.pow10 n
    returnText (env.format result)

/-- Source `sqrtHandler`. -/
def sqrtHandler {F : Type} (env : FloatEnv F) (x : Except String F) : HandlerReturn :=
  match x with
  | .error e => returnError e
  | .ok x =>
    if env.lt x (env.ofInt 0) then returnError "cannot compute square root of negative number"
    else
      let result := env.sqrt x
      returnText (env.format result)

/-- Source `cbrtHandler`. -/
def cbrtHandler {F : Type} (env : FloatEnv F) (lib : MathLib F) (x : Except String F) :
    HandlerReturn :=
  match x with
  | .error e => returnError e
  | .ok x =>
    let result := lib.math1 "Cbrt" x
    returnText (env.format result)

/-- Source `expHandler`. -/
def expHandler {F : Type} (env : FloatEnv F) (lib : MathLib F) (x : Except String F) :
    HandlerReturn :=
  match x with
  | .error e => returnError e
  | .ok x =>
    let result := lib.math1 "Exp" x
    returnText (env.format result)

/-- Source `exp2Handler`. -/
def exp2Handler {F : Type} (env : FloatEnv F) (lib : MathLib F) (x : Except String F) :
    HandlerReturn :=
  match x with
  | .error e => returnError e
  | .ok x =>
    let result := lib.math1 "Exp2" x
    returnText (env.format result)

/-- Source `expm1Handler`. -/
def expm1Handler {F : Type} (env : FloatEnv F) (lib : MathLib F) (x : Except String F) :
    HandlerReturn :=
  match x with
  | .error e => returnError e
  | .ok x =>
    let result := lib.math1 "Expm1" x
    returnText (env.format result)

/-- Source `hypotHandler`. -/
def hypotHandler {F : Type} (env : FloatEnv F) (lib : MathLib F) (x y : Except String F) :
    HandlerReturn :=
  match x with
  | .error e => returnError e
  | .ok x =>
    match y with
    | .error e => returnError e
    | .ok y =>
      let result := lib.math2 "Hypot" x y
      returnText (env.format result)

/-! ### Handlers of `handlers/logarithm.go` -/

/-- Source `logHandler`. -/
def logHandler {F : Type} (env : FloatEnv F) (lib : MathLib F) (x : Except String F) :
    HandlerReturn :=
  match x with
  | .error e => returnError e
  | .ok x =>
    if env.le x (env.ofInt 0) then returnError "logarithm undefined for non-positive numbers"
    else
      let result := lib.math1 "Log" x
      returnText (env.format result)

/-- Source `log10Handler`. -/
def log10Handler {F : Type} (env : FloatEnv F) (lib : MathLib F) (x : Except String F) :
    HandlerReturn :=
  match x with
  | .error e => returnError e
  | .ok x =>
    if env.le x (env.ofInt 0) then returnError "logarithm undefined for non-positive numbers"
    else
      let result := lib.math1 "Log10" x
      returnText (env.format result)

/-- Source `log2Handler`. -/
def log2Handler {F : Type} (env : FloatEnv F) (lib : MathLib F) (x : Except String F) :
    HandlerReturn :=
  match x with
  | .error e => returnError e
  | .ok x =>
    if env.le x (env.ofInt 0) then returnError "logarithm undefined for non-positive numbers"
    else
      let result := lib.math1 "Log2" x
      returnText (env.format result)

/-- Source `log1pHandler`. -/
def log1pHandler {F : Type} (env : FloatEnv F) (lib : MathLib F) (x : Except String F) :
    HandlerReturn :=
  match x with
  | .error e => returnError e
  | .ok x =>
    if env.le x (env.ofInt (-1)) then returnError "log1p undefined for x <= -1"
    else
      let result := lib.math1 "Log1p" x
      returnText (env.format result)

/-- Source `logbHandler`. -/
def logbHandler {F : Type} (env : FloatEnv F) (lib : MathLib F) (x : Except String F) :
    HandlerReturn :=
  match x with
  | .error e => returnError e
  | .ok x =>
    let result := lib.math1 "Logb" x
    returnText (env.format result)

/-! ### Handlers of `handlers/trig.go` -/

/-- Source `sinHandler`. -/
def sinHandler {F : Type} (env : FloatEnv F) (lib : MathLib F) (x : Except String F) :
    HandlerReturn :=
  match x with
  | .error e => returnError e
  | .ok x =>
    let result := lib.math1 "Sin" x
    returnText (env.format result)

/-- Source `cosHandler`. -/
def cosHandler {F : Type} (env : FloatEnv F) (lib : MathLib F) (x : Except String F) :
    HandlerReturn :=
  match x with
  | .error e => returnError e
  | .ok x =>
    let result := lib.math1 "Cos" x
    returnText (env.format result)

/-- Source `tanHandler`. -/
def tanHandler {F : Type} (env : FloatEnv F) (lib : MathLib F) (x : Except String F) :
    HandlerReturn :=
  match x with
  | .error e => returnError e
  | .ok x =>
    let result := lib.math1 "Tan" x
    returnText (env.format result)

/-- Source `asinHandler`. -/
def asinHandler {F : Type} (env : FloatEnv F) (lib : MathLib F) (x : Except String F) :
    HandlerReturn :=
  match x with
  | .error e => returnError e
  | .ok x =>
    if env.lt x (env.ofInt (-1)) || env.lt (env.ofInt 1) x then
      returnError "asin: input must be in range [-1, 1]"
    else
      let result := lib.math1 "Asin" x
      returnText (env.format result)

/-- Source `acosHandler`. -/
def acosHandler {F : Type} (env : FloatEnv F) (lib : MathLib F) (x : Except String F) :
    HandlerReturn :=
  match x with
  | .error e => returnError e
  | .ok x =>
    if env.lt x (env.ofInt (-1)) || env.lt (env.ofInt 1) x then
      returnError "acos: input must be in range [-1, 1]"
    else
      let result := lib.math1 "Acos" x
      returnText (env.format result)

/-- Source `atanHandler`. -/
def atanHandler {F : Type} (env : FloatEnv F) (lib : MathLib F) (x : Except String F) :
    HandlerReturn :=
  match x with
  | .error e => returnError e
  | .ok x =>
    let result := lib.math1 "Atan" x
    returnText (env.format result)

/-- Source `atan2Handler`. -/
def atan2Handler {F : Type} (env : FloatEnv F) (lib : MathLib F) (y x : Except String F) :
    HandlerReturn :=
  match y with
  | .error e => returnError e
  | .ok y =>
    match x with
    | .error e => returnError e
    | .ok x =>
      let result := lib.math2 "Atan2" y x
      returnText (env.format result)

/-- Source `sincosHandler`. -/
def sincosHandler {F : Type} (env : FloatEnv F) (lib : MathLib F) (x : Except String F) :
    HandlerReturn :=
  match x with
  | .error e => returnError e
  | .ok x =>
    let sin := (lib.sincos x).1
    let cos := (lib.sincos x).2
    returnText ("sin: " ++ env.format sin ++ ", cos: " ++ env.format cos)

/-! ### Handlers of `handlers/hyperbolic.go` -/

/-- Source `sinhHandler`. -/
def sinhHandler {F : Type} (env : FloatEnv F) (lib : MathLib F) (x : Except String F) :
    HandlerReturn :=
  match x with
  | .error e => returnError e
  | .ok x =>
    let result := lib.math1 "Sinh" x
    returnText (env.format result)

/-- Source `coshHandler`. -/
def coshHandler {F : Type} (env : FloatEnv F) (lib : MathLib F) (x : Except String F) :
    HandlerReturn :=
  match x with
  | .error e => returnError e
  | .ok x =>
    let result := lib.math1 "Cosh" x
    returnText (env.format result)

/-- Source `tanhHandler`. -/
def tanhHandler {F : Type} (env : FloatEnv F) (lib : MathLib F) (x : Except String F) :
    HandlerReturn :=
  match x with
  | .error e => returnError e
  | .ok x =>
    let result := lib.math1 "Tanh" x
    returnText (env.format result)

/-- Source `asinhHandler`. -/
def asinhHandler {F : Type} (env : FloatEnv F) (lib : MathLib F) (x : Except String F) :
    HandlerReturn :=
  match x with
  | .error e => returnError e
  | .ok x =>
    let result := lib.math1 "Asinh" x
    returnText (env.format result)

/-- Source `acoshHandler`. -/
def acoshHandler {F : Type} (env : FloatEnv F) (lib : MathLib F) (x : Except String F) :
    HandlerReturn :=
  match x with
  | .error e => returnError e
  | .ok x =>
    if env.lt x (env.ofInt 1) then returnError "acosh: input must be >= 1"
    else
      let result := lib.math1 "Acosh" x
      returnText (env.format result)

/-- Source `atanhHandler`. -/
def atanhHandler {F : Type} (env : FloatEnv F) (lib : MathLib F) (x : Except String F) :
    HandlerReturn :=
  match x with
  | .error e => returnError e
  | .ok x =>
    if env.le x (env.ofInt (-1)) || env.le (env.ofInt 1) x then
      returnError "atanh: input must be in range (-1, 1)"
    else
      let result := lib.math1 "Atanh" x
      returnText (env.format result)

/-! ### Handlers of `handlers/rounding.go` -/

/-- Source `ceilHandler`. -/
def ceilHandler {F : Type} (env : FloatEnv F) (lib : MathLib F) (x : Except String F) :
    HandlerReturn :=
  match x with
  | .error e => returnError e
  | .ok x =>
    let result := lib.math1 "Ceil" x
    returnText (env.format result)

/-- Source `floorHandler`. -/
def floorHandler {F : Type} (env : FloatEnv F) (lib : MathLib F) (x : Except String F) :
    HandlerReturn :=
  match x with
  | .error e => returnError e
  | .ok x =>
    let result := lib.math1 "Floor" x
    returnText (env.format result)

/-- Source `roundHandler`. -/
def roundHandler {F : Type} (env : FloatEnv F) (lib : MathLib F) (x : Except String F) :
    HandlerReturn :=
  match x with
  | .error e => returnError e
  | .ok x =>
    let result := lib.math1 "Round" x
    returnText (env.format result)

/-- Source `roundToEvenHandler`. -/
def roundToEvenHandler {F : Type} (env : FloatEnv F) (lib : MathLib F) (x : Except String F) :
    HandlerReturn :=
  match x with
  | .error e => returnError e
  | .ok x =>
    let result := lib.math1 "RoundToEven" x
    returnText (env.format result)

/-- Source `truncHandler`. -/
def truncHandler {F : Type} (env : FloatEnv F) (lib : MathLib F) (x : Except String F) :
    HandlerReturn :=
  match x with
  | .error e => returnError e
  | .ok x =>
    let result := lib.math1 "Trunc" x
    returnText (env.format result)

/-! ### Handlers of `handlers/comparison.go` -/

/-- Source `maxHandler`. -/
def maxHandler {F : Type} (env : FloatEnv F) (lib : MathLib F) (x y : Except String F) :
    HandlerReturn :=
  match x with
  | .error e => returnError e
  | .ok x =>
    match y with
    | .error e => returnError e
    | .ok y =>
      let result := lib.math2 "Max" x y
      returnText (env.format result)

/-- Source `minHandler`. -/
def minHandler {F : Type} (env : FloatEnv F) (lib : MathLib F) (x y : Except String F) :
    HandlerReturn :=
  match x with
  | .error e => returnError e
  | .ok x =>
    match y with
    | .error e => returnError e
    | .ok y =>
      let result := lib.math2 "Min" x y
      returnText (env.format result)

/-- Source `dimHandler`. -/
def dimHandler {F : Type} (env : FloatEnv F) (lib : MathLib F) (x y : Except String F) :
    HandlerReturn :=
  match x with
  | .error e => returnError e
  | .ok x =>
    match y with
    | .error e => returnError e
    | .ok y =>
      let result := lib.math2 "Dim" x y
      returnText (env.format result)

/-- Source `copysignHandler`. -/
def copysignHandler {F : Type} (env : FloatEnv F) (lib : MathLib F) (x y : Except String F) :
    HandlerReturn :=
  match x with
  | .error e => returnError e
  | .ok x =>
    match y with
    | .error e => returnError e
    | .ok y =>
      let result := lib.math2 "Copysign" x y
      returnText (env.format result)

/-! ### Handlers of `handlers/special.go` -/

/-- Source `gammaHandler`. -/
def gammaHandler {F : Type} (env : FloatEnv F) (lib : MathLib F) (x : Except String F) :
    HandlerReturn :=
  match x with
  | .error e => returnError e
  | .ok x =>
    let result := lib.math1 "Gamma" x
    if lib.isInf result 0 || lib.isNaN result then returnError "gamma undefined for this input"
    else
      returnText (env.format result)

/-- Source `lgammaHandler`. -/
def lgammaHandler {F : Type} (env : FloatEnv F) (lib : MathLib F) (x : Except String F) :
    HandlerReturn :=
  match x with
  | .error e => returnError e
  | .ok x =>
    let result := (lib.lgamma x).1
    let sign := (lib.lgamma x).2
    returnText ("lgamma: " ++ env.format result ++ ", sign: " ++ formatInt sign)

/-- Source `erfHandler`. -/
def erfHandler {F : Type} (env : FloatEnv F) (lib : MathLib F) (x : Except String F) :
    HandlerReturn :=
  match x with
  | .error e => returnError e
  | .ok x =>
    let result := lib.math1 "Erf" x
    returnText (env.format result)

/-- Source `erfcHandler`. -/
def erfcHandler {F : Type} (env : FloatEnv F) (lib : MathLib F) (x : Except String F) :
    HandlerReturn :=
  match x with
  | .error e => returnError e
  | .ok x =>
    let result := lib.math1 "Erfc" x
    returnText (env.format result)

/-- Source `erfinvHandler`. -/
def erfinvHandler {F : Type} (env : FloatEnv F) (lib : MathLib F) (x : Except String F) :
    HandlerReturn :=
  match x with
  | .error e => returnError e
  | .ok x =>
    if env.le x (env.ofInt (-1)) || env.le (env.ofInt 1) x then
      returnError "erfinv: input must be in range (-1, 1)"
    else
      let result := lib.math1 "Erfinv" x
      returnText (env.format result)

/-- Source `erfcinvHandler`. -/
def erfcinvHandler {F : Type} (env : FloatEnv F) (lib : MathLib F) (x : Except String F) :
    HandlerReturn :=
  match x with
  | .error e => returnError e
  | .ok x =>
    if env.le x (env.ofInt 0) || env.le (env.ofInt 2) x then
      returnError "erfcinv: input must be in range (0, 2)"
    else
      let result := lib.math1 "Erfcinv" x
      returnText (env.format result)

/-- Source `j0Handler`. -/
def j0Handler {F : Type} (env : FloatEnv F) (lib : MathLib F) (x : Except String F) :
    HandlerReturn :=
  match x with
  | .error e => returnError e
  | .ok x =>
    let result := lib.math1 "J0" x
    returnText (env.format result)

/-- Source `j1Handler`. -/
def j1Handler {F : Type} (env : FloatEnv F) (lib : MathLib F) (x : Except String F) :
    HandlerReturn :=
  match x with
  | .error e => returnError e
  | .ok x =>
    let result := lib.math1 "J1" x
    returnText (env.format result)

/-- Source `y0Handler`. -/
def y0Handler {F : Type} (env : FloatEnv F) (lib : MathLib F) (x : Except String F) :
    HandlerReturn :=
  match x with
  | .error e => returnError e
  | .ok x =>
    if env.le x (env.ofInt 0) then returnError "y0: input must be positive"
    else
      let result := lib.math1 "Y0" x
      returnText (env.format result)

/-- Source `y1Handler`. -/
def y1Handler {F : Type} (env : FloatEnv F) (lib : MathLib F) (x : Except String F) :
    HandlerReturn :=
  match x with
  | .error e => returnError e
  | .ok x =>
    if env.le x (env.ofInt 0) then returnError "y1: input must be positive"
    else
      let result := lib.math1 "Y1" x
      returnText (env.format result)

/-! ### Handlers of `handlers/float_utils.go` -/

/-- Source `frexpHandler`. -/
def frexpHandler {F : Type} (env : FloatEnv F) (lib : MathLib F) (x : Except String F) :
    HandlerReturn :=
  match x with
  | .error e => returnError e
  | .ok x =>
    let frac := (lib.frexp x).1
    let exp := (lib.frexp x).2
    returnText ("frac: " ++ env.format frac ++ ", exp: " ++ formatInt exp)

/-- Source `ldexpHandler`. -/
def ldexpHandler {F : Type} (env : FloatEnv F) (lib : MathLib F)
    (frac : Except String F) (exp : Except String Int) : HandlerReturn :=
  match frac with
  | .error e => returnError e
  | .ok frac =>
    match exp with
    | .error e => returnError e
    | .ok exp =>
      let result := lib.ldexp frac exp
      returnText (env.format result)

/-- Source `modfHandler`. -/
def modfHandler {F : Type} (env : FloatEnv F) (lib : MathLib F) (x : Except String F) :
    HandlerReturn :=
  match x with
  | .error e => returnError e
  | .ok x =>
    let integer := (lib.modf x).1
    let frac := (lib.modf x).2
    returnText ("integer: " ++ env.format integer ++ ", frac: " ++ env.format frac)

/-- Source `ilogbHandler`. -/
def ilogbHandler {F : Type} (lib : MathLib F) (x : Except String F) : HandlerReturn :=
  match x with
  | .error e => returnError e
  | .ok x =>
    let result := lib.ilogb x
    returnText (formatInt result)

/-- Source `nextafterHandler`. -/
def nextafterHandler {F : Type} (env : FloatEnv F) (lib : MathLib F) (x y : Except String F) :
    HandlerReturn :=
  match x with
  | .error e => returnError e
  | .ok x =>
    match y with
    | .error e => returnError e
    | .ok y =>
      let result := lib.math2 "Nextafter" x y
      returnText (env.format result)

/-- Source `fmaHandler`. -/
def fmaHandler {F : Type} (env : FloatEnv F) (lib : MathLib F) (x y z : Except String F) :
    HandlerReturn :=
  match x with
  | .error e => returnError e
  | .ok x =>
    match y with
    | .error e => returnError e
    | .ok y =>
      match z with
      | .error e => returnError e
      | .ok z =>
        let result := lib.fma x y z
        returnText (env.format result)

/-- Source `signbitHandler`. -/
def signbitHandler {F : Type} (lib : MathLib F) (x : Except String F) : HandlerReturn :=
  match x with
  | .error e => returnError e
  | .ok x =>
    let result := lib.signbit x
    returnText (toString result)

/-- Source `isNaNHandler`. -/
def isNaNHandler {F : Type} (lib : MathLib F) (x : Except String F) : HandlerReturn :=
  match x with
  | .error e => returnError e
  | .ok x =>
    let result := lib.isNaN x
    returnText (toString result)

/-- Source `isInfHandler`; `sign` is the value of `req.GetInt("sign", 0)`, the parameter
or the default `0`. -/
def isInfHandler {F : Type} (lib : MathLib F) (x : Except String F) (sign : Int) : HandlerReturn :=
  match x with
  | .error e => returnError e
  | .ok x =>
    let result := lib.isInf x sign
    returnText (toString result)

/-! ### Handlers of `handlers/conversion.go` -/

/-- Source `degreesToRadiansHandler`. -/
def degreesToRadiansHandler {F : Type} (env : FloatEnv F) (lib : MathLib F)
    (degrees : Except String F) : HandlerReturn :=
  match degrees with
  | .error e => returnError e
  | .ok degrees =>
    let result := env.div (env.mul degrees lib.pi) (env.ofInt 180)
    returnText (env.format result)

/-- Source `radiansToDegreesHandler`. -/
def radiansToDegreesHandler {F : Type} (env : FloatEnv F) (lib : MathLib F)
    (radians : Except String F) : HandlerReturn :=
  match radians with
  | .error e => returnError e
  | .ok radians =>
    let result := env.div (env.mul radians (env.ofInt 180)) lib.pi
    returnText (env.format result)

/-! ### Handlers of `handlers/complex.go` -/

/-- Source `getComplex`; the arguments are the outcomes of `req.RequireFloat(realKey)` and
`req.RequireFloat(imagKey)`, and `complex(r, i)` is the pair. -/
def getComplex {F : Type} (r i : Except String F) : Except String (F × F) :=
  match r with
  | .error err => .error err
  | .ok r =>
    match i with
    | .error err => .error err
    | .ok i => .ok (r, i)

/-- Source `formatComplex`. -/
def formatComplex {F : Type} (env : FloatEnv F) (lib : MathLib F) (c : F × F) : String :=
  let r := c.1
  let i := c.2
  if env.le (env.ofInt 0) i then env.format r ++ " + " ++ env.format i ++ "i"
  else env.format r ++ " - " ++ env.format (lib.neg i) ++ "i"

/-- Source `complexAbsHandler`. -/
def complexAbsHandler {F : Type} (env : FloatEnv F) (lib : MathLib F)
    (real imag : Except String F) : HandlerReturn :=
  match getComplex real imag with
  | .error e => returnError e
  | .ok z =>
    let result := lib.cabs z
    returnText (env.format result)

/-- Source `complexPhaseHandler`. -/
def complexPhaseHandler {F : Type} (env : FloatEnv F) (lib : MathLib F)
    (real imag : Except String F) : HandlerReturn :=
  match getComplex real imag with
  | .error e => returnError e
  | .ok z =>
    let result := lib.cphase z
    returnText (env.format result)

/-- Source `complexConjHandler`. -/
def complexConjHandler {F : Type} (env : FloatEnv F) (lib : MathLib F)
    (real imag : Except String F) : HandlerReturn :=
  match getComplex real imag with
  | .error e => returnError e
  | .ok z =>
    let result := lib.cmplx1 "Conj" z
    returnText (formatComplex env lib result)

/-- Source `complexExpHandler`. -/
def complexExpHandler {F : Type} (env : FloatEnv F) (lib : MathLib F)
    (real imag : Except String F) : HandlerReturn :=
  match getComplex real imag with
  | .error e => returnError e
  | .ok z =>
    let result := lib.cmplx1 "Exp" z
    returnText (formatComplex env lib result)

/-- Source `complexLogHandler`. -/
def complexLogHandler {F : Type} (env : FloatEnv F) (lib : MathLib F)
    (real imag : Except String F) : HandlerReturn :=
  match getComplex real imag with
  | .error e => returnError e
  | .ok z =>
    let result := lib.cmplx1 "Log" z
    returnText (formatComplex env lib result)

/-- Source `complexSqrtHandler`. -/
def complexSqrtHandler {F : Type} (env : FloatEnv F) (lib : MathLib F)
    (real imag : Except String F) : HandlerReturn :=
  match getComplex real imag with
  | .error e => returnError e
  | .ok z =>
    let result := lib.cmplx1 "Sqrt" z
    returnText (formatComplex env lib result)

/-- Source `complexPowHandler`. -/
def complexPowHandler {F : Type} (env : FloatEnv F) (lib : MathLib F)
    (x_real x_imag y_real y_imag : Except String F) : HandlerReturn :=
  match getComplex x_real x_imag with
  | .error e => returnError e
  | .ok x =>
    match getComplex y_real y_imag with
    | .error e => returnError e
    | .ok y =>
      let result := lib.cpow x y
      returnText (formatComplex env lib result)

/-- Source `complexSinHandler`. -/
def complexSinHandler {F : Type} (env : FloatEnv F) (lib : MathLib F)
    (real imag : Except String F) : HandlerReturn :=
  match getComplex real imag with
  | .error e => returnError e
  | .ok z =>
    let result := lib.cmplx1 "Sin" z
    returnText (formatComplex env lib result)

/-- Source `complexCosHandler`. -/
def complexCosHandler {F : Type} (env : FloatEnv F) (lib : MathLib F)
    (real imag : Except String F) : HandlerReturn :=
  match getComplex real imag with
  | .error e => returnError e
  | .ok z =>
    let result := lib.cmplx1 "Cos" z
    returnText (formatComplex env lib result)

/-- Source `complexTanHandler`. -/
def complexTanHandler {F : Type} (env : FloatEnv F) (lib : MathLib F)
    (real imag : Except String F) : HandlerReturn :=
  match getComplex real imag with
  | .error e => returnError e
  | .ok z =>
    let result := lib.cmplx1 "Tan" z
    returnText (formatComplex env lib result)

/-- Source `complexPolarHandler`. -/
def complexPolarHandler {F : Type} (env : FloatEnv F) (lib : MathLib F)
    (real imag : Except String F) : HandlerReturn :=
  match getComplex real imag with
  | .error e => returnError e
  | .ok z =>
    let r := (lib.polar z).1
    let theta := (lib.polar z).2
    returnText ("r: " ++ env.format r ++ ", theta: " ++ env.format theta)

/-- Source `complexRectHandler`. -/
def complexRectHandler {F : Type} (env : FloatEnv F) (lib : MathLib F) (r theta : Except String F) :
    HandlerReturn :=
  match r with
  | .error e => returnError e
  | .ok r =>
    match theta with
    | .error e => returnError e
    | .ok theta =>
      let result := lib.rect r theta
      returnText (formatComplex env lib result)

/-! ### A call of a handler -/

/-- A handler together with the outcomes of the parameter extractions (`req.RequireFloat`,
`req.RequireInt`, `req.RequireFloatSlice`, `getComplex`, `req.GetInt`) it performs on the
request, in source order; an argument has the name of the request parameter it is extracted
from.  There is one constructor for each of the `96` handlers that `NewRegistry` registers,
in registration order. -/
inductive HandlerCall (F : Type) where
  | add (a b : Except String F)
  | subtract (a b : Except String F)
  | multiply (a b : Except String F)
  | divide (a b : Except String F)
  | mod (x y : Except String F)
  | remainder (x y : Except String F)
  | abs (x : Except String F)
  | pow (x y : Except String F)
  | pow10 (n : Except String Int)
  | sqrt (x : Except String F)
  | cbrt (x : Except String F)
  | exp (x : Except String F)
  | exp2 (x : Except String F)
  | expm1 (x : Except String F)
  | hypot (x y : Except String F)
  | log (x : Except String F)
  | log10 (x : Except String F)
  | log2 (x : Except String F)
  | log1p (x : Except String F)
  | logb (x : Except String F)
  | sin (x : Except String F)
  | cos (x : Except String F)
  | tan (x : Except String F)
  | asin (x : Except String F)
  | acos (x : Except String F)
  | atan (x : Except String F)
  | atan2 (y x : Except String F)
  | sincos (x : Except String F)
  | sinh (x : Except String F)
  | cosh (x : Except String F)
  | tanh (x : Except String F)
  | asinh (x : Except String F)
  | acosh (x : Except String F)
  | atanh (x : Except String F)
  | ceil (x : Except String F)
  | floor (x : Except String F)
  | round (x : Except String F)
  | roundToEven (x : Except String F)
  | trunc (x : Except String F)
  | max (x y : Except String F)
  | min (x y : Except String F)
  | dim (x y : Except String F)
  | copysign (x y : Except String F)
  | gamma (x : Except String F)
  | lgamma (x : Except String F)
  | erf (x : Except String F)
  | erfc (x : Except String F)
  | erfinv (x : Except String F)
  | erfcinv (x : Except String F)
  | j0 (x : Except String F)
  | j1 (x : Except String F)
  | y0 (x : Except String F)
  | y1 (x : Except String F)
  | frexp (x : Except String F)
  | ldexp (frac : Except String F) (exp : Except String Int)
  | modf (x : Except String F)
  | ilogb (x : Except String F)
  | nextafter (x y : Except String F)
  | fma (x y z : Except String F)
  | signbit (x : Except String F)
  | isNaN (x : Except String F)
  | isInf (x : Except String F) (sign : Int)
  | degreesToRadians (degrees : Except String F)
  | radiansToDegrees (radians : Except String F)
  | gcd (a b : Except String Int)
  | lcm (a b : Except String Int)
  | factorial (n : Except String Int)
  | fibonacci (n : Except String Int)
  | isPrime (n : Except String Int)
  | primeFactors (n : Except String Int)
  | sum (numbers : Except String (List F))
  | product (numbers : Except String (List F))
  | mean (numbers : Except String (List F))
  | median (numbers : Except String (List F))
  | mode (numbers : Except String (List F))
  | variance (numbers : Except String (List F))
  | stdDev (numbers : Except String (List F))
  | rangeStat (numbers : Except String (List F))
  | bitAnd (a b : Except String Int)
  | bitOr (a b : Except String Int)
  | bitXor (a b : Except String Int)
  | bitNot (a : Except String Int)
  | bitLeftShift (a n : Except String Int)
  | bitRightShift (a n : Except String Int)
  | complexAbs (real imag : Except String F)
  | complexPhase (real imag : Except String F)
  | complexConj (real imag : Except String F)
  | complexExp (real imag : Except String F)
  | complexLog (real imag : Except String F)
  | complexSqrt (real imag : Except String F)
  | complexPow (x_real x_imag y_real y_imag : Except String F)
  | complexSin (real imag : Except String F)
  | complexCos (real imag : Except String F)
  | complexTan (real imag : Except String F)
  | complexPolar (real imag : Except String F)
  | complexRect (r theta : Except String F)

/-- The Go function that a call runs. -/
def HandlerCall.handlerName {F : Type} : HandlerCall F → HandlerRef
  | .add _ _ => "addHandler"
  | .subtract _ _ => "subtractHandler"
  | .multiply _ _ => "multiplyHandler"
  | .divide _ _ => "divideHandler"
  | .mod _ _ => "modHandler"
  | .remainder _ _ => "remainderHandler"
  | .abs _ => "absHandler"
  | .pow _ _ => "powHandler"
  | .pow10 _ => "pow10Handler"
  | .sqrt _ => "sqrtHandler"
  | .cbrt _ => "cbrtHandler"
  | .exp _ => "expHandler"
  | .exp2 _ => "exp2Handler"
  | .expm1 _ => "expm1Handler"
  | .hypot _ _ => "hypotHandler"
  | .log _ => "logHandler"
  | .log10 _ => "log10Handler"
  | .log2 _ => "log2Handler"
  | .log1p _ => "log1pHandler"
  | .logb _ => "logbHandler"
  | .sin _ => "sinHandler"
  | .cos _ => "cosHandler"
  | .tan _ => "tanHandler"
  | .asin _ => "asinHandler"
  | .acos _ => "acosHandler"
  | .atan _ => "atanHandler"
  | .atan2 _ _ => "atan2Handler"
  | .sincos _ => "sincosHandler"
  | .sinh _ => "sinhHandler"
  | .cosh _ => "coshHandler"
  | .tanh _ => "tanhHandler"
  | .asinh _ => "asinhHandler"
  | .acosh _ => "acoshHandler"
  | .atanh _ => "atanhHandler"
  | .ceil _ => "ceilHandler"
  | .floor _ => "floorHandler"
  | .round _ => "roundHandler"
  | .roundToEven _ => "roundToEvenHandler"
  | .trunc _ => "truncHandler"
  | .max _ _ => "maxHandler"
  | .min _ _ => "minHandler"
  | .dim _ _ => "dimHandler"
  | .copysign _ _ => "copysignHandler"
  | .gamma _ => "gammaHandler"
  | .lgamma _ => "lgammaHandler"
  | .erf _ => "erfHandler"
  | .erfc _ => "erfcHandler"
  | .erfinv _ => "erfinvHandler"
  | .erfcinv _ => "erfcinvHandler"
  | .j0 _ => "j0Handler"
  | .j1 _ => "j1Handler"
  | .y0 _ => "y0Handler"
  | .y1 _ => "y1Handler"
  | .frexp _ => "frexpHandler"
  | .ldexp _ _ => "ldexpHandler"
  | .modf _ => "modfHandler"
  | .ilogb _ => "ilogbHandler"
  | .nextafter _ _ => "nextafterHandler"
  | .fma _ _ _ => "fmaHandler"
  | .signbit _ => "signbitHandler"
  | .isNaN _ => "isNaNHandler"
  | .isInf _ _ => "isInfHandler"
  | .degreesToRadians _ => "degreesToRadiansHandler"
  | .radiansToDegrees _ => "radiansToDegreesHandler"
  | .gcd _ _ => "gcdHandler"
  | .lcm _ _ => "lcmHandler"
  | .factorial _ => "factorialHandler"
  | .fibonacci _ => "fibonacciHandler"
  | .isPrime _ => "isPrimeHandler"
  | .primeFactors _ => "primeFactorsHandler"
  | .sum _ => "sumHandler"
  | .product _ => "productHandler"
  | .mean _ => "meanHandler"
  | .median _ => "medianHandler"
  | .mode _ => "modeHandler"
  | .variance _ => "varianceHandler"
  | .stdDev _ => "stdDevHandler"
  | .rangeStat _ => "rangeStatHandler"
  | .bitAnd _ _ => "bitAndHandler"
  | .bitOr _ _ => "bitOrHandler"
  | .bitXor _ _ => "bitXorHandler"
  | .bitNot _ => "bitNotHandler"
  | .bitLeftShift _ _ => "bitLeftShiftHandler"
  | .bitRightShift _ _ => "bitRightShiftHandler"
  | .complexAbs _ _ => "complexAbsHandler"
  | .complexPhase _ _ => "complexPhaseHandler"
  | .complexConj _ _ => "complexConjHandler"
  | .complexExp _ _ => "complexExpHandler"
  | .complexLog _ _ => "complexLogHandler"
  | .complexSqrt _ _ => "complexSqrtHandler"
  | .complexPow _ _ _ _ => "complexPowHandler"
  | .complexSin _ _ => "complexSinHandler"
  | .complexCos _ _ => "complexCosHandler"
  | .complexTan _ _ => "complexTanHandler"
  | .complexPolar _ _ => "complexPolarHandler"
  | .complexRect _ _ => "complexRectHandler"

/-- Running a call: the handler applied to the outcomes of its extractions. -/
def runHandler {F : Type} (env : FloatEnv F) (lib : MathLib F) (fuel : Nat) :
    HandlerCall F → Option HandlerReturn
  | .add a b => some (addHandler env a b)
  | .subtract a b => some (subtractHandler env a b)
  | .multiply a b => some (multiplyHandler env a b)
  | .divide a b => some (divideHandler env a b)
  | .mod x y => some (modHandler env lib x y)
  | .remainder x y => some (remainderHandler env lib x y)
  | .abs x => some (absHandler env lib x)
  | .pow x y => some (powHandler env lib x y)
  | .pow10 n => some (pow10Handler env lib n)
  | .sqrt x => some (sqrtHandler env x)
  | .cbrt x => some (cbrtHandler env lib x)
  | .exp x => some (expHandler env lib x)
  | .exp2 x => some (exp2Handler env lib x)
  | .expm1 x => some (expm1Handler env lib x)
  | .hypot x y => some (hypotHandler env lib x y)
  | .log x => some (logHandler env lib x)
  | .log10 x => some (log10Handler env lib x)
  | .log2 x => some (log2Handler env lib x)
  | .log1p x => some (log1pHandler env lib x)
  | .logb x => some (logbHandler env lib x)
  | .sin x => some (sinHandler env lib x)
  | .cos x => some (cosHandler env lib x)
  | .tan x => some (tanHandler env lib x)
  | .asin x => some (asinHandler env lib x)
  | .acos x => some (acosHandler env lib x)
  | .atan x => some (atanHandler env lib x)
  | .atan2 y x => some (atan2Handler env lib y x)
  | .sincos x => some (sincosHandler env lib x)
  | .sinh x => some (sinhHandler env lib x)
  | .cosh x => some (coshHandler env lib x)
  | .tanh x => some (tanhHandler env lib x)
  | .asinh x => some (asinhHandler env lib x)
  | .acosh x => some (acoshHandler env lib x)
  | .atanh x => some (atanhHandler env lib x)
  | .ceil x => some (ceilHandler env lib x)
  | .floor x => some (floorHandler env lib x)
  | .round x => some (roundHandler env lib x)
  | .roundToEven x => some (roundToEvenHandler env lib x)
  | .trunc x => some (truncHandler env lib x)
  | .max x y => some (maxHandler env lib x y)
  | .min x y => some (minHandler env lib x y)
  | .dim x y => some (dimHandler env lib x y)
  | .copysign x y => some (copysignHandler env lib x y)
  | .gamma x => some (gammaHandler env lib x)
  | .lgamma x => some (lgammaHandler env lib x)
  | .erf x => some (erfHandler env lib x)
  | .erfc x => some (erfcHandler env lib x)
  | .erfinv x => some (erfinvHandler env lib x)
  | .erfcinv x => some (erfcinvHandler env lib x)
  | .j0 x => some (j0Handler env lib x)
  | .j1 x => some (j1Handler env lib x)
  | .y0 x => some (y0Handler env lib x)
  | .y1 x => some (y1Handler env lib x)
  | .frexp x => some (frexpHandler env lib x)
  | .ldexp frac exp => some (ldexpHandler env lib frac exp)
  | .modf x => some (modfHandler env lib x)
  | .ilogb x => some (ilogbHandler lib x)
  | .nextafter x y => some (nextafterHandler env lib x y)
  | .fma x y z => some (fmaHandler env lib x y z)
  | .signbit x => some (signbitHandler lib x)
  | .isNaN x => some (isNaNHandler lib x)
  | .isInf x sign => some (isInfHandler lib x sign)
  | .degreesToRadians degrees => some (degreesToRadiansHandler env lib degrees)
  | .radiansToDegrees radians => some (radiansToDegreesHandler env lib radians)
  | .gcd a b => gcdHandler fuel a b
  | .lcm a b => lcmHandler fuel a b
  | .factorial n => factorialHandler fuel n
  | .fibonacci n => fibonacciHandler fuel n
  | .isPrime n => isPrimeHandler fuel n
  | .primeFactors n => primeFactorsHandler fuel n
  | .sum numbers => some (sumHandler env numbers)
  | .product numbers => some (productHandler env numbers)
  | .mean numbers => some (meanHandler env numbers)
  | .median numbers => medianHandler env numbers
  | .mode numbers => some (modeHandler env numbers)
  | .variance numbers => some (varianceHandler env numbers)
  | .stdDev numbers => some (stdDevHandler env numbers)
  | .rangeStat numbers => rangeStatHandler env numbers
  | .bitAnd a b => some (bitAndHandler a b)
  | .bitOr a b => some (bitOrHandler a b)
  | .bitXor a b => some (bitXorHandler a b)
  | .bitNot a => some (bitNotHandler a)
  | .bitLeftShift a n => some (bitLeftShiftHandler a n)
  | .bitRightShift a n => some (bitRightShiftHandler a n)
  | .complexAbs real imag => some (complexAbsHandler env lib real imag)
  | .complexPhase real imag => some (complexPhaseHandler env lib real imag)
  | .complexConj real imag => some (complexConjHandler env lib real imag)
  | .complexExp real imag => some (complexExpHandler env lib real imag)
  | .complexLog real imag => some (complexLogHandler env lib real imag)
  | .complexSqrt real imag => some (complexSqrtHandler env lib real imag)
  | .complexPow x_real x_imag y_real y_imag => some (complexPowHandler env lib x_real x_imag y_real y_imag)
  | .complexSin real imag => some (complexSinHandler env lib real imag)
  | .complexCos real imag => some (complexCosHandler env lib real imag)
  | .complexTan real imag => some (complexTanHandler env lib real imag)
  | .complexPolar real imag => some (complexPolarHandler env lib real imag)
  | .complexRect r theta => some (complexRectHandler env lib r theta)

/-- The error of a single extraction. -/
def firstOfOne {α : Type} (a : Except String α) : Option String :=
  match a with
  | .error e => some e
  | .ok _ => none

/-- The error of the first extraction that fails, for two extractions in a row. -/
def firstOfTwo {α β : Type} (a : Except String α) (b : Except String β) : Option String :=
  match a with
  | .error e => some e
  | .ok _ => firstOfOne b

/-- The error of the first extraction that fails, for three extractions in a row. -/
def firstOfThree {α β γ : Type} (a : Except String α) (b : Except String β)
    (c : Except String γ) : Option String :=
  match a with
  | .error e => some e
  | .ok _ => firstOfTwo b c

/-- The error of the first extraction that fails, for four extractions in a row. -/
def firstOfFour {α β γ δ : Type} (a : Except String α) (b : Except String β)
    (c : Except String γ) (d : Except String δ) : Option String :=
  match a with
  | .error e => some e
  | .ok _ => firstOfThree b c d

/-- The error of the first parameter extraction of a call that fails (a required parameter
missing or not of the right shape), if any. -/
def HandlerCall.firstError {F : Type} : HandlerCall F → Option String
  | .add a b => firstOfTwo a b
  | .subtract a b => firstOfTwo a b
  | .multiply a b => firstOfTwo a b
  | .divide a b => firstOfTwo a b
  | .mod x y => firstOfTwo x y
  | .remainder x y => firstOfTwo x y
  | .abs x => firstOfOne x
  | .pow x y => firstOfTwo x y
  | .pow10 n => firstOfOne n
  | .sqrt x => firstOfOne x
  | .cbrt x => firstOfOne x
  | .exp x => firstOfOne x
  | .exp2 x => firstOfOne x
  | .expm1 x => firstOfOne x
  | .hypot x y => firstOfTwo x y
  | .log x => firstOfOne x
  | .log10 x => firstOfOne x
  | .log2 x => firstOfOne x
  | .log1p x => firstOfOne x
  | .logb x => firstOfOne x
  | .sin x => firstOfOne x
  | .cos x => firstOfOne x
  | .tan x => firstOfOne x
  | .asin x => firstOfOne x
  | .acos x => firstOfOne x
  | .atan x => firstOfOne x
  | .atan2 y x => firstOfTwo y x
  | .sincos x => firstOfOne x
  | .sinh x => firstOfOne x
  | .cosh x => firstOfOne x
  | .tanh x => firstOfOne x
  | .asinh x => firstOfOne x
  | .acosh x => firstOfOne x
  | .atanh x => firstOfOne x
  | .ceil x => firstOfOne x
  | .floor x => firstOfOne x
  | .round x => firstOfOne x
  | .roundToEven x => firstOfOne x
  | .trunc x => firstOfOne x
  | .max x y => firstOfTwo x y
  | .min x y => firstOfTwo x y
  | .dim x y => firstOfTwo x y
  | .copysign x y => firstOfTwo x y
  | .gamma x => firstOfOne x
  | .lgamma x => firstOfOne x
  | .erf x => firstOfOne x
  | .erfc x => firstOfOne x
  | .erfinv x => firstOfOne x
  | .erfcinv x => firstOfOne x
  | .j0 x => firstOfOne x
  | .j1 x => firstOfOne x
  | .y0 x => firstOfOne x
  | .y1 x => firstOfOne x
  | .frexp x => firstOfOne x
  | .ldexp frac ex => firstOfTwo frac ex
  | .modf x => firstOfOne x
  | .ilogb x => firstOfOne x
  | .nextafter x y => firstOfTwo x y
  | .fma x y z => firstOfThree x y z
  | .signbit x => firstOfOne x
  | .isNaN x => firstOfOne x
  | .isInf x _ => firstOfOne x
  | .degreesToRadians degrees => firstOfOne degrees
  | .radiansToDegrees radians => firstOfOne radians
  | .gcd a b => firstOfTwo a b
  | .lcm a b => firstOfTwo a b
  | .factorial n => firstOfOne n
  | .fibonacci n => firstOfOne n
  | .isPrime n => firstOfOne n
  | .primeFactors n => firstOfOne n
  | .sum numbers => firstOfOne numbers
  | .product numbers => firstOfOne numbers
  | .mean numbers => firstOfOne numbers
  | .median numbers => firstOfOne numbers
  | .mode numbers => firstOfOne numbers
  | .variance numbers => firstOfOne numbers
  | .stdDev numbers => firstOfOne numbers
  | .rangeStat numbers => firstOfOne numbers
  | .bitAnd a b => firstOfTwo a b
  | .bitOr a b => firstOfTwo a b
  | .bitXor a b => firstOfTwo a b
  | .bitNot a => firstOfOne a
  | .bitLeftShift a n => firstOfTwo a n
  | .bitRightShift a n => firstOfTwo a n
  | .complexAbs real imag => firstOfTwo real imag
  | .complexPhase real imag => firstOfTwo real imag
  | .complexConj real imag => firstOfTwo real imag
  | .complexExp real imag => firstOfTwo real imag
  | .complexLog real imag => firstOfTwo real imag
  | .complexSqrt real imag => firstOfTwo real imag
  | .complexPow x_real x_imag y_real y_imag => firstOfFour x_real x_imag y_real y_imag
  | .complexSin real imag => firstOfTwo real imag
  | .complexCos real imag => firstOfTwo real imag
  | .complexTan real imag => firstOfTwo real imag
  | .complexPolar real imag => firstOfTwo real imag
  | .complexRect r theta => firstOfTwo r theta

/-- The integer of a successful `req.RequireInt`, as a list. -/
def intOf (a : Except String Int) : List Int :=
  match a with
  | .error _ => []
  | .ok x => [x]

/-- The integers that the extractions of a call produced; being Go `int`s they are 64-bit
values. -/
def HandlerCall.intArgs {F : Type} : HandlerCall F → List Int
  | .add _ _ => []
  | .subtract _ _ => []
  | .multiply _ _ => []
  | .divide _ _ => []
  | .mod _ _ => []
  | .remainder _ _ => []
  | .abs _ => []
  | .pow _ _ => []
  | .pow10 n => intOf n
  | .sqrt _ => []
  | .cbrt _ => []
  | .exp _ => []
  | .exp2 _ => []
  | .expm1 _ => []
  | .hypot _ _ => []
  | .log _ => []
  | .log10 _ => []
  | .log2 _ => []
  | .log1p _ => []
  | .logb _ => []
  | .sin _ => []
  | .cos _ => []
  | .tan _ => []
  | .asin _ => []
  | .acos _ => []
  | .atan _ => []
  | .atan2 _ _ => []
  | .sincos _ => []
  | .sinh _ => []
  | .cosh _ => []
  | .tanh _ => []
  | .asinh _ => []
  | .acosh _ => []
  | .atanh _ => []
  | .ceil _ => []
  | .floor _ => []
  | .round _ => []
  | .roundToEven _ => []
  | .trunc _ => []
  | .max _ _ => []
  | .min _ _ => []
  | .dim _ _ => []
  | .copysign _ _ => []
  | .gamma _ => []
  | .lgamma _ => []
  | .erf _ => []
  | .erfc _ => []
  | .erfinv _ => []
  | .erfcinv _ => []
  | .j0 _ => []
  | .j1 _ => []
  | .y0 _ => []
  | .y1 _ => []
  | .frexp _ => []
  | .ldexp _ ex => intOf ex
  | .modf _ => []
  | .ilogb _ => []
  | .nextafter _ _ => []
  | .fma _ _ _ => []
  | .signbit _ => []
  | .isNaN _ => []
  | .isInf _ sign => [sign]
  | .degreesToRadians _ => []
  | .radiansToDegrees _ => []
  | .gcd a b => intOf a ++ intOf b
  | .lcm a b => intOf a ++ intOf b
  | .factorial n => intOf n
  | .fibonacci n => intOf n
  | .isPrime n => intOf n
  | .primeFactors n => intOf n
  | .sum _ => []
  | .product _ => []
  | .mean _ => []
  | .median _ => []
  | .mode _ => []
  | .variance _ => []
  | .stdDev _ => []
  | .rangeStat _ => []
  | .bitAnd a b => intOf a ++ intOf b
  | .bitOr a b => intOf a ++ intOf b
  | .bitXor a b => intOf a ++ intOf b
  | .bitNot a => intOf a
  | .bitLeftShift a n => intOf a ++ intOf n
  | .bitRightShift a n => intOf a ++ intOf n
  | .complexAbs _ _ => []
  | .complexPhase _ _ => []
  | .complexConj _ _ => []
  | .complexExp _ _ => []
  | .complexLog _ _ => []
  | .complexSqrt _ _ => []
  | .complexPow _ _ _ _ => []
  | .complexSin _ _ => []
  | .complexCos _ _ => []
  | .complexTan _ _ => []
  | .complexPolar _ _ => []
  | .complexRect _ _ => []

/-- A condition on the value of an extraction that succeeded. -/
def onOk {α : Type} (a : Except String α) (p : α → Bool) : Bool :=
  match a with
  | .error _ => false
  | .ok x => p x

/-- The check that `gammaHandler` makes on the value it computed,
`math.IsInf(result, 0) || math.IsNaN(result)`; no other handler checks its result. -/
def HandlerCall.resultCheckFails {F : Type} (lib : MathLib F) : HandlerCall F → Bool
  | .add _ _ => false
  | .subtract _ _ => false
  | .multiply _ _ => false
  | .divide _ _ => false
  | .mod _ _ => false
  | .remainder _ _ => false
  | .abs _ => false
  | .pow _ _ => false
  | .pow10 _ => false
  | .sqrt _ => false
  | .cbrt _ => false
  | .exp _ => false
  | .exp2 _ => false
  | .expm1 _ => false
  | .hypot _ _ => false
  | .log _ => false
  | .log10 _ => false
  | .log2 _ => false
  | .log1p _ => false
  | .logb _ => false
  | .sin _ => false
  | .cos _ => false
  | .tan _ => false
  | .asin _ => false
  | .acos _ => false
  | .atan _ => false
  | .atan2 _ _ => false
  | .sincos _ => false
  | .sinh _ => false
  | .cosh _ => false
  | .tanh _ => false
  | .asinh _ => false
  | .acosh _ => false
  | .atanh _ => false
  | .ceil _ => false
  | .floor _ => false
  | .round _ => false
  | .roundToEven _ => false
  | .trunc _ => false
  | .max _ _ => false
  | .min _ _ => false
  | .dim _ _ => false
  | .copysign _ _ => false
  | .gamma x =>
    onOk x (fun x => lib.isInf (lib.math1 "Gamma" x) 0 || lib.isNaN (lib.math1 "Gamma" x))
  | .lgamma _ => false
  | .erf _ => false
  | .erfc _ => false
  | .erfinv _ => false
  | .erfcinv _ => false
  | .j0 _ => false
  | .j1 _ => false
  | .y0 _ => false
  | .y1 _ => false
  | .frexp _ => false
  | .ldexp _ _ => false
  | .modf _ => false
  | .ilogb _ => false
  | .nextafter _ _ => false
  | .fma _ _ _ => false
  | .signbit _ => false
  | .isNaN _ => false
  | .isInf _ _ => false
  | .degreesToRadians _ => false
  | .radiansToDegrees _ => false
  | .gcd _ _ => false
  | .lcm _ _ => false
  | .factorial _ => false
  | .fibonacci _ => false
  | .isPrime _ => false
  | .primeFactors _ => false
  | .sum _ => false
  | .product _ => false
  | .mean _ => false
  | .median _ => false
  | .mode _ => false
  | .variance _ => false
  | .stdDev _ => false
  | .rangeStat _ => false
  | .bitAnd _ _ => false
  | .bitOr _ _ => false
  | .bitXor _ _ => false
  | .bitNot _ => false
  | .bitLeftShift _ _ => false
  | .bitRightShift _ _ => false
  | .complexAbs _ _ => false
  | .complexPhase _ _ => false
  | .complexConj _ _ => false
  | .complexExp _ _ => false
  | .complexLog _ _ => false
  | .complexSqrt _ _ => false
  | .complexPow _ _ _ _ => false
  | .complexSin _ _ => false
  | .complexCos _ _ => false
  | .complexTan _ _ => false
  | .complexPolar _ _ => false
  | .complexRect _ _ => false

/-- Follows the specification, not the source: the failure condition of a call in the guard
table of the specification ("Representative domain-guard table": `b == 0` for divide,
`y == 0` for mod and remainder, `x < 0` for sqrt, `x <= 0` for log, log10 and log2,
`x <= -1` for log1p, `x` outside `[-1, 1]` for asin and acos, `x <= -1 or x >= 1` for atanh,
`x < 1` for acosh, `x` outside `(-1, 1)` for erfinv and outside `(0, 2)` for erfcinv,
`x <= 0` for y0 and y1, `n < 0` or `n` beyond the cap for factorial (`170`) and fibonacci
(`1000`), `n <= 0` for prime_factors, a negative count for the shifts, an empty sequence
for the statistics aggregates), read on the value that the extraction produced, with the
comparisons of `float64`.  An operation without a row has no failure condition. -/
def specFailureCondition {F : Type} (env : FloatEnv F) : HandlerCall F → Bool
  | .add _ _ => false
  | .subtract _ _ => false
  | .multiply _ _ => false
  | .divide _ b => onOk b (fun b => env.eq b (env.ofInt 0))
  | .mod _ y => onOk y (fun y => env.eq y (env.ofInt 0))
  | .remainder _ y => onOk y (fun y => env.eq y (env.ofInt 0))
  | .abs _ => false
  | .pow _ _ => false
  | .pow10 _ => false
  | .sqrt x => onOk x (fun x => env.lt x (env.ofInt 0))
  | .cbrt _ => false
  | .exp _ => false
  | .exp2 _ => false
  | .expm1 _ => false
  | .hypot _ _ => false
  | .log x => onOk x (fun x => env.le x (env.ofInt 0))
  | .log10 x => onOk x (fun x => env.le x (env.ofInt 0))
  | .log2 x => onOk x (fun x => env.le x (env.ofInt 0))
  | .log1p x => onOk x (fun x => env.le x (env.ofInt (-1)))
  | .logb _ => false
  | .sin _ => false
  | .cos _ => false
  | .tan _ => false
  | .asin x => onOk x (fun x => env.lt x (env.ofInt (-1)) || env.lt (env.ofInt 1) x)
  | .acos x => onOk x (fun x => env.lt x (env.ofInt (-1)) || env.lt (env.ofInt 1) x)
  | .atan _ => false
  | .atan2 _ _ => false
  | .sincos _ => false
  | .sinh _ => false
  | .cosh _ => false
  | .tanh _ => false
  | .asinh _ => false
  | .acosh x => onOk x (fun x => env.lt x (env.ofInt 1))
  | .atanh x => onOk x (fun x => env.le x (env.ofInt (-1)) || env.le (env.ofInt 1) x)
  | .ceil _ => false
  | .floor _ => false
  | .round _ => false
  | .roundToEven _ => false
  | .trunc _ => false
  | .max _ _ => false
  | .min _ _ => false
  | .dim _ _ => false
  | .copysign _ _ => false
  | .gamma _ => false
  | .lgamma _ => false
  | .erf _ => false
  | .erfc _ => false
  | .erfinv x => onOk x (fun x => env.le x (env.ofInt (-1)) || env.le (env.ofInt 1) x)
  | .erfcinv x => onOk x (fun x => env.le x (env.ofInt 0) || env.le (env.ofInt 2) x)
  | .j0 _ => false
  | .j1 _ => false
  | .y0 x => onOk x (fun x => env.le x (env.ofInt 0))
  | .y1 x => onOk x (fun x => env.le x (env.ofInt 0))
  | .frexp _ => false
  | .ldexp _ _ => false
  | .modf _ => false
  | .ilogb _ => false
  | .nextafter _ _ => false
  | .fma _ _ _ => false
  | .signbit _ => false
  | .isNaN _ => false
  | .isInf _ _ => false
  | .degreesToRadians _ => false
  | .radiansToDegrees _ => false
  | .gcd _ _ => false
  | .lcm _ _ => false
  | .factorial n => onOk n (fun n => decide (n < 0) || decide (n > 170))
  | .fibonacci n => onOk n (fun n => decide (n < 0) || decide (n > 1000))
  | .isPrime _ => false
  | .primeFactors n => onOk n (fun n => decide (n ≤ 0))
  | .sum numbers => onOk numbers (fun numbers => numbers.isEmpty)
  | .product numbers => onOk numbers (fun numbers => numbers.isEmpty)
  | .mean numbers => onOk numbers (fun numbers => numbers.isEmpty)
  | .median numbers => onOk numbers (fun numbers => numbers.isEmpty)
  | .mode numbers => onOk numbers (fun numbers => numbers.isEmpty)
  | .variance numbers => onOk numbers (fun numbers => numbers.isEmpty)
  | .stdDev numbers => onOk numbers (fun numbers => numbers.isEmpty)
  | .rangeStat numbers => onOk numbers (fun numbers => numbers.isEmpty)
  | .bitAnd _ _ => false
  | .bitOr _ _ => false
  | .bitXor _ _ => false
  | .bitNot _ => false
  | .bitLeftShift _ n => onOk n (fun n => decide (n < 0))
  | .bitRightShift _ n => onOk n (fun n => decide (n < 0))
  | .complexAbs _ _ => false
  | .complexPhase _ _ => false
  | .complexConj _ _ => false
  | .complexExp _ _ => false
  | .complexLog _ _ => false
  | .complexSqrt _ _ => false
  | .complexPow _ _ _ _ => false
  | .complexSin _ _ => false
  | .complexCos _ _ => false
  | .complexTan _ _ => false
  | .complexPolar _ _ => false
  | .complexRect _ _ => false

/-! ### The counting loop of `modeHandler` -/

/-- Invariant of the counting loop of `modeHandler` after the elements `seen` have been
visited, when `==` holds between identical values only: the keys of `freq` are distinct and
are the values seen, each entry holds the number of occurrences of its key, and `maxFreq` is
the largest number of occurrences (`0` before the first element). -/
structure CountInv {F : Type} [DecidableEq F] (freq : List (F × Nat)) (maxFreq : Nat)
    (seen : List F) : Prop where
  nodup : (freq.map Prod.fst).Nodup
  keys : ∀ x, x ∈ freq.map Prod.fst ↔ x ∈ seen
  counts : ∀ p ∈ freq, p.2 = seen.count p.1
  bound : ∀ x, seen.count x ≤ maxFreq
  attained : (seen = [] ∧ maxFreq = 0) ∨ ∃ x ∈ seen, seen.count x = maxFreq

/-! ### A model of `float64` with signed zeros, infinities and NaN -/

/-- The values of a `float64`: NaN, the two infinities, negative zero, and the other finite
values, taken as exact rationals (`fin 0` is positive zero).  The model has the special
values of IEEE 754 and their rules, without rounding and without overflow. -/
inductive IeeeValue where
  | nan
  | inf (neg : Bool)
  | negZero
  | fin (q : ℚ)
  deriving DecidableEq

/-- Whether the value is NaN, `math.IsNaN`. -/
def IeeeValue.isNaN : IeeeValue → Bool
  | .nan => true
  | _ => false

/-- The sign bit. -/
def IeeeValue.signbit : IeeeValue → Bool
  | .nan => false
  | .inf s => s
  | .negZero => true
  | .fin q => decide (q < 0)

/-- Whether the value is one of the two zeros. -/
def IeeeValue.isZero : IeeeValue → Bool
  | .negZero => true
  | .fin q => decide (q = 0)
  | _ => false

/-- The number that a finite value stands for. -/
def IeeeValue.toRat : IeeeValue → ℚ
  | .fin q => q
  | _ => 0

/-- The zero of a given sign. -/
def IeeeValue.zero (neg : Bool) : IeeeValue :=
  if neg then .negZero else .fin 0

/-- Unary minus: the sign bit is flipped. -/
def IeeeValue.neg : IeeeValue → IeeeValue
  | .nan => .nan
  | .inf s => .inf (!s)
  | .negZero => .fin 0
  | .fin q => if q = 0 then .negZero else .fin (-q)

/-- Addition: opposite infinities give NaN, and a sum that is zero is positive zero unless
both terms are negative zero. -/
def IeeeValue.add : IeeeValue → IeeeValue → IeeeValue
  | .nan, _ => .nan
  | _, .nan => .nan
  | .inf s, .inf t => if s = t then .inf s else .nan
  | .inf s, _ => .inf s
  | _, .inf t => .inf t
  | .negZero, .negZero => .negZero
  | .negZero, .fin q => .fin q
  | .fin p, .negZero => .fin p
  | .fin p, .fin q => .fin (p + q)

/-- Subtraction, the addition of the opposite. -/
def IeeeValue.sub (a b : IeeeValue) : IeeeValue :=
  a.add b.neg

/-- Multiplication: the sign is the exclusive or of the signs, and an infinity times a zero
is NaN. -/
def IeeeValue.mul : IeeeValue → IeeeValue → IeeeValue
  | .nan, _ => .nan
  | _, .nan => .nan
  | .inf s, b => if b.isZero then .nan else .inf (s != b.signbit)
  | a, .inf t => if a.isZero then .nan else .inf (a.signbit != t)
  | a, b =>
    if a.isZero || b.isZero then IeeeValue.zero (a.signbit != b.signbit)
    else .fin (a.toRat * b.toRat)

/-- Division: the sign is the exclusive or of the signs; a zero by a zero and an infinity by
an infinity are NaN, another value by a zero is an infinity. -/
def IeeeValue.div : IeeeValue → IeeeValue → IeeeValue
  | .nan, _ => .nan
  | _, .nan => .nan
  | .inf _, .inf _ => .nan
  | .inf s, b => .inf (s != b.signbit)
  | a, .inf t => IeeeValue.zero (a.signbit != t)
  | a, b =>
    if b.isZero then
      if a.isZero then .nan else .inf (a.signbit != b.signbit)
    else if a.isZero then IeeeValue.zero (a.signbit != b.signbit)
    else .fin (a.toRat / b.toRat)

/-- The comparison `a < b`: false when an operand is NaN, and the two zeros are not apart. -/
def IeeeValue.lt : IeeeValue → IeeeValue → Bool
  | .nan, _ => false
  | _, .nan => false
  | .inf s, .inf t => s && !t
  | .inf s, _ => s
  | _, .inf t => !t
  | a, b => decide (a.toRat < b.toRat)

/-- The comparison `a == b`: false when an operand is NaN, true between the two zeros. -/
def IeeeValue.eq : IeeeValue → IeeeValue → Bool
  | .nan, _ => false
  | _, .nan => false
  | .inf s, .inf t => s == t
  | .inf _, _ => false
  | _, .inf _ => false
  | a, b => decide (a.toRat = b.toRat)

/-- The order that `sort.Float64s` sorts by: `x < y || (isNaN(x) && !isNaN(y))`. -/
def IeeeValue.less (a b : IeeeValue) : Bool :=
  a.lt b || (a.isNaN && !b.isNaN)

/-- The rendering `%g` of the special values; a finite value is rendered by `formatRat`. -/
def IeeeValue.format : IeeeValue → String
  | .nan => "NaN"
  | .inf false => "+Inf"
  | .inf true => "-Inf"
  | .negZero => "-0"
  | .fin q => formatRat q

/-- The model as an arithmetic for the handlers.  On a short slice (fewer than `12`
elements) `sort.Float64s` is an insertion sort, which keeps the elements that `less` does not
separate in their order; the square root of a positive rational and the order of map
iteration stay parameters. -/
def ieeeEnv (sqrt : ℚ → ℚ) (order : List (IeeeValue × Nat) → List (IeeeValue × Nat))
    (horder : ∀ l, (order l).Perm l) : FloatEnv IeeeValue where
  ofInt := fun k => .fin (k : ℚ)
  add := IeeeValue.add
  sub := IeeeValue.sub
  mul := IeeeValue.mul
  div := IeeeValue.div
  sqrt := fun a =>
    match a with
    | .nan => .nan
    | .inf s => if s then .nan else .inf false
    | .negZero => .negZero
    | .fin q => if q < 0 then .nan else .fin (sqrt q)
  lt := IeeeValue.lt
  eq := IeeeValue.eq
  format := IeeeValue.format
  sort := fun l => l.insertionSort (fun a b => b.less a = false)
  sort_perm := fun l => List.perm_insertionSort (fun a b => b.less a = false) l
  mapOrder := order
  mapOrder_perm := horder

/-- The model with map entries visited in insertion order, to evaluate examples; no example
uses the square root. -/
def ieeeExampleEnv : FloatEnv IeeeValue :=
  ieeeEnv (fun q => q) (fun l => l) (fun l => List.Perm.refl l)

/-! ## Theorems -/

/-- Reduction leaves an `int64` value unchanged. -/
theorem wrap64_eq_self {x : Int} (h : IsInt64 x) : wrap64 x = x := by
  unfold IsInt64 at h
  unfold wrap64
  omega

/-- Reduction lands in the `int64` range. -/
theorem wrap64_isInt64 (x : Int) : IsInt64 (wrap64 x) := by
  unfold IsInt64 wrap64
  omega

/-- A computation returns at most one value. -/
theorem Returns.unique {α : Type} {f : Nat → Option α} {r s : α}
    (hr : Returns f r) (hs : Returns f s) : r = s := by
  obtain ⟨k1, h1⟩ := hr
  obtain ⟨k2, h2⟩ := hs
  have e1 := h1 (max k1 k2) (le_max_left _ _)
  have e2 := h2 (max k1 k2) (le_max_right _ _)
  rw [e1] at e2
  exact Option.some.inj e2

/-- A result obtained with some iteration bound is returned, provided larger bounds keep results. -/
theorem returns_of_stable {α : Type} {f : Nat → Option α}
    (hm : ∀ k r, f k = some r → f (k + 1) = some r) (k0 : Nat) {r : α}
    (h : f k0 = some r) : Returns f r := by
  refine ⟨k0, fun k hk => ?_⟩
  induction k, hk using Nat.le_induction with
  | base => exact h
  | succ n _ ih => exact hm n r ih

/-- Absolute value of a truncated remainder. -/
theorem natAbs_tmod (a b : Int) : (Int.tmod a b).natAbs = a.natAbs % b.natAbs := by
  cases a <;> cases b <;> simp [Int.tmod, Int.natAbs_neg, Int.natAbs_ofNat] <;> rfl

/-- A truncated remainder is smaller than the divisor in absolute value: the measure of the Euclidean loop. -/
theorem natAbs_tmod_lt (a : Int) {b : Int} (hb : b ≠ 0) :
    (Int.tmod a b).natAbs < b.natAbs := by
  rw [natAbs_tmod]
  exact Nat.mod_lt _ (Int.natAbs_pos.mpr hb)

/-- The remainder by a non-zero divisor does not panic. -/
theorem goMod_of_ne {a b : Int} (hb : b ≠ 0) : goMod a b = some (Int.tmod a b) := by
  simp [goMod, hb]

/-- The quotient by a non-zero divisor does not panic. -/
theorem goDiv_of_ne {a b : Int} (hb : b ≠ 0) : goDiv a b = some (wrap64 (Int.tdiv a b)) := by
  simp [goDiv, hb]

/-! ### `gcd` -/

theorem gcd_succ_zero (k : Nat) (a : Int) : gcd (k + 1) a 0 = some a := by
  simp [gcd]

/-- One iteration of the Euclidean loop. -/
theorem gcd_succ_of_ne (k : Nat) (a : Int) {b : Int} (hb : b ≠ 0) :
    gcd (k + 1) a b = gcd k b (Int.tmod a b) := by
  simp [gcd, hb, goMod]

/-- A larger iteration bound does not change a result of `gcd`. -/
theorem gcd_stable : ∀ (k : Nat) (a b r : Int), gcd k a b = some r → gcd (k + 1) a b = some r := by
  intro k
  induction k with
  | zero => intro a b r h; simp [gcd] at h
  | succ n ih =>
    intro a b r h
    by_cases hb : b = 0
    · subst hb
      rw [gcd_succ_zero] at h ⊢
      exact h
    · rw [gcd_succ_of_ne _ _ hb] at h ⊢
      exact ih _ _ _ h

/-- The Euclidean loop ends on every pair of integers. -/
theorem gcd_terminates (a b : Int) : ∃ g, Returns (fun k => gcd k a b) g := by
  suffices H : ∀ (n : Nat) (a b : Int), b.natAbs = n → ∃ g, Returns (fun k => gcd k a b) g from
    H _ a b rfl
  intro n
  induction n using Nat.strong_induction_on with
  | _ n ih =>
    intro a b hn
    by_cases hb : b = 0
    · subst hb
      exact ⟨a, 1, fun k hk => by
        obtain ⟨j, rfl⟩ : ∃ j, k = j + 1 := ⟨k - 1, by omega⟩
        exact gcd_succ_zero j a⟩
    · have hlt : (Int.tmod a b).natAbs < n := hn ▸ natAbs_tmod_lt a hb
      obtain ⟨g, k0, hg⟩ := ih _ hlt b (Int.tmod a b) rfl
      refine ⟨g, k0 + 1, fun k hk => ?_⟩
      obtain ⟨j, rfl⟩ : ∃ j, k = j + 1 := ⟨k - 1, by omega⟩
      show gcd (j + 1) a b = some g
      rw [gcd_succ_of_ne _ _ hb]
      exact hg j (by omega)

/-- One step of the loop, read at the level of `Returns`. -/
theorem gcd_returns_step {a b g : Int} (hb : b ≠ 0)
    (h : Returns (fun k => gcd k b (Int.tmod a b)) g) : Returns (fun k => gcd k a b) g := by
  obtain ⟨k0, hg⟩ := h
  refine ⟨k0 + 1, fun k hk => ?_⟩
  obtain ⟨j, rfl⟩ : ∃ j, k = j + 1 := ⟨k - 1, by omega⟩
  show gcd (j + 1) a b = some g
  rw [gcd_succ_of_ne _ _ hb]
  exact hg j (by omega)

/-- On natural numbers the loop computes the greatest common divisor. -/
theorem gcd_returns_nat (m n : Nat) :
    Returns (fun k => gcd k (m : Int) (n : Int)) ((Nat.gcd m n : Nat) : Int) := by
  induction n using Nat.strong_induction_on generalizing m with
  | _ n ih =>
    by_cases hn : n = 0
    · subst hn
      refine ⟨1, fun k hk => ?_⟩
      obtain ⟨j, rfl⟩ : ∃ j, k = j + 1 := ⟨k - 1, by omega⟩
      simp [gcd]
    · have hb : (n : Int) ≠ 0 := by exact_mod_cast hn
      apply gcd_returns_step hb
      have hmod : Int.tmod (m : Int) (n : Int) = ((m % n : Nat) : Int) := (Int.ofNat_tmod m n).symm
      rw [hmod]
      have := ih (m % n) (Nat.mod_lt _ (Nat.pos_of_ne_zero hn)) n
      have e : Nat.gcd n (m % n) = Nat.gcd m n := by
        rw [Nat.gcd_comm n (m % n), ← Nat.gcd_rec, Nat.gcd_comm]
      rw [e] at this
      exact this

/-- On a non-negative argument `abs64` is the identity. -/
theorem abs64_of_nonneg {x : Int} (h : 0 ≤ x) : abs64 x = x := by
  simp [abs64, not_lt.mpr h]

/-- Away from the minimum `int64`, `abs64` is the absolute value. -/
theorem abs64_eq_natAbs {x : Int} (h1 : -9223372036854775808 < x) (h2 : x < 9223372036854775808) :
    abs64 x = (x.natAbs : Int) := by
  unfold abs64 wrap64
  split <;> omega

/-- At the minimum `int64` the negation wraps around. -/
theorem abs64_min : abs64 (-9223372036854775808) = -9223372036854775808 := by decide

/-- The value of `abs64` is non-negative, or it is the minimum `int64`. -/
theorem abs64_cases {x : Int} (h : IsInt64 x) :
    (0 ≤ abs64 x ∧ abs64 x < 9223372036854775808) ∨ abs64 x = -9223372036854775808 := by
  unfold IsInt64 at h
  unfold abs64 wrap64
  split <;> omega

/-- Within `(-2^63, 2^63)` the value printed by `gcdHandler` is the greatest common divisor. -/
theorem gcdHandlerResult_returns {a b : Int}
    (ha1 : -9223372036854775808 < a) (ha2 : a < 9223372036854775808)
    (hb1 : -9223372036854775808 < b) (hb2 : b < 9223372036854775808) :
    Returns (fun k => gcdHandlerResult k a b) ((Int.gcd a b : Nat) : Int) := by
  unfold gcdHandlerResult
  rw [abs64_eq_natAbs ha1 ha2, abs64_eq_natAbs hb1 hb2]
  exact gcd_returns_nat a.natAbs b.natAbs

/-- A larger iteration bound does not change the value printed by `gcdHandler`. -/
theorem gcdHandlerResult_stable (a b : Int) (k : Nat) (r : Int)
    (h : gcdHandlerResult k a b = some r) : gcdHandlerResult (k + 1) a b = some r :=
  gcd_stable k _ _ r h

/-- Swapping the arguments when the second one is the larger in absolute value costs one
extra iteration and gives the same result. -/
theorem gcd_returns_swap {x y g : Int} (hx : x < 0) (hy0 : 0 ≤ y) (hy : y < -x)
    (h : Returns (fun k => gcd k x y) g) : Returns (fun k => gcd k y x) g := by
  have hx0 : x ≠ 0 := by omega
  apply gcd_returns_step hx0
  have e : Int.tmod y x = y := by
    have : x = -(-x) := by omega
    rw [this, Int.tmod_neg]
    exact Int.tmod_eq_of_lt hy0 hy
  rw [e]
  exact h

/-- On non-negative arguments the loop computes the greatest common divisor. -/
theorem gcd_returns_nonneg {x y : Int} (hx : 0 ≤ x) (hy : 0 ≤ y) :
    Returns (fun k => gcd k x y) ((Int.gcd x y : Nat) : Int) := by
  obtain ⟨m, rfl⟩ := Int.eq_ofNat_of_zero_le hx
  obtain ⟨n, rfl⟩ := Int.eq_ofNat_of_zero_le hy
  exact gcd_returns_nat m n

/-- C5: for all 64-bit integers `a` and `b`, the gcd operation (`gcd` applied to `abs64 a`
and `abs64 b`, as `gcdHandler` computes it) returns a value, and returns the same value for
the arguments `(a, b)` and `(b, a)`. -/
theorem gcd_operation_comm (a b : Int) (ha : IsInt64 a) (hb : IsInt64 b) :
    ∃ g, Returns (fun k => gcdHandlerResult k a b) g ∧
      Returns (fun k => gcdHandlerResult k b a) g := by
  unfold gcdHandlerResult
  rcases abs64_cases ha with ⟨ha0, ha1⟩ | ha'
  · rcases abs64_cases hb with ⟨hb0, hb1⟩ | hb'
    · refine ⟨((Int.gcd (abs64 a) (abs64 b) : Nat) : Int), gcd_returns_nonneg ha0 hb0, ?_⟩
      rw [Int.gcd_comm]
      exact gcd_returns_nonneg hb0 ha0
    · obtain ⟨g, hg⟩ := gcd_terminates (abs64 b) (abs64 a)
      refine ⟨g, ?_, hg⟩
      exact gcd_returns_swap (by omega) ha0 (by omega) hg
  · rcases abs64_cases hb with ⟨hb0, hb1⟩ | hb'
    · obtain ⟨g, hg⟩ := gcd_terminates (abs64 a) (abs64 b)
      refine ⟨g, hg, ?_⟩
      exact gcd_returns_swap (by omega) hb0 (by omega) hg
    · obtain ⟨g, hg⟩ := gcd_terminates (abs64 a) (abs64 b)
      refine ⟨g, hg, ?_⟩
      rw [ha', hb'] at hg ⊢
      exact hg

/-- A larger iteration bound does not change the value printed by `lcmHandler`. -/
theorem lcmHandlerResult_stable (a b : Int) (k : Nat) (r : Int)
    (h : lcmHandlerResult k a b = some r) : lcmHandlerResult (k + 1) a b = some r := by
  unfold lcmHandlerResult at h ⊢
  by_cases h0 : a = 0 ∨ b = 0
  · simpa [h0] using h
  · simp only [h0, if_false] at h ⊢
    cases hg : gcd k (abs64 a) (abs64 b) with
    | none => simp [hg] at h
    | some g =>
      rw [gcd_stable k _ _ g hg]
      simpa [hg] using h

/-- Whenever the least common multiple fits in an `int64`, `lcmHandler` prints it. -/
theorem lcmHandlerResult_returns {a b : Int} (ha : a ≠ 0) (hb : b ≠ 0)
    (hl : (Int.lcm a b : Int) < 9223372036854775808) :
    Returns (fun k => lcmHandlerResult k a b) ((Int.lcm a b : Nat) : Int) := by
  have hma : 0 < a.natAbs := Int.natAbs_pos.mpr ha
  have hnb : 0 < b.natAbs := Int.natAbs_pos.mpr hb
  have hgpos : 0 < Nat.gcd a.natAbs b.natAbs := Nat.gcd_pos_of_pos_left _ hma
  have hlpos : 0 < Nat.lcm a.natAbs b.natAbs := Nat.lcm_pos hma hnb
  have hal : a.natAbs ≤ Nat.lcm a.natAbs b.natAbs := Nat.le_of_dvd hlpos (Nat.dvd_lcm_left _ _)
  have hbl : b.natAbs ≤ Nat.lcm a.natAbs b.natAbs := Nat.le_of_dvd hlpos (Nat.dvd_lcm_right _ _)
  have hl' : ((Nat.lcm a.natAbs b.natAbs : Nat) : Int) < 9223372036854775808 := hl
  have ea : abs64 a = (a.natAbs : Int) := abs64_eq_natAbs (by omega) (by omega)
  have eb : abs64 b = (b.natAbs : Int) := abs64_eq_natAbs (by omega) (by omega)
  obtain ⟨k0, hk0⟩ := gcd_returns_nat a.natAbs b.natAbs
  refine ⟨k0, fun k hk => ?_⟩
  have hg := hk0 k hk
  simp only at hg
  have hgne : ((Nat.gcd a.natAbs b.natAbs : Nat) : Int) ≠ 0 := by exact_mod_cast hgpos.ne'
  have hdiv : Int.tdiv (a.natAbs : Int) ((Nat.gcd a.natAbs b.natAbs : Nat) : Int)
      = ((a.natAbs / Nat.gcd a.natAbs b.natAbs : Nat) : Int) := (Int.ofNat_tdiv _ _).symm
  have hq : a.natAbs / Nat.gcd a.natAbs b.natAbs ≤ a.natAbs := Nat.div_le_self _ _
  have hmul : a.natAbs / Nat.gcd a.natAbs b.natAbs * b.natAbs = Nat.lcm a.natAbs b.natAbs := by
    apply Nat.eq_of_mul_eq_mul_left hgpos
    rw [Nat.gcd_mul_lcm, ← Nat.mul_assoc, Nat.mul_div_cancel' (Nat.gcd_dvd_left _ _)]
  generalize a.natAbs / Nat.gcd a.natAbs b.natAbs = q at hdiv hq hmul
  have hw1 : wrap64 (q : Int) = (q : Int) := wrap64_eq_self ⟨by omega, by omega⟩
  have hw2 : wrap64 ((Nat.lcm a.natAbs b.natAbs : Nat) : Int)
      = ((Nat.lcm a.natAbs b.natAbs : Nat) : Int) :=
    wrap64_eq_self ⟨by omega, by omega⟩
  show lcmHandlerResult k a b = some ((Int.lcm a b : Nat) : Int)
  unfold lcmHandlerResult
  rw [if_neg (by simp [ha, hb]), ea, eb, hg]
  simp only [goDiv_of_ne hgne, hdiv, hw1]
  rw [← Nat.cast_mul, hmul, hw2]
  rfl

/-- The gcd operation on `(-12, 8)` and on `(8, -12)`. -/
theorem gcd_operation_comm_witness :
    IsInt64 (-12) ∧ IsInt64 8 ∧
      ∃ g, Returns (fun k => gcdHandlerResult k (-12) 8) g ∧
        Returns (fun k => gcdHandlerResult k 8 (-12)) g :=
  ⟨by unfold IsInt64; decide, by unfold IsInt64; decide,
    gcd_operation_comm (-12) 8 (by unfold IsInt64; decide) (by unfold IsInt64; decide)⟩

/-- Inside `(-2^63, 2^63)` the gcd operation on `(a, 0)` returns `|a|`. -/
theorem gcd_operation_zero_right {a : Int}
    (h1 : -9223372036854775808 < a) (h2 : a < 9223372036854775808) :
    Returns (fun k => gcdHandlerResult k a 0) |a| := by
  have h := gcdHandlerResult_returns h1 h2 (b := 0) (by decide) (by decide)
  have e : ((Int.gcd a 0 : Nat) : Int) = |a| := by
    rw [Int.gcd_zero_right, Int.natCast_natAbs]
  rw [e] at h
  exact h

/-- For `0 ≤ n < 2^63` the gcd operation on `(0, n)` returns `n`. -/
theorem gcd_operation_zero_left {n : Int} (h1 : 0 ≤ n) (h2 : n < 9223372036854775808) :
    Returns (fun k => gcdHandlerResult k 0 n) n := by
  have h := gcdHandlerResult_returns (a := 0) (b := n) (by decide) (by decide) (by omega) h2
  have e : ((Int.gcd 0 n : Nat) : Int) = n := by
    rw [Int.gcd_zero_left, Int.natCast_natAbs, abs_of_nonneg h1]
  rw [e] at h
  exact h

/-- C6: on `(a, 0)` with `a = -2^63` the gcd operation returns `-2^63`, whereas
`|a| = 2^63`: the negation inside `abs64` wraps around. -/
theorem gcd_operation_min_zero :
    Returns (fun k => gcdHandlerResult k (-9223372036854775808) 0) (-9223372036854775808) ∧
      (-9223372036854775808 : Int) ≠ |(-9223372036854775808 : Int)| :=
  ⟨returns_of_stable (gcdHandlerResult_stable _ _) 1 (by decide), by decide⟩

/-- Inside `(-2^63, 2^63)` the value returned by the gcd operation is the greatest common
divisor: positive unless both arguments vanish, a common divisor, and a multiple of every
common divisor. -/
theorem gcd_operation_greatest {a b : Int}
    (ha1 : -9223372036854775808 < a) (ha2 : a < 9223372036854775808)
    (hb1 : -9223372036854775808 < b) (hb2 : b < 9223372036854775808) (hab : a ≠ 0 ∨ b ≠ 0) :
    ∃ g, Returns (fun k => gcdHandlerResult k a b) g ∧ 0 < g ∧ g ∣ a ∧ g ∣ b ∧
      ∀ c : Int, c ∣ a → c ∣ b → c ∣ g := by
  refine ⟨((Int.gcd a b : Nat) : Int), gcdHandlerResult_returns ha1 ha2 hb1 hb2, ?_,
    Int.gcd_dvd_left, Int.gcd_dvd_right, fun c hca hcb => Int.dvd_gcd hca hcb⟩
  have : 0 < Int.gcd a b := Int.gcd_pos_iff.mpr hab
  exact_mod_cast this

/-- C7: on `(-2^63, 6)` the gcd operation returns `-2`, which is not positive (the greatest
common divisor is `2`): the negation inside `abs64` wraps around. -/
theorem gcd_operation_min_six :
    Returns (fun k => gcdHandlerResult k (-9223372036854775808) 6) (-2) ∧ ¬ (0 < (-2 : Int)) :=
  ⟨returns_of_stable (gcdHandlerResult_stable _ _) 3 (by decide), by decide⟩

/-- A non-zero argument is at most the least common multiple, in absolute value. -/
theorem natAbs_le_lcm_left {a b : Int} (ha : a ≠ 0) (hb : b ≠ 0) : a.natAbs ≤ Int.lcm a b :=
  Nat.le_of_dvd (Nat.lcm_pos (Int.natAbs_pos.mpr ha) (Int.natAbs_pos.mpr hb))
    (Nat.dvd_lcm_left _ _)

/-- A non-zero argument is at most the least common multiple, in absolute value. -/
theorem natAbs_le_lcm_right {a b : Int} (ha : a ≠ 0) (hb : b ≠ 0) : b.natAbs ≤ Int.lcm a b :=
  Nat.le_of_dvd (Nat.lcm_pos (Int.natAbs_pos.mpr ha) (Int.natAbs_pos.mpr hb))
    (Nat.dvd_lcm_right _ _)

/-- C8 fails as stated: for `a = 2^62`, `b = 3` the lcm operation returns `-2^62` (the
product `2^62 * 3` wraps around) and the gcd operation returns `1`; their product is not
`|a * b|`. -/
theorem lcm_mul_gcd_overflow :
    Returns (fun k => lcmHandlerResult k 4611686018427387904 3) (-4611686018427387904) ∧
      Returns (fun k => gcdHandlerResult k 4611686018427387904 3) 1 ∧
      (-4611686018427387904 : Int) * 1 ≠ |(4611686018427387904 : Int) * 3| :=
  ⟨returns_of_stable (lcmHandlerResult_stable _ _) 3 (by decide),
    returns_of_stable (gcdHandlerResult_stable _ _) 3 (by decide), by decide⟩

/-- C8, amended: for all non-zero integers `a` and `b` whose least common multiple is below
`2^63`, the lcm and gcd operations return values whose product is `|a * b|`. -/
theorem lcm_mul_gcd (a b : Int) (ha : a ≠ 0) (hb : b ≠ 0)
    (hl : (Int.lcm a b : Int) < 9223372036854775808) :
    ∃ l g, Returns (fun k => lcmHandlerResult k a b) l ∧
      Returns (fun k => gcdHandlerResult k a b) g ∧ l * g = |a * b| := by
  have h1 := natAbs_le_lcm_left ha hb
  have h2 := natAbs_le_lcm_right ha hb
  refine ⟨_, _, lcmHandlerResult_returns ha hb hl,
    gcdHandlerResult_returns (by omega) (by omega) (by omega) (by omega), ?_⟩
  rw [← Int.natCast_natAbs, ← Int.gcd_mul_lcm, mul_comm]
  push_cast
  rfl

/-- The amended C8 on the pair `(4, -6)`. -/
theorem lcm_mul_gcd_witness :
    ∃ l g, Returns (fun k => lcmHandlerResult k 4 (-6)) l ∧
      Returns (fun k => gcdHandlerResult k 4 (-6)) g ∧ l * g = |(4 : Int) * (-6)| :=
  lcm_mul_gcd 4 (-6) (by decide) (by decide) (by decide)

/-- C9 fails as stated: for the coprime pair `a = 2^32`, `b = 2^32 + 1` the lcm operation
returns `2^32` (the product wraps around), which `b` does not divide. -/
theorem lcm_operation_overflow :
    Returns (fun k => lcmHandlerResult k 4294967296 4294967297) 4294967296 ∧
      ¬ ((4294967297 : Int) ∣ 4294967296) :=
  ⟨returns_of_stable (lcmHandlerResult_stable _ _) 4 (by decide), by decide⟩

/-- C9, amended: the lcm operation returns `0` whenever `a = 0` or `b = 0`; for all non-zero
`a` and `b` whose least common multiple is below `2^63` it returns the least positive common
multiple of `a` and `b`, which equals `|a| / gcd(|a|,|b|) * |b|`. -/
theorem lcm_operation (a b : Int) :
    (a = 0 ∨ b = 0 → Returns (fun k => lcmHandlerResult k a b) 0) ∧
    (a ≠ 0 → b ≠ 0 → (Int.lcm a b : Int) < 9223372036854775808 →
      ∃ l, Returns (fun k => lcmHandlerResult k a b) l ∧
        0 < l ∧ a ∣ l ∧ b ∣ l ∧ (∀ c : Int, 0 < c → a ∣ c → b ∣ c → l ≤ c) ∧
        l = |a| / (Int.gcd |a| |b| : Int) * |b|) := by
  constructor
  · intro h
    exact ⟨0, fun k _ => by simp [lcmHandlerResult, h]⟩
  · intro ha hb hl
    refine ⟨_, lcmHandlerResult_returns ha hb hl, ?_, Int.dvd_lcm_left, Int.dvd_lcm_right, ?_, ?_⟩
    · have : 0 < Int.lcm a b :=
        Nat.lcm_pos (Int.natAbs_pos.mpr ha) (Int.natAbs_pos.mpr hb)
      exact_mod_cast this
    · intro c hc hac hbc
      exact Int.le_of_dvd hc (Int.lcm_dvd hac hbc)
    · have hg : ((Int.gcd |a| |b| : Nat) : Int) ∣ |a| := Int.gcd_dvd_left
      have hgpos : (0 : Int) < (Int.gcd |a| |b| : Nat) := by
        have : 0 < Int.gcd |a| |b| := Int.gcd_pos_iff.mpr (Or.inl (abs_ne_zero.mpr ha))
        exact_mod_cast this
      have key : ((Int.gcd |a| |b| : Nat) : Int) * ((Int.lcm a b : Nat) : Int) = |a| * |b| := by
        have := Int.gcd_mul_lcm a b
        have e : Int.gcd |a| |b| = Int.gcd a b := by simp [Int.gcd, Int.natAbs_abs]
        rw [e]
        rw [← abs_mul, ← Int.natCast_natAbs, ← this]
        push_cast
        rfl
      apply Int.eq_of_mul_eq_mul_left hgpos.ne'
      rw [key, ← mul_assoc, Int.mul_ediv_cancel' hg]

/-- The amended C9 on `lcm(0, 5)` and `lcm(4, 6)`. -/
theorem lcm_operation_witness :
    Returns (fun k => lcmHandlerResult k 0 5) 0 ∧
      ∃ l, Returns (fun k => lcmHandlerResult k 4 6) l ∧
        0 < l ∧ (4 : Int) ∣ l ∧ (6 : Int) ∣ l ∧
        (∀ c : Int, 0 < c → (4 : Int) ∣ c → (6 : Int) ∣ c → l ≤ c) ∧
        l = |(4 : Int)| / (Int.gcd |(4 : Int)| |(6 : Int)| : Int) * |(6 : Int)| :=
  ⟨(lcm_operation 0 5).1 (Or.inl rfl),
    (lcm_operation 4 6).2 (by decide) (by decide) (by decide)⟩

/-! ### `factorial` -/

theorem factorialLoop_succ (k : Nat) (i n r : Int) :
    factorialLoop (k + 1) i n r =
      if i ≤ n then factorialLoop k (wrap64 (i + 1)) n (r * i) else some r := by
  simp [factorialLoop]

/-- A larger iteration bound does not change a result of the loop of `factorial`. -/
theorem factorialLoop_stable : ∀ (k : Nat) (i n r s : Int),
    factorialLoop k i n r = some s → factorialLoop (k + 1) i n r = some s := by
  intro k
  induction k with
  | zero => intro i n r s h; simp [factorialLoop] at h
  | succ m ih =>
    intro i n r s h
    rw [factorialLoop_succ] at h ⊢
    split at h
    · rename_i hle
      rw [if_pos hle]
      exact ih _ _ _ _ h
    · rename_i hle
      rw [if_neg hle]
      exact h

/-- Loop invariant of `factorial`: entering an iteration with counter `i` the accumulator
holds `(i - 1)!`; the loop then ends with `n!`. -/
theorem factorialLoop_returns (n : Nat) (hn : (n : Int) + 1 < 9223372036854775808) :
    ∀ (d i : Nat), 2 ≤ i → i + d = n + 1 →
      Returns (fun k => factorialLoop k (i : Int) (n : Int) (((i - 1).factorial : Nat) : Int))
        ((n.factorial : Nat) : Int) := by
  intro d
  induction d with
  | zero =>
    intro i hi hid
    refine ⟨1, fun k hk => ?_⟩
    obtain ⟨j, rfl⟩ : ∃ j, k = j + 1 := ⟨k - 1, by omega⟩
    show factorialLoop (j + 1) _ _ _ = _
    rw [factorialLoop_succ, if_neg (by omega)]
    have : i - 1 = n := by omega
    rw [this]
  | succ d ih =>
    intro i hi hid
    obtain ⟨k0, hk0⟩ := ih (i + 1) (by omega) (by omega)
    refine ⟨k0 + 1, fun k hk => ?_⟩
    obtain ⟨j, rfl⟩ : ∃ j, k = j + 1 := ⟨k - 1, by omega⟩
    show factorialLoop (j + 1) _ _ _ = _
    rw [factorialLoop_succ, if_pos (by omega)]
    have hw : wrap64 ((i : Int) + 1) = ((i + 1 : Nat) : Int) := by
      rw [wrap64_eq_self ⟨by omega, by omega⟩]
      push_cast
      rfl
    have hf : (((i - 1).factorial : Nat) : Int) * (i : Int) = (((i + 1 - 1).factorial : Nat) : Int) := by
      have : i + 1 - 1 = i := by omega
      rw [this, ← Nat.mul_factorial_pred (by omega : 0 < i)]
      push_cast
      ring
    rw [hw, hf]
    exact hk0 j (by omega)

/-- C10: for every integer `n` with `0 ≤ n ≤ 170`, `factorial(n)` returns `n!` exactly, as an
unbounded integer (the product `1 * 2 * ... * n`, with the empty product `1` for `n = 0`). -/
theorem factorial_exact (n : Int) (h0 : 0 ≤ n) (h1 : n ≤ 170) :
    Returns (fun k => factorial k n) ((n.toNat.factorial : Nat) : Int) := by
  obtain ⟨m, rfl⟩ := Int.eq_ofNat_of_zero_le h0
  simp only [Int.toNat_ofNat]
  unfold factorial
  by_cases hm : m < 2
  · refine ⟨1, fun k hk => ?_⟩
    obtain ⟨j, rfl⟩ : ∃ j, k = j + 1 := ⟨k - 1, by omega⟩
    show factorialLoop (j + 1) _ _ _ = _
    rw [factorialLoop_succ, if_neg (by omega)]
    have : m = 0 ∨ m = 1 := by omega
    rcases this with rfl | rfl <;> rfl
  · have := factorialLoop_returns m (by omega) (m + 1 - 2) 2 (by omega) (by omega)
    simpa using this

/-- The values `factorial(0) = 1`, `factorial(5) = 120` and `factorial(10) = 3628800`. -/
theorem factorial_exact_witness :
    Returns (fun k => factorial k 0) 1 ∧ Returns (fun k => factorial k 5) 120 ∧
      Returns (fun k => factorial k 10) 3628800 :=
  ⟨factorial_exact 0 (by decide) (by decide), factorial_exact 5 (by decide) (by decide),
    factorial_exact 10 (by decide) (by decide)⟩

/-! ### `isPrime` -/

theorem lt_of_not_wrap64_le {x n : Int} (hx : 0 ≤ x)
    (h : ¬ wrap64 x ≤ n) : n < x := by
  unfold wrap64 at h
  omega

/-- The loop of `isPrime` ends with `true` when its test fails. -/
theorem isPrimeLoop_exit (k : Nat) {i n : Int} (h : ¬ wrap64 (i * i) ≤ n) :
    isPrimeLoop (k + 1) i n = some true := by
  simp [isPrimeLoop, h]

/-- The loop of `isPrime` returns `false` when `i` divides `n`. -/
theorem isPrimeLoop_first (k : Nat) {i n : Int} (h : wrap64 (i * i) ≤ n) (hi : i ≠ 0)
    (h1 : Int.tmod n i = 0) : isPrimeLoop (k + 1) i n = some false := by
  simp [isPrimeLoop, h, goMod, hi, h1]

/-- The loop of `isPrime` returns `false` when `i + 2` divides `n`. -/
theorem isPrimeLoop_second (k : Nat) {i n : Int} (h : wrap64 (i * i) ≤ n) (hi : i ≠ 0)
    (h1 : Int.tmod n i ≠ 0) (hi2 : wrap64 (i + 2) ≠ 0) (h2 : Int.tmod n (wrap64 (i + 2)) = 0) :
    isPrimeLoop (k + 1) i n = some false := by
  simp [isPrimeLoop, h, goMod, hi, h1, hi2, h2]

/-- An iteration of the loop of `isPrime` that finds no divisor. -/
theorem isPrimeLoop_next (k : Nat) {i n : Int} (h : wrap64 (i * i) ≤ n) (hi : i ≠ 0)
    (h1 : Int.tmod n i ≠ 0) (hi2 : wrap64 (i + 2) ≠ 0) (h2 : Int.tmod n (wrap64 (i + 2)) ≠ 0) :
    isPrimeLoop (k + 1) i n = isPrimeLoop k (wrap64 (i + 6)) n := by
  simp [isPrimeLoop, h, goMod, hi, h1, hi2, h2]

/-- A larger iteration bound does not change a result of the loop of `isPrime`. -/
theorem isPrimeLoop_stable : ∀ (k : Nat) (i n : Int) (b : Bool),
    isPrimeLoop k i n = some b → isPrimeLoop (k + 1) i n = some b := by
  intro k
  induction k with
  | zero => intro i n b h; simp [isPrimeLoop] at h
  | succ m ih =>
    intro i n b h
    by_cases hw : wrap64 (i * i) ≤ n
    · by_cases hi : i = 0
      · subst hi
        simp [isPrimeLoop, goMod] at h
        simp at hw
        exact absurd hw (not_le.mpr h.1)
      · by_cases h1 : Int.tmod n i = 0
        · rw [isPrimeLoop_first _ hw hi h1] at h ⊢
          exact h
        · by_cases hi2 : wrap64 (i + 2) = 0
          · simp [isPrimeLoop, hw, goMod, hi, h1, hi2] at h
          · by_cases h2 : Int.tmod n (wrap64 (i + 2)) = 0
            · rw [isPrimeLoop_second _ hw hi h1 hi2 h2] at h ⊢
              exact h
            · rw [isPrimeLoop_next _ hw hi h1 hi2 h2] at h ⊢
              exact ih _ _ _ h
    · rw [isPrimeLoop_exit _ hw] at h ⊢
      exact h

/-- A larger iteration bound does not change a result of `isPrime`. -/
theorem isPrime_stable (n : Int) (k : Nat) (b : Bool)
    (h : isPrime k n = some b) : isPrime (k + 1) n = some b := by
  unfold isPrime at h ⊢
  split
  · rename_i h1; simpa [h1] using h
  · rename_i h1
    split
    · rename_i h2; simpa [h1, h2] using h
    · rename_i h2
      split
      · rename_i h3; simpa [h1, h2, h3] using h
      · rename_i h3
        simp only [h1, h2, h3, if_false] at h
        exact isPrimeLoop_stable _ _ _ _ h

/-- A number below `i * i` that has no divisor in `[2, i)` is prime. -/
theorem isPrimeNumber_of_no_small_divisor {i n : Int} (hn : 2 ≤ n) (hi : 0 ≤ i)
    (hlt : n < i * i) (hnd : ∀ d : Int, 2 ≤ d → d < i → ¬ d ∣ n) : IsPrimeNumber n := by
  refine ⟨hn, fun d hd1 hdn hdvd => ?_⟩
  obtain ⟨e, he⟩ := hdvd
  have he2 : 2 ≤ e := by
    by_contra hcon
    have : e ≤ 1 := by omega
    nlinarith
  by_cases hdi : d < i
  · exact hnd d (by omega) hdi ⟨e, he⟩
  · have hei : e < i := by
      by_contra hcon
      have h1 : i ≤ d := by omega
      have h2 : i ≤ e := by omega
      nlinarith
    exact hnd e he2 hei ⟨d, by rw [he]; ring⟩

/-- Two is prime. -/
theorem isPrimeNumber_two : IsPrimeNumber 2 :=
  ⟨le_refl _, fun d h1 h2 _ => by omega⟩

/-- Three is prime. -/
theorem isPrimeNumber_three : IsPrimeNumber 3 :=
  ⟨by decide, fun d h1 h2 h => by
    have : d = 2 := by omega
    subst this
    revert h
    decide⟩

/-- No integer in `[2^63 - 7, 2^63)` is free of small divisors. -/
theorem small_divisor_near_bound {n : Int} (h1 : 9223372036854775801 ≤ n)
    (h2 : n < 9223372036854775808) : ∃ d : Int, 2 ≤ d ∧ d < 200 ∧ d ∣ n := by
  have : n = 9223372036854775801 ∨ n = 9223372036854775802 ∨ n = 9223372036854775803 ∨
      n = 9223372036854775804 ∨ n = 9223372036854775805 ∨ n = 9223372036854775806 ∨
      n = 9223372036854775807 := by omega
  rcases this with rfl | rfl | rfl | rfl | rfl | rfl | rfl
  · exact ⟨157, by decide, by decide, by decide⟩
  · exact ⟨2, by decide, by decide, by decide⟩
  · exact ⟨3, by decide, by decide, by decide⟩
  · exact ⟨2, by decide, by decide, by decide⟩
  · exact ⟨5, by decide, by decide, by decide⟩
  · exact ⟨2, by decide, by decide, by decide⟩
  · exact ⟨7, by decide, by decide, by decide⟩

/-- Inside the loop body the counter is still far below `n`. -/
theorem IsPrimeInv.add_two_lt {i n : Int} (inv : IsPrimeInv i n) (hw : wrap64 (i * i) ≤ n) :
    i + 2 < n := by
  have h5 := inv.five_le
  rcases inv.large with hsmall | hlarge
  · have hsq : i * i ≤ 3037000499 * 3037000499 := by nlinarith
    have hsq0 : 5 * i ≤ i * i := by nlinarith
    have hwrap : wrap64 (i * i) = i * i :=
      wrap64_eq_self ⟨by nlinarith, by omega⟩
    rw [hwrap] at hw
    omega
  · have := inv.le_star
    omega

/-- The counter never reaches the largest value the invariant allows while the loop test
succeeds: there the square wraps to `2^63 - 7`, and the numbers from there on have small
divisors. -/
theorem IsPrimeInv.lt_star {i n : Int} (inv : IsPrimeInv i n) (hw : wrap64 (i * i) ≤ n) :
    i < 2759374635167858507 := by
  by_contra hcon
  have hi : i = 2759374635167858507 := by
    have := inv.le_star
    omega
  subst hi
  have hc : wrap64 (2759374635167858507 * 2759374635167858507) = 9223372036854775801 := by
    decide
  rw [hc] at hw
  obtain ⟨d, hd2, hd200, hdvd⟩ := small_divisor_near_bound hw inv.lt_bound
  exact inv.no_divisor d hd2 (by omega) hdvd

/-- The invariant is kept by an iteration that does not return. -/
theorem isPrimeInv_next {i n : Int} (inv : IsPrimeInv i n) (hw : wrap64 (i * i) ≤ n)
    (h1 : ¬ i ∣ n) (h2 : ¬ (i + 2) ∣ n) : IsPrimeInv (i + 6) n := by
  have h5 := inv.five_le
  have h6 := inv.mod_six
  have hlt := inv.lt_star hw
  have hle := inv.le_star
  have hn2 : ¬ (2 : Int) ∣ n := inv.no_divisor 2 (le_refl _) (by omega)
  have hn3 : ¬ (3 : Int) ∣ n := inv.no_divisor 3 (by decide) (by omega)
  refine ⟨by omega, by omega, by omega, inv.lt_bound, inv.three_lt, ?_, ?_⟩
  · intro d hd2 hdi hdvd
    have hcases : d < i ∨ d = i ∨ d = i + 1 ∨ d = i + 2 ∨ d = i + 3 ∨ d = i + 4 ∨ d = i + 5 := by
      omega
    rcases hcases with h | rfl | rfl | rfl | rfl | rfl | rfl
    · exact inv.no_divisor d hd2 h hdvd
    · exact h1 hdvd
    · exact hn2 (dvd_trans (Int.dvd_of_emod_eq_zero (by omega)) hdvd)
    · exact h2 hdvd
    · exact hn2 (dvd_trans (Int.dvd_of_emod_eq_zero (by omega)) hdvd)
    · exact hn3 (dvd_trans (Int.dvd_of_emod_eq_zero (by omega)) hdvd)
    · exact hn2 (dvd_trans (Int.dvd_of_emod_eq_zero (by omega)) hdvd)
  · by_cases hs : i + 6 ≤ 3037000499
    · exact Or.inl hs
    · right
      rcases inv.large with hsmall | hlarge
      · have hi : i = 3037000499 := by omega
        subst hi
        have hc : wrap64 (3037000499 * 3037000499) = 9223372030926249001 := by decide
        rw [hc] at hw
        exact hw
      · exact hlarge

/-- Total correctness of the loop of `isPrime` from any state satisfying the invariant. -/
theorem isPrimeLoop_returns (n : Int) : ∀ (m : Nat) (i : Int), IsPrimeInv i n →
    2759374635167858507 - i < (m : Int) →
    ∃ b, Returns (fun k => isPrimeLoop k i n) b ∧ (b = true ↔ IsPrimeNumber n) := by
  intro m
  induction m with
  | zero =>
    intro i inv hm
    have := inv.le_star
    simp at hm
    omega
  | succ m ih =>
    intro i inv hm
    have h5 := inv.five_le
    have hi0 : i ≠ 0 := by omega
    by_cases hw : wrap64 (i * i) ≤ n
    · have hin := inv.add_two_lt hw
      have hlt := inv.lt_star hw
      have hw2 : wrap64 (i + 2) = i + 2 := wrap64_eq_self ⟨by omega, by omega⟩
      have hw6 : wrap64 (i + 6) = i + 6 := wrap64_eq_self ⟨by omega, by omega⟩
      have hi2 : wrap64 (i + 2) ≠ 0 := by rw [hw2]; omega
      by_cases h1 : Int.tmod n i = 0
      · refine ⟨false, ⟨1, fun k hk => ?_⟩, ?_⟩
        · obtain ⟨j, rfl⟩ : ∃ j, k = j + 1 := ⟨k - 1, by omega⟩
          exact isPrimeLoop_first j hw hi0 h1
        · constructor
          · intro h; cases h
          · intro hp
            exact absurd (Int.dvd_of_tmod_eq_zero h1) (hp.2 i (by omega) (by omega))
      · by_cases h2 : Int.tmod n (wrap64 (i + 2)) = 0
        · refine ⟨false, ⟨1, fun k hk => ?_⟩, ?_⟩
          · obtain ⟨j, rfl⟩ : ∃ j, k = j + 1 := ⟨k - 1, by omega⟩
            exact isPrimeLoop_second j hw hi0 h1 hi2 h2
          · constructor
            · intro h; cases h
            · intro hp
              rw [hw2] at h2
              exact absurd (Int.dvd_of_tmod_eq_zero h2) (hp.2 (i + 2) (by omega) (by omega))
        · have hd1 : ¬ i ∣ n := fun h => h1 (Int.tmod_eq_zero_of_dvd h)
          have hd2 : ¬ (i + 2) ∣ n := fun h => h2 (by rw [hw2]; exact Int.tmod_eq_zero_of_dvd h)
          obtain ⟨b, ⟨k0, hk0⟩, hb⟩ := ih (i + 6) (isPrimeInv_next inv hw hd1 hd2) (by push_cast at hm; omega)
          refine ⟨b, ⟨k0 + 1, fun k hk => ?_⟩, hb⟩
          obtain ⟨j, rfl⟩ : ∃ j, k = j + 1 := ⟨k - 1, by omega⟩
          show isPrimeLoop (j + 1) i n = some b
          rw [isPrimeLoop_next j hw hi0 h1 hi2 h2, hw6]
          exact hk0 j (by omega)
    · refine ⟨true, ⟨1, fun k hk => ?_⟩, ?_⟩
      · obtain ⟨j, rfl⟩ : ∃ j, k = j + 1 := ⟨k - 1, by omega⟩
        exact isPrimeLoop_exit j hw
      · have hlt : n < i * i := lt_of_not_wrap64_le (by nlinarith) hw
        have := inv.three_lt
        exact ⟨fun _ => isPrimeNumber_of_no_small_divisor (by omega) (by omega) hlt inv.no_divisor,
          fun _ => rfl⟩

/-- Total correctness of `isPrime` on every `int64`. -/
theorem isPrime_returns (n : Int) (hn : n < 9223372036854775808) :
    ∃ b, Returns (fun k => isPrime k n) b ∧ (b = true ↔ IsPrimeNumber n) := by
  by_cases h1 : n ≤ 1
  · refine ⟨false, ⟨0, fun k _ => by simp [isPrime, h1]⟩, ?_⟩
    constructor
    · intro h; cases h
    · intro hp
      have := hp.1
      omega
  · by_cases h3 : n ≤ 3
    · refine ⟨true, ⟨0, fun k _ => by simp [isPrime, h1, h3]⟩, ?_⟩
      have : n = 2 ∨ n = 3 := by omega
      rcases this with rfl | rfl
      · exact ⟨fun _ => isPrimeNumber_two, fun _ => rfl⟩
      · exact ⟨fun _ => isPrimeNumber_three, fun _ => rfl⟩
    · by_cases h23 : Int.tmod n 2 = 0 ∨ Int.tmod n 3 = 0
      · refine ⟨false, ⟨0, fun k _ => by simp [isPrime, h1, h3, h23]⟩, ?_⟩
        constructor
        · intro h; cases h
        · intro hp
          rcases h23 with h | h
          · exact absurd (Int.dvd_of_tmod_eq_zero h) (hp.2 2 (by decide) (by omega))
          · exact absurd (Int.dvd_of_tmod_eq_zero h) (hp.2 3 (by decide) (by omega))
      · have hn2 : ¬ (2 : Int) ∣ n := fun h => h23 (Or.inl (Int.tmod_eq_zero_of_dvd h))
        have hn3 : ¬ (3 : Int) ∣ n := fun h => h23 (Or.inr (Int.tmod_eq_zero_of_dvd h))
        have inv : IsPrimeInv 5 n := by
          refine ⟨le_refl _, by decide, by decide, hn, by omega, ?_, Or.inl (by decide)⟩
          intro d hd2 hd5 hdvd
          have : d = 2 ∨ d = 3 ∨ d = 4 := by omega
          rcases this with rfl | rfl | rfl
          · exact hn2 hdvd
          · exact hn3 hdvd
          · exact hn2 (dvd_trans (by decide) hdvd)
        obtain ⟨b, ⟨k0, hk0⟩, hb⟩ := isPrimeLoop_returns n 2759374635167858503 5 inv (by decide)
        refine ⟨b, ⟨k0, fun k hk => ?_⟩, hb⟩
        show isPrime k n = some b
        unfold isPrime
        rw [if_neg h1, if_neg h3, if_neg h23]
        exact hk0 k hk

/-- The executable `trialDivision` says what the specification's words say. -/
theorem trialDivision_eq_true_iff (n : Int) :
    trialDivision n = true ↔ 2 ≤ n ∧ ∀ d : Int, 2 ≤ d → d * d ≤ n → ¬ d ∣ n := by
  unfold trialDivision
  simp only [Bool.and_eq_true, decide_eq_true_eq, List.all_eq_true, List.mem_range,
    Bool.not_eq_true', Bool.and_eq_false_imp, decide_eq_false_iff_not]
  constructor
  · rintro ⟨h2, hall⟩
    refine ⟨h2, fun d hd hdd hdvd => ?_⟩
    have hdn : d < n := by nlinarith
    have hcast : ((d.toNat : Nat) : Int) = d := Int.toNat_of_nonneg (by omega)
    have hlt : d.toNat < n.toNat := by omega
    have hge : 2 ≤ d.toNat := by omega
    refine hall d.toNat hlt ⟨hge, ?_⟩ ?_
    · rw [hcast]; exact hdd
    · rw [hcast]; exact Int.emod_eq_zero_of_dvd hdvd
  · rintro ⟨h2, hall⟩
    refine ⟨h2, fun d _ hd hmod => ?_⟩
    exact hall (d : Int) (by exact_mod_cast hd.1) hd.2 (Int.dvd_of_emod_eq_zero hmod)

/-- Trial division up to the square root decides primality. -/
theorem trialDivision_iff_isPrimeNumber (n : Int) :
    trialDivision n = true ↔ IsPrimeNumber n := by
  rw [trialDivision_eq_true_iff]
  constructor
  · rintro ⟨h2, hall⟩
    refine ⟨h2, fun d hd1 hdn hdvd => ?_⟩
    by_cases hdd : d * d ≤ n
    · exact hall d (by omega) hdd hdvd
    · obtain ⟨e, he⟩ := hdvd
      have he2 : 2 ≤ e := by
        by_contra hcon
        have : e ≤ 1 := by omega
        nlinarith
      have hed : e < d := by
        by_contra hcon
        have : d ≤ e := by omega
        nlinarith
      exact hall e he2 (by nlinarith) ⟨d, by rw [he]; ring⟩
  · rintro ⟨h2, hall⟩
    refine ⟨h2, fun d hd hdd hdvd => ?_⟩
    exact hall d (by omega) (by nlinarith) hdvd

/-- C3: for every 64-bit integer `n`, `isPrime(n)` returns, and it returns true if and only
if `n` is a prime number (`n >= 2` and no `d` with `1 < d < n` divides `n`); in particular
it returns false for every `n <= 1`, the negative `n` included. -/
theorem isPrime_correct (n : Int) (hn : IsInt64 n) :
    ∃ b, Returns (fun k => isPrime k n) b ∧ (b = true ↔ IsPrimeNumber n) ∧
      (n ≤ 1 → b = false) := by
  obtain ⟨b, hr, hb⟩ := isPrime_returns n hn.2
  refine ⟨b, hr, hb, fun h1 => ?_⟩
  cases hbb : b with
  | false => rfl
  | true =>
    have := (hb.mp hbb).1
    omega

/-- The primality test on `17`. -/
theorem isPrime_correct_witness :
    IsInt64 17 ∧ ∃ b, Returns (fun k => isPrime k 17) b ∧ (b = true ↔ IsPrimeNumber 17) ∧
      ((17 : Int) ≤ 1 → b = false) :=
  ⟨by unfold IsInt64; decide, isPrime_correct 17 (by unfold IsInt64; decide)⟩

/-- C4: for every integer `n` with `-10 <= n <= 10000`, `isPrime(n)` returns the result of
naive trial division up to the square root: true exactly when `n >= 2` and no `d` with
`2 <= d` and `d * d <= n` divides `n` (see `trialDivision_eq_true_iff`). -/
theorem isPrime_refines_trialDivision (n : Int) (h1 : -10 ≤ n) (h2 : n ≤ 10000) :
    Returns (fun k => isPrime k n) (trialDivision n) := by
  obtain ⟨b, hr, hb⟩ := isPrime_returns n (by omega)
  have : b = trialDivision n := by
    rw [Bool.eq_iff_iff, hb, trialDivision_iff_isPrimeNumber]
  rw [← this]
  exact hr

/-- The refinement at `9973` and at the lower end `-10` of the interval. -/
theorem isPrime_refines_trialDivision_witness :
    Returns (fun k => isPrime k 9973) (trialDivision 9973) ∧
      Returns (fun k => isPrime k (-10)) (trialDivision (-10)) :=
  ⟨isPrime_refines_trialDivision 9973 (by decide) (by decide),
    isPrime_refines_trialDivision (-10) (by decide) (by decide)⟩

/-! ### `primeFactors` -/

theorem divideOut_done (k : Nat) {d n : Int} (fs : List Int) (hd : d ≠ 0)
    (h : Int.tmod n d ≠ 0) : divideOut (k + 1) d n fs = some (n, fs) := by
  simp [divideOut, goMod, hd, h]

/-- One iteration of the division loop. -/
theorem divideOut_step (k : Nat) {d n : Int} (fs : List Int) (hd : d ≠ 0)
    (h : Int.tmod n d = 0) :
    divideOut (k + 1) d n fs = divideOut k d (wrap64 (Int.tdiv n d)) (fs ++ [d]) := by
  simp [divideOut, goMod, goDiv, hd, h]

/-- A larger iteration bound does not change a result of the division loop. -/
theorem divideOut_stable : ∀ (k : Nat) (d n : Int) (fs : List Int) (r : Int × List Int),
    divideOut k d n fs = some r → divideOut (k + 1) d n fs = some r := by
  intro k
  induction k with
  | zero => intro d n fs r h; simp [divideOut] at h
  | succ m ih =>
    intro d n fs r h
    by_cases hd : d = 0
    · simp [divideOut, goMod, hd] at h
    · by_cases h0 : Int.tmod n d = 0
      · rw [divideOut_step _ _ hd h0] at h ⊢
        exact ih _ _ _ _ h
      · rw [divideOut_done _ _ hd h0] at h ⊢
        exact h

/-- The division loop ends, having removed every factor `d` from `n`. -/
theorem divideOut_returns (d : Int) (hd : 2 ≤ d) : ∀ (m : Nat) (n : Int) (fs : List Int),
    1 ≤ n → n < 9223372036854775808 → n ≤ (m : Int) →
    ∃ (k : Nat) (n1 : Int), Returns (fun f => divideOut f d n fs) (n1, fs ++ List.replicate k d) ∧
      n = d ^ k * n1 ∧ 1 ≤ n1 ∧ n1 ≤ n ∧ ¬ d ∣ n1 := by
  have hd0 : d ≠ 0 := by omega
  intro m
  induction m with
  | zero => intro n fs h1 _ hm; simp at hm; omega
  | succ m ih =>
    intro n fs h1 hB hm
    by_cases h0 : Int.tmod n d = 0
    · have hdvd : d ∣ n := Int.dvd_of_tmod_eq_zero h0
      have hq : Int.tdiv n d = n / d := Int.tdiv_eq_ediv (by omega) (by omega)
      have hmul : n / d * d = n := Int.ediv_mul_cancel hdvd
      have hq1 : 1 ≤ n / d := by
        by_contra hcon
        have : n / d ≤ 0 := by omega
        nlinarith
      have hqn : n / d < n := by nlinarith
      have hw : wrap64 (Int.tdiv n d) = n / d := by
        rw [hq]
        exact wrap64_eq_self ⟨by omega, by omega⟩
      obtain ⟨k, n1, ⟨f0, hf0⟩, hprod, hn1, hle, hnd⟩ :=
        ih (n / d) (fs ++ [d]) hq1 (by omega) (by push_cast at hm; omega)
      refine ⟨k + 1, n1, ⟨f0 + 1, fun f hf => ?_⟩, ?_, hn1, by omega, hnd⟩
      · obtain ⟨j, rfl⟩ : ∃ j, f = j + 1 := ⟨f - 1, by omega⟩
        show divideOut (j + 1) d n fs = _
        have hj : divideOut j d (n / d) (fs ++ [d]) = _ := hf0 j (by omega)
        rw [divideOut_step _ _ hd0 h0, hw, hj]
        simp [List.replicate_succ]
      · rw [pow_succ, mul_assoc, mul_comm d n1, ← mul_assoc, ← hprod, hmul]
    · refine ⟨0, n, ⟨1, fun f hf => ?_⟩, by simp, h1, le_refl _, ?_⟩
      · obtain ⟨j, rfl⟩ : ∃ j, f = j + 1 := ⟨f - 1, by omega⟩
        show divideOut (j + 1) d n fs = _
        rw [divideOut_done _ _ hd0 h0]
        simp
      · exact fun h => h0 (Int.tmod_eq_zero_of_dvd h)

/-- The odd-divisor loop stops when its test fails. -/
theorem oddFactors_exit (k : Nat) {i n : Int} (fs : List Int) (h : ¬ wrap64 (i * i) ≤ n) :
    oddFactors (k + 1) i n fs = some (n, fs) := by
  simp [oddFactors, h]

/-- One iteration of the odd-divisor loop. -/
theorem oddFactors_step (k : Nat) {i n : Int} (fs : List Int) (h : wrap64 (i * i) ≤ n)
    {n1 : Int} {fs1 : List Int} (hdiv : divideOut k i n fs = some (n1, fs1)) :
    oddFactors (k + 1) i n fs = oddFactors k (wrap64 (i + 2)) n1 fs1 := by
  simp [oddFactors, h, hdiv]

/-- A larger iteration bound does not change a result of the odd-divisor loop. -/
theorem oddFactors_stable : ∀ (k : Nat) (i n : Int) (fs : List Int) (r : Int × List Int),
    oddFactors k i n fs = some r → oddFactors (k + 1) i n fs = some r := by
  intro k
  induction k with
  | zero => intro i n fs r h; simp [oddFactors] at h
  | succ m ih =>
    intro i n fs r h
    by_cases hw : wrap64 (i * i) ≤ n
    · cases hdiv : divideOut m i n fs with
      | none => simp [oddFactors, hw, hdiv] at h
      | some p =>
        obtain ⟨n1, fs1⟩ := p
        rw [oddFactors_step _ _ hw hdiv] at h
        rw [oddFactors_step _ _ hw (divideOut_stable _ _ _ _ _ hdiv)]
        exact ih _ _ _ _ h
    · rw [oddFactors_exit _ _ hw] at h ⊢
      exact h

/-- A larger iteration bound does not change a result of `primeFactors`. -/
theorem primeFactors_stable (n : Int) (k : Nat) (r : List Int)
    (h : primeFactors k n = some r) : primeFactors (k + 1) n = some r := by
  unfold primeFactors at h ⊢
  cases h1 : divideOut k 2 n [] with
  | none => simp [h1] at h
  | some p =>
    obtain ⟨n1, fs1⟩ := p
    rw [divideOut_stable _ _ _ _ _ h1]
    simp only [h1] at h ⊢
    cases h2 : oddFactors k 3 n1 fs1 with
    | none => simp [h2] at h
    | some q =>
      obtain ⟨n2, fs2⟩ := q
      rw [oddFactors_stable _ _ _ _ _ h2]
      simpa [h2] using h

/-- What is left to factor is at least the counter, unless it is `1`. -/
theorem OddFactorsInv.le_of_one_lt {n0 i n : Int} {fs : List Int}
    (inv : OddFactorsInv n0 i n fs) (h : 1 < n) : i ≤ n := by
  by_contra hcon
  exact inv.no_divisor n (by omega) (by omega) (dvd_refl n)

/-- The loop test fails at the largest counter the invariant allows: there the square wraps
to `9`, and the numbers from `2^63 - 3` on have small divisors. -/
theorem OddFactorsInv.lt_top {n0 i n : Int} {fs : List Int}
    (inv : OddFactorsInv n0 i n fs) (hw : wrap64 (i * i) ≤ n) : i < 9223372036854775805 := by
  by_contra hcon
  have hi : i = 9223372036854775805 := by
    have := inv.le_top
    omega
  subst hi
  have hc : wrap64 (9223372036854775805 * 9223372036854775805) = 9 := by decide
  rw [hc] at hw
  have hle := inv.le_of_one_lt (by omega)
  obtain ⟨d, hd2, hd200, hdvd⟩ := small_divisor_near_bound (by omega) inv.lt_bound
  exact inv.no_divisor d hd2 (by omega) hdvd

/-- A divisor of what is left to factor that equals the counter is prime. -/
theorem OddFactorsInv.prime_of_dvd {n0 i n : Int} {fs : List Int}
    (inv : OddFactorsInv n0 i n fs) (h : i ∣ n) : IsPrimeNumber i := by
  have := inv.three_le
  exact ⟨by omega, fun d hd1 hdi hdvd => inv.no_divisor d (by omega) hdi (dvd_trans hdvd h)⟩

/-- The invariant is kept by an iteration of the odd-divisor loop. -/
theorem oddFactorsInv_next {n0 i n : Int} {fs : List Int} (inv : OddFactorsInv n0 i n fs)
    (hw : wrap64 (i * i) ≤ n) {k : Nat} {n1 : Int} (hprod : n = i ^ k * n1) (h1 : 1 ≤ n1)
    (hle : n1 ≤ n) (hnd : ¬ i ∣ n1) :
    OddFactorsInv n0 (i + 2) n1 (fs ++ List.replicate k i) := by
  have h3 := inv.three_le
  have hodd := inv.odd
  have hlt := inv.lt_top hw
  have hdvd1 : n1 ∣ n := ⟨i ^ k, by rw [hprod]; ring⟩
  have hn2 : ¬ (2 : Int) ∣ n := inv.no_divisor 2 (le_refl _) (by omega)
  refine ⟨by omega, by omega, by omega, h1, by have := inv.lt_bound; omega, ?_, ?_, ?_, ?_, ?_⟩
  · intro d hd2 hdi hdvd
    have hcases : d < i ∨ d = i ∨ d = i + 1 := by omega
    rcases hcases with h | rfl | rfl
    · exact inv.no_divisor d hd2 h (dvd_trans hdvd hdvd1)
    · exact hnd hdvd
    · exact hn2 (dvd_trans (Int.dvd_of_emod_eq_zero (by omega)) (dvd_trans hdvd hdvd1))
  · rw [List.prod_append, List.prod_replicate, mul_assoc, ← hprod]
    exact inv.prod_eq
  · intro p hp
    rcases List.mem_append.mp hp with h | h
    · exact inv.all_prime p h
    · obtain ⟨hk, rfl⟩ := List.mem_replicate.mp h
      apply inv.prime_of_dvd
      obtain ⟨j, rfl⟩ : ∃ j, k = j + 1 := ⟨k - 1, by omega⟩
      exact ⟨p ^ j * n1, by rw [hprod]; ring⟩
  · show List.Pairwise (· ≤ ·) (fs ++ List.replicate k i)
    rw [List.pairwise_append]
    refine ⟨inv.sorted, ?_, ?_⟩
    · rw [List.pairwise_replicate]
      exact Or.inr (le_refl _)
    · intro a ha b hb
      obtain ⟨_, rfl⟩ := List.mem_replicate.mp hb
      exact le_of_lt (inv.all_lt a ha)
  · intro p hp
    rcases List.mem_append.mp hp with h | h
    · have := inv.all_lt p h
      omega
    · obtain ⟨_, rfl⟩ := List.mem_replicate.mp h
      omega

/-- Total correctness of the odd-divisor loop from any state satisfying the invariant: it
ends with the complete list of factors found so far and a remainder that is `1` or a prime
not below any of them. -/
theorem oddFactors_returns (n0 : Int) : ∀ (m : Nat) (i n : Int) (fs : List Int),
    OddFactorsInv n0 i n fs → 9223372036854775805 - i < (m : Int) →
    ∃ (n2 : Int) (fs2 : List Int), Returns (fun f => oddFactors f i n fs) (n2, fs2) ∧
      fs2.prod * n2 = n0 ∧ (∀ p ∈ fs2, IsPrimeNumber p) ∧ fs2.Sorted (· ≤ ·) ∧
      (n2 = 1 ∨ (IsPrimeNumber n2 ∧ ∀ p ∈ fs2, p ≤ n2)) := by
  intro m
  induction m with
  | zero =>
    intro i n fs inv hm
    have := inv.le_top
    simp at hm
    omega
  | succ m ih =>
    intro i n fs inv hm
    have h3 := inv.three_le
    by_cases hw : wrap64 (i * i) ≤ n
    · have hlt := inv.lt_top hw
      have hw2 : wrap64 (i + 2) = i + 2 := wrap64_eq_self ⟨by omega, by omega⟩
      obtain ⟨k, n1, ⟨fd, hfd⟩, hprod, h1, hle, hnd⟩ :=
        divideOut_returns i (by omega) n.toNat n fs inv.one_le inv.lt_bound
          (by have := inv.one_le; omega)
      obtain ⟨n2, fs2, ⟨f0, hf0⟩, hpost⟩ :=
        ih (i + 2) n1 _ (oddFactorsInv_next inv hw hprod h1 hle hnd) (by push_cast at hm; omega)
      refine ⟨n2, fs2, ⟨max fd f0 + 1, fun f hf => ?_⟩, hpost⟩
      obtain ⟨j, rfl⟩ : ∃ j, f = j + 1 := ⟨f - 1, by omega⟩
      have hj1 : fd ≤ j := by have := le_max_left fd f0; omega
      have hj2 : f0 ≤ j := by have := le_max_right fd f0; omega
      have e1 : divideOut j i n fs = some (n1, fs ++ List.replicate k i) := hfd j hj1
      have e2 : oddFactors j (i + 2) n1 (fs ++ List.replicate k i) = some (n2, fs2) := hf0 j hj2
      show oddFactors (j + 1) i n fs = some (n2, fs2)
      rw [oddFactors_step _ _ hw e1, hw2, e2]
    · refine ⟨n, fs, ⟨1, fun f hf => ?_⟩, inv.prod_eq, inv.all_prime, inv.sorted, ?_⟩
      · obtain ⟨j, rfl⟩ : ∃ j, f = j + 1 := ⟨f - 1, by omega⟩
        exact oddFactors_exit j fs hw
      · have hlt : n < i * i := lt_of_not_wrap64_le (by nlinarith) hw
        by_cases hn1 : n = 1
        · exact Or.inl hn1
        · right
          have hone := inv.one_le
          have hin := inv.le_of_one_lt (by omega)
          refine ⟨isPrimeNumber_of_no_small_divisor (by omega) (by omega) hlt inv.no_divisor,
            fun p hp => ?_⟩
          have := inv.all_lt p hp
          omega

/-- Total correctness of `primeFactors` on every positive `int64`: it returns the prime
factors with multiplicity, in ascending order. -/
theorem primeFactors_returns (n : Int) (h1 : 1 ≤ n) (hB : n < 9223372036854775808) :
    ∃ fs : List Int, Returns (fun f => primeFactors f n) fs ∧ fs.prod = n ∧
      (∀ p ∈ fs, IsPrimeNumber p) ∧ fs.Sorted (· ≤ ·) := by
  obtain ⟨k, n1, ⟨fd, hfd⟩, hprod, hn1, hle, hnd⟩ :=
    divideOut_returns 2 (le_refl _) n.toNat n [] h1 hB (by omega)
  have inv : OddFactorsInv n 3 n1 ([] ++ List.replicate k 2) := by
    refine ⟨le_refl _, by decide, by decide, hn1, by omega, ?_, ?_, ?_, ?_, ?_⟩
    · intro d hd2 hd3 hdvd
      have : d = 2 := by omega
      subst this
      exact hnd hdvd
    · rw [List.nil_append, List.prod_replicate, ← hprod]
    · intro p hp
      rw [List.nil_append] at hp
      obtain ⟨_, rfl⟩ := List.mem_replicate.mp hp
      exact isPrimeNumber_two
    · show List.Pairwise (· ≤ ·) ([] ++ List.replicate k 2)
      rw [List.nil_append, List.pairwise_replicate]
      exact Or.inr (le_refl _)
    · intro p hp
      rw [List.nil_append] at hp
      obtain ⟨_, rfl⟩ := List.mem_replicate.mp hp
      decide
  obtain ⟨n2, fs2, ⟨f0, hf0⟩, hp, hprime, hsorted, hrest⟩ :=
    oddFactors_returns n 9223372036854775803 3 n1 _ inv (by decide)
  have hrun : ∀ f, max fd f0 ≤ f → primeFactors f n =
      if n2 > 1 then some (fs2 ++ [n2]) else some fs2 := by
    intro f hf
    have hj1 : fd ≤ f := le_trans (le_max_left fd f0) hf
    have hj2 : f0 ≤ f := le_trans (le_max_right fd f0) hf
    have e1 : divideOut f 2 n [] = some (n1, [] ++ List.replicate k 2) := hfd f hj1
    have e2 : oddFactors f 3 n1 ([] ++ List.replicate k 2) = some (n2, fs2) := hf0 f hj2
    unfold primeFactors
    rw [e1]
    simp only
    rw [e2]
  rcases hrest with hone | ⟨hn2p, hn2le⟩
  · refine ⟨fs2, ⟨max fd f0, fun f hf => ?_⟩, ?_, hprime, hsorted⟩
    · show primeFactors f n = some fs2
      rw [hrun f hf, if_neg (by omega)]
    · rw [← hp, hone, mul_one]
  · have h2 := hn2p.1
    refine ⟨fs2 ++ [n2], ⟨max fd f0, fun f hf => ?_⟩, ?_, ?_, ?_⟩
    · show primeFactors f n = some (fs2 ++ [n2])
      rw [hrun f hf, if_pos (by omega)]
    · rw [List.prod_append, List.prod_singleton, hp]
    · intro p hpm
      rcases List.mem_append.mp hpm with h | h
      · exact hprime p h
      · rw [List.mem_singleton] at h
        rw [h]
        exact hn2p
    · show List.Pairwise (· ≤ ·) (fs2 ++ [n2])
      rw [List.pairwise_append]
      refine ⟨hsorted, List.pairwise_singleton _ _, fun a ha b hb => ?_⟩
      rw [List.mem_singleton] at hb
      rw [hb]
      exact hn2le a ha

/-- The specification's notion of a prime number is the usual one. -/
theorem isPrimeNumber_iff_natPrime (p : Int) : IsPrimeNumber p ↔ 0 ≤ p ∧ Nat.Prime p.toNat := by
  constructor
  · rintro ⟨h2, hnd⟩
    refine ⟨by omega, Nat.prime_def_lt.mpr ⟨by omega, fun m hm hdvd => ?_⟩⟩
    by_contra hne
    have hm0 : m ≠ 0 := by
      rintro rfl
      have := Nat.eq_zero_of_zero_dvd hdvd
      omega
    have hcast : ((p.toNat : Nat) : Int) = p := Int.toNat_of_nonneg (by omega)
    have hd : (m : Int) ∣ p := by
      rw [← hcast]
      exact Int.natCast_dvd_natCast.mpr hdvd
    exact hnd (m : Int) (by omega) (by omega) hd
  · rintro ⟨h0, hp⟩
    have h2 := hp.two_le
    refine ⟨by omega, fun d hd1 hdp hdvd => ?_⟩
    have hcast : ((p.toNat : Nat) : Int) = p := Int.toNat_of_nonneg h0
    have hdcast : ((d.toNat : Nat) : Int) = d := Int.toNat_of_nonneg (by omega)
    have hd : d.toNat ∣ p.toNat := by
      rw [← Int.natCast_dvd_natCast, hcast, hdcast]
      exact hdvd
    rcases (Nat.dvd_prime hp).mp hd with h | h <;> omega

/-- C1: for every 64-bit integer `n > 1`, `primeFactors(n)` returns a list whose product
equals `n` and every element of which is a prime number. -/
theorem primeFactors_prod_prime (n : Int) (h1 : 1 < n) (h2 : IsInt64 n) :
    ∃ fs : List Int, Returns (fun f => primeFactors f n) fs ∧ fs.prod = n ∧
      ∀ p ∈ fs, IsPrimeNumber p := by
  obtain ⟨fs, hr, hp, hprime, _⟩ := primeFactors_returns n (by omega) h2.2
  exact ⟨fs, hr, hp, hprime⟩

/-- The factorisation `primeFactors(12) = [2, 2, 3]`. -/
theorem primeFactors_prod_prime_witness :
    ∃ fs : List Int, Returns (fun f => primeFactors f 12) fs ∧ fs.prod = 12 ∧
      (∀ p ∈ fs, IsPrimeNumber p) ∧ fs = [2, 2, 3] := by
  obtain ⟨fs, hr, hp, hprime⟩ :=
    primeFactors_prod_prime 12 (by decide) (by unfold IsInt64; decide)
  have he : Returns (fun f => primeFactors f 12) [2, 2, 3] :=
    returns_of_stable (primeFactors_stable 12) 10 (by decide)
  exact ⟨fs, hr, hp, hprime, hr.unique he⟩

/-- C2: for every 64-bit integer `n >= 1`, `primeFactors(n)` returns a list in ascending
(non-decreasing) order. -/
theorem primeFactors_ascending (n : Int) (h1 : 1 ≤ n) (h2 : IsInt64 n) :
    ∃ fs : List Int, Returns (fun f => primeFactors f n) fs ∧ fs.Sorted (· ≤ ·) := by
  obtain ⟨fs, hr, _, _, hs⟩ := primeFactors_returns n h1 h2.2
  exact ⟨fs, hr, hs⟩

/-- The factorisation `primeFactors(100) = [2, 2, 5, 5]`. -/
theorem primeFactors_ascending_witness :
    ∃ fs : List Int, Returns (fun f => primeFactors f 100) fs ∧ fs.Sorted (· ≤ ·) ∧
      fs = [2, 2, 5, 5] := by
  obtain ⟨fs, hr, hs⟩ := primeFactors_ascending 100 (by decide) (by unfold IsInt64; decide)
  have he : Returns (fun f => primeFactors f 100) [2, 2, 5, 5] :=
    returns_of_stable (primeFactors_stable 100) 10 (by decide)
  exact ⟨fs, hr, hs, hr.unique he⟩

/-! ### The handlers `factorialHandler`, `fibonacciHandler`, `primeFactorsHandler` -/

/-- A larger iteration bound does not change a result of `factorial`. -/
theorem factorial_stable (n : Int) (k : Nat) (r : Int)
    (h : factorial k n = some r) : factorial (k + 1) n = some r :=
  factorialLoop_stable k 2 n 1 r h

/-- For every `n` from `0` up to the largest `int64` but one, `factorial(n)` returns `n!`. -/
theorem factorial_returns (n : Int) (h0 : 0 ≤ n) (h1 : n + 1 < 9223372036854775808) :
    Returns (fun k => factorial k n) ((n.toNat.factorial : Nat) : Int) := by
  obtain ⟨m, rfl⟩ := Int.eq_ofNat_of_zero_le h0
  simp only [Int.toNat_ofNat]
  unfold factorial
  by_cases hm : m < 2
  · refine ⟨1, fun k hk => ?_⟩
    obtain ⟨j, rfl⟩ : ∃ j, k = j + 1 := ⟨k - 1, by omega⟩
    show factorialLoop (j + 1) _ _ _ = _
    rw [factorialLoop_succ, if_neg (by omega)]
    have : m = 0 ∨ m = 1 := by omega
    rcases this with rfl | rfl <;> rfl
  · have := factorialLoop_returns m h1 (m + 1 - 2) 2 (by omega) (by omega)
    simpa using this

/-- A larger iteration bound does not change what `factorialHandler` returns. -/
theorem factorialHandler_stable (arg : Except String Int) (k : Nat) (r : HandlerReturn)
    (h : factorialHandler k arg = some r) : factorialHandler (k + 1) arg = some r := by
  unfold factorialHandler at h ⊢
  cases arg with
  | error e => exact h
  | ok n =>
    simp only at h ⊢
    split
    · rename_i h1; simpa [h1] using h
    · rename_i h1
      split
      · rename_i h2; simpa [h1, h2] using h
      · rename_i h2
        simp only [h1, h2, if_false] at h
        cases hf : factorial k n with
        | none => simp [hf] at h
        | some v =>
          rw [factorial_stable n k v hf]
          simpa [hf] using h

/-- C11: for an integer argument `n`, `factorialHandler` returns a Failure if and only if
`n < 0` or `n` is beyond the cap (`n > 170`); for every `n` with `0 <= n <= 170` it returns
Success carrying the decimal rendering of `factorial(n)`.  The Go error returned is `nil`. -/
theorem factorialHandler_spec (n : Int) :
    ∃ r : OperationResult,
      Returns (fun k => factorialHandler k (Except.ok n)) { result := some r, err := none } ∧
      (r.isFailure = true ↔ n < 0 ∨ n > 170) ∧
      (0 ≤ n → n ≤ 170 → ∃ v, Returns (fun k => factorial k n) v ∧
        r = OperationResult.success (formatInt v)) := by
  by_cases h1 : n < 0
  · refine ⟨OperationResult.failure "factorial undefined for negative numbers",
      ⟨0, fun k _ => ?_⟩, ?_, ?_⟩
    · simp [factorialHandler, h1, returnError]
    · simp [OperationResult.isFailure, h1]
    · intro h0; omega
  · by_cases h2 : n > 170
    · refine ⟨OperationResult.failure "factorial too large (max n=170 for float64)",
        ⟨0, fun k _ => ?_⟩, ?_, ?_⟩
      · simp [factorialHandler, h1, h2, returnError]
      · simp [OperationResult.isFailure, h2]
      · intro _ h170; omega
    · obtain ⟨k0, hk0⟩ := factorial_returns n (by omega) (by omega)
      refine ⟨OperationResult.success (formatInt ((n.toNat.factorial : Nat) : Int)),
        ⟨k0, fun k hk => ?_⟩, ?_, ?_⟩
      · have hv : factorial k n = some ((n.toNat.factorial : Nat) : Int) := hk0 k hk
        simp [factorialHandler, h1, h2, hv, returnText]
      · simp only [OperationResult.isFailure]
        constructor
        · intro h; cases h
        · intro h; omega
      · intro _ _
        exact ⟨_, ⟨k0, hk0⟩, rfl⟩

/-- The handler on `10`, on `-1` and on `200`. -/
theorem factorialHandler_spec_witness :
    (∃ r : OperationResult,
      Returns (fun k => factorialHandler k (Except.ok 10)) { result := some r, err := none } ∧
      r = OperationResult.success "3628800") ∧
    Returns (fun k => factorialHandler k (Except.ok (-1)))
      (returnError "factorial undefined for negative numbers") ∧
    Returns (fun k => factorialHandler k (Except.ok 200))
      (returnError "factorial too large (max n=170 for float64)") := by
  refine ⟨?_, returns_of_stable (factorialHandler_stable _) 0 (by decide),
    returns_of_stable (factorialHandler_stable _) 0 (by decide)⟩
  obtain ⟨r, hr, _, hs⟩ := factorialHandler_spec 10
  have he : Returns (fun k => factorialHandler k (Except.ok 10)) (returnText "3628800") :=
    returns_of_stable (factorialHandler_stable _) 12 (by decide)
  have := hr.unique he
  simp only [returnText, HandlerReturn.mk.injEq, Option.some.injEq, and_true] at this
  exact ⟨r, hr, this⟩

/-! ### `fibonacci` -/

/-- One iteration of the loop of `fibonacci`. -/
theorem fibonacciLoop_succ (k : Nat) (i n a b : Int) :
    fibonacciLoop (k + 1) i n a b =
      if i ≤ n then fibonacciLoop k (wrap64 (i + 1)) n b (a + b) else some b := by
  simp [fibonacciLoop]

/-- A larger iteration bound does not change a result of the loop of `fibonacci`. -/
theorem fibonacciLoop_stable : ∀ (k : Nat) (i n a b s : Int),
    fibonacciLoop k i n a b = some s → fibonacciLoop (k + 1) i n a b = some s := by
  intro k
  induction k with
  | zero => intro i n a b s h; simp [fibonacciLoop] at h
  | succ m ih =>
    intro i n a b s h
    rw [fibonacciLoop_succ] at h ⊢
    split at h
    · rename_i hle
      rw [if_pos hle]
      exact ih _ _ _ _ _ h
    · rename_i hle
      rw [if_neg hle]
      exact h

/-- A larger iteration bound does not change a result of `fibonacci`. -/
theorem fibonacci_stable (n : Int) (k : Nat) (r : Int)
    (h : fibonacci k n = some r) : fibonacci (k + 1) n = some r := by
  unfold fibonacci at h ⊢
  split
  · rename_i h0; simpa [h0] using h
  · rename_i h0
    split
    · rename_i h1; simpa [h0, h1] using h
    · rename_i h1
      simp only [h0, h1, if_false] at h
      exact fibonacciLoop_stable _ _ _ _ _ _ h

/-- Loop invariant of `fibonacci`: entering an iteration with counter `i`, the variables `a`
and `b` hold the Fibonacci numbers of index `i - 2` and `i - 1`; the loop ends with that of
index `n`. -/
theorem fibonacciLoop_returns (n : Nat) (hn : (n : Int) + 1 < 9223372036854775808) :
    ∀ (d i : Nat), 2 ≤ i → i + d = n + 1 →
      Returns (fun k => fibonacciLoop k (i : Int) (n : Int)
          ((Nat.fib (i - 2) : Nat) : Int) ((Nat.fib (i - 1) : Nat) : Int))
        ((Nat.fib n : Nat) : Int) := by
  intro d
  induction d with
  | zero =>
    intro i hi hid
    refine ⟨1, fun k hk => ?_⟩
    obtain ⟨j, rfl⟩ : ∃ j, k = j + 1 := ⟨k - 1, by omega⟩
    show fibonacciLoop (j + 1) _ _ _ _ = _
    rw [fibonacciLoop_succ, if_neg (by omega)]
    have : i - 1 = n := by omega
    rw [this]
  | succ d ih =>
    intro i hi hid
    obtain ⟨k0, hk0⟩ := ih (i + 1) (by omega) (by omega)
    refine ⟨k0 + 1, fun k hk => ?_⟩
    obtain ⟨j, rfl⟩ : ∃ j, k = j + 1 := ⟨k - 1, by omega⟩
    show fibonacciLoop (j + 1) _ _ _ _ = _
    rw [fibonacciLoop_succ, if_pos (by omega)]
    have hw : wrap64 ((i : Int) + 1) = ((i + 1 : Nat) : Int) := by
      rw [wrap64_eq_self ⟨by omega, by omega⟩]
      push_cast
      rfl
    have e1 : i + 1 - 2 = i - 1 := by omega
    have e2 : i + 1 - 1 = (i - 2) + 2 := by omega
    have e3 : i - 1 = (i - 2) + 1 := by omega
    have hf : ((Nat.fib (i - 2) : Nat) : Int) + ((Nat.fib (i - 1) : Nat) : Int)
        = ((Nat.fib (i + 1 - 1) : Nat) : Int) := by
      rw [e2, Nat.fib_add_two, e3]
      push_cast
      rfl
    have hnext := hk0 j (by omega)
    simp only [e1] at hnext
    rw [hw, hf]
    exact hnext

/-- For every `n` from `0` up to the largest `int64` but one, `fibonacci(n)` returns the
Fibonacci number of index `n`. -/
theorem fibonacci_returns (n : Int) (h0 : 0 ≤ n) (h1 : n + 1 < 9223372036854775808) :
    Returns (fun k => fibonacci k n) ((Nat.fib n.toNat : Nat) : Int) := by
  obtain ⟨m, rfl⟩ := Int.eq_ofNat_of_zero_le h0
  simp only [Int.toNat_ofNat]
  by_cases hm0 : m = 0
  · subst hm0
    exact ⟨0, fun k _ => by simp [fibonacci]⟩
  · by_cases hm1 : m = 1
    · subst hm1
      exact ⟨0, fun k _ => by simp [fibonacci]⟩
    · obtain ⟨k0, hk0⟩ := fibonacciLoop_returns m h1 (m + 1 - 2) 2 (by omega) (by omega)
      refine ⟨k0, fun k hk => ?_⟩
      have hne0 : (m : Int) ≠ 0 := by exact_mod_cast hm0
      have hne1 : (m : Int) ≠ 1 := by exact_mod_cast hm1
      have := hk0 k hk
      simp only [Nat.sub_self, Nat.fib_zero, Nat.cast_zero, Nat.reduceSub, Nat.fib_one,
        Nat.cast_one, Nat.cast_ofNat] at this
      show fibonacci k (m : Int) = _
      unfold fibonacci
      rw [if_neg hne0, if_neg hne1]
      exact this

/-- On the largest `int64` the loop test `i <= n` never fails. -/
theorem fibonacciLoop_max : ∀ (k : Nat) (i a b : Int), i ≤ 9223372036854775807 →
    fibonacciLoop k i 9223372036854775807 a b = none := by
  intro k
  induction k with
  | zero => intro i a b _; rfl
  | succ m ih =>
    intro i a b hi
    rw [fibonacciLoop_succ, if_pos hi]
    have := (wrap64_isInt64 (i + 1)).2
    exact ih _ _ _ (by omega)

/-- C12 fails as stated: at `n = 2^63 - 3` the call `fibonacci(n + 2)` on the largest `int64`
returns nothing (the counter `i` wraps around and the loop never ends), so no value equals
`fibonacci(n + 1) + fibonacci(n)`. -/
theorem fibonacci_max_no_value :
    ¬ ∃ v, Returns (fun k => fibonacci k (9223372036854775805 + 2)) v := by
  rintro ⟨v, k0, hk0⟩
  have h : fibonacci k0 (9223372036854775805 + 2) = some v := hk0 k0 (le_refl _)
  have hnone : fibonacci k0 (9223372036854775805 + 2) = none := by
    unfold fibonacci
    rw [if_neg (by decide), if_neg (by decide)]
    exact fibonacciLoop_max k0 2 0 1 (by decide)
  rw [hnone] at h
  cases h

/-- C12, amended: `fibonacci(0) = 0`, `fibonacci(1) = 1`, and for every `n >= 0` with
`n + 2` below the largest `int64`, `fibonacci(n+2) = fibonacci(n+1) + fibonacci(n)` as
unbounded integers. -/
theorem fibonacci_recurrence (n : Int) (h0 : 0 ≤ n) (h1 : n + 2 < 9223372036854775807) :
    Returns (fun k => fibonacci k 0) 0 ∧ Returns (fun k => fibonacci k 1) 1 ∧
      ∃ x y z : Int, Returns (fun k => fibonacci k n) x ∧
        Returns (fun k => fibonacci k (n + 1)) y ∧
        Returns (fun k => fibonacci k (n + 2)) z ∧ z = y + x := by
  refine ⟨⟨0, fun k _ => by simp [fibonacci]⟩, ⟨0, fun k _ => by simp [fibonacci]⟩,
    _, _, _, fibonacci_returns n h0 (by omega), fibonacci_returns (n + 1) (by omega) (by omega),
    fibonacci_returns (n + 2) (by omega) (by omega), ?_⟩
  obtain ⟨m, rfl⟩ := Int.eq_ofNat_of_zero_le h0
  have e1 : ((m : Int) + 1).toNat = m + 1 := by omega
  have e2 : ((m : Int) + 2).toNat = m + 2 := by omega
  rw [e1, e2, Int.toNat_ofNat, Nat.fib_add_two]
  push_cast
  ring

/-- The values `fibonacci(10) = 55` and `fibonacci(20) = 6765`, through the recurrence at
`n = 8` and `n = 18`. -/
theorem fibonacci_recurrence_witness :
    Returns (fun k => fibonacci k (8 + 2)) 55 ∧ Returns (fun k => fibonacci k (18 + 2)) 6765 := by
  obtain ⟨_, _, x, y, z, hx, hy, hz, hsum⟩ := fibonacci_recurrence 8 (by decide) (by decide)
  obtain ⟨_, _, x', y', z', hx', hy', hz', hsum'⟩ :=
    fibonacci_recurrence 18 (by decide) (by decide)
  have e8 : Returns (fun k => fibonacci k 8) 21 :=
    returns_of_stable (fibonacci_stable 8) 10 (by decide)
  have e9 : Returns (fun k => fibonacci k (8 + 1)) 34 :=
    returns_of_stable (fibonacci_stable _) 10 (by decide)
  have e18 : Returns (fun k => fibonacci k 18) 2584 :=
    returns_of_stable (fibonacci_stable 18) 20 (by decide)
  have e19 : Returns (fun k => fibonacci k (18 + 1)) 4181 :=
    returns_of_stable (fibonacci_stable _) 20 (by decide)
  have hz55 : z = 55 := by rw [hsum, hx.unique e8, hy.unique e9]; rfl
  have hz6765 : z' = 6765 := by rw [hsum', hx'.unique e18, hy'.unique e19]; rfl
  rw [hz55] at hz
  rw [hz6765] at hz'
  exact ⟨hz, hz'⟩

/-- A larger iteration bound does not change what `fibonacciHandler` returns. -/
theorem fibonacciHandler_stable (arg : Except String Int) (k : Nat) (r : HandlerReturn)
    (h : fibonacciHandler k arg = some r) : fibonacciHandler (k + 1) arg = some r := by
  unfold fibonacciHandler at h ⊢
  cases arg with
  | error e => exact h
  | ok n =>
    simp only at h ⊢
    split
    · rename_i h1; simpa [h1] using h
    · rename_i h1
      split
      · rename_i h2; simpa [h1, h2] using h
      · rename_i h2
        simp only [h1, h2, if_false] at h
        cases hf : fibonacci k n with
        | none => simp [hf] at h
        | some v =>
          rw [fibonacci_stable n k v hf]
          simpa [hf] using h

/-- C13: for an integer argument `n`, `fibonacciHandler` returns a Failure if and only if
`n < 0` or `n` exceeds the maximum index (`n > 1000`); for every `n` with `0 <= n <= 1000` it
returns Success carrying the decimal rendering of `fibonacci(n)`.  The Go error returned is
`nil`. -/
theorem fibonacciHandler_spec (n : Int) :
    ∃ r : OperationResult,
      Returns (fun k => fibonacciHandler k (Except.ok n)) { result := some r, err := none } ∧
      (r.isFailure = true ↔ n < 0 ∨ n > 1000) ∧
      (0 ≤ n → n ≤ 1000 → ∃ v, Returns (fun k => fibonacci k n) v ∧
        r = OperationResult.success (formatInt v)) := by
  by_cases h1 : n < 0
  · refine ⟨OperationResult.failure "fibonacci undefined for negative indices",
      ⟨0, fun k _ => ?_⟩, ?_, ?_⟩
    · simp [fibonacciHandler, h1, returnError]
    · simp [OperationResult.isFailure, h1]
    · intro h0; omega
  · by_cases h2 : n > 1000
    · refine ⟨OperationResult.failure "fibonacci index too large (max n=1000)",
        ⟨0, fun k _ => ?_⟩, ?_, ?_⟩
      · simp [fibonacciHandler, h1, h2, returnError]
      · simp [OperationResult.isFailure, h2]
      · intro _ h1000; omega
    · obtain ⟨k0, hk0⟩ := fibonacci_returns n (by omega) (by omega)
      refine ⟨OperationResult.success (formatInt ((Nat.fib n.toNat : Nat) : Int)),
        ⟨k0, fun k hk => ?_⟩, ?_, ?_⟩
      · have hv : fibonacci k n = some ((Nat.fib n.toNat : Nat) : Int) := hk0 k hk
        simp [fibonacciHandler, h1, h2, hv, returnText]
      · simp only [OperationResult.isFailure]
        constructor
        · intro h; cases h
        · intro h; omega
      · intro _ _
        exact ⟨_, ⟨k0, hk0⟩, rfl⟩

/-- The handler on `20`, on `-1` and on `1001`. -/
theorem fibonacciHandler_spec_witness :
    (∃ r : OperationResult,
      Returns (fun k => fibonacciHandler k (Except.ok 20)) { result := some r, err := none } ∧
      r = OperationResult.success "6765") ∧
    Returns (fun k => fibonacciHandler k (Except.ok (-1)))
      (returnError "fibonacci undefined for negative indices") ∧
    Returns (fun k => fibonacciHandler k (Except.ok 1001))
      (returnError "fibonacci index too large (max n=1000)") := by
  refine ⟨?_, returns_of_stable (fibonacciHandler_stable _) 0 (by decide),
    returns_of_stable (fibonacciHandler_stable _) 0 (by decide)⟩
  obtain ⟨r, hr, _, hs⟩ := fibonacciHandler_spec 20
  have he : Returns (fun k => fibonacciHandler k (Except.ok 20)) (returnText "6765") :=
    returns_of_stable (fibonacciHandler_stable _) 22 (by decide)
  have := hr.unique he
  simp only [returnText, HandlerReturn.mk.injEq, Option.some.injEq, and_true] at this
  exact ⟨r, hr, this⟩

/-- A larger iteration bound does not change what `primeFactorsHandler` returns. -/
theorem primeFactorsHandler_stable (arg : Except String Int) (k : Nat) (r : HandlerReturn)
    (h : primeFactorsHandler k arg = some r) : primeFactorsHandler (k + 1) arg = some r := by
  unfold primeFactorsHandler at h ⊢
  cases arg with
  | error e => exact h
  | ok n =>
    simp only at h ⊢
    split
    · rename_i h1; simpa [h1] using h
    · rename_i h1
      simp only [h1, if_false] at h
      cases hf : primeFactors k n with
      | none => simp [hf] at h
      | some v =>
        rw [primeFactors_stable n k v hf]
        simpa [hf] using h

/-- C14: for a 64-bit integer argument `n`, `primeFactorsHandler` returns a Failure if and only
if `n <= 0`; for every `n >= 1` it returns Success whose text is the decimal factors of
`primeFactors(n)` joined by `" × "`.  The Go error returned is `nil`. -/
theorem primeFactorsHandler_spec (n : Int) (hn : IsInt64 n) :
    ∃ r : OperationResult,
      Returns (fun k => primeFactorsHandler k (Except.ok n)) { result := some r, err := none } ∧
      (r.isFailure = true ↔ n ≤ 0) ∧
      (1 ≤ n → ∃ fs : List Int, Returns (fun k => primeFactors k n) fs ∧
        r = OperationResult.success (String.intercalate " × " (fs.map formatInt))) := by
  by_cases h1 : n ≤ 0
  · refine ⟨OperationResult.failure "prime factorization requires a positive integer",
      ⟨0, fun k _ => ?_⟩, ?_, ?_⟩
    · simp [primeFactorsHandler, h1, returnError]
    · simp [OperationResult.isFailure, h1]
    · intro h0; omega
  · obtain ⟨fs, ⟨k0, hk0⟩, _⟩ := primeFactors_returns n (by omega) hn.2
    refine ⟨OperationResult.success (String.intercalate " × " (fs.map formatInt)),
      ⟨k0, fun k hk => ?_⟩, ?_, ?_⟩
    · have hv : primeFactors k n = some fs := hk0 k hk
      simp [primeFactorsHandler, h1, hv, returnText]
    · simp only [OperationResult.isFailure]
      constructor
      · intro h; cases h
      · intro h; exact absurd h h1
    · intro _
      exact ⟨fs, ⟨k0, hk0⟩, rfl⟩

/-- The handler on `12` (text `"2 × 2 × 3"`), on `1` (the empty text), on `0` and on `-5`. -/
theorem primeFactorsHandler_spec_witness :
    (∃ r : OperationResult,
      Returns (fun k => primeFactorsHandler k (Except.ok 12)) { result := some r, err := none } ∧
      r = OperationResult.success "2 × 2 × 3") ∧
    Returns (fun k => primeFactorsHandler k (Except.ok 1)) (returnText "") ∧
    Returns (fun k => primeFactorsHandler k (Except.ok 0))
      (returnError "prime factorization requires a positive integer") ∧
    Returns (fun k => primeFactorsHandler k (Except.ok (-5)))
      (returnError "prime factorization requires a positive integer") := by
  refine ⟨?_, returns_of_stable (primeFactorsHandler_stable _) 3 (by decide),
    returns_of_stable (primeFactorsHandler_stable _) 0 (by decide),
    returns_of_stable (primeFactorsHandler_stable _) 0 (by decide)⟩
  obtain ⟨r, hr, _, hs⟩ := primeFactorsHandler_spec 12 (by unfold IsInt64; decide)
  have he : Returns (fun k => primeFactorsHandler k (Except.ok 12)) (returnText "2 × 2 × 3") :=
    returns_of_stable (primeFactorsHandler_stable _) 10 (by decide)
  have := hr.unique he
  simp only [returnText, HandlerReturn.mk.injEq, Option.some.injEq, and_true] at this
  exact ⟨r, hr, this⟩

/-! ### The registry -/

/-- The loop of `RegisterTools` appends to the server, in order, the enabled definitions. -/
theorem registerTools_foldl {Tool Handler : Type} (cfg : Config) :
    ∀ (tools : List (ToolDefinition Tool Handler)) (s : List (Tool × Handler)),
      tools.foldl
          (fun s td => if cfg.IsEnabled td.category then s ++ [(td.tool, td.handler)] else s) s
        = s ++ (tools.filter (fun td => cfg.IsEnabled td.category)).map
            (fun td => (td.tool, td.handler)) := by
  intro tools
  induction tools with
  | nil => intro s; simp
  | cons td tds ih =>
    intro s
    rw [List.foldl_cons, ih]
    by_cases h : cfg.IsEnabled td.category = true
    · simp [h, List.filter_cons]
    · simp [h, List.filter_cons]

/-- What `RegisterTools` adds to a server that already holds `s`. -/
theorem registerTools_eq {Tool Handler : Type} (r : Registry Tool Handler)
    (s : List (Tool × Handler)) (cfg : Config) :
    r.RegisterTools s cfg = s ++ (r.tools.filter (fun td => cfg.IsEnabled td.category)).map
      (fun td => (td.tool, td.handler)) :=
  registerTools_foldl cfg r.tools s

/-- C15: for every registry and every category set, the sequence of tools that
`RegisterTools` exposes on a fresh server is exactly the sub-sequence of the registered
definitions whose category is enabled, in registration order; a definition registered later
by `addTool` comes after the earlier ones; for the empty category set the sequence is empty. -/
theorem registerTools_spec {Tool Handler : Type} (r : Registry Tool Handler) (cfg : Config)
    (tool : Tool) (handler : Handler) (category : Category) :
    r.RegisterTools [] cfg = (r.tools.filter (fun td => cfg.IsEnabled td.category)).map
        (fun td => (td.tool, td.handler)) ∧
      (r.addTool tool handler category).RegisterTools [] cfg =
        r.RegisterTools [] cfg ++ (if cfg.IsEnabled category then [(tool, handler)] else []) ∧
      ((∀ c, cfg.IsEnabled c = false) → r.RegisterTools [] cfg = []) := by
  have h1 := registerTools_eq r [] cfg
  rw [List.nil_append] at h1
  refine ⟨h1, ?_, fun hnone => ?_⟩
  · rw [registerTools_eq, h1, List.nil_append]
    show ((r.tools ++ [_]).filter _).map _ = _
    rw [List.filter_append, List.map_append]
    by_cases h : cfg.IsEnabled category = true
    · simp [h, List.filter_cons]
    · simp [h, List.filter_cons]
  · rw [h1]
    have : r.tools.filter (fun td => cfg.IsEnabled td.category) = [] := by
      rw [List.filter_eq_nil_iff]
      intro td _
      simp [hnone td.category]
    rw [this]
    rfl

/-- The registry of `NewRegistry` with no category enabled exposes nothing, and with only
`conversion` enabled it exposes the two conversion tools in registration order. -/
theorem registerTools_spec_witness :
    NewRegistry.RegisterTools [] (Config.mk emptyMap "stdio") = [] ∧
    NewRegistry.RegisterTools [] (Config.mk (setTrue emptyMap CategoryConversion) "stdio") =
      [(NewTool "degrees_to_radians", "degreesToRadiansHandler"),
       (NewTool "radians_to_degrees", "radiansToDegreesHandler")] :=
  ⟨(registerTools_spec NewRegistry (Config.mk emptyMap "stdio")
      (NewTool "x") "xHandler" CategoryArithmetic).2.2 (fun _ => rfl), by decide⟩

/-- The names exposed for a category set are those of the enabled definitions. -/
theorem exposedNames_eq (cfg : Config) :
    exposedNames cfg =
      (NewRegistry.tools.filter (fun td => cfg.IsEnabled td.category)).map
        (fun td => td.tool.name) := by
  unfold exposedNames
  rw [registerTools_eq, List.nil_append, List.map_map]
  rfl

/-- The names of the registry of `NewRegistry` are pairwise different. -/
theorem newRegistry_names_nodup : (NewRegistry.tools.map (fun td => td.tool.name)).Nodup := by
  decide

/-- Every category used by the registry of `NewRegistry` is listed in `AllCategories`. -/
theorem newRegistry_categories :
    ∀ td ∈ NewRegistry.tools, td.category ∈ AllCategories := by
  decide

/-- When every category of `AllCategories` is enabled, every name is exposed. -/
theorem exposedNames_all (cfgAll : Config)
    (hall : ∀ c ∈ AllCategories, cfgAll.IsEnabled c = true) :
    exposedNames cfgAll = NewRegistry.tools.map (fun td => td.tool.name) := by
  rw [exposedNames_eq]
  congr 1
  rw [List.filter_eq_self]
  intro td htd
  exact hall _ (newRegistry_categories td htd)

/-- In a list whose images under `f` are pairwise different, positions with equal images
coincide. -/
theorem index_eq_of_nodup_map {α β : Type} (f : α → β) (l : List α) (h : (l.map f).Nodup)
    (i j : Fin l.length) (hij : f (l.get i) = f (l.get j)) : i = j := by
  have hinj := List.nodup_iff_injective_get.mp h
  have hi : i.1 < (l.map f).length := by rw [List.length_map]; exact i.2
  have hj : j.1 < (l.map f).length := by rw [List.length_map]; exact j.2
  have e : (l.map f).get ⟨i.1, hi⟩ = (l.map f).get ⟨j.1, hj⟩ := by
    simp only [List.get_eq_getElem, List.getElem_map]
    exact hij
  have hval := Fin.val_eq_of_eq (hinj e)
  exact Fin.ext hval

/-- C17: in the registry built by `NewRegistry`, tool names are unique (no two registered
tool definitions carry the same name), and every definition's category is one of the `15`
values of `AllCategories`. -/
theorem newRegistry_invariant :
    (NewRegistry.tools.map (fun td => td.tool.name)).Nodup ∧
      (∀ i j : Fin NewRegistry.tools.length,
        (NewRegistry.tools.get i).tool.name = (NewRegistry.tools.get j).tool.name → i = j) ∧
      (∀ td ∈ NewRegistry.tools, td.category ∈ AllCategories) ∧
      AllCategories.length = 15 ∧ AllCategories.Nodup :=
  ⟨newRegistry_names_nodup,
    index_eq_of_nodup_map (fun td => td.tool.name) NewRegistry.tools newRegistry_names_nodup,
    newRegistry_categories, by decide, by decide⟩

set_option maxRecDepth 100000 in
/-- C16 fails as stated: with every category enabled but `constants` (which owns no tool),
the names exposed are all the names, not a strict subset of them. -/
theorem exposedNames_not_strict :
    (LoadConfig asciiLib "" "arithmetic,power,logarithm,trig,hyperbolic,rounding,comparison,special,float_utils,conversion,number_theory,statistics,bitwise,complex").IsEnabled
        CategoryConstants = false ∧
    ¬ ((exposedNames (LoadConfig asciiLib "" "arithmetic,power,logarithm,trig,hyperbolic,rounding,comparison,special,float_utils,conversion,number_theory,statistics,bitwise,complex")).toFinset ⊂
      (exposedNames (LoadConfig asciiLib "" "all")).toFinset) := by
  refine ⟨by decide, ?_⟩
  have e : exposedNames (LoadConfig asciiLib "" "arithmetic,power,logarithm,trig,hyperbolic,rounding,comparison,special,float_utils,conversion,number_theory,statistics,bitwise,complex")
      = exposedNames (LoadConfig asciiLib "" "all") := by decide
  rw [e]
  exact ssubset_irrefl _

/-- C16, amended: for any category set `S`, the set of tool names exposed for `S` by the
registry built by `NewRegistry` is a subset of the set of tool names exposed when all
categories are enabled; it is a strict subset exactly when `S` disables the category of at
least one registered tool. -/
theorem exposedNames_subset (cfg cfgAll : Config)
    (hall : ∀ c ∈ AllCategories, cfgAll.IsEnabled c = true) :
    (exposedNames cfg).toFinset ⊆ (exposedNames cfgAll).toFinset ∧
      ((exposedNames cfg).toFinset ⊂ (exposedNames cfgAll).toFinset ↔
        ∃ td ∈ NewRegistry.tools, cfg.IsEnabled td.category = false) := by
  have hsub : (exposedNames cfg).toFinset ⊆ (exposedNames cfgAll).toFinset := by
    intro x hx
    rw [List.mem_toFinset, exposedNames_eq, List.mem_map] at hx
    obtain ⟨td, htd, rfl⟩ := hx
    rw [List.mem_toFinset, exposedNames_all cfgAll hall]
    exact List.mem_map_of_mem _ (List.mem_of_mem_filter htd)
  refine ⟨hsub, ?_⟩
  rw [Finset.ssubset_iff_of_subset hsub]
  constructor
  · rintro ⟨x, hx, hnx⟩
    rw [List.mem_toFinset, exposedNames_all cfgAll hall, List.mem_map] at hx
    obtain ⟨td, htd, rfl⟩ := hx
    refine ⟨td, htd, ?_⟩
    by_contra hen
    apply hnx
    rw [List.mem_toFinset, exposedNames_eq]
    refine List.mem_map_of_mem _ (List.mem_filter.mpr ⟨htd, ?_⟩)
    simpa using hen
  · rintro ⟨td, htd, hdis⟩
    refine ⟨td.tool.name, ?_, ?_⟩
    · rw [List.mem_toFinset, exposedNames_all cfgAll hall]
      exact List.mem_map_of_mem _ htd
    · intro hmem
      rw [List.mem_toFinset, exposedNames_eq, List.mem_map] at hmem
      obtain ⟨td1, htd1, hname⟩ := hmem
      obtain ⟨htd1mem, hen⟩ := List.mem_filter.mp htd1
      have heq : td1 = td :=
        List.inj_on_of_nodup_map newRegistry_names_nodup htd1mem htd hname
      rw [heq] at hen
      simp [hdis] at hen

/-- With only `arithmetic` enabled the exposed names form a strict subset of all the names. -/
theorem exposedNames_subset_witness :
    (exposedNames (LoadConfig asciiLib "" "arithmetic")).toFinset ⊂
      (exposedNames (LoadConfig asciiLib "" "all")).toFinset :=
  (exposedNames_subset (LoadConfig asciiLib "" "arithmetic") (LoadConfig asciiLib "" "all")
    (by decide)).2.mpr (by decide)

/-! ### The configuration -/

/-- Reading a map after the loop `for _, k := range l { m[k] = true }`. -/
theorem foldl_setTrue_apply (l : List Category) :
    ∀ (m : Category → Bool) (c : Category),
      l.foldl (fun m cat => setTrue m cat) m c = true ↔ c ∈ l ∨ m c = true := by
  induction l with
  | nil => intro m c; simp
  | cons k ks ih =>
    intro m c
    rw [List.foldl_cons, ih]
    unfold setTrue
    by_cases hck : c = k
    · simp [hck]
    · simp [hck]

/-- The map of valid categories holds exactly the categories of `AllCategories`. -/
theorem allCategoriesMap_apply (c : Category) :
    allCategoriesMap c = true ↔ c ∈ AllCategories := by
  unfold allCategoriesMap
  rw [foldl_setTrue_apply]
  simp [emptyMap]

/-- Reading the result map during the loop of `parseCategories`. -/
theorem parseLoop_apply (f : String → Category) (valid : Category → Bool)
    (parts : List String) :
    ∀ (m : Category → Bool) (c : Category),
      parts.foldl (fun result part => if valid (f part) then setTrue result (f part) else result)
          m c = true ↔
        m c = true ∨ (valid c = true ∧ ∃ part ∈ parts, f part = c) := by
  induction parts with
  | nil => intro m c; simp
  | cons p ps ih =>
    intro m c
    rw [List.foldl_cons, ih]
    by_cases hv : valid (f p) = true
    · rw [if_pos hv]
      unfold setTrue
      by_cases hc : c = f p
      · subst hc
        simp [hv]
      · have hc2 : ¬ f p = c := fun h => hc h.symm
        simp [hc, hc2]
    · rw [if_neg hv]
      constructor
      · rintro (h | ⟨h1, part, hp, hpc⟩)
        · exact Or.inl h
        · exact Or.inr ⟨h1, part, List.mem_cons_of_mem _ hp, hpc⟩
      · rintro (h | ⟨h1, part, hp, hpc⟩)
        · exact Or.inl h
        · rcases List.mem_cons.mp hp with rfl | hp2
          · rw [hpc] at hv
            exact absurd h1 hv
          · exact Or.inr ⟨h1, part, hp2, hpc⟩

/-- What `parseCategories` enables. -/
theorem parseCategories_apply (lib : StringLib) (input : String) (c : Category) :
    parseCategories lib input c = true ↔
      c ∈ AllCategories ∧ ∃ part ∈ lib.split input, lib.trimSpace (lib.toLower part) = c := by
  unfold parseCategories
  have h := parseLoop_apply (fun part => lib.trimSpace (lib.toLower part)) allCategoriesMap
    (lib.split input) emptyMap c
  refine Iff.trans h ⟨?_, ?_⟩
  · rintro (h0 | ⟨hv, hex⟩)
    · exact absurd h0 (by simp [emptyMap])
    · exact ⟨(allCategoriesMap_apply c).mp hv, hex⟩
  · rintro ⟨hc, hex⟩
    exact Or.inr ⟨(allCategoriesMap_apply c).mpr hc, hex⟩

/-- C18: for every comma-separated category string, `parseCategories` enables exactly those
valid categories `c` for which some comma-separated item, after lower-casing and trimming
surrounding whitespace, equals `c`; items that name no valid category are ignored and never
become enabled.  Holds whatever the three `strings` functions compute. -/
theorem parseCategories_spec (lib : StringLib) (input : String) (c : Category) :
    ((Config.mk (parseCategories lib input) "stdio").IsEnabled c = true ↔
      c ∈ AllCategories ∧ ∃ part ∈ lib.split input, lib.trimSpace (lib.toLower part) = c) ∧
    (c ∉ AllCategories → (Config.mk (parseCategories lib input) "stdio").IsEnabled c = false) := by
  have h := parseCategories_apply lib input c
  refine ⟨h, fun hc => ?_⟩
  show parseCategories lib input c = false
  cases hv : parseCategories lib input c with
  | false => rfl
  | true => exact absurd (h.mp hv).1 hc

/-- On ASCII text: `"arithmetic,invalid,nonexistent"` enables only `arithmetic`, and
`" arithmetic , trig , statistics "` enables exactly those three. -/
theorem parseCategories_spec_witness :
    (∀ c : Category,
      (Config.mk (parseCategories asciiLib "arithmetic,invalid,nonexistent") "stdio").IsEnabled c
        = true ↔ c = "arithmetic") ∧
    (∀ c : Category,
      (Config.mk (parseCategories asciiLib " arithmetic , trig , statistics ") "stdio").IsEnabled c
        = true ↔ c = "arithmetic" ∨ c = "trig" ∨ c = "statistics") := by
  constructor
  · intro c
    rw [(parseCategories_spec asciiLib "arithmetic,invalid,nonexistent" c).1]
    have hs : asciiLib.split "arithmetic,invalid,nonexistent"
        = ["arithmetic", "invalid", "nonexistent"] := by decide
    rw [hs]
    constructor
    · rintro ⟨hc, part, hp, rfl⟩
      simp only [List.mem_cons, List.mem_singleton, List.not_mem_nil, or_false] at hp
      rcases hp with rfl | rfl | rfl
      · decide
      · exact absurd hc (by decide)
      · exact absurd hc (by decide)
    · rintro rfl
      exact ⟨by decide, "arithmetic", by decide, by decide⟩
  · intro c
    rw [(parseCategories_spec asciiLib " arithmetic , trig , statistics " c).1]
    have hs : asciiLib.split " arithmetic , trig , statistics "
        = [" arithmetic ", " trig ", " statistics "] := by decide
    rw [hs]
    constructor
    · rintro ⟨_, part, hp, rfl⟩
      simp only [List.mem_cons, List.mem_singleton, List.not_mem_nil, or_false] at hp
      rcases hp with rfl | rfl | rfl
      · exact Or.inl (by decide)
      · exact Or.inr (Or.inl (by decide))
      · exact Or.inr (Or.inr (by decide))
    · rintro (rfl | rfl | rfl)
      · exact ⟨by decide, " arithmetic ", by decide, by decide⟩
      · exact ⟨by decide, " trig ", by decide, by decide⟩
      · exact ⟨by decide, " statistics ", by decide, by decide⟩

/-- C19: when the category configuration value is empty (or unset) or equals `"all"` after
lower-casing, `LoadConfig` enables every one of the `15` categories of `AllCategories` and
nothing else. -/
theorem loadConfig_all (lib : StringLib) (transportEnv categoriesEnv : String)
    (h : categoriesEnv = "" ∨ lib.toLower categoriesEnv = "all") (c : Category) :
    ((LoadConfig lib transportEnv categoriesEnv).IsEnabled c = true ↔ c ∈ AllCategories) ∧
      AllCategories.length = 15 := by
  refine ⟨?_, by decide⟩
  unfold LoadConfig Config.IsEnabled
  simp only [if_pos h]
  exact allCategoriesMap_apply c

/-- The values `""`, `"all"`, `"ALL"` and `"All"` on ASCII text, read at the category
`statistics` and at the unknown name `invalid`. -/
theorem loadConfig_all_witness :
    (LoadConfig asciiLib "" "").IsEnabled CategoryStatistics = true ∧
    (LoadConfig asciiLib "" "all").IsEnabled CategoryStatistics = true ∧
    (LoadConfig asciiLib "" "ALL").IsEnabled CategoryStatistics = true ∧
    (LoadConfig asciiLib "" "All").IsEnabled CategoryStatistics = true ∧
    ¬ ((LoadConfig asciiLib "" "ALL").IsEnabled "invalid" = true) :=
  ⟨((loadConfig_all asciiLib "" "" (Or.inl rfl) CategoryStatistics).1).mpr (by decide),
    ((loadConfig_all asciiLib "" "all" (Or.inr (by decide)) CategoryStatistics).1).mpr (by decide),
    ((loadConfig_all asciiLib "" "ALL" (Or.inr (by decide)) CategoryStatistics).1).mpr (by decide),
    ((loadConfig_all asciiLib "" "All" (Or.inr (by decide)) CategoryStatistics).1).mpr (by decide),
    fun h => absurd (((loadConfig_all asciiLib "" "ALL" (Or.inr (by decide)) "invalid").1).mp h)
      (by decide)⟩

/-- The loop of `EnabledCategories` appends, in order, the enabled categories. -/
theorem enabledLoop_eq (p : Category → Bool) (l : List Category) :
    ∀ acc : List Category,
      l.foldl (fun enabled cat => if p cat then enabled ++ [cat] else enabled) acc
        = acc ++ l.filter p := by
  induction l with
  | nil => intro acc; simp
  | cons k ks ih =>
    intro acc
    rw [List.foldl_cons, ih]
    by_cases hk : p k = true
    · simp [hk, List.filter_cons]
    · simp [hk, List.filter_cons]

/-- What `EnabledCategories` returns. -/
theorem enabledCategories_eq (cfg : Config) :
    cfg.EnabledCategories = AllCategories.filter cfg.categories := by
  unfold Config.EnabledCategories
  rw [enabledLoop_eq, List.nil_append]

/-- The order of the items of the configuration string does not matter to `parseCategories`. -/
theorem parseCategories_perm (lib : StringLib) (s1 s2 : String)
    (h : (lib.split s1).Perm (lib.split s2)) :
    parseCategories lib s1 = parseCategories lib s2 := by
  funext c
  rw [Bool.eq_iff_iff, parseCategories_apply, parseCategories_apply]
  constructor
  · rintro ⟨hc, part, hp, hpc⟩
    exact ⟨hc, part, h.mem_iff.mp hp, hpc⟩
  · rintro ⟨hc, part, hp, hpc⟩
    exact ⟨hc, part, h.mem_iff.mpr hp, hpc⟩

/-- C20: for every `Config`, `EnabledCategories` returns exactly the categories of
`AllCategories` that are enabled, each once, in the order in which `AllCategories` lists
them, so its length is the number of enabled valid categories; two configuration strings
with the same items in a different order give the same list. -/
theorem enabledCategories_spec (cfg : Config) (lib : StringLib) (s1 s2 t1 t2 : String) :
    cfg.EnabledCategories = AllCategories.filter (fun c => cfg.IsEnabled c) ∧
      (∀ c, c ∈ cfg.EnabledCategories ↔ c ∈ AllCategories ∧ cfg.IsEnabled c = true) ∧
      cfg.EnabledCategories.Nodup ∧
      cfg.EnabledCategories.Sublist AllCategories ∧
      cfg.EnabledCategories.length = AllCategories.countP (fun c => cfg.IsEnabled c) ∧
      ((lib.split s1).Perm (lib.split s2) →
        (Config.mk (parseCategories lib s1) t1).EnabledCategories =
          (Config.mk (parseCategories lib s2) t2).EnabledCategories) := by
  have he : cfg.EnabledCategories = AllCategories.filter (fun c => cfg.IsEnabled c) :=
    enabledCategories_eq cfg
  refine ⟨he, ?_, ?_, ?_, ?_, ?_⟩
  · intro c
    rw [he, List.mem_filter]
  · rw [he]
    exact List.Nodup.filter _ (by decide)
  · rw [he]
    exact List.filter_sublist _
  · rw [he, List.countP_eq_length_filter]
  · intro hperm
    rw [enabledCategories_eq, enabledCategories_eq]
    show AllCategories.filter (parseCategories lib s1) = AllCategories.filter (parseCategories lib s2)
    rw [parseCategories_perm lib s1 s2 hperm]

/-- The strings `"arithmetic,power"` and `"power,arithmetic"` both give
`[arithmetic, power]`, and `"arithmetic,invalid,nonexistent"` gives a list of length `1`. -/
theorem enabledCategories_spec_witness :
    (LoadConfig asciiLib "" "arithmetic,power").EnabledCategories =
        [CategoryArithmetic, CategoryPower] ∧
      (Config.mk (parseCategories asciiLib "power,arithmetic") "stdio").EnabledCategories =
        (Config.mk (parseCategories asciiLib "arithmetic,power") "stdio").EnabledCategories ∧
      (LoadConfig asciiLib "" "arithmetic,invalid,nonexistent").EnabledCategories.length = 1 :=
  ⟨by decide,
    (enabledCategories_spec (LoadConfig asciiLib "" "") asciiLib "power,arithmetic"
      "arithmetic,power" "stdio" "stdio").2.2.2.2.2 (by decide),
    by decide⟩

/-! ### The guards of the statistics, division and shift handlers -/

/-- On a non-empty sorted copy the index computations of `medianHandler` stay in range. -/
theorem medianValue_isSome {F : Type} (env : FloatEnv F) (sorted : List F)
    (h : sorted ≠ []) : ∃ m, medianValue env sorted = some m := by
  have hpos : 0 < sorted.length := List.length_pos.mpr h
  unfold medianValue
  by_cases hev : sorted.length % 2 = 0
  · have h1 : sorted.length / 2 - 1 < sorted.length := by omega
    have h2 : sorted.length / 2 < sorted.length := by omega
    simp only [hev, if_true, List.getElem?_eq_getElem h1, List.getElem?_eq_getElem h2]
    exact ⟨_, rfl⟩
  · have h2 : sorted.length / 2 < sorted.length := by omega
    simp only [hev, if_false, List.getElem?_eq_getElem h2]
    exact ⟨_, rfl⟩

/-- After the three statements the new slice holds the sorted elements of `numbers`. -/
theorem medianSort_sorted {F : Type} (env : FloatEnv F) (numbers : List F) :
    (medianSort env numbers).sorted = env.sort numbers := by
  have hlen : (env.sort numbers).length = numbers.length := (env.sort_perm numbers).length_eq
  simp [medianSort, makeSlice, copySlice, sortSlice, writeSlice, readSlice, hlen]
  rw [← hlen, List.take_length, List.take_length]

/-- After the three statements the caller's slice holds what it held before: `make` gave
the copy an array of its own, and `copy` and `sort.Float64s` wrote to that array only. -/
theorem medianSort_numbers {F : Type} (env : FloatEnv F) (numbers : List F) :
    (medianSort env numbers).numbers = numbers := by
  simp [medianSort, makeSlice, copySlice, sortSlice, writeSlice, readSlice]

/-- The sorted copy of a non-empty slice is non-empty. -/
theorem medianSort_ne_nil {F : Type} (env : FloatEnv F) (numbers : List F)
    (h : numbers ≠ []) : (medianSort env numbers).sorted ≠ [] := by
  intro hnil
  have hperm : (env.sort numbers).Perm numbers := env.sort_perm numbers
  have hs : env.sort numbers = [] := by rw [← medianSort_sorted]; exact hnil
  rw [hs] at hperm
  exact h (List.Perm.nil_eq hperm).symm

/-- C21: each of the statistics handlers `sum`, `product`, `mean`, `median`, `mode`,
`variance`, `std_dev` and `range_stat` returns a Failure when the input sequence is empty,
and returns Success for every non-empty sequence of numbers, whatever the arithmetic of
`float64` computes. -/
theorem statistics_guard {F : Type} (env : FloatEnv F) (numbers : List F) :
    (numbers = [] →
      sumHandler env (Except.ok numbers) = returnError "array must not be empty" ∧
      productHandler env (Except.ok numbers) = returnError "array must not be empty" ∧
      meanHandler env (Except.ok numbers) = returnError "array must not be empty" ∧
      medianHandler env (Except.ok numbers) = some (returnError "array must not be empty") ∧
      modeHandler env (Except.ok numbers) = returnError "array must not be empty" ∧
      varianceHandler env (Except.ok numbers) = returnError "array must not be empty" ∧
      stdDevHandler env (Except.ok numbers) = returnError "array must not be empty" ∧
      rangeStatHandler env (Except.ok numbers) = some (returnError "array must not be empty")) ∧
    (numbers ≠ [] →
      (∃ t, sumHandler env (Except.ok numbers) = returnText t) ∧
      (∃ t, productHandler env (Except.ok numbers) = returnText t) ∧
      (∃ t, meanHandler env (Except.ok numbers) = returnText t) ∧
      (∃ t, medianHandler env (Except.ok numbers) = some (returnText t)) ∧
      (∃ t, modeHandler env (Except.ok numbers) = returnText t) ∧
      (∃ t, varianceHandler env (Except.ok numbers) = returnText t) ∧
      (∃ t, stdDevHandler env (Except.ok numbers) = returnText t) ∧
      (∃ t, rangeStatHandler env (Except.ok numbers) = some (returnText t))) := by
  constructor
  · rintro rfl
    refine ⟨rfl, rfl, rfl, rfl, rfl, rfl, rfl, rfl⟩
  · intro hne
    have hlen : ¬ numbers.length = 0 := fun h => hne (List.length_eq_zero.mp h)
    refine ⟨⟨env.format (sumLoop env numbers), by simp [sumHandler, hlen]⟩,
      ⟨env.format (numbers.foldl (fun product n => env.mul product n) (env.ofInt 1)),
        by simp [productHandler, hlen]⟩,
      ⟨env.format (meanValue env numbers), by simp [meanHandler, hlen]⟩, ?_,
      ⟨formatModes env (modeValues env numbers), by simp [modeHandler, hlen]⟩,
      ⟨env.format (varianceValue env numbers), by simp [varianceHandler, hlen]⟩,
      ⟨env.format (env.sqrt (varianceValue env numbers)), by simp [stdDevHandler, hlen]⟩, ?_⟩
    · obtain ⟨m, hm⟩ := medianValue_isSome env _ (medianSort_ne_nil env numbers hne)
      exact ⟨env.format m, by simp [medianHandler, hlen, hm]⟩
    · obtain ⟨first, rest, rfl⟩ := List.exists_cons_of_ne_nil hne
      exact ⟨env.format (env.sub (rangeLoop env rest first).2 (rangeLoop env rest first).1),
        by simp [rangeStatHandler]⟩

/-- The eight handlers in exact arithmetic on the empty sequence and on `[2, 4]`. -/
theorem statistics_guard_witness :
    medianHandler exampleEnv (Except.ok []) = some (returnError "array must not be empty") ∧
      (∃ t, medianHandler exampleEnv (Except.ok [2, 4]) = some (returnText t)) ∧
      (∃ t, rangeStatHandler exampleEnv (Except.ok [2, 4]) = some (returnText t)) :=
  ⟨((statistics_guard exampleEnv []).1 rfl).2.2.2.1,
    ((statistics_guard exampleEnv [2, 4]).2 (by simp)).2.2.2.1,
    ((statistics_guard exampleEnv [2, 4]).2 (by simp)).2.2.2.2.2.2.2⟩

/-- C25: for every dividend `x`, `divideHandler` called with a divisor `b` such that
`b == 0` returns a Failure whose message is `"division by zero"`, and for every other `b` it
returns Success, with the text of `x / b`; in exact arithmetic `b == 0` means `b = 0`. -/
theorem divideHandler_spec {F : Type} (env : FloatEnv F) (x b : F)
    (format : ℚ → String) (sqrt : ℚ → ℚ) (order : List (ℚ × Nat) → List (ℚ × Nat))
    (horder : ∀ l, (order l).Perm l) (p q : ℚ) :
    (env.eq b (env.ofInt 0) = true →
      divideHandler env (Except.ok x) (Except.ok b) = returnError "division by zero") ∧
    (env.eq b (env.ofInt 0) = false →
      divideHandler env (Except.ok x) (Except.ok b) = returnText (env.format (env.div x b))) ∧
    (q = 0 → divideHandler (exactEnv format sqrt order horder) (Except.ok p) (Except.ok q)
      = returnError "division by zero") ∧
    (q ≠ 0 → divideHandler (exactEnv format sqrt order horder) (Except.ok p) (Except.ok q)
      = returnText (format (p / q))) := by
  refine ⟨fun h => by simp [divideHandler, h], fun h => by simp [divideHandler, h], ?_, ?_⟩
  · rintro rfl
    simp [divideHandler, exactEnv]
  · intro hq
    simp [divideHandler, exactEnv, hq]

/-- Dividing `1` by `0` and `6` by `3` in exact arithmetic. -/
theorem divideHandler_spec_witness :
    divideHandler exampleEnv (Except.ok 1) (Except.ok 0) = returnError "division by zero" ∧
      divideHandler exampleEnv (Except.ok 6) (Except.ok 3) = returnText (formatRat (6 / 3)) :=
  ⟨(divideHandler_spec exampleEnv 1 0 formatRat (fun q => q) (fun l => l)
      (fun l => List.Perm.refl l) 1 0).2.2.1 rfl,
    (divideHandler_spec exampleEnv 6 3 formatRat (fun q => q) (fun l => l)
      (fun l => List.Perm.refl l) 6 3).2.2.2 (by norm_num)⟩

/-- Shifting left by one more place doubles, modulo `2^64`. -/
theorem shiftLeft64_succ (a n : Int) (hn : 0 ≤ n) :
    shiftLeft64 a (n + 1) = wrap64 (shiftLeft64 a n * 2) := by
  unfold shiftLeft64
  have e : (n + 1).toNat = n.toNat + 1 := by omega
  rw [e, pow_succ, ← mul_assoc]
  generalize a * 2 ^ n.toNat = x
  unfold wrap64
  omega

/-- Dividing by twice a positive number is dividing by it and then by two, for the division
that rounds towards minus infinity. -/
theorem ediv_mul_two (a x : Int) (hx : 0 < x) : a / (x * 2) = a / x / 2 := by
  have h1 := Int.ediv_add_emod a x
  have h2 := Int.emod_nonneg a (ne_of_gt hx)
  have h3 := Int.emod_lt_of_pos a hx
  have h4 : (0 : Int) < x * 2 := by omega
  have key := (Int.ediv_emod_unique h4 (a := a) (q := a / x / 2)
    (r := x * (a / x % 2) + a % x)).mpr
  refine (key ⟨?_, ?_, ?_⟩).1
  · have e : a / x = 2 * (a / x / 2) + a / x % 2 := by omega
    calc x * (a / x % 2) + a % x + x * 2 * (a / x / 2)
        = x * (2 * (a / x / 2) + a / x % 2) + a % x := by ring
      _ = x * (a / x) + a % x := by rw [← e]
      _ = a := h1
  · have hs : 0 ≤ a / x % 2 := by omega
    positivity
  · have hs : a / x % 2 = 0 ∨ a / x % 2 = 1 := by omega
    rcases hs with h | h <;> rw [h] <;> omega

/-- Shifting right by one more place halves, rounding towards minus infinity. -/
theorem shiftRight64_succ (a n : Int) (hn : 0 ≤ n) :
    shiftRight64 a (n + 1) = shiftRight64 a n / 2 := by
  unfold shiftRight64
  have e : (n + 1).toNat = n.toNat + 1 := by omega
  rw [e, pow_succ]
  exact ediv_mul_two a _ (by positivity)

/-- C26: `bitLeftShiftHandler` and `bitRightShiftHandler` each return the Failure
`"shift count must be non-negative"` if and only if the shift count `n` is negative; for
every integer `a` and every `n >= 0` they return Success with `a << n` and `a >> n`
respectively, where shifting by `0` leaves a 64-bit `a` unchanged, `<<` by one more place
doubles modulo `2^64` and `>>` by one more place halves rounding down. -/
theorem bitShift_spec (a n : Int) :
    (n < 0 →
      bitLeftShiftHandler (Except.ok a) (Except.ok n)
        = returnError "shift count must be non-negative" ∧
      bitRightShiftHandler (Except.ok a) (Except.ok n)
        = returnError "shift count must be non-negative") ∧
    (0 ≤ n →
      bitLeftShiftHandler (Except.ok a) (Except.ok n)
        = returnText (formatBits (shiftLeft64 a n)) ∧
      bitRightShiftHandler (Except.ok a) (Except.ok n)
        = returnText (formatBits (shiftRight64 a n)) ∧
      shiftLeft64 a (n + 1) = wrap64 (shiftLeft64 a n * 2) ∧
      shiftRight64 a (n + 1) = shiftRight64 a n / 2) ∧
    (IsInt64 a → shiftLeft64 a 0 = a) ∧ shiftRight64 a 0 = a := by
  refine ⟨fun h => ⟨by simp [bitLeftShiftHandler, h], by simp [bitRightShiftHandler, h]⟩,
    fun h => ⟨by simp [bitLeftShiftHandler, not_lt.mpr h],
      by simp [bitRightShiftHandler, not_lt.mpr h], shiftLeft64_succ a n h,
      shiftRight64_succ a n h⟩, fun ha => ?_, ?_⟩
  · unfold shiftLeft64
    simpa using wrap64_eq_self ha
  · unfold shiftRight64
    simp

/-- The shifts `1 << 3 = 8` and `8 >> 3 = 1`, and a negative shift count. -/
theorem bitShift_spec_witness :
    bitLeftShiftHandler (Except.ok 1) (Except.ok 3) = returnText "8 (binary: 1000)" ∧
      bitRightShiftHandler (Except.ok 8) (Except.ok 3) = returnText "1 (binary: 1)" ∧
      bitLeftShiftHandler (Except.ok 5) (Except.ok (-1))
        = returnError "shift count must be non-negative" ∧
      bitRightShiftHandler (Except.ok 5) (Except.ok (-1))
        = returnError "shift count must be non-negative" := by
  have h1 := ((bitShift_spec 1 3).2.1 (by decide)).1
  have h2 := ((bitShift_spec 8 3).2.1 (by decide)).2.1
  have h3 := (bitShift_spec 5 (-1)).1 (by decide)
  have e1 : formatBits (shiftLeft64 1 3) = "8 (binary: 1000)" := by decide
  have e2 : formatBits (shiftRight64 8 3) = "1 (binary: 1)" := by decide
  rw [e1] at h1
  rw [e2] at h2
  exact ⟨h1, h2, h3.1, h3.2⟩

/-! ### Mean, variance and median in exact arithmetic -/

/-- The summing loop computes the sum. -/
theorem foldl_add_eq_sum (xs : List ℚ) : ∀ a : ℚ,
    xs.foldl (fun sum n => sum + n) a = a + xs.sum := by
  induction xs with
  | nil => intro a; simp
  | cons x xs ih =>
    intro a
    rw [List.foldl_cons, ih, List.sum_cons]
    ring

/-- The loop of squared deviations computes their sum. -/
theorem foldl_sq_eq_sum (m : ℚ) (xs : List ℚ) : ∀ a : ℚ,
    xs.foldl (fun variance n => variance + (n - m) * (n - m)) a
      = a + (xs.map (fun x => (x - m) ^ 2)).sum := by
  induction xs with
  | nil => intro a; simp
  | cons x xs ih =>
    intro a
    rw [List.foldl_cons, ih, List.map_cons, List.sum_cons]
    ring

/-- In exact arithmetic `sumLoop` is the sum. -/
theorem sumLoop_exact (format : ℚ → String) (sqrt : ℚ → ℚ)
    (order : List (ℚ × Nat) → List (ℚ × Nat)) (horder : ∀ l, (order l).Perm l) (xs : List ℚ) :
    sumLoop (exactEnv format sqrt order horder) xs = xs.sum := by
  have h := foldl_add_eq_sum xs 0
  rw [zero_add] at h
  simpa [sumLoop, exactEnv] using h

/-- In exact arithmetic the mean is the sum divided by the number of elements. -/
theorem meanValue_exact (format : ℚ → String) (sqrt : ℚ → ℚ)
    (order : List (ℚ × Nat) → List (ℚ × Nat)) (horder : ∀ l, (order l).Perm l) (xs : List ℚ) :
    meanValue (exactEnv format sqrt order horder) xs = xs.sum / (xs.length : ℚ) := by
  unfold meanValue
  rw [sumLoop_exact]
  simp [exactEnv]

/-- In exact arithmetic the variance is the population variance. -/
theorem varianceValue_exact (format : ℚ → String) (sqrt : ℚ → ℚ)
    (order : List (ℚ × Nat) → List (ℚ × Nat)) (horder : ∀ l, (order l).Perm l) (xs : List ℚ) :
    varianceValue (exactEnv format sqrt order horder) xs
      = (xs.map (fun x => (x - xs.sum / (xs.length : ℚ)) ^ 2)).sum / (xs.length : ℚ) := by
  unfold varianceValue
  rw [meanValue_exact]
  have h := foldl_sq_eq_sum (xs.sum / (xs.length : ℚ)) xs 0
  rw [zero_add] at h
  simpa [exactEnv] using congrArg (fun v => v / (xs.length : ℚ)) h

/-- C24: for every non-empty sequence `xs` of `N` numbers, evaluated in exact arithmetic,
the mean operation returns `(sum of xs) / N` and the variance operation returns the
population variance `(sum over x of (x - mean)^2) / N`, dividing by `N` and not by `N - 1`;
the variance of a constant sequence is `0`. -/
theorem mean_variance_exact (format : ℚ → String) (sqrt : ℚ → ℚ)
    (order : List (ℚ × Nat) → List (ℚ × Nat)) (horder : ∀ l, (order l).Perm l)
    (xs : List ℚ) (hne : xs ≠ []) (c : ℚ) :
    meanHandler (exactEnv format sqrt order horder) (Except.ok xs)
        = returnText (format (xs.sum / (xs.length : ℚ))) ∧
      varianceHandler (exactEnv format sqrt order horder) (Except.ok xs)
        = returnText (format
            ((xs.map (fun x => (x - xs.sum / (xs.length : ℚ)) ^ 2)).sum / (xs.length : ℚ))) ∧
      ((∀ x ∈ xs, x = c) →
        varianceHandler (exactEnv format sqrt order horder) (Except.ok xs)
          = returnText (format 0)) := by
  have hlen : ¬ xs.length = 0 := fun h => hne (List.length_eq_zero.mp h)
  have hm : meanHandler (exactEnv format sqrt order horder) (Except.ok xs)
      = returnText (format (xs.sum / (xs.length : ℚ))) := by
    simp only [meanHandler, hlen, if_false, meanValue_exact]
    rfl
  have hv : varianceHandler (exactEnv format sqrt order horder) (Except.ok xs)
      = returnText (format
          ((xs.map (fun x => (x - xs.sum / (xs.length : ℚ)) ^ 2)).sum / (xs.length : ℚ))) := by
    simp only [varianceHandler, hlen, if_false, varianceValue_exact]
    rfl
  refine ⟨hm, hv, fun hconst => ?_⟩
  rw [hv]
  have hxs : xs = List.replicate xs.length c := List.eq_replicate_iff.mpr ⟨rfl, hconst⟩
  have hlen0 : (xs.length : ℚ) ≠ 0 := by exact_mod_cast hlen
  have hsum : xs.sum = (xs.length : ℚ) * c := by
    conv_lhs => rw [hxs]
    simp
  have hmean : xs.sum / (xs.length : ℚ) = c := by
    rw [hsum]
    field_simp
  have hzero : (xs.map (fun x => (x - xs.sum / (xs.length : ℚ)) ^ 2)).sum = 0 := by
    rw [hmean]
    apply List.sum_eq_zero
    intro y hy
    obtain ⟨x, hx, rfl⟩ := List.mem_map.mp hy
    rw [hconst x hx]
    simp
  rw [hzero, zero_div]

/-- The values `mean([1,2,3,4,5]) = 3` and `variance([2,4,4,4,5,5,7,9]) = 4`, and the
variance of `[7, 7, 7]`. -/
theorem mean_variance_exact_witness :
    meanHandler exampleEnv (Except.ok [1, 2, 3, 4, 5]) = returnText (formatRat 3) ∧
      varianceHandler exampleEnv (Except.ok [2, 4, 4, 4, 5, 5, 7, 9]) = returnText (formatRat 4) ∧
      varianceHandler exampleEnv (Except.ok [7, 7, 7]) = returnText (formatRat 0) := by
  have h1 := (mean_variance_exact formatRat (fun q => q) (fun l => l)
    (fun l => List.Perm.refl l) [1, 2, 3, 4, 5] (by simp) 0).1
  have h2 := (mean_variance_exact formatRat (fun q => q) (fun l => l)
    (fun l => List.Perm.refl l) [2, 4, 4, 4, 5, 5, 7, 9] (by simp) 0).2.1
  have h3 := (mean_variance_exact formatRat (fun q => q) (fun l => l)
    (fun l => List.Perm.refl l) [7, 7, 7] (by simp) 7).2.2 (by simp)
  have e1 : ([1, 2, 3, 4, 5] : List ℚ).sum / (([1, 2, 3, 4, 5] : List ℚ).length : ℚ) = 3 := by
    norm_num
  have e2 : (([2, 4, 4, 4, 5, 5, 7, 9] : List ℚ).map
      (fun x => (x - ([2, 4, 4, 4, 5, 5, 7, 9] : List ℚ).sum /
        (([2, 4, 4, 4, 5, 5, 7, 9] : List ℚ).length : ℚ)) ^ 2)).sum /
      (([2, 4, 4, 4, 5, 5, 7, 9] : List ℚ).length : ℚ) = 4 := by
    norm_num
  rw [e1] at h1
  rw [e2] at h2
  exact ⟨h1, h2, h3⟩

/-! ### The median -/

/-- The index computations of `medianHandler` on the sorted copy of a non-empty slice: the
handler prints the middle element, or the value of `(x + y) / 2` for the two middle elements
`x` and `y`. -/
theorem medianHandler_value {F : Type} (env : FloatEnv F) (xs : List F) (hne : xs ≠ []) :
    ∃ m : F, medianHandler env (Except.ok xs) = some (returnText (env.format m)) ∧
      ((env.sort xs).length % 2 = 1 → (env.sort xs)[(env.sort xs).length / 2]? = some m) ∧
      ((env.sort xs).length % 2 = 0 → ∃ x y,
        (env.sort xs)[(env.sort xs).length / 2 - 1]? = some x ∧
        (env.sort xs)[(env.sort xs).length / 2]? = some y ∧
        m = env.div (env.add x y) (env.ofInt 2)) := by
  have hlen : ¬ xs.length = 0 := fun h => hne (List.length_eq_zero.mp h)
  have hsne : env.sort xs ≠ [] := by
    intro h
    have hp := env.sort_perm xs
    rw [h] at hp
    exact hne (List.Perm.nil_eq hp).symm
  have hpos : 0 < (env.sort xs).length := List.length_pos.mpr hsne
  by_cases hev : (env.sort xs).length % 2 = 0
  · have h1 : (env.sort xs).length / 2 - 1 < (env.sort xs).length := by omega
    have h2 : (env.sort xs).length / 2 < (env.sort xs).length := by omega
    refine ⟨env.div (env.add ((env.sort xs)[(env.sort xs).length / 2 - 1])
      ((env.sort xs)[(env.sort xs).length / 2])) (env.ofInt 2), ?_, ?_, ?_⟩
    · simp only [medianHandler, hlen, if_false, medianSort_sorted, medianValue, hev, if_true,
        List.getElem?_eq_getElem h1, List.getElem?_eq_getElem h2]
    · intro hodd; omega
    · intro _
      exact ⟨_, _, List.getElem?_eq_getElem h1, List.getElem?_eq_getElem h2, rfl⟩
  · have h2 : (env.sort xs).length / 2 < (env.sort xs).length := by omega
    refine ⟨(env.sort xs)[(env.sort xs).length / 2], ?_, ?_, ?_⟩
    · simp only [medianHandler, hlen, if_false, medianSort_sorted, medianValue, hev,
        List.getElem?_eq_getElem h2]
    · intro _
      exact List.getElem?_eq_getElem h2
    · intro h0; exact absurd h0 hev

/-- Two arrangements of the same elements that are both ordered by a relation are equal,
when the relation holds both ways between identical elements only. -/
theorem sorted_perm_unique {F : Type} (r : F → F → Prop) (l1 : List F) : ∀ l2 : List F,
    l1.Perm l2 → l1.Pairwise r → l2.Pairwise r →
    (∀ a ∈ l1, ∀ b ∈ l1, r a b → r b a → a = b) → l1 = l2 := by
  induction l1 with
  | nil => intro l2 hp _ _ _; exact List.Perm.nil_eq hp
  | cons a l1 ih =>
    intro l2 hp h1 h2 hanti
    cases l2 with
    | nil => exact absurd (List.Perm.nil_eq hp.symm) (by simp)
    | cons b l2 =>
      have hab : a = b := by
        have ha : a ∈ b :: l2 := hp.subset (List.mem_cons_self _ _)
        have hb : b ∈ a :: l1 := hp.symm.subset (List.mem_cons_self _ _)
        rcases List.mem_cons.mp ha with h | h
        · exact h
        · rcases List.mem_cons.mp hb with h3 | h3
          · exact h3.symm
          · have r1 : r b a := (List.pairwise_cons.mp h2).1 a h
            have r2 : r a b := (List.pairwise_cons.mp h1).1 b h3
            exact hanti a (List.mem_cons_self _ _) b (List.mem_cons_of_mem _ h3) r2 r1
      subst hab
      have e := ih l2 (List.Perm.cons_inv hp) (List.pairwise_cons.mp h1).2
        (List.pairwise_cons.mp h2).2
        (fun x hx y hy => hanti x (List.mem_cons_of_mem _ hx) y (List.mem_cons_of_mem _ hy))
      rw [e]

/-- The sorted copy does not depend on the order of the input when the sort orders its
output and `<` leaves only identical elements of the input unordered. -/
theorem sort_perm_eq {F : Type} (env : FloatEnv F) {xs ys : List F}
    (hsort : ∀ l, (env.sort l).Pairwise (fun a b => env.lt b a = false))
    (hanti : ∀ a ∈ xs, ∀ b ∈ xs, env.lt a b = false → env.lt b a = false → a = b)
    (hp : ys.Perm xs) : env.sort ys = env.sort xs := by
  have hperm : (env.sort ys).Perm (env.sort xs) :=
    ((env.sort_perm ys).trans hp).trans (env.sort_perm xs).symm
  refine sorted_perm_unique (fun a b => env.lt b a = false) _ _ hperm (hsort ys) (hsort xs) ?_
  intro a ha b hb h1 h2
  have hax : a ∈ xs := hp.subset ((env.sort_perm ys).subset ha)
  have hbx : b ∈ xs := hp.subset ((env.sort_perm ys).subset hb)
  exact hanti a hax b hbx h2 h1

/-- The median does not depend on the order of the input, under the conditions of
`sort_perm_eq`. -/
theorem medianHandler_perm {F : Type} (env : FloatEnv F) {xs ys : List F}
    (hsort : ∀ l, (env.sort l).Pairwise (fun a b => env.lt b a = false))
    (hanti : ∀ a ∈ xs, ∀ b ∈ xs, env.lt a b = false → env.lt b a = false → a = b)
    (hp : ys.Perm xs) :
    medianHandler env (Except.ok ys) = medianHandler env (Except.ok xs) := by
  have hl : ys.length = xs.length := hp.length_eq
  simp only [medianHandler, hl, medianSort_sorted, sort_perm_eq env hsort hanti hp]

/-- In exact arithmetic the sort orders its output. -/
theorem exactEnv_sort_ordered (format : ℚ → String) (sqrt : ℚ → ℚ)
    (order : List (ℚ × Nat) → List (ℚ × Nat)) (horder : ∀ l, (order l).Perm l) (l : List ℚ) :
    ((exactEnv format sqrt order horder).sort l).Pairwise
      (fun a b => (exactEnv format sqrt order horder).lt b a = false) := by
  have h : (l.insertionSort (· ≤ ·)).Pairwise (· ≤ ·) := List.sorted_insertionSort (· ≤ ·) l
  refine List.Pairwise.imp ?_ h
  intro a b hab
  simp [exactEnv, hab]

/-- In exact arithmetic `<` leaves only identical numbers unordered. -/
theorem exactEnv_lt_total (format : ℚ → String) (sqrt : ℚ → ℚ)
    (order : List (ℚ × Nat) → List (ℚ × Nat)) (horder : ∀ l, (order l).Perm l) (a b : ℚ)
    (h1 : (exactEnv format sqrt order horder).lt a b = false)
    (h2 : (exactEnv format sqrt order horder).lt b a = false) : a = b := by
  simp [exactEnv] at h1 h2
  exact le_antisymm h2 h1

/-- C22 fails as stated: on signed zeros the median depends on the order of the input.  The
sequence `[0, -0, 0]` and its rearrangement `[-0, 0, 0]` are sorted copies of themselves, of
middle elements `-0` and `0`. -/
theorem median_order_signed_zero :
    ([IeeeValue.negZero, IeeeValue.fin 0, IeeeValue.fin 0] : List IeeeValue).Perm
        [IeeeValue.fin 0, IeeeValue.negZero, IeeeValue.fin 0] ∧
      medianHandler ieeeExampleEnv
        (Except.ok [IeeeValue.fin 0, IeeeValue.negZero, IeeeValue.fin 0])
        = some (returnText "-0") ∧
      medianHandler ieeeExampleEnv
        (Except.ok [IeeeValue.negZero, IeeeValue.fin 0, IeeeValue.fin 0])
        = some (returnText "0") := by
  decide

/-- C22, amended: for every non-empty sequence `xs` of `float64` the median operation
returns, with `s` the sorted copy of `xs` (a rearrangement of `xs`), the element `s[len/2]`
when the length is odd and the `float64` value of `(s[len/2 - 1] + s[len/2]) / 2` when it is
even; the result does not depend on the order of `xs` when `<` leaves only identical
elements of `xs` unordered (no NaN among several, not both zeros); the caller's sequence is
left unchanged.  In exact arithmetic `s` is ascending, the even case is the average, and
the result never depends on the order. -/
theorem median_spec {F : Type} (env : FloatEnv F) (xs : List F) (hne : xs ≠ [])
    (format : ℚ → String) (sqrt : ℚ → ℚ)
    (order : List (ℚ × Nat) → List (ℚ × Nat)) (horder : ∀ l, (order l).Perm l)
    (qs : List ℚ) (hqs : qs ≠ []) :
    (∃ s : List F, (medianSort env xs).sorted = s ∧ s = env.sort xs ∧ s.Perm xs ∧
      ∃ m : F, medianHandler env (Except.ok xs) = some (returnText (env.format m)) ∧
        (s.length % 2 = 1 → s[s.length / 2]? = some m) ∧
        (s.length % 2 = 0 → ∃ x y, s[s.length / 2 - 1]? = some x ∧
          s[s.length / 2]? = some y ∧ m = env.div (env.add x y) (env.ofInt 2))) ∧
    ((∀ l, (env.sort l).Pairwise (fun a b => env.lt b a = false)) →
      (∀ a ∈ xs, ∀ b ∈ xs, env.lt a b = false → env.lt b a = false → a = b) →
      ∀ ys : List F, ys.Perm xs →
        medianHandler env (Except.ok ys) = medianHandler env (Except.ok xs)) ∧
    (medianSort env xs).numbers = xs ∧
    (∃ s : List ℚ, (medianSort (exactEnv format sqrt order horder) qs).sorted = s ∧
      s.Sorted (· ≤ ·) ∧ s.Perm qs ∧
      (∃ m : ℚ, medianHandler (exactEnv format sqrt order horder) (Except.ok qs)
          = some (returnText (format m)) ∧
        (s.length % 2 = 1 → s[s.length / 2]? = some m) ∧
        (s.length % 2 = 0 → ∃ x y, s[s.length / 2 - 1]? = some x ∧
          s[s.length / 2]? = some y ∧ m = (x + y) / 2)) ∧
      (∀ ys : List ℚ, ys.Perm qs →
        medianHandler (exactEnv format sqrt order horder) (Except.ok ys)
          = medianHandler (exactEnv format sqrt order horder) (Except.ok qs))) := by
  refine ⟨⟨env.sort xs, medianSort_sorted env xs, rfl, env.sort_perm xs,
      medianHandler_value env xs hne⟩,
    fun hsort hanti ys hp => medianHandler_perm env hsort hanti hp,
    medianSort_numbers env xs, ?_⟩
  refine ⟨qs.insertionSort (· ≤ ·), medianSort_sorted _ qs, List.sorted_insertionSort (· ≤ ·) qs,
    List.perm_insertionSort (· ≤ ·) qs, ?_, ?_⟩
  · obtain ⟨m, hm, hodd, heven⟩ := medianHandler_value (exactEnv format sqrt order horder) qs hqs
    exact ⟨m, hm, hodd, heven⟩
  · intro ys hp
    exact medianHandler_perm (exactEnv format sqrt order horder)
      (exactEnv_sort_ordered format sqrt order horder)
      (fun a _ b _ h1 h2 => exactEnv_lt_total format sqrt order horder a b h1 h2) hp

/-- The values `median([5,1,3]) = 3` and `median([1,2,3,4]) = 5/2` in exact arithmetic, and
`[1,3,5]` against `[5,1,3]`. -/
theorem median_spec_witness :
    medianHandler exampleEnv (Except.ok [5, 1, 3]) = some (returnText (formatRat 3)) ∧
      medianHandler exampleEnv (Except.ok [1, 2, 3, 4]) = some (returnText (formatRat (5 / 2))) ∧
      medianHandler exampleEnv (Except.ok [1, 3, 5])
        = medianHandler exampleEnv (Except.ok [5, 1, 3]) := by
  obtain ⟨⟨s, _, hs, _, m, hm, hodd, _⟩, hperm, _, s2, hs2, _, _, ⟨m2, hm2, _, heven⟩, _⟩ :=
    median_spec exampleEnv [5, 1, 3] (by simp) formatRat (fun q => q) (fun l => l)
      (fun l => List.Perm.refl l) [1, 2, 3, 4] (by simp)
  have e1 : s = [1, 3, 5] := by rw [hs]; decide
  have e2 : s2 = [1, 2, 3, 4] := by
    rw [← hs2]
    exact medianSort_sorted _ _
  subst e1
  subst e2
  have hm3 : m = 3 := by
    have := hodd (by decide)
    simpa using this.symm
  have hm52 : m2 = 5 / 2 := by
    obtain ⟨x, y, hx, hy, hxy⟩ := heven (by decide)
    have ex : x = 2 := by simpa using hx.symm
    have ey : y = 3 := by simpa using hy.symm
    rw [hxy, ex, ey]
    norm_num
  rw [hm3] at hm
  rw [hm52] at hm2
  refine ⟨hm, hm2, hperm (exactEnv_sort_ordered _ _ _ _) ?_ [1, 3, 5] (by decide)⟩
  intro a _ b _ h1 h2
  exact exactEnv_lt_total _ _ _ _ a b h1 h2

/-! ### The mode -/

/-- When `==` holds between identical values only, `freq[n]++` rewrites the entry of key `n`,
or adds the entry `(n, 1)`. -/
theorem freqIncr_spec {F : Type} [DecidableEq F] (env : FloatEnv F) (freq : List (F × Nat))
    (n : F) (hE : ∀ p ∈ freq, (env.eq p.1 n = true ↔ p.1 = n)) :
    freqIncr env freq n =
      if n ∈ freq.map Prod.fst then freq.map (fun p => if p.1 = n then (n, p.2 + 1) else p)
      else freq ++ [(n, 1)] := by
  unfold freqIncr
  by_cases h : n ∈ freq.map Prod.fst
  · have hany : freq.any (fun p => env.eq p.1 n) = true := by
      obtain ⟨p, hp, hpn⟩ := List.mem_map.mp h
      exact List.any_eq_true.mpr ⟨p, hp, (hE p hp).mpr hpn⟩
    rw [if_pos hany, if_pos h]
    apply List.map_congr_left
    intro p hp
    by_cases hpn : p.1 = n
    · rw [if_pos hpn, if_pos ((hE p hp).mpr hpn)]
    · have hne : ¬ env.eq p.1 n = true := fun he => hpn ((hE p hp).mp he)
      rw [if_neg hpn, if_neg hne]
  · have hany : ¬ freq.any (fun p => env.eq p.1 n) = true := by
      intro ha
      obtain ⟨p, hp, hpe⟩ := List.any_eq_true.mp ha
      exact h (List.mem_map.mpr ⟨p, hp, (hE p hp).mp hpe⟩)
    rw [if_neg hany, if_neg h]

/-- Reading a key that is present gives the count of its entries. -/
theorem freqGet_of_mem {F : Type} (env : FloatEnv F) (freq : List (F × Nat)) (n : F)
    (c : Nat) (hE : ∀ p ∈ freq, (env.eq p.1 n = true ↔ p.1 = n))
    (hkey : n ∈ freq.map Prod.fst) (hc : ∀ p ∈ freq, p.1 = n → p.2 = c) :
    freqGet env freq n = c := by
  unfold freqGet
  cases hfind : freq.find? (fun p => env.eq p.1 n) with
  | none =>
    exfalso
    obtain ⟨p, hp, hpn⟩ := List.mem_map.mp hkey
    have := List.find?_eq_none.mp hfind p hp
    exact this ((hE p hp).mpr hpn)
  | some p =>
    have hp : p ∈ freq := List.mem_of_find?_eq_some hfind
    have hpe := List.find?_some hfind
    have hpn : p.1 = n := (hE p hp).mp hpe
    exact hc p hp hpn

/-- Occurrences after one more element. -/
theorem count_snoc {F : Type} [DecidableEq F] (seen : List F) (n x : F) :
    (seen ++ [n]).count x = seen.count x + (if x = n then 1 else 0) := by
  rw [List.count_append]
  by_cases h : x = n
  · subst h; simp
  · have h2 : ¬ n = x := fun e => h e.symm
    simp [h, List.count_cons, h2]

/-- One iteration of the counting loop keeps the invariant. -/
theorem countInv_step {F : Type} [DecidableEq F] (env : FloatEnv F)
    {freq : List (F × Nat)} {maxFreq : Nat} {seen : List F}
    (h : CountInv freq maxFreq seen) (n : F)
    (hE : ∀ x ∈ seen ++ [n], (env.eq x n = true ↔ x = n)) :
    CountInv (freqIncr env freq n)
      (if freqGet env (freqIncr env freq n) n > maxFreq
        then freqGet env (freqIncr env freq n) n
        else maxFreq)
      (seen ++ [n]) := by
  have hEf : ∀ p ∈ freq, (env.eq p.1 n = true ↔ p.1 = n) := fun p hp =>
    hE p.1 (List.mem_append_left _ ((h.keys p.1).mp (List.mem_map.mpr ⟨p, hp, rfl⟩)))
  have hincr := freqIncr_spec env freq n hEf
  have hkeys : ∀ x, x ∈ (freqIncr env freq n).map Prod.fst ↔ x ∈ seen ++ [n] := by
    intro x
    rw [hincr]
    by_cases hn : n ∈ freq.map Prod.fst
    · rw [if_pos hn]
      have e : (freq.map (fun p => if p.1 = n then (n, p.2 + 1) else p)).map Prod.fst
          = freq.map Prod.fst := by
        rw [List.map_map]
        apply List.map_congr_left
        intro p _
        by_cases hp : p.1 = n <;> simp [hp]
      rw [e, h.keys, List.mem_append, List.mem_singleton]
      constructor
      · intro hx; exact Or.inl hx
      · rintro (hx | rfl)
        · exact hx
        · exact (h.keys _).mp hn
    · rw [if_neg hn, List.map_append, List.mem_append, List.mem_append, h.keys]
      simp
  have hnodup : ((freqIncr env freq n).map Prod.fst).Nodup := by
    rw [hincr]
    by_cases hn : n ∈ freq.map Prod.fst
    · rw [if_pos hn]
      have e : (freq.map (fun p => if p.1 = n then (n, p.2 + 1) else p)).map Prod.fst
          = freq.map Prod.fst := by
        rw [List.map_map]
        apply List.map_congr_left
        intro p _
        by_cases hp : p.1 = n <;> simp [hp]
      rw [e]
      exact h.nodup
    · rw [if_neg hn, List.map_append]
      apply List.Nodup.append h.nodup (by simp)
      intro a ha hb
      simp at hb
      subst hb
      exact hn ha
  have hcounts : ∀ p ∈ freqIncr env freq n, p.2 = (seen ++ [n]).count p.1 := by
    intro p hp
    rw [hincr] at hp
    rw [count_snoc]
    by_cases hn : n ∈ freq.map Prod.fst
    · rw [if_pos hn] at hp
      obtain ⟨q, hq, rfl⟩ := List.mem_map.mp hp
      by_cases hqn : q.1 = n
      · simp only [hqn, if_true]
        rw [h.counts q hq, hqn]
      · simp only [hqn, if_false]
        rw [h.counts q hq]
        simp
    · rw [if_neg hn] at hp
      rcases List.mem_append.mp hp with hq | hq
      · have hne : p.1 ≠ n := by
          rintro rfl
          exact hn (List.mem_map.mpr ⟨p, hq, rfl⟩)
        rw [h.counts p hq]
        simp [hne]
      · have e : p = (n, 1) := by simpa using hq
        subst e
        have hns : n ∉ seen := fun hs => hn ((h.keys n).mpr hs)
        simp [List.count_eq_zero_of_not_mem hns]
  have hget : freqGet env (freqIncr env freq n) n = (seen ++ [n]).count n := by
    apply freqGet_of_mem
    · intro p hp
      exact hE p.1 ((hkeys p.1).mp (List.mem_map.mpr ⟨p, hp, rfl⟩))
    · rw [hkeys]; simp
    · intro p hp hpn
      rw [hcounts p hp, hpn]
  have hcn : (seen ++ [n]).count n = seen.count n + 1 := by
    rw [count_snoc]; simp
  refine ⟨hnodup, hkeys, hcounts, ?_, ?_⟩
  · intro x
    rw [hget]
    have hb := h.bound x
    have hbn := h.bound n
    rw [count_snoc]
    by_cases hx : x = n
    · subst hx
      simp only [if_true]
      split <;> omega
    · simp only [hx, if_false]
      split <;> omega
  · right
    rw [hget]
    by_cases hgt : (seen ++ [n]).count n > maxFreq
    · rw [if_pos hgt]
      exact ⟨n, by simp, rfl⟩
    · rw [if_neg hgt]
      rcases h.attained with ⟨hs, hm⟩ | ⟨x, hx, hxc⟩
      · omega
      · refine ⟨x, List.mem_append_left _ hx, ?_⟩
        rw [count_snoc]
        by_cases hxn : x = n
        · subst hxn; omega
        · simp [hxn, hxc]

/-- The counting loop keeps the invariant. -/
theorem countInv_fold {F : Type} [DecidableEq F] (env : FloatEnv F) (l : List F) :
    ∀ (st : List (F × Nat) × Nat) (seen : List F),
      (∀ a ∈ seen ++ l, ∀ b ∈ seen ++ l, (env.eq a b = true ↔ a = b)) →
      CountInv st.1 st.2 seen →
      CountInv
        (l.foldl
          (fun st n =>
            let freq := freqIncr env st.1 n
            if freqGet env freq n > st.2 then (freq, freqGet env freq n) else (freq, st.2)) st).1
        (l.foldl
          (fun st n =>
            let freq := freqIncr env st.1 n
            if freqGet env freq n > st.2 then (freq, freqGet env freq n) else (freq, st.2)) st).2
        (seen ++ l) := by
  induction l with
  | nil => intro st seen _ h; simpa using h
  | cons n l ih =>
    intro st seen hE h
    rw [List.foldl_cons]
    have e : seen ++ n :: l = (seen ++ [n]) ++ l := by simp
    have hEn : ∀ x ∈ seen ++ [n], (env.eq x n = true ↔ x = n) := by
      intro x hx
      apply hE x _ n (by simp)
      rw [e]
      exact List.mem_append_left _ hx
    have hstep := countInv_step env h n hEn
    rw [e] at hE ⊢
    apply ih _ _ hE
    by_cases hgt : freqGet env (freqIncr env st.1 n) n > st.2
    · simp only [hgt, if_true] at hstep ⊢
      exact hstep
    · simp only [hgt, if_false] at hstep ⊢
      exact hstep

/-- The invariant holds when the counting loop is done. -/
theorem countLoop_inv {F : Type} [DecidableEq F] (env : FloatEnv F) (xs : List F)
    (hE : ∀ a ∈ xs, ∀ b ∈ xs, (env.eq a b = true ↔ a = b)) :
    CountInv (countLoop env xs).1 (countLoop env xs).2 xs := by
  have h0 : CountInv ([] : List (F × Nat)) 0 ([] : List F) :=
    ⟨by simp, by simp, by simp, by simp, Or.inl ⟨rfl, rfl⟩⟩
  have := countInv_fold env xs ([], 0) [] (by simpa using hE) h0
  simpa [countLoop] using this

/-- The selection loop keeps the keys of the entries whose count is `maxFreq`. -/
theorem selectModes_fold {F : Type} (maxFreq : Nat) (l : List (F × Nat)) : ∀ acc : List F,
    l.foldl (fun modes p => if p.2 = maxFreq then modes ++ [p.1] else modes) acc
      = acc ++ (l.filter (fun p => decide (p.2 = maxFreq))).map Prod.fst := by
  induction l with
  | nil => intro acc; simp
  | cons p l ih =>
    intro acc
    rw [List.foldl_cons, ih]
    by_cases hp : p.2 = maxFreq
    · simp [hp]
    · simp [hp]

/-- The keys selected from a map that satisfies the invariant are distinct and are the
values seen whose number of occurrences is the largest, whatever the order of iteration. -/
theorem selected_spec {F : Type} [DecidableEq F] (order : List (F × Nat) → List (F × Nat))
    (horder : ∀ l, (order l).Perm l) {freq : List (F × Nat)} {maxFreq : Nat} {xs : List F}
    (hinv : CountInv freq maxFreq xs) :
    (((order freq).filter (fun p => decide (p.2 = maxFreq))).map Prod.fst).Nodup ∧
      ∀ x, x ∈ ((order freq).filter (fun p => decide (p.2 = maxFreq))).map Prod.fst
        ↔ x ∈ xs ∧ ∀ y, xs.count y ≤ xs.count x := by
  constructor
  · have hnd : ((order freq).map Prod.fst).Nodup :=
      (List.Perm.nodup_iff ((horder freq).map Prod.fst)).mpr hinv.nodup
    exact List.Nodup.sublist (List.Sublist.map Prod.fst (List.filter_sublist _)) hnd
  · intro x
    constructor
    · intro hx
      obtain ⟨p, hp, rfl⟩ := List.mem_map.mp hx
      obtain ⟨hpo, hpc⟩ := List.mem_filter.mp hp
      have hpf : p ∈ freq := (horder freq).mem_iff.mp hpo
      have hc : p.2 = maxFreq := by simpa using hpc
      have hcount := hinv.counts p hpf
      refine ⟨(hinv.keys p.1).mp (List.mem_map.mpr ⟨p, hpf, rfl⟩), fun y => ?_⟩
      have := hinv.bound y
      omega
    · rintro ⟨hx, hmax⟩
      obtain ⟨p, hpf, rfl⟩ := List.mem_map.mp ((hinv.keys x).mpr hx)
      have hcount := hinv.counts p hpf
      have hb := hinv.bound p.1
      have hc : p.2 = maxFreq := by
        rcases hinv.attained with ⟨hs, _⟩ | ⟨z, _, hz⟩
        · rw [hs] at hx; simp at hx
        · have := hmax z
          omega
      exact List.mem_map.mpr
        ⟨p, List.mem_filter.mpr ⟨(horder freq).mem_iff.mpr hpf, by simpa using hc⟩, rfl⟩

/-- The slice of modes before sorting. -/
theorem selectModes_eq {F : Type} (env : FloatEnv F) (freq : List (F × Nat)) (maxFreq : Nat) :
    selectModes env freq maxFreq
      = ((env.mapOrder freq).filter (fun p => decide (p.2 = maxFreq))).map Prod.fst := by
  have := selectModes_fold maxFreq (env.mapOrder freq) []
  rw [List.nil_append] at this
  exact this

/-- When `==` holds between identical elements of the input only, the sorted slice of modes
has no repetition and lists the values of the input whose number of occurrences is the
largest; it is not empty when the input is not. -/
theorem modeValues_mem {F : Type} [DecidableEq F] (env : FloatEnv F) (xs : List F)
    (hE : ∀ a ∈ xs, ∀ b ∈ xs, (env.eq a b = true ↔ a = b)) :
    (modeValues env xs).Nodup ∧
      (∀ x, x ∈ modeValues env xs ↔ x ∈ xs ∧ ∀ y, xs.count y ≤ xs.count x) ∧
      (xs ≠ [] → modeValues env xs ≠ []) := by
  have hinv := countLoop_inv env xs hE
  have hval : modeValues env xs
      = env.sort (selectModes env (countLoop env xs).1 (countLoop env xs).2) := rfl
  obtain ⟨hnd, hmem⟩ := selected_spec env.mapOrder env.mapOrder_perm hinv
  have hm : ∀ x, x ∈ modeValues env xs ↔ x ∈ xs ∧ ∀ y, xs.count y ≤ xs.count x := by
    intro x
    rw [hval, (env.sort_perm _).mem_iff, selectModes_eq]
    exact hmem x
  refine ⟨?_, hm, fun hne => ?_⟩
  · rw [hval, List.Perm.nodup_iff (env.sort_perm _), selectModes_eq]
    exact hnd
  · rcases hinv.attained with ⟨hs, _⟩ | ⟨z, hz, hzc⟩
    · exact absurd hs hne
    · have : z ∈ modeValues env xs :=
        (hm z).mpr ⟨hz, fun y => by rw [hzc]; exact hinv.bound y⟩
      exact List.ne_nil_of_mem this

/-- The sorted slice of modes is ordered. -/
theorem modeValues_ordered {F : Type} (env : FloatEnv F) (xs : List F)
    (hsort : ∀ l, (env.sort l).Pairwise (fun a b => env.lt b a = false)) :
    (modeValues env xs).Pairwise (fun a b => env.lt b a = false) :=
  hsort _

/-- The sorted slice of modes does not depend on the order of the input nor on the order of
map iteration. -/
theorem modeValues_perm {F : Type} [DecidableEq F] (env : FloatEnv F) (xs ys : List F)
    (order2 : List (F × Nat) → List (F × Nat)) (horder2 : ∀ l, (order2 l).Perm l)
    (hE : ∀ a ∈ xs, ∀ b ∈ xs, (env.eq a b = true ↔ a = b))
    (hsort : ∀ l, (env.sort l).Pairwise (fun a b => env.lt b a = false))
    (hanti : ∀ a ∈ xs, ∀ b ∈ xs, env.lt a b = false → env.lt b a = false → a = b)
    (hp : ys.Perm xs) :
    modeValues { env with mapOrder := order2, mapOrder_perm := horder2 } ys
      = modeValues env xs := by
  have hE2 : ∀ a ∈ ys, ∀ b ∈ ys, (env.eq a b = true ↔ a = b) := fun a ha b hb =>
    hE a (hp.subset ha) b (hp.subset hb)
  obtain ⟨hnd1, hm1, _⟩ := modeValues_mem env xs hE
  obtain ⟨hnd2, hm2, _⟩ :=
    modeValues_mem { env with mapOrder := order2, mapOrder_perm := horder2 } ys hE2
  have hperm : (modeValues { env with mapOrder := order2, mapOrder_perm := horder2 } ys).Perm
      (modeValues env xs) := by
    refine (List.perm_ext_iff_of_nodup hnd2 hnd1).mpr (fun x => ?_)
    rw [hm1, hm2, hp.mem_iff]
    constructor
    · rintro ⟨hx, hc⟩
      exact ⟨hx, fun y => by have := hc y; rwa [hp.count_eq, hp.count_eq] at this⟩
    · rintro ⟨hx, hc⟩
      exact ⟨hx, fun y => by have := hc y; rwa [← hp.count_eq, ← hp.count_eq] at this⟩
  refine sorted_perm_unique (fun a b => env.lt b a = false) _ _ hperm
    (modeValues_ordered { env with mapOrder := order2, mapOrder_perm := horder2 } ys hsort)
    (modeValues_ordered env xs hsort) ?_
  intro a ha b hb h1 h2
  have hax : a ∈ xs := hp.subset ((hm2 a).mp ha).1
  have hbx : b ∈ xs := hp.subset ((hm2 b).mp hb).1
  exact hanti a hax b hbx h2 h1

/-- The function `joinStrings` puts the separator between consecutive strings. -/
theorem joinStrings_eq_intercalate (strs : List String) (sep : String) :
    joinStrings strs sep = sep.intercalate strs := by
  cases strs with
  | nil => rfl
  | cons s rest =>
    show rest.foldl (fun result s => result ++ (sep ++ s)) s = String.intercalate.go s sep rest
    induction rest generalizing s with
    | nil => rfl
    | cons t rest ih =>
      rw [List.foldl_cons, ih]
      show _ = String.intercalate.go (s ++ sep ++ t) sep rest
      rw [String.append_assoc]

/-- The output part of `modeHandler`: one mode is printed bare, any other number of modes
between brackets, separated by a comma and a space. -/
theorem modeHandler_render {F : Type} (env : FloatEnv F) (xs : List F) (hne : xs ≠ []) :
    modeHandler env (Except.ok xs) = returnText (formatModes env (modeValues env xs)) ∧
      (∀ m, modeValues env xs = [m] →
        modeHandler env (Except.ok xs) = returnText (env.format m)) ∧
      ((modeValues env xs).length ≠ 1 →
        modeHandler env (Except.ok xs)
          = returnText ("[" ++ ", ".intercalate ((modeValues env xs).map env.format) ++ "]")) := by
  have hl : ¬ xs.length = 0 := fun h => hne (List.length_eq_zero.mp h)
  have hh : modeHandler env (Except.ok xs)
      = returnText (formatModes env (modeValues env xs)) := by
    simp only [modeHandler, hl, if_false]
  refine ⟨hh, fun m hm => ?_, fun hlen => ?_⟩
  · rw [hh, hm]
    rfl
  · rw [hh, ← joinStrings_eq_intercalate]
    generalize modeValues env xs = ms at hlen
    match ms, hlen with
    | [], _ => rfl
    | [m], h => exact absurd rfl h
    | _ :: _ :: _, _ => rfl

/-- In exact arithmetic `==` is equality. -/
theorem exactEnv_eq_iff (format : ℚ → String) (sqrt : ℚ → ℚ)
    (order : List (ℚ × Nat) → List (ℚ × Nat)) (horder : ∀ l, (order l).Perm l) (a b : ℚ) :
    (exactEnv format sqrt order horder).eq a b = true ↔ a = b := by
  simp [exactEnv]

/-- C23 fails as stated: on signed zeros the mode depends on the order of the input, `[0, -0]`
giving `-0` and its rearrangement `[-0, 0]` giving `0`; on NaN it is not the set of most
frequent values, `[NaN]` giving no mode at all and `[NaN, NaN, 1]` giving NaN twice. -/
theorem mode_signed_zero_nan :
    ([IeeeValue.negZero, IeeeValue.fin 0] : List IeeeValue).Perm
        [IeeeValue.fin 0, IeeeValue.negZero] ∧
      modeHandler ieeeExampleEnv (Except.ok [IeeeValue.fin 0, IeeeValue.negZero])
        = returnText "-0" ∧
      modeHandler ieeeExampleEnv (Except.ok [IeeeValue.negZero, IeeeValue.fin 0])
        = returnText "0" ∧
      modeValues ieeeExampleEnv [IeeeValue.nan] = [] ∧
      modeHandler ieeeExampleEnv (Except.ok [IeeeValue.nan]) = returnText "[]" ∧
      modeHandler ieeeExampleEnv (Except.ok [IeeeValue.nan, IeeeValue.nan, IeeeValue.fin 1])
        = returnText "[NaN, NaN, 1]" := by
  decide

/-- C23, amended: for every non-empty sequence `xs` of `float64` in which `==` holds between
identical values only (no NaN, not both zeros), the mode operation returns exactly the
distinct values of `xs` whose number of occurrences equals the maximum occurrence count,
each once, in ascending numeric order, independent of the order of `xs` and of map iteration
order; a single mode is rendered as the bare number and several modes as a bracketed list
separated by a comma and a space.  In exact arithmetic this holds for every non-empty
sequence. -/
theorem mode_spec {F : Type} [DecidableEq F] (env : FloatEnv F) (xs : List F) (hne : xs ≠ [])
    (hE : ∀ a ∈ xs, ∀ b ∈ xs, (env.eq a b = true ↔ a = b))
    (hsort : ∀ l, (env.sort l).Pairwise (fun a b => env.lt b a = false))
    (hanti : ∀ a ∈ xs, ∀ b ∈ xs, env.lt a b = false → env.lt b a = false → a = b)
    (format : ℚ → String) (sqrt : ℚ → ℚ)
    (order : List (ℚ × Nat) → List (ℚ × Nat)) (horder : ∀ l, (order l).Perm l)
    (qs : List ℚ) (hqs : qs ≠ []) :
    (∃ ms : List F, modeValues env xs = ms ∧
      ms.Pairwise (fun a b => env.lt a b = true) ∧ ms.Nodup ∧
      (∀ x, x ∈ ms ↔ x ∈ xs ∧ ∀ y, xs.count y ≤ xs.count x) ∧
      ms ≠ [] ∧
      (∀ (ys : List F) (order2 : List (F × Nat) → List (F × Nat))
          (horder2 : ∀ l, (order2 l).Perm l), ys.Perm xs →
        modeValues { env with mapOrder := order2, mapOrder_perm := horder2 } ys = ms ∧
        modeHandler { env with mapOrder := order2, mapOrder_perm := horder2 } (Except.ok ys)
          = modeHandler env (Except.ok xs)) ∧
      (∀ m, ms = [m] → modeHandler env (Except.ok xs) = returnText (env.format m)) ∧
      (ms.length ≠ 1 → modeHandler env (Except.ok xs)
          = returnText ("[" ++ ", ".intercalate (ms.map env.format) ++ "]"))) ∧
    (∃ ms : List ℚ, modeValues (exactEnv format sqrt order horder) qs = ms ∧
      ms.Sorted (· < ·) ∧
      (∀ x, x ∈ ms ↔ x ∈ qs ∧ ∀ y, qs.count y ≤ qs.count x) ∧
      ms ≠ [] ∧
      (∀ (ys : List ℚ) (order2 : List (ℚ × Nat) → List (ℚ × Nat))
          (horder2 : ∀ l, (order2 l).Perm l), ys.Perm qs →
        modeValues (exactEnv format sqrt order2 horder2) ys = ms ∧
        modeHandler (exactEnv format sqrt order2 horder2) (Except.ok ys)
          = modeHandler (exactEnv format sqrt order horder) (Except.ok qs)) ∧
      (∀ m, ms = [m] →
        modeHandler (exactEnv format sqrt order horder) (Except.ok qs)
          = returnText (format m)) ∧
      (ms.length ≠ 1 →
        modeHandler (exactEnv format sqrt order horder) (Except.ok qs)
          = returnText ("[" ++ ", ".intercalate (ms.map format) ++ "]"))) := by
  have key : ∀ {G : Type} [DecidableEq G] (e : FloatEnv G) (zs : List G), zs ≠ [] →
      (∀ a ∈ zs, ∀ b ∈ zs, (e.eq a b = true ↔ a = b)) →
      (∀ l, (e.sort l).Pairwise (fun a b => e.lt b a = false)) →
      (∀ a ∈ zs, ∀ b ∈ zs, e.lt a b = false → e.lt b a = false → a = b) →
      (modeValues e zs).Pairwise (fun a b => e.lt a b = true) ∧ (modeValues e zs).Nodup ∧
      (∀ x, x ∈ modeValues e zs ↔ x ∈ zs ∧ ∀ y, zs.count y ≤ zs.count x) ∧
      modeValues e zs ≠ [] ∧
      (∀ (ys : List G) (order2 : List (G × Nat) → List (G × Nat))
          (horder2 : ∀ l, (order2 l).Perm l), ys.Perm zs →
        modeValues { e with mapOrder := order2, mapOrder_perm := horder2 } ys
          = modeValues e zs ∧
        modeHandler { e with mapOrder := order2, mapOrder_perm := horder2 } (Except.ok ys)
          = modeHandler e (Except.ok zs)) := by
    intro G _ e zs hz hEz hsz haz
    obtain ⟨hnd, hm, hnn⟩ := modeValues_mem e zs hEz
    refine ⟨?_, hnd, hm, hnn hz, ?_⟩
    · have hpw := (modeValues_ordered e zs hsz).and hnd
      refine List.Pairwise.imp_of_mem ?_ hpw
      intro a b ha hb hab
      cases hlt : e.lt a b with
      | true => rfl
      | false =>
        exact absurd (haz a ((hm a).mp ha).1 b ((hm b).mp hb).1 hlt hab.1) hab.2
    · intro ys order2 horder2 hp
      have hys : ys ≠ [] := fun h => hz (by rw [h] at hp; exact (List.Perm.nil_eq hp).symm)
      have hv := modeValues_perm e zs ys order2 horder2 hEz hsz haz hp
      refine ⟨hv, ?_⟩
      rw [(modeHandler_render _ ys hys).1, (modeHandler_render e zs hz).1, hv]
      rfl
  constructor
  · obtain ⟨h1, h2, h3, h4, h5⟩ := key env xs hne hE hsort hanti
    obtain ⟨_, hone, hmany⟩ := modeHandler_render env xs hne
    exact ⟨modeValues env xs, rfl, h1, h2, h3, h4, h5, hone, hmany⟩
  · obtain ⟨h1, _, h3, h4, h5⟩ := key (exactEnv format sqrt order horder) qs hqs
      (fun a _ b _ => exactEnv_eq_iff format sqrt order horder a b)
      (exactEnv_sort_ordered format sqrt order horder)
      (fun a _ b _ ha hb => exactEnv_lt_total format sqrt order horder a b ha hb)
    obtain ⟨_, hone, hmany⟩ := modeHandler_render (exactEnv format sqrt order horder) qs hqs
    refine ⟨modeValues (exactEnv format sqrt order horder) qs, rfl, ?_, h3, h4, h5, hone, hmany⟩
    refine List.Pairwise.imp ?_ h1
    intro a b hab
    simpa [exactEnv] using hab

/-- The values `mode([1,1,2,2]) = "[1, 2]"` and `mode([1,2,2,3]) = "2"` in exact
arithmetic, and a different order of the input. -/
theorem mode_spec_witness :
    modeHandler exampleEnv (Except.ok [1, 1, 2, 2]) = returnText "[1, 2]" ∧
      modeHandler exampleEnv (Except.ok [1, 2, 2, 3]) = returnText "2" ∧
      modeValues exampleEnv [2, 1, 2, 1] = [1, 2] := by
  obtain ⟨⟨ms, hms, _, _, _, _, hp, _, hmany⟩, _⟩ := mode_spec exampleEnv [1, 1, 2, 2]
    (by simp) (fun a _ b _ => exactEnv_eq_iff _ _ _ _ a b) (exactEnv_sort_ordered _ _ _ _)
    (fun a _ b _ ha hb => exactEnv_lt_total _ _ _ _ a b ha hb)
    formatRat (fun q => q) (fun l => l) (fun l => List.Perm.refl l) [1, 2, 2, 3] (by simp)
  obtain ⟨_, ms2, hms2, _, _, _, _, hone, _⟩ := mode_spec exampleEnv [1, 1, 2, 2]
    (by simp) (fun a _ b _ => exactEnv_eq_iff _ _ _ _ a b) (exactEnv_sort_ordered _ _ _ _)
    (fun a _ b _ ha hb => exactEnv_lt_total _ _ _ _ a b ha hb)
    formatRat (fun q => q) (fun l => l) (fun l => List.Perm.refl l) [1, 2, 2, 3] (by simp)
  have e1 : ms = [1, 2] := by rw [← hms]; decide
  have e2 : ms2 = [2] := by rw [← hms2]; decide
  subst e1
  have h1 := hmany (by decide)
  have h2 := hone 2 e2
  have h3 := (hp [2, 1, 2, 1] (fun l => l) (fun l => List.Perm.refl l) (by decide)).1
  have f1 : "[" ++ ", ".intercalate (([1, 2] : List ℚ).map exampleEnv.format) ++ "]"
      = "[1, 2]" := by
    decide
  have f2 : formatRat 2 = "2" := by decide
  rw [f1] at h1
  rw [f2] at h2
  exact ⟨h1, h2, h3⟩

/-! ### Termination of `primeFactors`, the sign of `abs64`, the token `all` -/

/-- On `0` the loop that strips the factor `2` never ends: `0 % 2 == 0` and `0 / 2 == 0`. -/
theorem divideOut_two_zero : ∀ (k : Nat) (fs : List Int), divideOut k 2 0 fs = none := by
  intro k
  induction k with
  | zero => intro fs; rfl
  | succ m ih =>
    intro fs
    rw [divideOut_step m fs (by decide) (by decide)]
    exact ih _

/-- C28: for every 64-bit integer `n > 0`, `primeFactors(n)` terminates: the loop that strips
the factor `2` ends and so does the odd-divisor loop that follows it.  On `n = 0` the first
loop never ends, whatever the iteration bound; `primeFactorsHandler` answers `n <= 0`
before calling `primeFactors`, and returns on every 64-bit integer. -/
theorem primeFactors_terminates (n : Int) (hn : IsInt64 n) :
    (0 < n →
      (∃ st : Int × List Int, Returns (fun k => divideOut k 2 n []) st ∧
        ∃ st2 : Int × List Int, Returns (fun k => oddFactors k 3 st.1 st.2) st2) ∧
      ∃ fs : List Int, Returns (fun k => primeFactors k n) fs) ∧
    (∀ (k : Nat) (fs : List Int), divideOut k 2 0 fs = none) ∧
    (∀ k : Nat, primeFactors k 0 = none) ∧
    (n ≤ 0 → ∀ k : Nat, primeFactorsHandler k (Except.ok n)
      = some (returnError "prime factorization requires a positive integer")) ∧
    (∃ r : HandlerReturn, Returns (fun k => primeFactorsHandler k (Except.ok n)) r) := by
  refine ⟨fun hpos => ?_, divideOut_two_zero, fun k => ?_, fun hle k => ?_, ?_⟩
  · obtain ⟨fs, ⟨k0, hk0⟩, _⟩ := primeFactors_returns n (by omega) hn.2
    refine ⟨?_, fs, k0, hk0⟩
    have hv : primeFactors k0 n = some fs := hk0 k0 (le_refl _)
    unfold primeFactors at hv
    cases h1 : divideOut k0 2 n [] with
    | none => simp [h1] at hv
    | some st =>
      cases h2 : oddFactors k0 3 st.1 st.2 with
      | none =>
        obtain ⟨n1, fs1⟩ := st
        simp [h1, h2] at hv
      | some st2 =>
        exact ⟨st, returns_of_stable (fun k r => divideOut_stable k 2 n [] r) k0 h1,
          st2, returns_of_stable (fun k r => oddFactors_stable k 3 st.1 st.2 r) k0 h2⟩
  · unfold primeFactors
    rw [divideOut_two_zero]
  · simp [primeFactorsHandler, hle]
  · by_cases hle : n ≤ 0
    · exact ⟨returnError "prime factorization requires a positive integer", 0, fun k _ => by
        simp [primeFactorsHandler, hle]⟩
    · obtain ⟨fs, ⟨k0, hk0⟩, _⟩ := primeFactors_returns n (by omega) hn.2
      refine ⟨returnText (String.intercalate " × " (fs.map formatInt)), k0, fun k hk => ?_⟩
      have hv : primeFactors k n = some fs := hk0 k hk
      simp [primeFactorsHandler, hle, hv]

/-- The helper on `12` and on `0`, and the handler on `0`. -/
theorem primeFactors_terminates_witness :
    (∃ fs : List Int, Returns (fun k => primeFactors k 12) fs) ∧
      (∀ k : Nat, primeFactors k 0 = none) ∧
      (∀ k : Nat, primeFactorsHandler k (Except.ok 0)
        = some (returnError "prime factorization requires a positive integer")) :=
  ⟨((primeFactors_terminates 12 (by unfold IsInt64; decide)).1 (by decide)).2,
    (primeFactors_terminates 12 (by unfold IsInt64; decide)).2.2.1,
    (primeFactors_terminates 0 (by unfold IsInt64; decide)).2.2.2.1 (by decide)⟩

/-- A larger iteration bound does not change what `gcdHandler` returns. -/
theorem gcdHandler_stable (a b : Except String Int) (k : Nat) (r : HandlerReturn)
    (h : gcdHandler k a b = some r) : gcdHandler (k + 1) a b = some r := by
  unfold gcdHandler at h ⊢
  cases a with
  | error e => exact h
  | ok a =>
    cases b with
    | error e => exact h
    | ok b =>
      simp only at h ⊢
      cases hg : gcdHandlerResult k a b with
      | none => simp [hg] at h
      | some g =>
        rw [gcdHandlerResult_stable a b k g hg]
        simpa [hg] using h

/-- A larger iteration bound does not change what `lcmHandler` returns. -/
theorem lcmHandler_stable (a b : Except String Int) (k : Nat) (r : HandlerReturn)
    (h : lcmHandler k a b = some r) : lcmHandler (k + 1) a b = some r := by
  unfold lcmHandler at h ⊢
  cases a with
  | error e => exact h
  | ok a =>
    cases b with
    | error e => exact h
    | ok b =>
      simp only at h ⊢
      cases hg : lcmHandlerResult k a b with
      | none => simp [hg] at h
      | some g =>
        rw [lcmHandlerResult_stable a b k g hg]
        simpa [hg] using h

/-- C29, at the minimum `int64`: `abs64(-2^63)` is `-2^63`, a negative value, and so are the
results that `gcdHandler` prints for `(-2^63, -2^63)` and `lcmHandler` prints for
`(-2^63, 1)`. -/
theorem abs64_min_negative :
    IsInt64 (-9223372036854775808) ∧ IsInt64 1 ∧
      abs64 (-9223372036854775808) < 0 ∧
      Returns (fun k => gcdHandler k (Except.ok (-9223372036854775808))
        (Except.ok (-9223372036854775808))) (returnText "-9223372036854775808") ∧
      Returns (fun k => lcmHandler k (Except.ok (-9223372036854775808)) (Except.ok 1))
        (returnText "-9223372036854775808") :=
  ⟨by unfold IsInt64; decide, by unfold IsInt64; decide, by decide,
    returns_of_stable (gcdHandler_stable _ _) 2 (by decide),
    returns_of_stable (lcmHandler_stable _ _) 2 (by decide)⟩

/-- The name `all` is not a category. -/
theorem all_not_category : "all" ∉ AllCategories := by decide

/-- C30: the token `all` enables every category only when it is the whole configuration
value.  When the value is not empty and is not `all` after lower-casing, `LoadConfig`
enables exactly the valid categories named by an item other than `all`: an item that reads
`all` after lower-casing and trimming is ignored like any unknown name, and when every item
is such a name no category is enabled. -/
theorem loadConfig_item_all (lib : StringLib) (transportEnv categoriesEnv : String)
    (h1 : categoriesEnv ≠ "") (h2 : lib.toLower categoriesEnv ≠ "all") (c : Category) :
    ((LoadConfig lib transportEnv categoriesEnv).IsEnabled c = true ↔
      c ∈ AllCategories ∧
        ∃ part ∈ lib.split categoriesEnv,
          lib.trimSpace (lib.toLower part) ≠ "all" ∧ lib.trimSpace (lib.toLower part) = c) ∧
    ((∀ part ∈ lib.split categoriesEnv, lib.trimSpace (lib.toLower part) ∉ AllCategories) →
      (LoadConfig lib transportEnv categoriesEnv).IsEnabled c = false) ∧
    ((LoadConfig lib transportEnv categoriesEnv).IsEnabled "all" = false) := by
  have hcfg : (LoadConfig lib transportEnv categoriesEnv).IsEnabled
      = parseCategories lib categoriesEnv := by
    unfold LoadConfig Config.IsEnabled
    have hn : ¬ (categoriesEnv = "" ∨ lib.toLower categoriesEnv = "all") := by
      rintro (h | h)
      · exact h1 h
      · exact h2 h
    simp only [if_neg hn]
  rw [hcfg]
  refine ⟨?_, ?_, ?_⟩
  · rw [parseCategories_apply]
    constructor
    · rintro ⟨hc, part, hp, rfl⟩
      exact ⟨hc, part, hp, fun hall => all_not_category (hall ▸ hc), rfl⟩
    · rintro ⟨hc, part, hp, _, hpc⟩
      exact ⟨hc, part, hp, hpc⟩
  · intro hall
    cases hv : parseCategories lib categoriesEnv c with
    | false => rfl
    | true =>
      obtain ⟨hc, part, hp, rfl⟩ := (parseCategories_apply lib categoriesEnv c).mp hv
      exact absurd hc (hall part hp)
  · cases hv : parseCategories lib categoriesEnv "all" with
    | false => rfl
    | true => exact absurd ((parseCategories_apply lib categoriesEnv "all").mp hv).1 all_not_category

/-- On ASCII text: `"arithmetic,all"` enables `arithmetic` and not `statistics`, and `" all "`
enables nothing. -/
theorem loadConfig_item_all_witness :
    (LoadConfig asciiLib "" "arithmetic,all").IsEnabled CategoryArithmetic = true ∧
      (LoadConfig asciiLib "" "arithmetic,all").IsEnabled "all" = false ∧
      (LoadConfig asciiLib "" " all ").IsEnabled CategoryArithmetic = false ∧
      (LoadConfig asciiLib "" "arithmetic,all").EnabledCategories = [CategoryArithmetic] ∧
      (LoadConfig asciiLib "" " all ").EnabledCategories = [] :=
  ⟨((loadConfig_item_all asciiLib "" "arithmetic,all" (by decide) (by decide)
      CategoryArithmetic).1).mpr ⟨by decide, "arithmetic", by decide, by decide, by decide⟩,
    (loadConfig_item_all asciiLib "" "arithmetic,all" (by decide) (by decide)
      CategoryArithmetic).2.2,
    (loadConfig_item_all asciiLib "" " all " (by decide) (by decide) CategoryArithmetic).2.1
      (by decide),
    by decide, by decide⟩

/-! ### Every handler returns a result and a `nil` error -/

/-- The Euclidean loop ends on every pair of integers, and the absolute value of what it
returns is the greatest common divisor of the absolute values. -/
theorem gcd_returns_natAbs (a b : Int) :
    ∃ g, Returns (fun k => gcd k a b) g ∧ g.natAbs = Nat.gcd a.natAbs b.natAbs := by
  suffices H : ∀ (n : Nat) (a b : Int), b.natAbs = n →
      ∃ g, Returns (fun k => gcd k a b) g ∧ g.natAbs = Nat.gcd a.natAbs b.natAbs from
    H _ a b rfl
  intro n
  induction n using Nat.strong_induction_on with
  | _ n ih =>
    intro a b hn
    by_cases hb : b = 0
    · subst hb
      refine ⟨a, ⟨1, fun k hk => ?_⟩, by simp⟩
      obtain ⟨j, rfl⟩ : ∃ j, k = j + 1 := ⟨k - 1, by omega⟩
      exact gcd_succ_zero j a
    · have hlt : (Int.tmod a b).natAbs < n := hn ▸ natAbs_tmod_lt a hb
      obtain ⟨g, hg, hgn⟩ := ih _ hlt b (Int.tmod a b) rfl
      refine ⟨g, gcd_returns_step hb hg, ?_⟩
      rw [hgn, natAbs_tmod, Nat.gcd_comm a.natAbs b.natAbs, Nat.gcd_rec b.natAbs a.natAbs]
      exact Nat.gcd_comm _ _

/-- The Euclidean loop on a first argument other than `0` does not return `0`. -/
theorem gcd_returns_ne_zero {a b g : Int} (ha : a ≠ 0) (h : Returns (fun k => gcd k a b) g) :
    g ≠ 0 := by
  obtain ⟨g2, hg2, hn⟩ := gcd_returns_natAbs a b
  have e : g = g2 := Returns.unique h hg2
  subst e
  intro h0
  rw [h0] at hn
  have hpos : 0 < Nat.gcd a.natAbs b.natAbs := Nat.gcd_pos_of_pos_left _ (Int.natAbs_pos.mpr ha)
  simp at hn
  omega

/-- On a 64-bit integer other than `0`, `abs64` is not `0`. -/
theorem abs64_ne_zero {x : Int} (hx : IsInt64 x) (h : x ≠ 0) : abs64 x ≠ 0 := by
  unfold IsInt64 at hx
  unfold abs64 wrap64
  split <;> omega

/-- A handler without a loop returns its value for every iteration bound. -/
theorem pure_outcome {f : Nat → Option HandlerReturn} {h : HandlerReturn}
    (hf : ∀ k, f k = some h) {P : OperationResult → Prop}
    (hP : ∃ r, h = { result := some r, err := none } ∧ P r) :
    ∃ r, Returns f { result := some r, err := none } ∧ P r := by
  obtain ⟨r, hr, hp⟩ := hP
  exact ⟨r, ⟨0, fun k _ => by rw [hf k, hr]⟩, hp⟩

/-- What `addHandler` returns, for every outcome of its parameter extractions. -/
theorem addHandler_outcome {F : Type} (env : FloatEnv F) (lib : MathLib F)
    (a b : Except String F) :
    ∃ res : OperationResult,
      Returns (fun k => runHandler env lib k (HandlerCall.add a b))
        { result := some res, err := none } ∧
      (∀ e, (HandlerCall.add a b).firstError = some e →
        res = OperationResult.failure e) ∧
      ((HandlerCall.add a b).firstError = none →
        (res.isFailure = true ↔
          specFailureCondition env (HandlerCall.add a b) = true ∨
          (HandlerCall.add a b).resultCheckFails lib = true)) := by
  refine pure_outcome (fun _ => rfl) ?_
  rcases a with e | a <;> rcases b with e2 | b <;>
    simp only [addHandler, HandlerCall.firstError, firstOfTwo, firstOfOne, specFailureCondition,
      HandlerCall.resultCheckFails, onOk, returnText, returnError] <;>
    simp_all [OperationResult.isFailure]

/-- What `subtractHandler` returns, for every outcome of its parameter extractions. -/
theorem subtractHandler_outcome {F : Type} (env : FloatEnv F) (lib : MathLib F)
    (a b : Except String F) :
    ∃ res : OperationResult,
      Returns (fun k => runHandler env lib k (HandlerCall.subtract a b))
        { result := some res, err := none } ∧
      (∀ e, (HandlerCall.subtract a b).firstError = some e →
        res = OperationResult.failure e) ∧
      ((HandlerCall.subtract a b).firstError = none →
        (res.isFailure = true ↔
          specFailureCondition env (HandlerCall.subtract a b) = true ∨
          (HandlerCall.subtract a b).resultCheckFails lib = true)) := by
  refine pure_outcome (fun _ => rfl) ?_
  rcases a with e | a <;> rcases b with e2 | b <;>
    simp only [subtractHandler, HandlerCall.firstError, firstOfTwo, firstOfOne,
      specFailureCondition, HandlerCall.resultCheckFails, onOk, returnText, returnError] <;>
    simp_all [OperationResult.isFailure]

/-- What `multiplyHandler` returns, for every outcome of its parameter extractions. -/
theorem multiplyHandler_outcome {F : Type} (env : FloatEnv F) (lib : MathLib F)
    (a b : Except String F) :
    ∃ res : OperationResult,
      Returns (fun k => runHandler env lib k (HandlerCall.multiply a b))
        { result := some res, err := none } ∧
      (∀ e, (HandlerCall.multiply a b).firstError = some e →
        res = OperationResult.failure e) ∧
      ((HandlerCall.multiply a b).firstError = none →
        (res.isFailure = true ↔
          specFailureCondition env (HandlerCall.multiply a b) = true ∨
          (HandlerCall.multiply a b).resultCheckFails lib = true)) := by
  refine pure_outcome (fun _ => rfl) ?_
  rcases a with e | a <;> rcases b with e2 | b <;>
    simp only [multiplyHandler, HandlerCall.firstError, firstOfTwo, firstOfOne,
      specFailureCondition, HandlerCall.resultCheckFails, onOk, returnText, returnError] <;>
    simp_all [OperationResult.isFailure]

/-- What `divideHandler` returns, for every outcome of its parameter extractions. -/
theorem divideHandler_outcome {F : Type} (env : FloatEnv F) (lib : MathLib F)
    (a b : Except String F) :
    ∃ res : OperationResult,
      Returns (fun k => runHandler env lib k (HandlerCall.divide a b))
        { result := some res, err := none } ∧
      (∀ e, (HandlerCall.divide a b).firstError = some e →
        res = OperationResult.failure e) ∧
      ((HandlerCall.divide a b).firstError = none →
        (res.isFailure = true ↔
          specFailureCondition env (HandlerCall.divide a b) = true ∨
          (HandlerCall.divide a b).resultCheckFails lib = true)) := by
  refine pure_outcome (fun _ => rfl) ?_
  rcases a with e | a <;> rcases b with e2 | b <;>
    simp only [divideHandler, HandlerCall.firstError, firstOfTwo, firstOfOne,
      specFailureCondition, HandlerCall.resultCheckFails, onOk, returnText, returnError] <;>
    (try split) <;> simp_all [OperationResult.isFailure]

/-- What `modHandler` returns, for every outcome of its parameter extractions. -/
theorem modHandler_outcome {F : Type} (env : FloatEnv F) (lib : MathLib F)
    (x y : Except String F) :
    ∃ res : OperationResult,
      Returns (fun k => runHandler env lib k (HandlerCall.mod x y))
        { result := some res, err := none } ∧
      (∀ e, (HandlerCall.mod x y).firstError = some e →
        res = OperationResult.failure e) ∧
      ((HandlerCall.mod x y).firstError = none →
        (res.isFailure = true ↔
          specFailureCondition env (HandlerCall.mod x y) = true ∨
          (HandlerCall.mod x y).resultCheckFails lib = true)) := by
  refine pure_outcome (fun _ => rfl) ?_
  rcases x with e | x <;> rcases y with e2 | y <;>
    simp only [modHandler, HandlerCall.firstError, firstOfTwo, firstOfOne, specFailureCondition,
      HandlerCall.resultCheckFails, onOk, returnText, returnError] <;>
    (try split) <;> simp_all [OperationResult.isFailure]

/-- What `remainderHandler` returns, for every outcome of its parameter extractions. -/
theorem remainderHandler_outcome {F : Type} (env : FloatEnv F) (lib : MathLib F)
    (x y : Except String F) :
    ∃ res : OperationResult,
      Returns (fun k => runHandler env lib k (HandlerCall.remainder x y))
        { result := some res, err := none } ∧
      (∀ e, (HandlerCall.remainder x y).firstError = some e →
        res = OperationResult.failure e) ∧
      ((HandlerCall.remainder x y).firstError = none →
        (res.isFailure = true ↔
          specFailureCondition env (HandlerCall.remainder x y) = true ∨
          (HandlerCall.remainder x y).resultCheckFails lib = true)) := by
  refine pure_outcome (fun _ => rfl) ?_
  rcases x with e | x <;> rcases y with e2 | y <;>
    simp only [remainderHandler, HandlerCall.firstError, firstOfTwo, firstOfOne,
      specFailureCondition, HandlerCall.resultCheckFails, onOk, returnText, returnError] <;>
    (try split) <;> simp_all [OperationResult.isFailure]

/-- What `absHandler` returns, for every outcome of its parameter extractions. -/
theorem absHandler_outcome {F : Type} (env : FloatEnv F) (lib : MathLib F)
    (x : Except String F) :
    ∃ res : OperationResult,
      Returns (fun k => runHandler env lib k (HandlerCall.abs x))
        { result := some res, err := none } ∧
      (∀ e, (HandlerCall.abs x).firstError = some e →
        res = OperationResult.failure e) ∧
      ((HandlerCall.abs x).firstError = none →
        (res.isFailure = true ↔
          specFailureCondition env (HandlerCall.abs x) = true ∨
          (HandlerCall.abs x).resultCheckFails lib = true)) := by
  refine pure_outcome (fun _ => rfl) ?_
  rcases x with e | x <;>
    simp only [absHandler, HandlerCall.firstError, firstOfOne, specFailureCondition,
      HandlerCall.resultCheckFails, onOk, returnText, returnError] <;>
    simp_all [OperationResult.isFailure]

/-- What `powHandler` returns, for every outcome of its parameter extractions. -/
theorem powHandler_outcome {F : Type} (env : FloatEnv F) (lib : MathLib F)
    (x y : Except String F) :
    ∃ res : OperationResult,
      Returns (fun k => runHandler env lib k (HandlerCall.pow x y))
        { result := some res, err := none } ∧
      (∀ e, (HandlerCall.pow x y).firstError = some e →
        res = OperationResult.failure e) ∧
      ((HandlerCall.pow x y).firstError = none →
        (res.isFailure = true ↔
          specFailureCondition env (HandlerCall.pow x y) = true ∨
          (HandlerCall.pow x y).resultCheckFails lib = true)) := by
  refine pure_outcome (fun _ => rfl) ?_
  rcases x with e | x <;> rcases y with e2 | y <;>
    simp only [powHandler, HandlerCall.firstError, firstOfTwo, firstOfOne, specFailureCondition,
      HandlerCall.resultCheckFails, onOk, returnText, returnError] <;>
    simp_all [OperationResult.isFailure]

/-- What `pow10Handler` returns, for every outcome of its parameter extractions. -/
theorem pow10Handler_outcome {F : Type} (env : FloatEnv F) (lib : MathLib F)
    (n : Except String Int) :
    ∃ res : OperationResult,
      Returns (fun k => runHandler env lib k (HandlerCall.pow10 n : HandlerCall F))
        { result := some res, err := none } ∧
      (∀ e, (HandlerCall.pow10 n : HandlerCall F).firstError = some e →
        res = OperationResult.failure e) ∧
      ((HandlerCall.pow10 n : HandlerCall F).firstError = none →
        (res.isFailure = true ↔
          specFailureCondition env (HandlerCall.pow10 n : HandlerCall F) = true ∨
          (HandlerCall.pow10 n : HandlerCall F).resultCheckFails lib = true)) := by
  refine pure_outcome (fun _ => rfl) ?_
  rcases n with e | n <;>
    simp only [pow10Handler, HandlerCall.firstError, firstOfOne, specFailureCondition,
      HandlerCall.resultCheckFails, onOk, returnText, returnError] <;>
    simp_all [OperationResult.isFailure]

/-- What `sqrtHandler` returns, for every outcome of its parameter extractions. -/
theorem sqrtHandler_outcome {F : Type} (env : FloatEnv F) (lib : MathLib F)
    (x : Except String F) :
    ∃ res : OperationResult,
      Returns (fun k => runHandler env lib k (HandlerCall.sqrt x))
        { result := some res, err := none } ∧
      (∀ e, (HandlerCall.sqrt x).firstError = some e →
        res = OperationResult.failure e) ∧
      ((HandlerCall.sqrt x).firstError = none →
        (res.isFailure = true ↔
          specFailureCondition env (HandlerCall.sqrt x) = true ∨
          (HandlerCall.sqrt x).resultCheckFails lib = true)) := by
  refine pure_outcome (fun _ => rfl) ?_
  rcases x with e | x <;>
    simp only [sqrtHandler, HandlerCall.firstError, firstOfOne, specFailureCondition,
      HandlerCall.resultCheckFails, onOk, returnText, returnError] <;>
    (try split) <;> simp_all [OperationResult.isFailure]

/-- What `cbrtHandler` returns, for every outcome of its parameter extractions. -/
theorem cbrtHandler_outcome {F : Type} (env : FloatEnv F) (lib : MathLib F)
    (x : Except String F) :
    ∃ res : OperationResult,
      Returns (fun k => runHandler env lib k (HandlerCall.cbrt x))
        { result := some res, err := none } ∧
      (∀ e, (HandlerCall.cbrt x).firstError = some e →
        res = OperationResult.failure e) ∧
      ((HandlerCall.cbrt x).firstError = none →
        (res.isFailure = true ↔
          specFailureCondition env (HandlerCall.cbrt x) = true ∨
          (HandlerCall.cbrt x).resultCheckFails lib = true)) := by
  refine pure_outcome (fun _ => rfl) ?_
  rcases x with e | x <;>
    simp only [cbrtHandler, HandlerCall.firstError, firstOfOne, specFailureCondition,
      HandlerCall.resultCheckFails, onOk, returnText, returnError] <;>
    simp_all [OperationResult.isFailure]

/-- What `expHandler` returns, for every outcome of its parameter extractions. -/
theorem expHandler_outcome {F : Type} (env : FloatEnv F) (lib : MathLib F)
    (x : Except String F) :
    ∃ res : OperationResult,
      Returns (fun k => runHandler env lib k (HandlerCall.exp x))
        { result := some res, err := none } ∧
      (∀ e, (HandlerCall.exp x).firstError = some e →
        res = OperationResult.failure e) ∧
      ((HandlerCall.exp x).firstError = none →
        (res.isFailure = true ↔
          specFailureCondition env (HandlerCall.exp x) = true ∨
          (HandlerCall.exp x).resultCheckFails lib = true)) := by
  refine pure_outcome (fun _ => rfl) ?_
  rcases x with e | x <;>
    simp only [expHandler, HandlerCall.firstError, firstOfOne, specFailureCondition,
      HandlerCall.resultCheckFails, onOk, returnText, returnError] <;>
    simp_all [OperationResult.isFailure]

/-- What `exp2Handler` returns, for every outcome of its parameter extractions. -/
theorem exp2Handler_outcome {F : Type} (env : FloatEnv F) (lib : MathLib F)
    (x : Except String F) :
    ∃ res : OperationResult,
      Returns (fun k => runHandler env lib k (HandlerCall.exp2 x))
        { result := some res, err := none } ∧
      (∀ e, (HandlerCall.exp2 x).firstError = some e →
        res = OperationResult.failure e) ∧
      ((HandlerCall.exp2 x).firstError = none →
        (res.isFailure = true ↔
          specFailureCondition env (HandlerCall.exp2 x) = true ∨
          (HandlerCall.exp2 x).resultCheckFails lib = true)) := by
  refine pure_outcome (fun _ => rfl) ?_
  rcases x with e | x <;>
    simp only [exp2Handler, HandlerCall.firstError, firstOfOne, specFailureCondition,
      HandlerCall.resultCheckFails, onOk, returnText, returnError] <;>
    simp_all [OperationResult.isFailure]

/-- What `expm1Handler` returns, for every outcome of its parameter extractions. -/
theorem expm1Handler_outcome {F : Type} (env : FloatEnv F) (lib : MathLib F)
    (x : Except String F) :
    ∃ res : OperationResult,
      Returns (fun k => runHandler env lib k (HandlerCall.expm1 x))
        { result := some res, err := none } ∧
      (∀ e, (HandlerCall.expm1 x).firstError = some e →
        res = OperationResult.failure e) ∧
      ((HandlerCall.expm1 x).firstError = none →
        (res.isFailure = true ↔
          specFailureCondition env (HandlerCall.expm1 x) = true ∨
          (HandlerCall.expm1 x).resultCheckFails lib = true)) := by
  refine pure_outcome (fun _ => rfl) ?_
  rcases x with e | x <;>
    simp only [expm1Handler, HandlerCall.firstError, firstOfOne, specFailureCondition,
      HandlerCall.resultCheckFails, onOk, returnText, returnError] <;>
    simp_all [OperationResult.isFailure]

/-- What `hypotHandler` returns, for every outcome of its parameter extractions. -/
theorem hypotHandler_outcome {F : Type} (env : FloatEnv F) (lib : MathLib F)
    (x y : Except String F) :
    ∃ res : OperationResult,
      Returns (fun k => runHandler env lib k (HandlerCall.hypot x y))
        { result := some res, err := none } ∧
      (∀ e, (HandlerCall.hypot x y).firstError = some e →
        res = OperationResult.failure e) ∧
      ((HandlerCall.hypot x y).firstError = none →
        (res.isFailure = true ↔
          specFailureCondition env (HandlerCall.hypot x y) = true ∨
          (HandlerCall.hypot x y).resultCheckFails lib = true)) := by
  refine pure_outcome (fun _ => rfl) ?_
  rcases x with e | x <;> rcases y with e2 | y <;>
    simp only [hypotHandler, HandlerCall.firstError, firstOfTwo, firstOfOne,
      specFailureCondition, HandlerCall.resultCheckFails, onOk, returnText, returnError] <;>
    simp_all [OperationResult.isFailure]

/-- What `logHandler` returns, for every outcome of its parameter extractions. -/
theorem logHandler_outcome {F : Type} (env : FloatEnv F) (lib : MathLib F)
    (x : Except String F) :
    ∃ res : OperationResult,
      Returns (fun k => runHandler env lib k (HandlerCall.log x))
        { result := some res, err := none } ∧
      (∀ e, (HandlerCall.log x).firstError = some e →
        res = OperationResult.failure e) ∧
      ((HandlerCall.log x).firstError = none →
        (res.isFailure = true ↔
          specFailureCondition env (HandlerCall.log x) = true ∨
          (HandlerCall.log x).resultCheckFails lib = true)) := by
  refine pure_outcome (fun _ => rfl) ?_
  rcases x with e | x <;>
    simp only [logHandler, HandlerCall.firstError, firstOfOne, specFailureCondition,
      HandlerCall.resultCheckFails, onOk, returnText, returnError] <;>
    (try split) <;> simp_all [OperationResult.isFailure]

/-- What `log10Handler` returns, for every outcome of its parameter extractions. -/
theorem log10Handler_outcome {F : Type} (env : FloatEnv F) (lib : MathLib F)
    (x : Except String F) :
    ∃ res : OperationResult,
      Returns (fun k => runHandler env lib k (HandlerCall.log10 x))
        { result := some res, err := none } ∧
      (∀ e, (HandlerCall.log10 x).firstError = some e →
        res = OperationResult.failure e) ∧
      ((HandlerCall.log10 x).firstError = none →
        (res.isFailure = true ↔
          specFailureCondition env (HandlerCall.log10 x) = true ∨
          (HandlerCall.log10 x).resultCheckFails lib = true)) := by
  refine pure_outcome (fun _ => rfl) ?_
  rcases x with e | x <;>
    simp only [log10Handler, HandlerCall.firstError, firstOfOne, specFailureCondition,
      HandlerCall.resultCheckFails, onOk, returnText, returnError] <;>
    (try split) <;> simp_all [OperationResult.isFailure]

/-- What `log2Handler` returns, for every outcome of its parameter extractions. -/
theorem log2Handler_outcome {F : Type} (env : FloatEnv F) (lib : MathLib F)
    (x : Except String F) :
    ∃ res : OperationResult,
      Returns (fun k => runHandler env lib k (HandlerCall.log2 x))
        { result := some res, err := none } ∧
      (∀ e, (HandlerCall.log2 x).firstError = some e →
        res = OperationResult.failure e) ∧
      ((HandlerCall.log2 x).firstError = none →
        (res.isFailure = true ↔
          specFailureCondition env (HandlerCall.log2 x) = true ∨
          (HandlerCall.log2 x).resultCheckFails lib = true)) := by
  refine pure_outcome (fun _ => rfl) ?_
  rcases x with e | x <;>
    simp only [log2Handler, HandlerCall.firstError, firstOfOne, specFailureCondition,
      HandlerCall.resultCheckFails, onOk, returnText, returnError] <;>
    (try split) <;> simp_all [OperationResult.isFailure]

/-- What `log1pHandler` returns, for every outcome of its parameter extractions. -/
theorem log1pHandler_outcome {F : Type} (env : FloatEnv F) (lib : MathLib F)
    (x : Except String F) :
    ∃ res : OperationResult,
      Returns (fun k => runHandler env lib k (HandlerCall.log1p x))
        { result := some res, err := none } ∧
      (∀ e, (HandlerCall.log1p x).firstError = some e →
        res = OperationResult.failure e) ∧
      ((HandlerCall.log1p x).firstError = none →
        (res.isFailure = true ↔
          specFailureCondition env (HandlerCall.log1p x) = true ∨
          (HandlerCall.log1p x).resultCheckFails lib = true)) := by
  refine pure_outcome (fun _ => rfl) ?_
  rcases x with e | x <;>
    simp only [log1pHandler, HandlerCall.firstError, firstOfOne, specFailureCondition,
      HandlerCall.resultCheckFails, onOk, returnText, returnError] <;>
    (try split) <;> simp_all [OperationResult.isFailure]

/-- What `logbHandler` returns, for every outcome of its parameter extractions. -/
theorem logbHandler_outcome {F : Type} (env : FloatEnv F) (lib : MathLib F)
    (x : Except String F) :
    ∃ res : OperationResult,
      Returns (fun k => runHandler env lib k (HandlerCall.logb x))
        { result := some res, err := none } ∧
      (∀ e, (HandlerCall.logb x).firstError = some e →
        res = OperationResult.failure e) ∧
      ((HandlerCall.logb x).firstError = none →
        (res.isFailure = true ↔
          specFailureCondition env (HandlerCall.logb x) = true ∨
          (HandlerCall.logb x).resultCheckFails lib = true)) := by
  refine pure_outcome (fun _ => rfl) ?_
  rcases x with e | x <;>
    simp only [logbHandler, HandlerCall.firstError, firstOfOne, specFailureCondition,
      HandlerCall.resultCheckFails, onOk, returnText, returnError] <;>
    simp_all [OperationResult.isFailure]

/-- What `sinHandler` returns, for every outcome of its parameter extractions. -/
theorem sinHandler_outcome {F : Type} (env : FloatEnv F) (lib : MathLib F)
    (x : Except String F) :
    ∃ res : OperationResult,
      Returns (fun k => runHandler env lib k (HandlerCall.sin x))
        { result := some res, err := none } ∧
      (∀ e, (HandlerCall.sin x).firstError = some e →
        res = OperationResult.failure e) ∧
      ((HandlerCall.sin x).firstError = none →
        (res.isFailure = true ↔
          specFailureCondition env (HandlerCall.sin x) = true ∨
          (HandlerCall.sin x).resultCheckFails lib = true)) := by
  refine pure_outcome (fun _ => rfl) ?_
  rcases x with e | x <;>
    simp only [sinHandler, HandlerCall.firstError, firstOfOne, specFailureCondition,
      HandlerCall.resultCheckFails, onOk, returnText, returnError] <;>
    simp_all [OperationResult.isFailure]

/-- What `cosHandler` returns, for every outcome of its parameter extractions. -/
theorem cosHandler_outcome {F : Type} (env : FloatEnv F) (lib : MathLib F)
    (x : Except String F) :
    ∃ res : OperationResult,
      Returns (fun k => runHandler env lib k (HandlerCall.cos x))
        { result := some res, err := none } ∧
      (∀ e, (HandlerCall.cos x).firstError = some e →
        res = OperationResult.failure e) ∧
      ((HandlerCall.cos x).firstError = none →
        (res.isFailure = true ↔
          specFailureCondition env (HandlerCall.cos x) = true ∨
          (HandlerCall.cos x).resultCheckFails lib = true)) := by
  refine pure_outcome (fun _ => rfl) ?_
  rcases x with e | x <;>
    simp only [cosHandler, HandlerCall.firstError, firstOfOne, specFailureCondition,
      HandlerCall.resultCheckFails, onOk, returnText, returnError] <;>
    simp_all [OperationResult.isFailure]

/-- What `tanHandler` returns, for every outcome of its parameter extractions. -/
theorem tanHandler_outcome {F : Type} (env : FloatEnv F) (lib : MathLib F)
    (x : Except String F) :
    ∃ res : OperationResult,
      Returns (fun k => runHandler env lib k (HandlerCall.tan x))
        { result := some res, err := none } ∧
      (∀ e, (HandlerCall.tan x).firstError = some e →
        res = OperationResult.failure e) ∧
      ((HandlerCall.tan x).firstError = none →
        (res.isFailure = true ↔
          specFailureCondition env (HandlerCall.tan x) = true ∨
          (HandlerCall.tan x).resultCheckFails lib = true)) := by
  refine pure_outcome (fun _ => rfl) ?_
  rcases x with e | x <;>
    simp only [tanHandler, HandlerCall.firstError, firstOfOne, specFailureCondition,
      HandlerCall.resultCheckFails, onOk, returnText, returnError] <;>
    simp_all [OperationResult.isFailure]

/-- What `asinHandler` returns, for every outcome of its parameter extractions. -/
theorem asinHandler_outcome {F : Type} (env : FloatEnv F) (lib : MathLib F)
    (x : Except String F) :
    ∃ res : OperationResult,
      Returns (fun k => runHandler env lib k (HandlerCall.asin x))
        { result := some res, err := none } ∧
      (∀ e, (HandlerCall.asin x).firstError = some e →
        res = OperationResult.failure e) ∧
      ((HandlerCall.asin x).firstError = none →
        (res.isFailure = true ↔
          specFailureCondition env (HandlerCall.asin x) = true ∨
          (HandlerCall.asin x).resultCheckFails lib = true)) := by
  refine pure_outcome (fun _ => rfl) ?_
  rcases x with e | x <;>
    simp only [asinHandler, HandlerCall.firstError, firstOfOne, specFailureCondition,
      HandlerCall.resultCheckFails, onOk, returnText, returnError] <;>
    (try split) <;> simp_all [OperationResult.isFailure]

/-- What `acosHandler` returns, for every outcome of its parameter extractions. -/
theorem acosHandler_outcome {F : Type} (env : FloatEnv F) (lib : MathLib F)
    (x : Except String F) :
    ∃ res : OperationResult,
      Returns (fun k => runHandler env lib k (HandlerCall.acos x))
        { result := some res, err := none } ∧
      (∀ e, (HandlerCall.acos x).firstError = some e →
        res = OperationResult.failure e) ∧
      ((HandlerCall.acos x).firstError = none →
        (res.isFailure = true ↔
          specFailureCondition env (HandlerCall.acos x) = true ∨
          (HandlerCall.acos x).resultCheckFails lib = true)) := by
  refine pure_outcome (fun _ => rfl) ?_
  rcases x with e | x <;>
    simp only [acosHandler, HandlerCall.firstError, firstOfOne, specFailureCondition,
      HandlerCall.resultCheckFails, onOk, returnText, returnError] <;>
    (try split) <;> simp_all [OperationResult.isFailure]

/-- What `atanHandler` returns, for every outcome of its parameter extractions. -/
theorem atanHandler_outcome {F : Type} (env : FloatEnv F) (lib : MathLib F)
    (x : Except String F) :
    ∃ res : OperationResult,
      Returns (fun k => runHandler env lib k (HandlerCall.atan x))
        { result := some res, err := none } ∧
      (∀ e, (HandlerCall.atan x).firstError = some e →
        res = OperationResult.failure e) ∧
      ((HandlerCall.atan x).firstError = none →
        (res.isFailure = true ↔
          specFailureCondition env (HandlerCall.atan x) = true ∨
          (HandlerCall.atan x).resultCheckFails lib = true)) := by
  refine pure_outcome (fun _ => rfl) ?_
  rcases x with e | x <;>
    simp only [atanHandler, HandlerCall.firstError, firstOfOne, specFailureCondition,
      HandlerCall.resultCheckFails, onOk, returnText, returnError] <;>
    simp_all [OperationResult.isFailure]

/-- What `atan2Handler` returns, for every outcome of its parameter extractions. -/
theorem atan2Handler_outcome {F : Type} (env : FloatEnv F) (lib : MathLib F)
    (y x : Except String F) :
    ∃ res : OperationResult,
      Returns (fun k => runHandler env lib k (HandlerCall.atan2 y x))
        { result := some res, err := none } ∧
      (∀ e, (HandlerCall.atan2 y x).firstError = some e →
        res = OperationResult.failure e) ∧
      ((HandlerCall.atan2 y x).firstError = none →
        (res.isFailure = true ↔
          specFailureCondition env (HandlerCall.atan2 y x) = true ∨
          (HandlerCall.atan2 y x).resultCheckFails lib = true)) := by
  refine pure_outcome (fun _ => rfl) ?_
  rcases y with e | y <;> rcases x with e2 | x <;>
    simp only [atan2Handler, HandlerCall.firstError, firstOfTwo, firstOfOne,
      specFailureCondition, HandlerCall.resultCheckFails, onOk, returnText, returnError] <;>
    simp_all [OperationResult.isFailure]

/-- What `sincosHandler` returns, for every outcome of its parameter extractions. -/
theorem sincosHandler_outcome {F : Type} (env : FloatEnv F) (lib : MathLib F)
    (x : Except String F) :
    ∃ res : OperationResult,
      Returns (fun k => runHandler env lib k (HandlerCall.sincos x))
        { result := some res, err := none } ∧
      (∀ e, (HandlerCall.sincos x).firstError = some e →
        res = OperationResult.failure e) ∧
      ((HandlerCall.sincos x).firstError = none →
        (res.isFailure = true ↔
          specFailureCondition env (HandlerCall.sincos x) = true ∨
          (HandlerCall.sincos x).resultCheckFails lib = true)) := by
  refine pure_outcome (fun _ => rfl) ?_
  rcases x with e | x <;>
    simp only [sincosHandler, HandlerCall.firstError, firstOfOne, specFailureCondition,
      HandlerCall.resultCheckFails, onOk, returnText, returnError] <;>
    simp_all [OperationResult.isFailure]

/-- What `sinhHandler` returns, for every outcome of its parameter extractions. -/
theorem sinhHandler_outcome {F : Type} (env : FloatEnv F) (lib : MathLib F)
    (x : Except String F) :
    ∃ res : OperationResult,
      Returns (fun k => runHandler env lib k (HandlerCall.sinh x))
        { result := some res, err := none } ∧
      (∀ e, (HandlerCall.sinh x).firstError = some e →
        res = OperationResult.failure e) ∧
      ((HandlerCall.sinh x).firstError = none →
        (res.isFailure = true ↔
          specFailureCondition env (HandlerCall.sinh x) = true ∨
          (HandlerCall.sinh x).resultCheckFails lib = true)) := by
  refine pure_outcome (fun _ => rfl) ?_
  rcases x with e | x <;>
    simp only [sinhHandler, HandlerCall.firstError, firstOfOne, specFailureCondition,
      HandlerCall.resultCheckFails, onOk, returnText, returnError] <;>
    simp_all [OperationResult.isFailure]

/-- What `coshHandler` returns, for every outcome of its parameter extractions. -/
theorem coshHandler_outcome {F : Type} (env : FloatEnv F) (lib : MathLib F)
    (x : Except String F) :
    ∃ res : OperationResult,
      Returns (fun k => runHandler env lib k (HandlerCall.cosh x))
        { result := some res, err := none } ∧
      (∀ e, (HandlerCall.cosh x).firstError = some e →
        res = OperationResult.failure e) ∧
      ((HandlerCall.cosh x).firstError = none →
        (res.isFailure = true ↔
          specFailureCondition env (HandlerCall.cosh x) = true ∨
          (HandlerCall.cosh x).resultCheckFails lib = true)) := by
  refine pure_outcome (fun _ => rfl) ?_
  rcases x with e | x <;>
    simp only [coshHandler, HandlerCall.firstError, firstOfOne, specFailureCondition,
      HandlerCall.resultCheckFails, onOk, returnText, returnError] <;>
    simp_all [OperationResult.isFailure]

/-- What `tanhHandler` returns, for every outcome of its parameter extractions. -/
theorem tanhHandler_outcome {F : Type} (env : FloatEnv F) (lib : MathLib F)
    (x : Except String F) :
    ∃ res : OperationResult,
      Returns (fun k => runHandler env lib k (HandlerCall.tanh x))
        { result := some res, err := none } ∧
      (∀ e, (HandlerCall.tanh x).firstError = some e →
        res = OperationResult.failure e) ∧
      ((HandlerCall.tanh x).firstError = none →
        (res.isFailure = true ↔
          specFailureCondition env (HandlerCall.tanh x) = true ∨
          (HandlerCall.tanh x).resultCheckFails lib = true)) := by
  refine pure_outcome (fun _ => rfl) ?_
  rcases x with e | x <;>
    simp only [tanhHandler, HandlerCall.firstError, firstOfOne, specFailureCondition,
      HandlerCall.resultCheckFails, onOk, returnText, returnError] <;>
    simp_all [OperationResult.isFailure]

/-- What `asinhHandler` returns, for every outcome of its parameter extractions. -/
theorem asinhHandler_outcome {F : Type} (env : FloatEnv F) (lib : MathLib F)
    (x : Except String F) :
    ∃ res : OperationResult,
      Returns (fun k => runHandler env lib k (HandlerCall.asinh x))
        { result := some res, err := none } ∧
      (∀ e, (HandlerCall.asinh x).firstError = some e →
        res = OperationResult.failure e) ∧
      ((HandlerCall.asinh x).firstError = none →
        (res.isFailure = true ↔
          specFailureCondition env (HandlerCall.asinh x) = true ∨
          (HandlerCall.asinh x).resultCheckFails lib = true)) := by
  refine pure_outcome (fun _ => rfl) ?_
  rcases x with e | x <;>
    simp only [asinhHandler, HandlerCall.firstError, firstOfOne, specFailureCondition,
      HandlerCall.resultCheckFails, onOk, returnText, returnError] <;>
    simp_all [OperationResult.isFailure]

/-- What `acoshHandler` returns, for every outcome of its parameter extractions. -/
theorem acoshHandler_outcome {F : Type} (env : FloatEnv F) (lib : MathLib F)
    (x : Except String F) :
    ∃ res : OperationResult,
      Returns (fun k => runHandler env lib k (HandlerCall.acosh x))
        { result := some res, err := none } ∧
      (∀ e, (HandlerCall.acosh x).firstError = some e →
        res = OperationResult.failure e) ∧
      ((HandlerCall.acosh x).firstError = none →
        (res.isFailure = true ↔
          specFailureCondition env (HandlerCall.acosh x) = true ∨
          (HandlerCall.acosh x).resultCheckFails lib = true)) := by
  refine pure_outcome (fun _ => rfl) ?_
  rcases x with e | x <;>
    simp only [acoshHandler, HandlerCall.firstError, firstOfOne, specFailureCondition,
      HandlerCall.resultCheckFails, onOk, returnText, returnError] <;>
    (try split) <;> simp_all [OperationResult.isFailure]

/-- What `atanhHandler` returns, for every outcome of its parameter extractions. -/
theorem atanhHandler_outcome {F : Type} (env : FloatEnv F) (lib : MathLib F)
    (x : Except String F) :
    ∃ res : OperationResult,
      Returns (fun k => runHandler env lib k (HandlerCall.atanh x))
        { result := some res, err := none } ∧
      (∀ e, (HandlerCall.atanh x).firstError = some e →
        res = OperationResult.failure e) ∧
      ((HandlerCall.atanh x).firstError = none →
        (res.isFailure = true ↔
          specFailureCondition env (HandlerCall.atanh x) = true ∨
          (HandlerCall.atanh x).resultCheckFails lib = true)) := by
  refine pure_outcome (fun _ => rfl) ?_
  rcases x with e | x <;>
    simp only [atanhHandler, HandlerCall.firstError, firstOfOne, specFailureCondition,
      HandlerCall.resultCheckFails, onOk, returnText, returnError] <;>
    (try split) <;> simp_all [OperationResult.isFailure]

/-- What `ceilHandler` returns, for every outcome of its parameter extractions. -/
theorem ceilHandler_outcome {F : Type} (env : FloatEnv F) (lib : MathLib F)
    (x : Except String F) :
    ∃ res : OperationResult,
      Returns (fun k => runHandler env lib k (HandlerCall.ceil x))
        { result := some res, err := none } ∧
      (∀ e, (HandlerCall.ceil x).firstError = some e →
        res = OperationResult.failure e) ∧
      ((HandlerCall.ceil x).firstError = none →
        (res.isFailure = true ↔
          specFailureCondition env (HandlerCall.ceil x) = true ∨
          (HandlerCall.ceil x).resultCheckFails lib = true)) := by
  refine pure_outcome (fun _ => rfl) ?_
  rcases x with e | x <;>
    simp only [ceilHandler, HandlerCall.firstError, firstOfOne, specFailureCondition,
      HandlerCall.resultCheckFails, onOk, returnText, returnError] <;>
    simp_all [OperationResult.isFailure]

/-- What `floorHandler` returns, for every outcome of its parameter extractions. -/
theorem floorHandler_outcome {F : Type} (env : FloatEnv F) (lib : MathLib F)
    (x : Except String F) :
    ∃ res : OperationResult,
      Returns (fun k => runHandler env lib k (HandlerCall.floor x))
        { result := some res, err := none } ∧
      (∀ e, (HandlerCall.floor x).firstError = some e →
        res = OperationResult.failure e) ∧
      ((HandlerCall.floor x).firstError = none →
        (res.isFailure = true ↔
          specFailureCondition env (HandlerCall.floor x) = true ∨
          (HandlerCall.floor x).resultCheckFails lib = true)) := by
  refine pure_outcome (fun _ => rfl) ?_
  rcases x with e | x <;>
    simp only [floorHandler, HandlerCall.firstError, firstOfOne, specFailureCondition,
      HandlerCall.resultCheckFails, onOk, returnText, returnError] <;>
    simp_all [OperationResult.isFailure]

/-- What `roundHandler` returns, for every outcome of its parameter extractions. -/
theorem roundHandler_outcome {F : Type} (env : FloatEnv F) (lib : MathLib F)
    (x : Except String F) :
    ∃ res : OperationResult,
      Returns (fun k => runHandler env lib k (HandlerCall.round x))
        { result := some res, err := none } ∧
      (∀ e, (HandlerCall.round x).firstError = some e →
        res = OperationResult.failure e) ∧
      ((HandlerCall.round x).firstError = none →
        (res.isFailure = true ↔
          specFailureCondition env (HandlerCall.round x) = true ∨
          (HandlerCall.round x).resultCheckFails lib = true)) := by
  refine pure_outcome (fun _ => rfl) ?_
  rcases x with e | x <;>
    simp only [roundHandler, HandlerCall.firstError, firstOfOne, specFailureCondition,
      HandlerCall.resultCheckFails, onOk, returnText, returnError] <;>
    simp_all [OperationResult.isFailure]

/-- What `roundToEvenHandler` returns, for every outcome of its parameter extractions. -/
theorem roundToEvenHandler_outcome {F : Type} (env : FloatEnv F) (lib : MathLib F)
    (x : Except String F) :
    ∃ res : OperationResult,
      Returns (fun k => runHandler env lib k (HandlerCall.roundToEven x))
        { result := some res, err := none } ∧
      (∀ e, (HandlerCall.roundToEven x).firstError = some e →
        res = OperationResult.failure e) ∧
      ((HandlerCall.roundToEven x).firstError = none →
        (res.isFailure = true ↔
          specFailureCondition env (HandlerCall.roundToEven x) = true ∨
          (HandlerCall.roundToEven x).resultCheckFails lib = true)) := by
  refine pure_outcome (fun _ => rfl) ?_
  rcases x with e | x <;>
    simp only [roundToEvenHandler, HandlerCall.firstError, firstOfOne, specFailureCondition,
      HandlerCall.resultCheckFails, onOk, returnText, returnError] <;>
    simp_all [OperationResult.isFailure]

/-- What `truncHandler` returns, for every outcome of its parameter extractions. -/
theorem truncHandler_outcome {F : Type} (env : FloatEnv F) (lib : MathLib F)
    (x : Except String F) :
    ∃ res : OperationResult,
      Returns (fun k => runHandler env lib k (HandlerCall.trunc x))
        { result := some res, err := none } ∧
      (∀ e, (HandlerCall.trunc x).firstError = some e →
        res = OperationResult.failure e) ∧
      ((HandlerCall.trunc x).firstError = none →
        (res.isFailure = true ↔
          specFailureCondition env (HandlerCall.trunc x) = true ∨
          (HandlerCall.trunc x).resultCheckFails lib = true)) := by
  refine pure_outcome (fun _ => rfl) ?_
  rcases x with e | x <;>
    simp only [truncHandler, HandlerCall.firstError, firstOfOne, specFailureCondition,
      HandlerCall.resultCheckFails, onOk, returnText, returnError] <;>
    simp_all [OperationResult.isFailure]

/-- What `maxHandler` returns, for every outcome of its parameter extractions. -/
theorem maxHandler_outcome {F : Type} (env : FloatEnv F) (lib : MathLib F)
    (x y : Except String F) :
    ∃ res : OperationResult,
      Returns (fun k => runHandler env lib k (HandlerCall.max x y))
        { result := some res, err := none } ∧
      (∀ e, (HandlerCall.max x y).firstError = some e →
        res = OperationResult.failure e) ∧
      ((HandlerCall.max x y).firstError = none →
        (res.isFailure = true ↔
          specFailureCondition env (HandlerCall.max x y) = true ∨
          (HandlerCall.max x y).resultCheckFails lib = true)) := by
  refine pure_outcome (fun _ => rfl) ?_
  rcases x with e | x <;> rcases y with e2 | y <;>
    simp only [maxHandler, HandlerCall.firstError, firstOfTwo, firstOfOne, specFailureCondition,
      HandlerCall.resultCheckFails, onOk, returnText, returnError] <;>
    simp_all [OperationResult.isFailure]

/-- What `minHandler` returns, for every outcome of its parameter extractions. -/
theorem minHandler_outcome {F : Type} (env : FloatEnv F) (lib : MathLib F)
    (x y : Except String F) :
    ∃ res : OperationResult,
      Returns (fun k => runHandler env lib k (HandlerCall.min x y))
        { result := some res, err := none } ∧
      (∀ e, (HandlerCall.min x y).firstError = some e →
        res = OperationResult.failure e) ∧
      ((HandlerCall.min x y).firstError = none →
        (res.isFailure = true ↔
          specFailureCondition env (HandlerCall.min x y) = true ∨
          (HandlerCall.min x y).resultCheckFails lib = true)) := by
  refine pure_outcome (fun _ => rfl) ?_
  rcases x with e | x <;> rcases y with e2 | y <;>
    simp only [minHandler, HandlerCall.firstError, firstOfTwo, firstOfOne, specFailureCondition,
      HandlerCall.resultCheckFails, onOk, returnText, returnError] <;>
    simp_all [OperationResult.isFailure]

/-- What `dimHandler` returns, for every outcome of its parameter extractions. -/
theorem dimHandler_outcome {F : Type} (env : FloatEnv F) (lib : MathLib F)
    (x y : Except String F) :
    ∃ res : OperationResult,
      Returns (fun k => runHandler env lib k (HandlerCall.dim x y))
        { result := some res, err := none } ∧
      (∀ e, (HandlerCall.dim x y).firstError = some e →
        res = OperationResult.failure e) ∧
      ((HandlerCall.dim x y).firstError = none →
        (res.isFailure = true ↔
          specFailureCondition env (HandlerCall.dim x y) = true ∨
          (HandlerCall.dim x y).resultCheckFails lib = true)) := by
  refine pure_outcome (fun _ => rfl) ?_
  rcases x with e | x <;> rcases y with e2 | y <;>
    simp only [dimHandler, HandlerCall.firstError, firstOfTwo, firstOfOne, specFailureCondition,
      HandlerCall.resultCheckFails, onOk, returnText, returnError] <;>
    simp_all [OperationResult.isFailure]

/-- What `copysignHandler` returns, for every outcome of its parameter extractions. -/
theorem copysignHandler_outcome {F : Type} (env : FloatEnv F) (lib : MathLib F)
    (x y : Except String F) :
    ∃ res : OperationResult,
      Returns (fun k => runHandler env lib k (HandlerCall.copysign x y))
        { result := some res, err := none } ∧
      (∀ e, (HandlerCall.copysign x y).firstError = some e →
        res = OperationResult.failure e) ∧
      ((HandlerCall.copysign x y).firstError = none →
        (res.isFailure = true ↔
          specFailureCondition env (HandlerCall.copysign x y) = true ∨
          (HandlerCall.copysign x y).resultCheckFails lib = true)) := by
  refine pure_outcome (fun _ => rfl) ?_
  rcases x with e | x <;> rcases y with e2 | y <;>
    simp only [copysignHandler, HandlerCall.firstError, firstOfTwo, firstOfOne,
      specFailureCondition, HandlerCall.resultCheckFails, onOk, returnText, returnError] <;>
    simp_all [OperationResult.isFailure]

/-- What `gammaHandler` returns, for every outcome of its parameter extractions. -/
theorem gammaHandler_outcome {F : Type} (env : FloatEnv F) (lib : MathLib F)
    (x : Except String F) :
    ∃ res : OperationResult,
      Returns (fun k => runHandler env lib k (HandlerCall.gamma x))
        { result := some res, err := none } ∧
      (∀ e, (HandlerCall.gamma x).firstError = some e →
        res = OperationResult.failure e) ∧
      ((HandlerCall.gamma x).firstError = none →
        (res.isFailure = true ↔
          specFailureCondition env (HandlerCall.gamma x) = true ∨
          (HandlerCall.gamma x).resultCheckFails lib = true)) := by
  refine pure_outcome (fun _ => rfl) ?_
  rcases x with e | x <;>
    simp only [gammaHandler, HandlerCall.firstError, firstOfOne, specFailureCondition,
      HandlerCall.resultCheckFails, onOk, returnText, returnError] <;>
    (try split) <;> simp_all [OperationResult.isFailure]

/-- What `lgammaHandler` returns, for every outcome of its parameter extractions. -/
theorem lgammaHandler_outcome {F : Type} (env : FloatEnv F) (lib : MathLib F)
    (x : Except String F) :
    ∃ res : OperationResult,
      Returns (fun k => runHandler env lib k (HandlerCall.lgamma x))
        { result := some res, err := none } ∧
      (∀ e, (HandlerCall.lgamma x).firstError = some e →
        res = OperationResult.failure e) ∧
      ((HandlerCall.lgamma x).firstError = none →
        (res.isFailure = true ↔
          specFailureCondition env (HandlerCall.lgamma x) = true ∨
          (HandlerCall.lgamma x).resultCheckFails lib = true)) := by
  refine pure_outcome (fun _ => rfl) ?_
  rcases x with e | x <;>
    simp only [lgammaHandler, HandlerCall.firstError, firstOfOne, specFailureCondition,
      HandlerCall.resultCheckFails, onOk, returnText, returnError] <;>
    simp_all [OperationResult.isFailure]

/-- What `erfHandler` returns, for every outcome of its parameter extractions. -/
theorem erfHandler_outcome {F : Type} (env : FloatEnv F) (lib : MathLib F)
    (x : Except String F) :
    ∃ res : OperationResult,
      Returns (fun k => runHandler env lib k (HandlerCall.erf x))
        { result := some res, err := none } ∧
      (∀ e, (HandlerCall.erf x).firstError = some e →
        res = OperationResult.failure e) ∧
      ((HandlerCall.erf x).firstError = none →
        (res.isFailure = true ↔
          specFailureCondition env (HandlerCall.erf x) = true ∨
          (HandlerCall.erf x).resultCheckFails lib = true)) := by
  refine pure_outcome (fun _ => rfl) ?_
  rcases x with e | x <;>
    simp only [erfHandler, HandlerCall.firstError, firstOfOne, specFailureCondition,
      HandlerCall.resultCheckFails, onOk, returnText, returnError] <;>
    simp_all [OperationResult.isFailure]

/-- What `erfcHandler` returns, for every outcome of its parameter extractions. -/
theorem erfcHandler_outcome {F : Type} (env : FloatEnv F) (lib : MathLib F)
    (x : Except String F) :
    ∃ res : OperationResult,
      Returns (fun k => runHandler env lib k (HandlerCall.erfc x))
        { result := some res, err := none } ∧
      (∀ e, (HandlerCall.erfc x).firstError = some e →
        res = OperationResult.failure e) ∧
      ((HandlerCall.erfc x).firstError = none →
        (res.isFailure = true ↔
          specFailureCondition env (HandlerCall.erfc x) = true ∨
          (HandlerCall.erfc x).resultCheckFails lib = true)) := by
  refine pure_outcome (fun _ => rfl) ?_
  rcases x with e | x <;>
    simp only [erfcHandler, HandlerCall.firstError, firstOfOne, specFailureCondition,
      HandlerCall.resultCheckFails, onOk, returnText, returnError] <;>
    simp_all [OperationResult.isFailure]

/-- What `erfinvHandler` returns, for every outcome of its parameter extractions. -/
theorem erfinvHandler_outcome {F : Type} (env : FloatEnv F) (lib : MathLib F)
    (x : Except String F) :
    ∃ res : OperationResult,
      Returns (fun k => runHandler env lib k (HandlerCall.erfinv x))
        { result := some res, err := none } ∧
      (∀ e, (HandlerCall.erfinv x).firstError = some e →
        res = OperationResult.failure e) ∧
      ((HandlerCall.erfinv x).firstError = none →
        (res.isFailure = true ↔
          specFailureCondition env (HandlerCall.erfinv x) = true ∨
          (HandlerCall.erfinv x).resultCheckFails lib = true)) := by
  refine pure_outcome (fun _ => rfl) ?_
  rcases x with e | x <;>
    simp only [erfinvHandler, HandlerCall.firstError, firstOfOne, specFailureCondition,
      HandlerCall.resultCheckFails, onOk, returnText, returnError] <;>
    (try split) <;> simp_all [OperationResult.isFailure]

/-- What `erfcinvHandler` returns, for every outcome of its parameter extractions. -/
theorem erfcinvHandler_outcome {F : Type} (env : FloatEnv F) (lib : MathLib F)
    (x : Except String F) :
    ∃ res : OperationResult,
      Returns (fun k => runHandler env lib k (HandlerCall.erfcinv x))
        { result := some res, err := none } ∧
      (∀ e, (HandlerCall.erfcinv x).firstError = some e →
        res = OperationResult.failure e) ∧
      ((HandlerCall.erfcinv x).firstError = none →
        (res.isFailure = true ↔
          specFailureCondition env (HandlerCall.erfcinv x) = true ∨
          (HandlerCall.erfcinv x).resultCheckFails lib = true)) := by
  refine pure_outcome (fun _ => rfl) ?_
  rcases x with e | x <;>
    simp only [erfcinvHandler, HandlerCall.firstError, firstOfOne, specFailureCondition,
      HandlerCall.resultCheckFails, onOk, returnText, returnError] <;>
    (try split) <;> simp_all [OperationResult.isFailure]

/-- What `j0Handler` returns, for every outcome of its parameter extractions. -/
theorem j0Handler_outcome {F : Type} (env : FloatEnv F) (lib : MathLib F)
    (x : Except String F) :
    ∃ res : OperationResult,
      Returns (fun k => runHandler env lib k (HandlerCall.j0 x))
        { result := some res, err := none } ∧
      (∀ e, (HandlerCall.j0 x).firstError = some e →
        res = OperationResult.failure e) ∧
      ((HandlerCall.j0 x).firstError = none →
        (res.isFailure = true ↔
          specFailureCondition env (HandlerCall.j0 x) = true ∨
          (HandlerCall.j0 x).resultCheckFails lib = true)) := by
  refine pure_outcome (fun _ => rfl) ?_
  rcases x with e | x <;>
    simp only [j0Handler, HandlerCall.firstError, firstOfOne, specFailureCondition,
      HandlerCall.resultCheckFails, onOk, returnText, returnError] <;>
    simp_all [OperationResult.isFailure]

/-- What `j1Handler` returns, for every outcome of its parameter extractions. -/
theorem j1Handler_outcome {F : Type} (env : FloatEnv F) (lib : MathLib F)
    (x : Except String F) :
    ∃ res : OperationResult,
      Returns (fun k => runHandler env lib k (HandlerCall.j1 x))
        { result := some res, err := none } ∧
      (∀ e, (HandlerCall.j1 x).firstError = some e →
        res = OperationResult.failure e) ∧
      ((HandlerCall.j1 x).firstError = none →
        (res.isFailure = true ↔
          specFailureCondition env (HandlerCall.j1 x) = true ∨
          (HandlerCall.j1 x).resultCheckFails lib = true)) := by
  refine pure_outcome (fun _ => rfl) ?_
  rcases x with e | x <;>
    simp only [j1Handler, HandlerCall.firstError, firstOfOne, specFailureCondition,
      HandlerCall.resultCheckFails, onOk, returnText, returnError] <;>
    simp_all [OperationResult.isFailure]

/-- What `y0Handler` returns, for every outcome of its parameter extractions. -/
theorem y0Handler_outcome {F : Type} (env : FloatEnv F) (lib : MathLib F)
    (x : Except String F) :
    ∃ res : OperationResult,
      Returns (fun k => runHandler env lib k (HandlerCall.y0 x))
        { result := some res, err := none } ∧
      (∀ e, (HandlerCall.y0 x).firstError = some e →
        res = OperationResult.failure e) ∧
      ((HandlerCall.y0 x).firstError = none →
        (res.isFailure = true ↔
          specFailureCondition env (HandlerCall.y0 x) = true ∨
          (HandlerCall.y0 x).resultCheckFails lib = true)) := by
  refine pure_outcome (fun _ => rfl) ?_
  rcases x with e | x <;>
    simp only [y0Handler, HandlerCall.firstError, firstOfOne, specFailureCondition,
      HandlerCall.resultCheckFails, onOk, returnText, returnError] <;>
    (try split) <;> simp_all [OperationResult.isFailure]

/-- What `y1Handler` returns, for every outcome of its parameter extractions. -/
theorem y1Handler_outcome {F : Type} (env : FloatEnv F) (lib : MathLib F)
    (x : Except String F) :
    ∃ res : OperationResult,
      Returns (fun k => runHandler env lib k (HandlerCall.y1 x))
        { result := some res, err := none } ∧
      (∀ e, (HandlerCall.y1 x).firstError = some e →
        res = OperationResult.failure e) ∧
      ((HandlerCall.y1 x).firstError = none →
        (res.isFailure = true ↔
          specFailureCondition env (HandlerCall.y1 x) = true ∨
          (HandlerCall.y1 x).resultCheckFails lib = true)) := by
  refine pure_outcome (fun _ => rfl) ?_
  rcases x with e | x <;>
    simp only [y1Handler, HandlerCall.firstError, firstOfOne, specFailureCondition,
      HandlerCall.resultCheckFails, onOk, returnText, returnError] <;>
    (try split) <;> simp_all [OperationResult.isFailure]

/-- What `frexpHandler` returns, for every outcome of its parameter extractions. -/
theorem frexpHandler_outcome {F : Type} (env : FloatEnv F) (lib : MathLib F)
    (x : Except String F) :
    ∃ res : OperationResult,
      Returns (fun k => runHandler env lib k (HandlerCall.frexp x))
        { result := some res, err := none } ∧
      (∀ e, (HandlerCall.frexp x).firstError = some e →
        res = OperationResult.failure e) ∧
      ((HandlerCall.frexp x).firstError = none →
        (res.isFailure = true ↔
          specFailureCondition env (HandlerCall.frexp x) = true ∨
          (HandlerCall.frexp x).resultCheckFails lib = true)) := by
  refine pure_outcome (fun _ => rfl) ?_
  rcases x with e | x <;>
    simp only [frexpHandler, HandlerCall.firstError, firstOfOne, specFailureCondition,
      HandlerCall.resultCheckFails, onOk, returnText, returnError] <;>
    simp_all [OperationResult.isFailure]

/-- What `ldexpHandler` returns, for every outcome of its parameter extractions. -/
theorem ldexpHandler_outcome {F : Type} (env : FloatEnv F) (lib : MathLib F)
    (frac : Except String F) (exp : Except String Int) :
    ∃ res : OperationResult,
      Returns (fun k => runHandler env lib k (HandlerCall.ldexp frac exp))
        { result := some res, err := none } ∧
      (∀ e, (HandlerCall.ldexp frac exp).firstError = some e →
        res = OperationResult.failure e) ∧
      ((HandlerCall.ldexp frac exp).firstError = none →
        (res.isFailure = true ↔
          specFailureCondition env (HandlerCall.ldexp frac exp) = true ∨
          (HandlerCall.ldexp frac exp).resultCheckFails lib = true)) := by
  refine pure_outcome (fun _ => rfl) ?_
  rcases frac with e | frac <;> rcases exp with e2 | exp <;>
    simp only [ldexpHandler, HandlerCall.firstError, firstOfTwo, firstOfOne,
      specFailureCondition, HandlerCall.resultCheckFails, onOk, returnText, returnError] <;>
    simp_all [OperationResult.isFailure]

/-- What `modfHandler` returns, for every outcome of its parameter extractions. -/
theorem modfHandler_outcome {F : Type} (env : FloatEnv F) (lib : MathLib F)
    (x : Except String F) :
    ∃ res : OperationResult,
      Returns (fun k => runHandler env lib k (HandlerCall.modf x))
        { result := some res, err := none } ∧
      (∀ e, (HandlerCall.modf x).firstError = some e →
        res = OperationResult.failure e) ∧
      ((HandlerCall.modf x).firstError = none →
        (res.isFailure = true ↔
          specFailureCondition env (HandlerCall.modf x) = true ∨
          (HandlerCall.modf x).resultCheckFails lib = true)) := by
  refine pure_outcome (fun _ => rfl) ?_
  rcases x with e | x <;>
    simp only [modfHandler, HandlerCall.firstError, firstOfOne, specFailureCondition,
      HandlerCall.resultCheckFails, onOk, returnText, returnError] <;>
    simp_all [OperationResult.isFailure]

/-- What `ilogbHandler` returns, for every outcome of its parameter extractions. -/
theorem ilogbHandler_outcome {F : Type} (env : FloatEnv F) (lib : MathLib F)
    (x : Except String F) :
    ∃ res : OperationResult,
      Returns (fun k => runHandler env lib k (HandlerCall.ilogb x))
        { result := some res, err := none } ∧
      (∀ e, (HandlerCall.ilogb x).firstError = some e →
        res = OperationResult.failure e) ∧
      ((HandlerCall.ilogb x).firstError = none →
        (res.isFailure = true ↔
          specFailureCondition env (HandlerCall.ilogb x) = true ∨
          (HandlerCall.ilogb x).resultCheckFails lib = true)) := by
  refine pure_outcome (fun _ => rfl) ?_
  rcases x with e | x <;>
    simp only [ilogbHandler, HandlerCall.firstError, firstOfOne, specFailureCondition,
      HandlerCall.resultCheckFails, onOk, returnText, returnError] <;>
    simp_all [OperationResult.isFailure]

/-- What `nextafterHandler` returns, for every outcome of its parameter extractions. -/
theorem nextafterHandler_outcome {F : Type} (env : FloatEnv F) (lib : MathLib F)
    (x y : Except String F) :
    ∃ res : OperationResult,
      Returns (fun k => runHandler env lib k (HandlerCall.nextafter x y))
        { result := some res, err := none } ∧
      (∀ e, (HandlerCall.nextafter x y).firstError = some e →
        res = OperationResult.failure e) ∧
      ((HandlerCall.nextafter x y).firstError = none →
        (res.isFailure = true ↔
          specFailureCondition env (HandlerCall.nextafter x y) = true ∨
          (HandlerCall.nextafter x y).resultCheckFails lib = true)) := by
  refine pure_outcome (fun _ => rfl) ?_
  rcases x with e | x <;> rcases y with e2 | y <;>
    simp only [nextafterHandler, HandlerCall.firstError, firstOfTwo, firstOfOne,
      specFailureCondition, HandlerCall.resultCheckFails, onOk, returnText, returnError] <;>
    simp_all [OperationResult.isFailure]

/-- What `fmaHandler` returns, for every outcome of its parameter extractions. -/
theorem fmaHandler_outcome {F : Type} (env : FloatEnv F) (lib : MathLib F)
    (x y z : Except String F) :
    ∃ res : OperationResult,
      Returns (fun k => runHandler env lib k (HandlerCall.fma x y z))
        { result := some res, err := none } ∧
      (∀ e, (HandlerCall.fma x y z).firstError = some e →
        res = OperationResult.failure e) ∧
      ((HandlerCall.fma x y z).firstError = none →
        (res.isFailure = true ↔
          specFailureCondition env (HandlerCall.fma x y z) = true ∨
          (HandlerCall.fma x y z).resultCheckFails lib = true)) := by
  refine pure_outcome (fun _ => rfl) ?_
  rcases x with e | x <;> rcases y with e2 | y <;> rcases z with e3 | z <;>
    simp only [fmaHandler, HandlerCall.firstError, firstOfThree, firstOfTwo, firstOfOne,
      specFailureCondition, HandlerCall.resultCheckFails, onOk, returnText, returnError] <;>
    simp_all [OperationResult.isFailure]

/-- What `signbitHandler` returns, for every outcome of its parameter extractions. -/
theorem signbitHandler_outcome {F : Type} (env : FloatEnv F) (lib : MathLib F)
    (x : Except String F) :
    ∃ res : OperationResult,
      Returns (fun k => runHandler env lib k (HandlerCall.signbit x))
        { result := some res, err := none } ∧
      (∀ e, (HandlerCall.signbit x).firstError = some e →
        res = OperationResult.failure e) ∧
      ((HandlerCall.signbit x).firstError = none →
        (res.isFailure = true ↔
          specFailureCondition env (HandlerCall.signbit x) = true ∨
          (HandlerCall.signbit x).resultCheckFails lib = true)) := by
  refine pure_outcome (fun _ => rfl) ?_
  rcases x with e | x <;>
    simp only [signbitHandler, HandlerCall.firstError, firstOfOne, specFailureCondition,
      HandlerCall.resultCheckFails, onOk, returnText, returnError] <;>
    simp_all [OperationResult.isFailure]

/-- What `isNaNHandler` returns, for every outcome of its parameter extractions. -/
theorem isNaNHandler_outcome {F : Type} (env : FloatEnv F) (lib : MathLib F)
    (x : Except String F) :
    ∃ res : OperationResult,
      Returns (fun k => runHandler env lib k (HandlerCall.isNaN x))
        { result := some res, err := none } ∧
      (∀ e, (HandlerCall.isNaN x).firstError = some e →
        res = OperationResult.failure e) ∧
      ((HandlerCall.isNaN x).firstError = none →
        (res.isFailure = true ↔
          specFailureCondition env (HandlerCall.isNaN x) = true ∨
          (HandlerCall.isNaN x).resultCheckFails lib = true)) := by
  refine pure_outcome (fun _ => rfl) ?_
  rcases x with e | x <;>
    simp only [isNaNHandler, HandlerCall.firstError, firstOfOne, specFailureCondition,
      HandlerCall.resultCheckFails, onOk, returnText, returnError] <;>
    simp_all [OperationResult.isFailure]

/-- What `isInfHandler` returns, for every outcome of its parameter extractions. -/
theorem isInfHandler_outcome {F : Type} (env : FloatEnv F) (lib : MathLib F)
    (x : Except String F) (sign : Int) :
    ∃ res : OperationResult,
      Returns (fun k => runHandler env lib k (HandlerCall.isInf x sign))
        { result := some res, err := none } ∧
      (∀ e, (HandlerCall.isInf x sign).firstError = some e →
        res = OperationResult.failure e) ∧
      ((HandlerCall.isInf x sign).firstError = none →
        (res.isFailure = true ↔
          specFailureCondition env (HandlerCall.isInf x sign) = true ∨
          (HandlerCall.isInf x sign).resultCheckFails lib = true)) := by
  refine pure_outcome (fun _ => rfl) ?_
  rcases x with e | x <;>
    simp only [isInfHandler, HandlerCall.firstError, firstOfOne, specFailureCondition,
      HandlerCall.resultCheckFails, onOk, returnText, returnError] <;>
    simp_all [OperationResult.isFailure]

/-- What `degreesToRadiansHandler` returns, for every outcome of its parameter extractions. -/
theorem degreesToRadiansHandler_outcome {F : Type} (env : FloatEnv F) (lib : MathLib F)
    (degrees : Except String F) :
    ∃ res : OperationResult,
      Returns (fun k => runHandler env lib k (HandlerCall.degreesToRadians degrees))
        { result := some res, err := none } ∧
      (∀ e, (HandlerCall.degreesToRadians degrees).firstError = some e →
        res = OperationResult.failure e) ∧
      ((HandlerCall.degreesToRadians degrees).firstError = none →
        (res.isFailure = true ↔
          specFailureCondition env (HandlerCall.degreesToRadians degrees) = true ∨
          (HandlerCall.degreesToRadians degrees).resultCheckFails lib = true)) := by
  refine pure_outcome (fun _ => rfl) ?_
  rcases degrees with e | degrees <;>
    simp only [degreesToRadiansHandler, HandlerCall.firstError, firstOfOne, specFailureCondition,
      HandlerCall.resultCheckFails, onOk, returnText, returnError] <;>
    simp_all [OperationResult.isFailure]

/-- What `radiansToDegreesHandler` returns, for every outcome of its parameter extractions. -/
theorem radiansToDegreesHandler_outcome {F : Type} (env : FloatEnv F) (lib : MathLib F)
    (radians : Except String F) :
    ∃ res : OperationResult,
      Returns (fun k => runHandler env lib k (HandlerCall.radiansToDegrees radians))
        { result := some res, err := none } ∧
      (∀ e, (HandlerCall.radiansToDegrees radians).firstError = some e →
        res = OperationResult.failure e) ∧
      ((HandlerCall.radiansToDegrees radians).firstError = none →
        (res.isFailure = true ↔
          specFailureCondition env (HandlerCall.radiansToDegrees radians) = true ∨
          (HandlerCall.radiansToDegrees radians).resultCheckFails lib = true)) := by
  refine pure_outcome (fun _ => rfl) ?_
  rcases radians with e | radians <;>
    simp only [radiansToDegreesHandler, HandlerCall.firstError, firstOfOne, specFailureCondition,
      HandlerCall.resultCheckFails, onOk, returnText, returnError] <;>
    simp_all [OperationResult.isFailure]

/-- What `sumHandler` returns, for every outcome of its parameter extractions. -/
theorem sumHandler_outcome {F : Type} (env : FloatEnv F) (lib : MathLib F)
    (numbers : Except String (List F)) :
    ∃ res : OperationResult,
      Returns (fun k => runHandler env lib k (HandlerCall.sum numbers))
        { result := some res, err := none } ∧
      (∀ e, (HandlerCall.sum numbers).firstError = some e →
        res = OperationResult.failure e) ∧
      ((HandlerCall.sum numbers).firstError = none →
        (res.isFailure = true ↔
          specFailureCondition env (HandlerCall.sum numbers) = true ∨
          (HandlerCall.sum numbers).resultCheckFails lib = true)) := by
  refine pure_outcome (fun _ => rfl) ?_
  rcases numbers with e | numbers <;>
    simp only [sumHandler, HandlerCall.firstError, firstOfOne, specFailureCondition,
      HandlerCall.resultCheckFails, onOk, returnText, returnError] <;>
    (try split) <;> simp_all [OperationResult.isFailure]

/-- What `productHandler` returns, for every outcome of its parameter extractions. -/
theorem productHandler_outcome {F : Type} (env : FloatEnv F) (lib : MathLib F)
    (numbers : Except String (List F)) :
    ∃ res : OperationResult,
      Returns (fun k => runHandler env lib k (HandlerCall.product numbers))
        { result := some res, err := none } ∧
      (∀ e, (HandlerCall.product numbers).firstError = some e →
        res = OperationResult.failure e) ∧
      ((HandlerCall.product numbers).firstError = none →
        (res.isFailure = true ↔
          specFailureCondition env (HandlerCall.product numbers) = true ∨
          (HandlerCall.product numbers).resultCheckFails lib = true)) := by
  refine pure_outcome (fun _ => rfl) ?_
  rcases numbers with e | numbers <;>
    simp only [productHandler, HandlerCall.firstError, firstOfOne, specFailureCondition,
      HandlerCall.resultCheckFails, onOk, returnText, returnError] <;>
    (try split) <;> simp_all [OperationResult.isFailure]

/-- What `meanHandler` returns, for every outcome of its parameter extractions. -/
theorem meanHandler_outcome {F : Type} (env : FloatEnv F) (lib : MathLib F)
    (numbers : Except String (List F)) :
    ∃ res : OperationResult,
      Returns (fun k => runHandler env lib k (HandlerCall.mean numbers))
        { result := some res, err := none } ∧
      (∀ e, (HandlerCall.mean numbers).firstError = some e →
        res = OperationResult.failure e) ∧
      ((HandlerCall.mean numbers).firstError = none →
        (res.isFailure = true ↔
          specFailureCondition env (HandlerCall.mean numbers) = true ∨
          (HandlerCall.mean numbers).resultCheckFails lib = true)) := by
  refine pure_outcome (fun _ => rfl) ?_
  rcases numbers with e | numbers <;>
    simp only [meanHandler, HandlerCall.firstError, firstOfOne, specFailureCondition,
      HandlerCall.resultCheckFails, onOk, returnText, returnError] <;>
    (try split) <;> simp_all [OperationResult.isFailure]

/-- What `modeHandler` returns, for every outcome of its parameter extractions. -/
theorem modeHandler_outcome {F : Type} (env : FloatEnv F) (lib : MathLib F)
    (numbers : Except String (List F)) :
    ∃ res : OperationResult,
      Returns (fun k => runHandler env lib k (HandlerCall.mode numbers))
        { result := some res, err := none } ∧
      (∀ e, (HandlerCall.mode numbers).firstError = some e →
        res = OperationResult.failure e) ∧
      ((HandlerCall.mode numbers).firstError = none →
        (res.isFailure = true ↔
          specFailureCondition env (HandlerCall.mode numbers) = true ∨
          (HandlerCall.mode numbers).resultCheckFails lib = true)) := by
  refine pure_outcome (fun _ => rfl) ?_
  rcases numbers with e | numbers <;>
    simp only [modeHandler, HandlerCall.firstError, firstOfOne, specFailureCondition,
      HandlerCall.resultCheckFails, onOk, returnText, returnError] <;>
    (try split) <;> simp_all [OperationResult.isFailure]

/-- What `varianceHandler` returns, for every outcome of its parameter extractions. -/
theorem varianceHandler_outcome {F : Type} (env : FloatEnv F) (lib : MathLib F)
    (numbers : Except String (List F)) :
    ∃ res : OperationResult,
      Returns (fun k => runHandler env lib k (HandlerCall.variance numbers))
        { result := some res, err := none } ∧
      (∀ e, (HandlerCall.variance numbers).firstError = some e →
        res = OperationResult.failure e) ∧
      ((HandlerCall.variance numbers).firstError = none →
        (res.isFailure = true ↔
          specFailureCondition env (HandlerCall.variance numbers) = true ∨
          (HandlerCall.variance numbers).resultCheckFails lib = true)) := by
  refine pure_outcome (fun _ => rfl) ?_
  rcases numbers with e | numbers <;>
    simp only [varianceHandler, HandlerCall.firstError, firstOfOne, specFailureCondition,
      HandlerCall.resultCheckFails, onOk, returnText, returnError] <;>
    (try split) <;> simp_all [OperationResult.isFailure]

/-- What `stdDevHandler` returns, for every outcome of its parameter extractions. -/
theorem stdDevHandler_outcome {F : Type} (env : FloatEnv F) (lib : MathLib F)
    (numbers : Except String (List F)) :
    ∃ res : OperationResult,
      Returns (fun k => runHandler env lib k (HandlerCall.stdDev numbers))
        { result := some res, err := none } ∧
      (∀ e, (HandlerCall.stdDev numbers).firstError = some e →
        res = OperationResult.failure e) ∧
      ((HandlerCall.stdDev numbers).firstError = none →
        (res.isFailure = true ↔
          specFailureCondition env (HandlerCall.stdDev numbers) = true ∨
          (HandlerCall.stdDev numbers).resultCheckFails lib = true)) := by
  refine pure_outcome (fun _ => rfl) ?_
  rcases numbers with e | numbers <;>
    simp only [stdDevHandler, HandlerCall.firstError, firstOfOne, specFailureCondition,
      HandlerCall.resultCheckFails, onOk, returnText, returnError] <;>
    (try split) <;> simp_all [OperationResult.isFailure]

/-- What `bitAndHandler` returns, for every outcome of its parameter extractions. -/
theorem bitAndHandler_outcome {F : Type} (env : FloatEnv F) (lib : MathLib F)
    (a b : Except String Int) :
    ∃ res : OperationResult,
      Returns (fun k => runHandler env lib k (HandlerCall.bitAnd a b : HandlerCall F))
        { result := some res, err := none } ∧
      (∀ e, (HandlerCall.bitAnd a b : HandlerCall F).firstError = some e →
        res = OperationResult.failure e) ∧
      ((HandlerCall.bitAnd a b : HandlerCall F).firstError = none →
        (res.isFailure = true ↔
          specFailureCondition env (HandlerCall.bitAnd a b : HandlerCall F) = true ∨
          (HandlerCall.bitAnd a b : HandlerCall F).resultCheckFails lib = true)) := by
  refine pure_outcome (fun _ => rfl) ?_
  rcases a with e | a <;> rcases b with e2 | b <;>
    simp only [bitAndHandler, bitBinaryHandler, HandlerCall.firstError, firstOfTwo, firstOfOne,
      specFailureCondition, HandlerCall.resultCheckFails, onOk, returnText, returnError] <;>
    simp_all [OperationResult.isFailure]

/-- What `bitOrHandler` returns, for every outcome of its parameter extractions. -/
theorem bitOrHandler_outcome {F : Type} (env : FloatEnv F) (lib : MathLib F)
    (a b : Except String Int) :
    ∃ res : OperationResult,
      Returns (fun k => runHandler env lib k (HandlerCall.bitOr a b : HandlerCall F))
        { result := some res, err := none } ∧
      (∀ e, (HandlerCall.bitOr a b : HandlerCall F).firstError = some e →
        res = OperationResult.failure e) ∧
      ((HandlerCall.bitOr a b : HandlerCall F).firstError = none →
        (res.isFailure = true ↔
          specFailureCondition env (HandlerCall.bitOr a b : HandlerCall F) = true ∨
          (HandlerCall.bitOr a b : HandlerCall F).resultCheckFails lib = true)) := by
  refine pure_outcome (fun _ => rfl) ?_
  rcases a with e | a <;> rcases b with e2 | b <;>
    simp only [bitOrHandler, bitBinaryHandler, HandlerCall.firstError, firstOfTwo, firstOfOne,
      specFailureCondition, HandlerCall.resultCheckFails, onOk, returnText, returnError] <;>
    simp_all [OperationResult.isFailure]

/-- What `bitXorHandler` returns, for every outcome of its parameter extractions. -/
theorem bitXorHandler_outcome {F : Type} (env : FloatEnv F) (lib : MathLib F)
    (a b : Except String Int) :
    ∃ res : OperationResult,
      Returns (fun k => runHandler env lib k (HandlerCall.bitXor a b : HandlerCall F))
        { result := some res, err := none } ∧
      (∀ e, (HandlerCall.bitXor a b : HandlerCall F).firstError = some e →
        res = OperationResult.failure e) ∧
      ((HandlerCall.bitXor a b : HandlerCall F).firstError = none →
        (res.isFailure = true ↔
          specFailureCondition env (HandlerCall.bitXor a b : HandlerCall F) = true ∨
          (HandlerCall.bitXor a b : HandlerCall F).resultCheckFails lib = true)) := by
  refine pure_outcome (fun _ => rfl) ?_
  rcases a with e | a <;> rcases b with e2 | b <;>
    simp only [bitXorHandler, bitBinaryHandler, HandlerCall.firstError, firstOfTwo, firstOfOne,
      specFailureCondition, HandlerCall.resultCheckFails, onOk, returnText, returnError] <;>
    simp_all [OperationResult.isFailure]

/-- What `bitNotHandler` returns, for every outcome of its parameter extractions. -/
theorem bitNotHandler_outcome {F : Type} (env : FloatEnv F) (lib : MathLib F)
    (a : Except String Int) :
    ∃ res : OperationResult,
      Returns (fun k => runHandler env lib k (HandlerCall.bitNot a : HandlerCall F))
        { result := some res, err := none } ∧
      (∀ e, (HandlerCall.bitNot a : HandlerCall F).firstError = some e →
        res = OperationResult.failure e) ∧
      ((HandlerCall.bitNot a : HandlerCall F).firstError = none →
        (res.isFailure = true ↔
          specFailureCondition env (HandlerCall.bitNot a : HandlerCall F) = true ∨
          (HandlerCall.bitNot a : HandlerCall F).resultCheckFails lib = true)) := by
  refine pure_outcome (fun _ => rfl) ?_
  rcases a with e | a <;>
    simp only [bitNotHandler, HandlerCall.firstError, firstOfOne, specFailureCondition,
      HandlerCall.resultCheckFails, onOk, returnText, returnError] <;>
    simp_all [OperationResult.isFailure]

/-- What `bitLeftShiftHandler` returns, for every outcome of its parameter extractions. -/
theorem bitLeftShiftHandler_outcome {F : Type} (env : FloatEnv F) (lib : MathLib F)
    (a n : Except String Int) :
    ∃ res : OperationResult,
      Returns (fun k => runHandler env lib k (HandlerCall.bitLeftShift a n : HandlerCall F))
        { result := some res, err := none } ∧
      (∀ e, (HandlerCall.bitLeftShift a n : HandlerCall F).firstError = some e →
        res = OperationResult.failure e) ∧
      ((HandlerCall.bitLeftShift a n : HandlerCall F).firstError = none →
        (res.isFailure = true ↔
          specFailureCondition env (HandlerCall.bitLeftShift a n : HandlerCall F) = true ∨
          (HandlerCall.bitLeftShift a n : HandlerCall F).resultCheckFails lib = true)) := by
  refine pure_outcome (fun _ => rfl) ?_
  rcases a with e | a <;> rcases n with e2 | n <;>
    simp only [bitLeftShiftHandler, HandlerCall.firstError, firstOfTwo, firstOfOne,
      specFailureCondition, HandlerCall.resultCheckFails, onOk, returnText, returnError] <;>
    (try split) <;> simp_all [OperationResult.isFailure]

/-- What `bitRightShiftHandler` returns, for every outcome of its parameter extractions. -/
theorem bitRightShiftHandler_outcome {F : Type} (env : FloatEnv F) (lib : MathLib F)
    (a n : Except String Int) :
    ∃ res : OperationResult,
      Returns (fun k => runHandler env lib k (HandlerCall.bitRightShift a n : HandlerCall F))
        { result := some res, err := none } ∧
      (∀ e, (HandlerCall.bitRightShift a n : HandlerCall F).firstError = some e →
        res = OperationResult.failure e) ∧
      ((HandlerCall.bitRightShift a n : HandlerCall F).firstError = none →
        (res.isFailure = true ↔
          specFailureCondition env (HandlerCall.bitRightShift a n : HandlerCall F) = true ∨
          (HandlerCall.bitRightShift a n : HandlerCall F).resultCheckFails lib = true)) := by
  refine pure_outcome (fun _ => rfl) ?_
  rcases a with e | a <;> rcases n with e2 | n <;>
    simp only [bitRightShiftHandler, HandlerCall.firstError, firstOfTwo, firstOfOne,
      specFailureCondition, HandlerCall.resultCheckFails, onOk, returnText, returnError] <;>
    (try split) <;> simp_all [OperationResult.isFailure]

/-- What `complexAbsHandler` returns, for every outcome of its parameter extractions. -/
theorem complexAbsHandler_outcome {F : Type} (env : FloatEnv F) (lib : MathLib F)
    (real imag : Except String F) :
    ∃ res : OperationResult,
      Returns (fun k => runHandler env lib k (HandlerCall.complexAbs real imag))
        { result := some res, err := none } ∧
      (∀ e, (HandlerCall.complexAbs real imag).firstError = some e →
        res = OperationResult.failure e) ∧
      ((HandlerCall.complexAbs real imag).firstError = none →
        (res.isFailure = true ↔
          specFailureCondition env (HandlerCall.complexAbs real imag) = true ∨
          (HandlerCall.complexAbs real imag).resultCheckFails lib = true)) := by
  refine pure_outcome (fun _ => rfl) ?_
  rcases real with e | real <;> rcases imag with e2 | imag <;>
    simp only [complexAbsHandler, getComplex, HandlerCall.firstError, firstOfTwo, firstOfOne,
      specFailureCondition, HandlerCall.resultCheckFails, onOk, returnText, returnError] <;>
    simp_all [OperationResult.isFailure]

/-- What `complexPhaseHandler` returns, for every outcome of its parameter extractions. -/
theorem complexPhaseHandler_outcome {F : Type} (env : FloatEnv F) (lib : MathLib F)
    (real imag : Except String F) :
    ∃ res : OperationResult,
      Returns (fun k => runHandler env lib k (HandlerCall.complexPhase real imag))
        { result := some res, err := none } ∧
      (∀ e, (HandlerCall.complexPhase real imag).firstError = some e →
        res = OperationResult.failure e) ∧
      ((HandlerCall.complexPhase real imag).firstError = none →
        (res.isFailure = true ↔
          specFailureCondition env (HandlerCall.complexPhase real imag) = true ∨
          (HandlerCall.complexPhase real imag).resultCheckFails lib = true)) := by
  refine pure_outcome (fun _ => rfl) ?_
  rcases real with e | real <;> rcases imag with e2 | imag <;>
    simp only [complexPhaseHandler, getComplex, HandlerCall.firstError, firstOfTwo, firstOfOne,
      specFailureCondition, HandlerCall.resultCheckFails, onOk, returnText, returnError] <;>
    simp_all [OperationResult.isFailure]

/-- What `complexConjHandler` returns, for every outcome of its parameter extractions. -/
theorem complexConjHandler_outcome {F : Type} (env : FloatEnv F) (lib : MathLib F)
    (real imag : Except String F) :
    ∃ res : OperationResult,
      Returns (fun k => runHandler env lib k (HandlerCall.complexConj real imag))
        { result := some res, err := none } ∧
      (∀ e, (HandlerCall.complexConj real imag).firstError = some e →
        res = OperationResult.failure e) ∧
      ((HandlerCall.complexConj real imag).firstError = none →
        (res.isFailure = true ↔
          specFailureCondition env (HandlerCall.complexConj real imag) = true ∨
          (HandlerCall.complexConj real imag).resultCheckFails lib = true)) := by
  refine pure_outcome (fun _ => rfl) ?_
  rcases real with e | real <;> rcases imag with e2 | imag <;>
    simp only [complexConjHandler, getComplex, HandlerCall.firstError, firstOfTwo, firstOfOne,
      specFailureCondition, HandlerCall.resultCheckFails, onOk, returnText, returnError] <;>
    simp_all [OperationResult.isFailure]

/-- What `complexExpHandler` returns, for every outcome of its parameter extractions. -/
theorem complexExpHandler_outcome {F : Type} (env : FloatEnv F) (lib : MathLib F)
    (real imag : Except String F) :
    ∃ res : OperationResult,
      Returns (fun k => runHandler env lib k (HandlerCall.complexExp real imag))
        { result := some res, err := none } ∧
      (∀ e, (HandlerCall.complexExp real imag).firstError = some e →
        res = OperationResult.failure e) ∧
      ((HandlerCall.complexExp real imag).firstError = none →
        (res.isFailure = true ↔
          specFailureCondition env (HandlerCall.complexExp real imag) = true ∨
          (HandlerCall.complexExp real imag).resultCheckFails lib = true)) := by
  refine pure_outcome (fun _ => rfl) ?_
  rcases real with e | real <;> rcases imag with e2 | imag <;>
    simp only [complexExpHandler, getComplex, HandlerCall.firstError, firstOfTwo, firstOfOne,
      specFailureCondition, HandlerCall.resultCheckFails, onOk, returnText, returnError] <;>
    simp_all [OperationResult.isFailure]

/-- What `complexLogHandler` returns, for every outcome of its parameter extractions. -/
theorem complexLogHandler_outcome {F : Type} (env : FloatEnv F) (lib : MathLib F)
    (real imag : Except String F) :
    ∃ res : OperationResult,
      Returns (fun k => runHandler env lib k (HandlerCall.complexLog real imag))
        { result := some res, err := none } ∧
      (∀ e, (HandlerCall.complexLog real imag).firstError = some e →
        res = OperationResult.failure e) ∧
      ((HandlerCall.complexLog real imag).firstError = none →
        (res.isFailure = true ↔
          specFailureCondition env (HandlerCall.complexLog real imag) = true ∨
          (HandlerCall.complexLog real imag).resultCheckFails lib = true)) := by
  refine pure_outcome (fun _ => rfl) ?_
  rcases real with e | real <;> rcases imag with e2 | imag <;>
    simp only [complexLogHandler, getComplex, HandlerCall.firstError, firstOfTwo, firstOfOne,
      specFailureCondition, HandlerCall.resultCheckFails, onOk, returnText, returnError] <;>
    simp_all [OperationResult.isFailure]

/-- What `complexSqrtHandler` returns, for every outcome of its parameter extractions. -/
theorem complexSqrtHandler_outcome {F : Type} (env : FloatEnv F) (lib : MathLib F)
    (real imag : Except String F) :
    ∃ res : OperationResult,
      Returns (fun k => runHandler env lib k (HandlerCall.complexSqrt real imag))
        { result := some res, err := none } ∧
      (∀ e, (HandlerCall.complexSqrt real imag).firstError = some e →
        res = OperationResult.failure e) ∧
      ((HandlerCall.complexSqrt real imag).firstError = none →
        (res.isFailure = true ↔
          specFailureCondition env (HandlerCall.complexSqrt real imag) = true ∨
          (HandlerCall.complexSqrt real imag).resultCheckFails lib = true)) := by
  refine pure_outcome (fun _ => rfl) ?_
  rcases real with e | real <;> rcases imag with e2 | imag <;>
    simp only [complexSqrtHandler, getComplex, HandlerCall.firstError, firstOfTwo, firstOfOne,
      specFailureCondition, HandlerCall.resultCheckFails, onOk, returnText, returnError] <;>
    simp_all [OperationResult.isFailure]

/-- What `complexPowHandler` returns, for every outcome of its parameter extractions. -/
theorem complexPowHandler_outcome {F : Type} (env : FloatEnv F) (lib : MathLib F)
    (x_real x_imag y_real y_imag : Except String F) :
    ∃ res : OperationResult,
      Returns (fun k => runHandler env lib k (HandlerCall.complexPow x_real x_imag y_real y_imag))
        { result := some res, err := none } ∧
      (∀ e, (HandlerCall.complexPow x_real x_imag y_real y_imag).firstError = some e →
        res = OperationResult.failure e) ∧
      ((HandlerCall.complexPow x_real x_imag y_real y_imag).firstError = none →
        (res.isFailure = true ↔
          specFailureCondition env (HandlerCall.complexPow x_real x_imag y_real y_imag) = true ∨
          (HandlerCall.complexPow x_real x_imag y_real y_imag).resultCheckFails lib = true)) := by
  refine pure_outcome (fun _ => rfl) ?_
  rcases x_real with e | x_real <;> rcases x_imag with e2 | x_imag <;>
    rcases y_real with e3 | y_real <;> rcases y_imag with e4 | y_imag <;>
    simp only [complexPowHandler, getComplex, HandlerCall.firstError, firstOfFour, firstOfThree,
      firstOfTwo, firstOfOne, specFailureCondition, HandlerCall.resultCheckFails, onOk,
      returnText, returnError] <;>
    simp_all [OperationResult.isFailure]

/-- What `complexSinHandler` returns, for every outcome of its parameter extractions. -/
theorem complexSinHandler_outcome {F : Type} (env : FloatEnv F) (lib : MathLib F)
    (real imag : Except String F) :
    ∃ res : OperationResult,
      Returns (fun k => runHandler env lib k (HandlerCall.complexSin real imag))
        { result := some res, err := none } ∧
      (∀ e, (HandlerCall.complexSin real imag).firstError = some e →
        res = OperationResult.failure e) ∧
      ((HandlerCall.complexSin real imag).firstError = none →
        (res.isFailure = true ↔
          specFailureCondition env (HandlerCall.complexSin real imag) = true ∨
          (HandlerCall.complexSin real imag).resultCheckFails lib = true)) := by
  refine pure_outcome (fun _ => rfl) ?_
  rcases real with e | real <;> rcases imag with e2 | imag <;>
    simp only [complexSinHandler, getComplex, HandlerCall.firstError, firstOfTwo, firstOfOne,
      specFailureCondition, HandlerCall.resultCheckFails, onOk, returnText, returnError] <;>
    simp_all [OperationResult.isFailure]

/-- What `complexCosHandler` returns, for every outcome of its parameter extractions. -/
theorem complexCosHandler_outcome {F : Type} (env : FloatEnv F) (lib : MathLib F)
    (real imag : Except String F) :
    ∃ res : OperationResult,
      Returns (fun k => runHandler env lib k (HandlerCall.complexCos real imag))
        { result := some res, err := none } ∧
      (∀ e, (HandlerCall.complexCos real imag).firstError = some e →
        res = OperationResult.failure e) ∧
      ((HandlerCall.complexCos real imag).firstError = none →
        (res.isFailure = true ↔
          specFailureCondition env (HandlerCall.complexCos real imag) = true ∨
          (HandlerCall.complexCos real imag).resultCheckFails lib = true)) := by
  refine pure_outcome (fun _ => rfl) ?_
  rcases real with e | real <;> rcases imag with e2 | imag <;>
    simp only [complexCosHandler, getComplex, HandlerCall.firstError, firstOfTwo, firstOfOne,
      specFailureCondition, HandlerCall.resultCheckFails, onOk, returnText, returnError] <;>
    simp_all [OperationResult.isFailure]

/-- What `complexTanHandler` returns, for every outcome of its parameter extractions. -/
theorem complexTanHandler_outcome {F : Type} (env : FloatEnv F) (lib : MathLib F)
    (real imag : Except String F) :
    ∃ res : OperationResult,
      Returns (fun k => runHandler env lib k (HandlerCall.complexTan real imag))
        { result := some res, err := none } ∧
      (∀ e, (HandlerCall.complexTan real imag).firstError = some e →
        res = OperationResult.failure e) ∧
      ((HandlerCall.complexTan real imag).firstError = none →
        (res.isFailure = true ↔
          specFailureCondition env (HandlerCall.complexTan real imag) = true ∨
          (HandlerCall.complexTan real imag).resultCheckFails lib = true)) := by
  refine pure_outcome (fun _ => rfl) ?_
  rcases real with e | real <;> rcases imag with e2 | imag <;>
    simp only [complexTanHandler, getComplex, HandlerCall.firstError, firstOfTwo, firstOfOne,
      specFailureCondition, HandlerCall.resultCheckFails, onOk, returnText, returnError] <;>
    simp_all [OperationResult.isFailure]

/-- What `complexPolarHandler` returns, for every outcome of its parameter extractions. -/
theorem complexPolarHandler_outcome {F : Type} (env : FloatEnv F) (lib : MathLib F)
    (real imag : Except String F) :
    ∃ res : OperationResult,
      Returns (fun k => runHandler env lib k (HandlerCall.complexPolar real imag))
        { result := some res, err := none } ∧
      (∀ e, (HandlerCall.complexPolar real imag).firstError = some e →
        res = OperationResult.failure e) ∧
      ((HandlerCall.complexPolar real imag).firstError = none →
        (res.isFailure = true ↔
          specFailureCondition env (HandlerCall.complexPolar real imag) = true ∨
          (HandlerCall.complexPolar real imag).resultCheckFails lib = true)) := by
  refine pure_outcome (fun _ => rfl) ?_
  rcases real with e | real <;> rcases imag with e2 | imag <;>
    simp only [complexPolarHandler, getComplex, HandlerCall.firstError, firstOfTwo, firstOfOne,
      specFailureCondition, HandlerCall.resultCheckFails, onOk, returnText, returnError] <;>
    simp_all [OperationResult.isFailure]

/-- What `complexRectHandler` returns, for every outcome of its parameter extractions. -/
theorem complexRectHandler_outcome {F : Type} (env : FloatEnv F) (lib : MathLib F)
    (r theta : Except String F) :
    ∃ res : OperationResult,
      Returns (fun k => runHandler env lib k (HandlerCall.complexRect r theta))
        { result := some res, err := none } ∧
      (∀ e, (HandlerCall.complexRect r theta).firstError = some e →
        res = OperationResult.failure e) ∧
      ((HandlerCall.complexRect r theta).firstError = none →
        (res.isFailure = true ↔
          specFailureCondition env (HandlerCall.complexRect r theta) = true ∨
          (HandlerCall.complexRect r theta).resultCheckFails lib = true)) := by
  refine pure_outcome (fun _ => rfl) ?_
  rcases r with e | r <;> rcases theta with e2 | theta <;>
    simp only [complexRectHandler, HandlerCall.firstError, firstOfTwo, firstOfOne,
      specFailureCondition, HandlerCall.resultCheckFails, onOk, returnText, returnError] <;>
    simp_all [OperationResult.isFailure]

/-- What `medianHandler` returns, for every outcome of its parameter extraction: its index
expressions stay in range. -/
theorem medianHandler_outcome {F : Type} (env : FloatEnv F) (lib : MathLib F)
    (numbers : Except String (List F)) :
    ∃ res : OperationResult,
      Returns (fun k => runHandler env lib k (HandlerCall.median numbers))
        { result := some res, err := none } ∧
      (∀ e, (HandlerCall.median numbers).firstError = some e →
        res = OperationResult.failure e) ∧
      ((HandlerCall.median numbers).firstError = none →
        (res.isFailure = true ↔
          specFailureCondition env (HandlerCall.median numbers) = true ∨
          (HandlerCall.median numbers).resultCheckFails lib = true)) := by
  rcases numbers with e | numbers
  · exact ⟨_, ⟨0, fun _ _ => rfl⟩, by simp [HandlerCall.firstError, firstOfOne, firstOfTwo], by simp [HandlerCall.firstError, firstOfOne, firstOfTwo]⟩
  · by_cases hl : numbers.length = 0
    · have hnil : numbers = [] := List.length_eq_zero.mp hl
      refine ⟨OperationResult.failure "array must not be empty", ⟨0, fun k _ => ?_⟩,
        by simp [HandlerCall.firstError, firstOfOne, firstOfTwo],
        by simp [HandlerCall.firstError, firstOfOne, firstOfTwo, specFailureCondition,
        HandlerCall.resultCheckFails, onOk, OperationResult.isFailure, hnil]⟩
      simp [runHandler, medianHandler, hl, returnError]
    · have hne : numbers ≠ [] := fun h => hl (by rw [h]; rfl)
      obtain ⟨m, hm⟩ := medianValue_isSome env _ (medianSort_ne_nil env numbers hne)
      refine ⟨OperationResult.success (env.format m), ⟨0, fun k _ => ?_⟩,
        by simp [HandlerCall.firstError, firstOfOne, firstOfTwo],
        by simp [HandlerCall.firstError, firstOfOne, firstOfTwo, specFailureCondition,
        HandlerCall.resultCheckFails, onOk, OperationResult.isFailure, hne]⟩
      simp [runHandler, medianHandler, hl, hm, returnText]

/-- What `rangeStatHandler` returns, for every outcome of its parameter extraction:
`numbers[0]` is read on a non-empty slice only. -/
theorem rangeStatHandler_outcome {F : Type} (env : FloatEnv F) (lib : MathLib F)
    (numbers : Except String (List F)) :
    ∃ res : OperationResult,
      Returns (fun k => runHandler env lib k (HandlerCall.rangeStat numbers))
        { result := some res, err := none } ∧
      (∀ e, (HandlerCall.rangeStat numbers).firstError = some e →
        res = OperationResult.failure e) ∧
      ((HandlerCall.rangeStat numbers).firstError = none →
        (res.isFailure = true ↔
          specFailureCondition env (HandlerCall.rangeStat numbers) = true ∨
          (HandlerCall.rangeStat numbers).resultCheckFails lib = true)) := by
  rcases numbers with e | numbers
  · exact ⟨_, ⟨0, fun _ _ => rfl⟩, by simp [HandlerCall.firstError, firstOfOne, firstOfTwo], by simp [HandlerCall.firstError, firstOfOne, firstOfTwo]⟩
  · cases numbers with
    | nil =>
      refine ⟨OperationResult.failure "array must not be empty", ⟨0, fun k _ => ?_⟩,
        by simp [HandlerCall.firstError, firstOfOne, firstOfTwo],
        by simp [HandlerCall.firstError, firstOfOne, firstOfTwo, specFailureCondition,
        HandlerCall.resultCheckFails, onOk, OperationResult.isFailure]⟩
      simp [runHandler, rangeStatHandler, returnError]
    | cons first rest =>
      refine ⟨OperationResult.success
          (env.format (env.sub (rangeLoop env rest first).2 (rangeLoop env rest first).1)),
        ⟨0, fun k _ => ?_⟩,
        by simp [HandlerCall.firstError, firstOfOne, firstOfTwo],
        by simp [HandlerCall.firstError, firstOfOne, firstOfTwo, specFailureCondition,
        HandlerCall.resultCheckFails, onOk, OperationResult.isFailure]⟩
      simp [runHandler, rangeStatHandler, returnText]

/-- What `gcdHandler` returns, for every outcome of its parameter extractions: the Euclidean
loop ends. -/
theorem gcdHandler_outcome {F : Type} (env : FloatEnv F) (lib : MathLib F)
    (a b : Except String Int) :
    ∃ res : OperationResult,
      Returns (fun k => runHandler env lib k (HandlerCall.gcd a b : HandlerCall F))
        { result := some res, err := none } ∧
      (∀ e, (HandlerCall.gcd a b : HandlerCall F).firstError = some e →
        res = OperationResult.failure e) ∧
      ((HandlerCall.gcd a b : HandlerCall F).firstError = none →
        (res.isFailure = true ↔
          specFailureCondition env (HandlerCall.gcd a b : HandlerCall F) = true ∨
          (HandlerCall.gcd a b : HandlerCall F).resultCheckFails lib = true)) := by
  rcases a with e | a
  · exact ⟨_, ⟨0, fun _ _ => rfl⟩, by simp [HandlerCall.firstError, firstOfOne, firstOfTwo], by simp [HandlerCall.firstError, firstOfOne, firstOfTwo]⟩
  rcases b with e | b
  · exact ⟨_, ⟨0, fun _ _ => rfl⟩, by simp [HandlerCall.firstError, firstOfOne, firstOfTwo], by simp [HandlerCall.firstError, firstOfOne, firstOfTwo]⟩
  · obtain ⟨g, k0, hk0⟩ := gcd_terminates (abs64 a) (abs64 b)
    refine ⟨OperationResult.success (formatInt g), ⟨k0, fun k hk => ?_⟩,
      by simp [HandlerCall.firstError, firstOfOne, firstOfTwo],
      by simp [HandlerCall.firstError, firstOfOne, firstOfTwo, specFailureCondition,
        HandlerCall.resultCheckFails, onOk, OperationResult.isFailure]⟩
    have hv : gcd k (abs64 a) (abs64 b) = some g := hk0 k hk
    simp [runHandler, gcdHandler, gcdHandlerResult, hv, returnText]

/-- What `lcmHandler` returns, for every outcome of its parameter extractions: the loop ends
and the divisor is not `0`. -/
theorem lcmHandler_outcome {F : Type} (env : FloatEnv F) (lib : MathLib F)
    (a b : Except String Int)
    (hint : ∀ v ∈ (HandlerCall.lcm a b : HandlerCall F).intArgs, IsInt64 v) :
    ∃ res : OperationResult,
      Returns (fun k => runHandler env lib k (HandlerCall.lcm a b : HandlerCall F))
        { result := some res, err := none } ∧
      (∀ e, (HandlerCall.lcm a b : HandlerCall F).firstError = some e →
        res = OperationResult.failure e) ∧
      ((HandlerCall.lcm a b : HandlerCall F).firstError = none →
        (res.isFailure = true ↔
          specFailureCondition env (HandlerCall.lcm a b : HandlerCall F) = true ∨
          (HandlerCall.lcm a b : HandlerCall F).resultCheckFails lib = true)) := by
  rcases a with e | a
  · exact ⟨_, ⟨0, fun _ _ => rfl⟩, by simp [HandlerCall.firstError, firstOfOne, firstOfTwo], by simp [HandlerCall.firstError, firstOfOne, firstOfTwo]⟩
  rcases b with e | b
  · exact ⟨_, ⟨0, fun _ _ => rfl⟩, by simp [HandlerCall.firstError, firstOfOne, firstOfTwo], by simp [HandlerCall.firstError, firstOfOne, firstOfTwo]⟩
  · by_cases h0 : a = 0 ∨ b = 0
    · refine ⟨OperationResult.success (formatInt 0), ⟨0, fun k _ => ?_⟩,
        by simp [HandlerCall.firstError, firstOfOne, firstOfTwo],
        by simp [HandlerCall.firstError, firstOfOne, firstOfTwo, specFailureCondition,
        HandlerCall.resultCheckFails, onOk, OperationResult.isFailure]⟩
      simp [runHandler, lcmHandler, lcmHandlerResult, h0, returnText]
    · have ha : a ≠ 0 := fun h => h0 (Or.inl h)
      have hia : IsInt64 a := hint a (by simp [HandlerCall.intArgs, intOf])
      obtain ⟨g, hg⟩ := gcd_terminates (abs64 a) (abs64 b)
      have hg0 : g ≠ 0 := gcd_returns_ne_zero (abs64_ne_zero hia ha) hg
      obtain ⟨k0, hk0⟩ := hg
      refine ⟨OperationResult.success
          (formatInt (wrap64 (wrap64 (Int.tdiv (abs64 a) g) * abs64 b))),
        ⟨k0, fun k hk => ?_⟩,
        by simp [HandlerCall.firstError, firstOfOne, firstOfTwo],
        by simp [HandlerCall.firstError, firstOfOne, firstOfTwo, specFailureCondition,
        HandlerCall.resultCheckFails, onOk, OperationResult.isFailure]⟩
      have hv : gcd k (abs64 a) (abs64 b) = some g := hk0 k hk
      simp [runHandler, lcmHandler, lcmHandlerResult, h0, hv, goDiv, hg0, returnText]

/-- What `factorialHandler` returns, for every outcome of its parameter extraction. -/
theorem factorialHandler_outcome {F : Type} (env : FloatEnv F) (lib : MathLib F)
    (n : Except String Int) :
    ∃ res : OperationResult,
      Returns (fun k => runHandler env lib k (HandlerCall.factorial n : HandlerCall F))
        { result := some res, err := none } ∧
      (∀ e, (HandlerCall.factorial n : HandlerCall F).firstError = some e →
        res = OperationResult.failure e) ∧
      ((HandlerCall.factorial n : HandlerCall F).firstError = none →
        (res.isFailure = true ↔
          specFailureCondition env (HandlerCall.factorial n : HandlerCall F) = true ∨
          (HandlerCall.factorial n : HandlerCall F).resultCheckFails lib = true)) := by
  rcases n with e | n
  · exact ⟨_, ⟨0, fun _ _ => rfl⟩, by simp [HandlerCall.firstError, firstOfOne, firstOfTwo], by simp [HandlerCall.firstError, firstOfOne, firstOfTwo]⟩
  · by_cases hneg : n < 0
    · refine ⟨OperationResult.failure "factorial undefined for negative numbers",
        ⟨0, fun k _ => ?_⟩,
        by simp [HandlerCall.firstError, firstOfOne, firstOfTwo],
        by simp [HandlerCall.firstError, firstOfOne, firstOfTwo, specFailureCondition,
        HandlerCall.resultCheckFails, onOk, OperationResult.isFailure, hneg]⟩
      simp [runHandler, factorialHandler, hneg, returnError]
    · by_cases hbig : n > 170
      · refine ⟨OperationResult.failure "factorial too large (max n=170 for float64)",
          ⟨0, fun k _ => ?_⟩,
          by simp [HandlerCall.firstError, firstOfOne, firstOfTwo],
          by simp [HandlerCall.firstError, firstOfOne, firstOfTwo, specFailureCondition,
        HandlerCall.resultCheckFails, onOk, OperationResult.isFailure, hbig]⟩
        simp [runHandler, factorialHandler, hneg, hbig, returnError]
      · obtain ⟨k0, hk0⟩ := factorial_returns n (by omega) (by omega)
        refine ⟨OperationResult.success (formatInt ((n.toNat.factorial : Nat) : Int)),
          ⟨k0, fun k hk => ?_⟩,
          by simp [HandlerCall.firstError, firstOfOne, firstOfTwo],
          by simp [HandlerCall.firstError, firstOfOne, firstOfTwo, specFailureCondition,
        HandlerCall.resultCheckFails, onOk, OperationResult.isFailure, hneg, hbig]⟩
        have hv : factorial k n = some ((n.toNat.factorial : Nat) : Int) := hk0 k hk
        simp [runHandler, factorialHandler, hneg, hbig, hv, returnText]

/-- What `fibonacciHandler` returns, for every outcome of its parameter extraction. -/
theorem fibonacciHandler_outcome {F : Type} (env : FloatEnv F) (lib : MathLib F)
    (n : Except String Int) :
    ∃ res : OperationResult,
      Returns (fun k => runHandler env lib k (HandlerCall.fibonacci n : HandlerCall F))
        { result := some res, err := none } ∧
      (∀ e, (HandlerCall.fibonacci n : HandlerCall F).firstError = some e →
        res = OperationResult.failure e) ∧
      ((HandlerCall.fibonacci n : HandlerCall F).firstError = none →
        (res.isFailure = true ↔
          specFailureCondition env (HandlerCall.fibonacci n : HandlerCall F) = true ∨
          (HandlerCall.fibonacci n : HandlerCall F).resultCheckFails lib = true)) := by
  rcases n with e | n
  · exact ⟨_, ⟨0, fun _ _ => rfl⟩, by simp [HandlerCall.firstError, firstOfOne, firstOfTwo], by simp [HandlerCall.firstError, firstOfOne, firstOfTwo]⟩
  · by_cases hneg : n < 0
    · refine ⟨OperationResult.failure "fibonacci undefined for negative indices",
        ⟨0, fun k _ => ?_⟩,
        by simp [HandlerCall.firstError, firstOfOne, firstOfTwo],
        by simp [HandlerCall.firstError, firstOfOne, firstOfTwo, specFailureCondition,
        HandlerCall.resultCheckFails, onOk, OperationResult.isFailure, hneg]⟩
      simp [runHandler, fibonacciHandler, hneg, returnError]
    · by_cases hbig : n > 1000
      · refine ⟨OperationResult.failure "fibonacci index too large (max n=1000)",
          ⟨0, fun k _ => ?_⟩,
          by simp [HandlerCall.firstError, firstOfOne, firstOfTwo],
          by simp [HandlerCall.firstError, firstOfOne, firstOfTwo, specFailureCondition,
        HandlerCall.resultCheckFails, onOk, OperationResult.isFailure, hbig]⟩
        simp [runHandler, fibonacciHandler, hneg, hbig, returnError]
      · obtain ⟨k0, hk0⟩ := fibonacci_returns n (by omega) (by omega)
        refine ⟨OperationResult.success (formatInt ((Nat.fib n.toNat : Nat) : Int)),
          ⟨k0, fun k hk => ?_⟩,
          by simp [HandlerCall.firstError, firstOfOne, firstOfTwo],
          by simp [HandlerCall.firstError, firstOfOne, firstOfTwo, specFailureCondition,
        HandlerCall.resultCheckFails, onOk, OperationResult.isFailure, hneg, hbig]⟩
        have hv : fibonacci k n = some ((Nat.fib n.toNat : Nat) : Int) := hk0 k hk
        simp [runHandler, fibonacciHandler, hneg, hbig, hv, returnText]

/-- What `isPrimeHandler` returns, for every outcome of its parameter extraction and every
64-bit integer. -/
theorem isPrimeHandler_outcome {F : Type} (env : FloatEnv F) (lib : MathLib F)
    (n : Except String Int)
    (hint : ∀ v ∈ (HandlerCall.isPrime n : HandlerCall F).intArgs, IsInt64 v) :
    ∃ res : OperationResult,
      Returns (fun k => runHandler env lib k (HandlerCall.isPrime n : HandlerCall F))
        { result := some res, err := none } ∧
      (∀ e, (HandlerCall.isPrime n : HandlerCall F).firstError = some e →
        res = OperationResult.failure e) ∧
      ((HandlerCall.isPrime n : HandlerCall F).firstError = none →
        (res.isFailure = true ↔
          specFailureCondition env (HandlerCall.isPrime n : HandlerCall F) = true ∨
          (HandlerCall.isPrime n : HandlerCall F).resultCheckFails lib = true)) := by
  rcases n with e | n
  · exact ⟨_, ⟨0, fun _ _ => rfl⟩, by simp [HandlerCall.firstError, firstOfOne, firstOfTwo], by simp [HandlerCall.firstError, firstOfOne, firstOfTwo]⟩
  · have hn : IsInt64 n := hint n (by simp [HandlerCall.intArgs, intOf])
    obtain ⟨b, ⟨k0, hk0⟩, _⟩ := isPrime_returns n hn.2
    refine ⟨OperationResult.success (toString b), ⟨k0, fun k hk => ?_⟩,
      by simp [HandlerCall.firstError, firstOfOne, firstOfTwo],
      by simp [HandlerCall.firstError, firstOfOne, firstOfTwo, specFailureCondition,
        HandlerCall.resultCheckFails, onOk, OperationResult.isFailure]⟩
    have hv : isPrime k n = some b := hk0 k hk
    simp [runHandler, isPrimeHandler, hv, returnText]

/-- What `primeFactorsHandler` returns, for every outcome of its parameter extraction and
every 64-bit integer. -/
theorem primeFactorsHandler_outcome {F : Type} (env : FloatEnv F) (lib : MathLib F)
    (n : Except String Int)
    (hint : ∀ v ∈ (HandlerCall.primeFactors n : HandlerCall F).intArgs, IsInt64 v) :
    ∃ res : OperationResult,
      Returns (fun k => runHandler env lib k (HandlerCall.primeFactors n : HandlerCall F))
        { result := some res, err := none } ∧
      (∀ e, (HandlerCall.primeFactors n : HandlerCall F).firstError = some e →
        res = OperationResult.failure e) ∧
      ((HandlerCall.primeFactors n : HandlerCall F).firstError = none →
        (res.isFailure = true ↔
          specFailureCondition env (HandlerCall.primeFactors n : HandlerCall F) = true ∨
          (HandlerCall.primeFactors n : HandlerCall F).resultCheckFails lib = true)) := by
  rcases n with e | n
  · exact ⟨_, ⟨0, fun _ _ => rfl⟩, by simp [HandlerCall.firstError, firstOfOne, firstOfTwo], by simp [HandlerCall.firstError, firstOfOne, firstOfTwo]⟩
  · have hn : IsInt64 n := hint n (by simp [HandlerCall.intArgs, intOf])
    by_cases hle : n ≤ 0
    · refine ⟨OperationResult.failure "prime factorization requires a positive integer",
        ⟨0, fun k _ => ?_⟩,
        by simp [HandlerCall.firstError, firstOfOne, firstOfTwo],
        by simp [HandlerCall.firstError, firstOfOne, firstOfTwo, specFailureCondition,
        HandlerCall.resultCheckFails, onOk, OperationResult.isFailure, hle]⟩
      simp [runHandler, primeFactorsHandler, hle, returnError]
    · obtain ⟨fs, ⟨k0, hk0⟩, _⟩ := primeFactors_returns n (by omega) hn.2
      refine ⟨OperationResult.success (String.intercalate " × " (fs.map formatInt)),
        ⟨k0, fun k hk => ?_⟩,
        by simp [HandlerCall.firstError, firstOfOne, firstOfTwo],
        by simp [HandlerCall.firstError, firstOfOne, firstOfTwo, specFailureCondition,
        HandlerCall.resultCheckFails, onOk, OperationResult.isFailure, hle]⟩
      have hv : primeFactors k n = some fs := hk0 k hk
      simp [runHandler, primeFactorsHandler, hle, hv, returnText]

/-- Every handler that `NewRegistry` registers is the handler of a call. -/
theorem registered_handler_embedded (F : Type) :
    ∀ td ∈ NewRegistry.tools, ∃ c : HandlerCall F, c.handlerName = td.handler := by
  have h : NewRegistry.tools.map (fun td => td.handler)
      = ([
      HandlerCall.add (Except.error "") (Except.error ""),
      HandlerCall.subtract (Except.error "") (Except.error ""),
      HandlerCall.multiply (Except.error "") (Except.error ""),
      HandlerCall.divide (Except.error "") (Except.error ""),
      HandlerCall.mod (Except.error "") (Except.error ""),
      HandlerCall.remainder (Except.error "") (Except.error ""),
      HandlerCall.abs (Except.error ""),
      HandlerCall.pow (Except.error "") (Except.error ""),
      HandlerCall.pow10 (Except.error ""),
      HandlerCall.sqrt (Except.error ""),
      HandlerCall.cbrt (Except.error ""),
      HandlerCall.exp (Except.error ""),
      HandlerCall.exp2 (Except.error ""),
      HandlerCall.expm1 (Except.error ""),
      HandlerCall.hypot (Except.error "") (Except.error ""),
      HandlerCall.log (Except.error ""),
      HandlerCall.log10 (Except.error ""),
      HandlerCall.log2 (Except.error ""),
      HandlerCall.log1p (Except.error ""),
      HandlerCall.logb (Except.error ""),
      HandlerCall.sin (Except.error ""),
      HandlerCall.cos (Except.error ""),
      HandlerCall.tan (Except.error ""),
      HandlerCall.asin (Except.error ""),
      HandlerCall.acos (Except.error ""),
      HandlerCall.atan (Except.error ""),
      HandlerCall.atan2 (Except.error "") (Except.error ""),
      HandlerCall.sincos (Except.error ""),
      HandlerCall.sinh (Except.error ""),
      HandlerCall.cosh (Except.error ""),
      HandlerCall.tanh (Except.error ""),
      HandlerCall.asinh (Except.error ""),
      HandlerCall.acosh (Except.error ""),
      HandlerCall.atanh (Except.error ""),
      HandlerCall.ceil (Except.error ""),
      HandlerCall.floor (Except.error ""),
      HandlerCall.round (Except.error ""),
      HandlerCall.roundToEven (Except.error ""),
      HandlerCall.trunc (Except.error ""),
      HandlerCall.max (Except.error "") (Except.error ""),
      HandlerCall.min (Except.error "") (Except.error ""),
      HandlerCall.dim (Except.error "") (Except.error ""),
      HandlerCall.copysign (Except.error "") (Except.error ""),
      HandlerCall.gamma (Except.error ""),
      HandlerCall.lgamma (Except.error ""),
      HandlerCall.erf (Except.error ""),
      HandlerCall.erfc (Except.error ""),
      HandlerCall.erfinv (Except.error ""),
      HandlerCall.erfcinv (Except.error ""),
      HandlerCall.j0 (Except.error ""),
      HandlerCall.j1 (Except.error ""),
      HandlerCall.y0 (Except.error ""),
      HandlerCall.y1 (Except.error ""),
      HandlerCall.frexp (Except.error ""),
      HandlerCall.ldexp (Except.error "") (Except.error ""),
      HandlerCall.modf (Except.error ""),
      HandlerCall.ilogb (Except.error ""),
      HandlerCall.nextafter (Except.error "") (Except.error ""),
      HandlerCall.fma (Except.error "") (Except.error "") (Except.error ""),
      HandlerCall.signbit (Except.error ""),
      HandlerCall.isNaN (Except.error ""),
      HandlerCall.isInf (Except.error "") 0,
      HandlerCall.degreesToRadians (Except.error ""),
      HandlerCall.radiansToDegrees (Except.error ""),
      HandlerCall.gcd (Except.error "") (Except.error ""),
      HandlerCall.lcm (Except.error "") (Except.error ""),
      HandlerCall.factorial (Except.error ""),
      HandlerCall.fibonacci (Except.error ""),
      HandlerCall.isPrime (Except.error ""),
      HandlerCall.primeFactors (Except.error ""),
      HandlerCall.sum (Except.error ""),
      HandlerCall.product (Except.error ""),
      HandlerCall.mean (Except.error ""),
      HandlerCall.median (Except.error ""),
      HandlerCall.mode (Except.error ""),
      HandlerCall.variance (Except.error ""),
      HandlerCall.stdDev (Except.error ""),
      HandlerCall.rangeStat (Except.error ""),
      HandlerCall.bitAnd (Except.error "") (Except.error ""),
      HandlerCall.bitOr (Except.error "") (Except.error ""),
      HandlerCall.bitXor (Except.error "") (Except.error ""),
      HandlerCall.bitNot (Except.error ""),
      HandlerCall.bitLeftShift (Except.error "") (Except.error ""),
      HandlerCall.bitRightShift (Except.error "") (Except.error ""),
      HandlerCall.complexAbs (Except.error "") (Except.error ""),
      HandlerCall.complexPhase (Except.error "") (Except.error ""),
      HandlerCall.complexConj (Except.error "") (Except.error ""),
      HandlerCall.complexExp (Except.error "") (Except.error ""),
      HandlerCall.complexLog (Except.error "") (Except.error ""),
      HandlerCall.complexSqrt (Except.error "") (Except.error ""),
      HandlerCall.complexPow (Except.error "") (Except.error "") (Except.error "") (Except.error ""),
      HandlerCall.complexSin (Except.error "") (Except.error ""),
      HandlerCall.complexCos (Except.error "") (Except.error ""),
      HandlerCall.complexTan (Except.error "") (Except.error ""),
      HandlerCall.complexPolar (Except.error "") (Except.error ""),
      HandlerCall.complexRect (Except.error "") (Except.error "")] : List (HandlerCall F)).map HandlerCall.handlerName := by
    rfl
  intro td htd
  have hm : td.handler ∈ NewRegistry.tools.map (fun td => td.handler) :=
    List.mem_map_of_mem _ htd
  rw [h] at hm
  obtain ⟨c, _, hc⟩ := List.mem_map.mp hm
  exact ⟨c, hc⟩

/-- C27: for every request, whatever the outcome of each parameter extraction (the
parameter present and well-formed, or missing or non-numeric) and whatever the values
extracted, each of the `96` registered handlers returns: the result is not `nil`, the Go
error is `nil`, there is no panic and no endless loop.  When an extraction fails the result
is the Failure carrying the text of the first extraction error; when all succeed the result
is a Failure if and only if the failure condition of the specification's guard table holds
(a domain violation) or the gamma function has no finite value. -/
theorem handlers_nil_error {F : Type} (env : FloatEnv F) (lib : MathLib F)
    (call : HandlerCall F) (hint : ∀ v ∈ call.intArgs, IsInt64 v) :
    (∃ r : OperationResult,
      Returns (fun k => runHandler env lib k call) { result := some r, err := none } ∧
      (∀ e, call.firstError = some e → r = OperationResult.failure e) ∧
      (call.firstError = none →
        (r.isFailure = true ↔ specFailureCondition env call = true ∨
          call.resultCheckFails lib = true))) ∧
    (∀ td ∈ NewRegistry.tools, ∃ c : HandlerCall F, c.handlerName = td.handler) := by
  refine ⟨?_, registered_handler_embedded F⟩
  cases call with
  | add a b => exact addHandler_outcome env lib a b
  | subtract a b => exact subtractHandler_outcome env lib a b
  | multiply a b => exact multiplyHandler_outcome env lib a b
  | divide a b => exact divideHandler_outcome env lib a b
  | mod x y => exact modHandler_outcome env lib x y
  | remainder x y => exact remainderHandler_outcome env lib x y
  | abs x => exact absHandler_outcome env lib x
  | pow x y => exact powHandler_outcome env lib x y
  | pow10 n => exact pow10Handler_outcome env lib n
  | sqrt x => exact sqrtHandler_outcome env lib x
  | cbrt x => exact cbrtHandler_outcome env lib x
  | exp x => exact expHandler_outcome env lib x
  | exp2 x => exact exp2Handler_outcome env lib x
  | expm1 x => exact expm1Handler_outcome env lib x
  | hypot x y => exact hypotHandler_outcome env lib x y
  | log x => exact logHandler_outcome env lib x
  | log10 x => exact log10Handler_outcome env lib x
  | log2 x => exact log2Handler_outcome env lib x
  | log1p x => exact log1pHandler_outcome env lib x
  | logb x => exact logbHandler_outcome env lib x
  | sin x => exact sinHandler_outcome env lib x
  | cos x => exact cosHandler_outcome env lib x
  | tan x => exact tanHandler_outcome env lib x
  | asin x => exact asinHandler_outcome env lib x
  | acos x => exact acosHandler_outcome env lib x
  | atan x => exact atanHandler_outcome env lib x
  | atan2 y x => exact atan2Handler_outcome env lib y x
  | sincos x => exact sincosHandler_outcome env lib x
  | sinh x => exact sinhHandler_outcome env lib x
  | cosh x => exact coshHandler_outcome env lib x
  | tanh x => exact tanhHandler_outcome env lib x
  | asinh x => exact asinhHandler_outcome env lib x
  | acosh x => exact acoshHandler_outcome env lib x
  | atanh x => exact atanhHandler_outcome env lib x
  | ceil x => exact ceilHandler_outcome env lib x
  | floor x => exact floorHandler_outcome env lib x
  | round x => exact roundHandler_outcome env lib x
  | roundToEven x => exact roundToEvenHandler_outcome env lib x
  | trunc x => exact truncHandler_outcome env lib x
  | max x y => exact maxHandler_outcome env lib x y
  | min x y => exact minHandler_outcome env lib x y
  | dim x y => exact dimHandler_outcome env lib x y
  | copysign x y => exact copysignHandler_outcome env lib x y
  | gamma x => exact gammaHandler_outcome env lib x
  | lgamma x => exact lgammaHandler_outcome env lib x
  | erf x => exact erfHandler_outcome env lib x
  | erfc x => exact erfcHandler_outcome env lib x
  | erfinv x => exact erfinvHandler_outcome env lib x
  | erfcinv x => exact erfcinvHandler_outcome env lib x
  | j0 x => exact j0Handler_outcome env lib x
  | j1 x => exact j1Handler_outcome env lib x
  | y0 x => exact y0Handler_outcome env lib x
  | y1 x => exact y1Handler_outcome env lib x
  | frexp x => exact frexpHandler_outcome env lib x
  | ldexp frac exp => exact ldexpHandler_outcome env lib frac exp
  | modf x => exact modfHandler_outcome env lib x
  | ilogb x => exact ilogbHandler_outcome env lib x
  | nextafter x y => exact nextafterHandler_outcome env lib x y
  | fma x y z => exact fmaHandler_outcome env lib x y z
  | signbit x => exact signbitHandler_outcome env lib x
  | isNaN x => exact isNaNHandler_outcome env lib x
  | isInf x sign => exact isInfHandler_outcome env lib x sign
  | degreesToRadians degrees => exact degreesToRadiansHandler_outcome env lib degrees
  | radiansToDegrees radians => exact radiansToDegreesHandler_outcome env lib radians
  | gcd a b => exact gcdHandler_outcome env lib a b
  | lcm a b => exact lcmHandler_outcome env lib a b hint
  | factorial n => exact factorialHandler_outcome env lib n
  | fibonacci n => exact fibonacciHandler_outcome env lib n
  | isPrime n => exact isPrimeHandler_outcome env lib n hint
  | primeFactors n => exact primeFactorsHandler_outcome env lib n hint
  | sum numbers => exact sumHandler_outcome env lib numbers
  | product numbers => exact productHandler_outcome env lib numbers
  | mean numbers => exact meanHandler_outcome env lib numbers
  | median numbers => exact medianHandler_outcome env lib numbers
  | mode numbers => exact modeHandler_outcome env lib numbers
  | variance numbers => exact varianceHandler_outcome env lib numbers
  | stdDev numbers => exact stdDevHandler_outcome env lib numbers
  | rangeStat numbers => exact rangeStatHandler_outcome env lib numbers
  | bitAnd a b => exact bitAndHandler_outcome env lib a b
  | bitOr a b => exact bitOrHandler_outcome env lib a b
  | bitXor a b => exact bitXorHandler_outcome env lib a b
  | bitNot a => exact bitNotHandler_outcome env lib a
  | bitLeftShift a n => exact bitLeftShiftHandler_outcome env lib a n
  | bitRightShift a n => exact bitRightShiftHandler_outcome env lib a n
  | complexAbs real imag => exact complexAbsHandler_outcome env lib real imag
  | complexPhase real imag => exact complexPhaseHandler_outcome env lib real imag
  | complexConj real imag => exact complexConjHandler_outcome env lib real imag
  | complexExp real imag => exact complexExpHandler_outcome env lib real imag
  | complexLog real imag => exact complexLogHandler_outcome env lib real imag
  | complexSqrt real imag => exact complexSqrtHandler_outcome env lib real imag
  | complexPow x_real x_imag y_real y_imag => exact complexPowHandler_outcome env lib x_real x_imag y_real y_imag
  | complexSin real imag => exact complexSinHandler_outcome env lib real imag
  | complexCos real imag => exact complexCosHandler_outcome env lib real imag
  | complexTan real imag => exact complexTanHandler_outcome env lib real imag
  | complexPolar real imag => exact complexPolarHandler_outcome env lib real imag
  | complexRect r theta => exact complexRectHandler_outcome env lib r theta

/-- A call of `add` whose first extraction fails, the domain violations `sqrt(-1)`,
`prime_factors(0)` and `log(0)`, and a call of `sqrt` within the domain. -/
theorem handlers_nil_error_witness :
    (∃ r : OperationResult,
      Returns (fun k => runHandler exampleEnv exampleLib k
        (HandlerCall.add (Except.error "missing") (Except.ok 1)))
        { result := some r, err := none } ∧ r = OperationResult.failure "missing") ∧
    (∃ r : OperationResult,
      Returns (fun k => runHandler exampleEnv exampleLib k (HandlerCall.sqrt (Except.ok (-1))))
        { result := some r, err := none } ∧ r.isFailure = true) ∧
    (∃ r : OperationResult,
      Returns (fun k => runHandler exampleEnv exampleLib k
        (HandlerCall.primeFactors (Except.ok 0)))
        { result := some r, err := none } ∧ r.isFailure = true) ∧
    (∃ r : OperationResult,
      Returns (fun k => runHandler exampleEnv exampleLib k (HandlerCall.sqrt (Except.ok 4)))
        { result := some r, err := none } ∧ r.isFailure = false) ∧
    runHandler exampleEnv exampleLib 0 (HandlerCall.log (Except.ok 0))
      = some (returnError "logarithm undefined for non-positive numbers") ∧
    runHandler exampleEnv exampleLib 0 (HandlerCall.divide (Except.ok 1) (Except.ok 0))
      = some (returnError "division by zero") := by
  obtain ⟨⟨r, hr, he, _⟩, _⟩ := handlers_nil_error exampleEnv exampleLib
    (HandlerCall.add (Except.error "missing") (Except.ok 1)) (by simp [HandlerCall.intArgs])
  obtain ⟨⟨r2, hr2, _, hi2⟩, _⟩ := handlers_nil_error exampleEnv exampleLib
    (HandlerCall.sqrt (Except.ok (-1))) (by simp [HandlerCall.intArgs])
  obtain ⟨⟨r3, hr3, _, hi3⟩, _⟩ := handlers_nil_error exampleEnv exampleLib
    (HandlerCall.primeFactors (Except.ok 0)) (by simp [HandlerCall.intArgs, intOf, IsInt64])
  obtain ⟨⟨r4, hr4, _, hi4⟩, _⟩ := handlers_nil_error exampleEnv exampleLib
    (HandlerCall.sqrt (Except.ok 4)) (by simp [HandlerCall.intArgs])
  refine ⟨⟨r, hr, he "missing" rfl⟩, ⟨r2, hr2, (hi2 rfl).mpr (Or.inl (by decide))⟩,
    ⟨r3, hr3, (hi3 rfl).mpr (Or.inl (by decide))⟩, ⟨r4, hr4, ?_⟩, by decide, by decide⟩
  cases h : r4.isFailure with
  | false => rfl
  | true =>
    rcases (hi4 rfl).mp h with h1 | h1
    · exact absurd h1 (by decide)
    · exact absurd h1 (by decide)

end MathMcp
